import Mathlib

/-!
MicropolisNT: the power distribution scan and the tile connectivity fixer.

A shallow embedding of `src/power.c` (the power scan `DoPowerScan` and its
helpers) and of `src/tools.c`: the connectivity fixer `FixSingle`, the
footprint checks, the placement of zones and buildings and the bulldozer.

Conventions of the embedding.

* A map cell is the 16-bit pattern of the C `short`, held in a `Nat`.  The
  bitwise operators of C are the bitwise operators of `Nat`; `v & ~m` stored
  back into a `short` is `v &&& (0xFFFF ^^^ m)`.
* `Map[y][x]` is `Map y x`; coordinates are `Int` because the C code receives
  and compares signed coordinates.
* The header `simulation.h` is not part of the sources at hand.  The constants
  it supplies are the fields of `Consts`; what the code relies on about them
  is collected in `Consts.WF`, `Consts.TilesWF` and `Consts.ToolsWF`.
* The tools act on the pair of the map and the funds, `City`; an `int` stored
  into a map cell is cut to its low 16 bits by `toShort`.
* Counters that the code only ever resets to zero and increments are `Nat`.
-/

namespace Micropolis

/-! ## Constants -/

/-- Constants of `simulation.h` used by `power.c` and by `tools.c`. -/
structure Consts where
  WORLD_X : Nat
  WORLD_Y : Nat
  LOMASK : Nat
  ALLBITS : Nat
  POWERBIT : Nat
  CONDBIT : Nat
  ZONEBIT : Nat
  BURNBIT : Nat
  BULLBIT : Nat
  ANIMBIT : Nat
  POWERPLANT : Nat
  NUCLEAR : Nat
  ROADBASE : Nat
  ROADS : Nat
  LASTROAD : Nat
  RAILBASE : Nat
  LASTRAIL : Nat
  POWERBASE : Nat
  HPOWER : Nat
  RADTILE : Nat
  RESBASE : Nat
  COMBASE : Nat
  INDBASE : Nat
  PORTBASE : Nat
  LASTPORT : Nat
  POLICESTATION : Nat
  TILE_DIRT : Nat

/-- `#define PWRSTKSIZE 1000` (power.c). -/
def PWRSTKSIZE : Nat := 1000

/-- `#define LASTTILE 960` (tools.c). -/
def LASTTILE : Nat := 960

/-- `#define LASTPOWER 222` (tools.c). -/
def LASTPOWER : Nat := 222

/-- `#define LHPOWER 210` (tools.c). -/
def LHPOWER : Nat := 210

/-- `#define LVPOWER 211` (tools.c). -/
def LVPOWER : Nat := 211

/-- What the code relies on about the flag layout and the world size: the
type-code mask is a block of low bits, every flag lies in the 16-bit cell
above that block, the powered flag is a non-empty set of bits disjoint from
every other flag, the two plant codes differ, and the world is small enough
for every counter of the scan to stay inside its C type. -/
structure Consts.WF (c : Consts) : Prop where
  world_x_pos : 0 < c.WORLD_X
  world_y_pos : 0 < c.WORLD_Y
  world_small : c.WORLD_X * c.WORLD_Y < 32768
  lomask_low : ∃ k, k ≤ 15 ∧ c.LOMASK + 1 = 2 ^ k
  allbits_lt : c.ALLBITS < 65536
  allbits_lo : c.ALLBITS &&& c.LOMASK = 0
  power_lt : c.POWERBIT < 65536
  power_pos : 0 < c.POWERBIT
  power_lo : c.POWERBIT &&& c.LOMASK = 0
  power_cond : c.POWERBIT &&& c.CONDBIT = 0
  power_zone : c.POWERBIT &&& c.ZONEBIT = 0
  power_burn : c.POWERBIT &&& c.BURNBIT = 0
  power_bull : c.POWERBIT &&& c.BULLBIT = 0
  power_anim : c.POWERBIT &&& c.ANIMBIT = 0
  cond_lt : c.CONDBIT < 65536
  zone_lt : c.ZONEBIT < 65536
  burn_lt : c.BURNBIT < 65536
  bull_lt : c.BULLBIT < 65536
  anim_lt : c.ANIMBIT < 65536
  cond_lo : c.CONDBIT &&& c.LOMASK = 0
  burn_lo : c.BURNBIT &&& c.LOMASK = 0
  bull_lo : c.BULLBIT &&& c.LOMASK = 0
  plants_ne : c.POWERPLANT ≠ c.NUCLEAR

/-- What `FixSingle` relies on about the tile codes: the road block
`ROADS .. ROADS + 15` lies inside the road range, the three ranges follow one
another in the order road, power line, rail, without overlap, the wire table
starts below its two literal entries, and every table entry fits under the
type-code mask. -/
structure Consts.TilesWF (c : Consts) : Prop where
  roads_ge : c.ROADBASE ≤ c.ROADS
  roads_le : c.ROADS + 15 ≤ c.LASTROAD
  road_power : c.LASTROAD < c.POWERBASE
  power_le : c.POWERBASE ≤ LHPOWER
  power_rail : c.POWERBASE + 15 < c.RAILBASE
  lastpower_rail : LASTPOWER < c.RAILBASE
  rail_fits : c.RAILBASE + 15 ≤ c.LOMASK

/-- The values of the classic Micropolis headers, used for the concrete
instances below: a 120 x 100 world, ten type-code bits and six flag bits. -/
def classic : Consts where
  WORLD_X := 120
  WORLD_Y := 100
  LOMASK := 1023
  ALLBITS := 64512
  POWERBIT := 32768
  CONDBIT := 16384
  ZONEBIT := 1024
  BURNBIT := 8192
  BULLBIT := 4096
  ANIMBIT := 2048
  POWERPLANT := 750
  NUCLEAR := 816
  ROADBASE := 64
  ROADS := 66
  LASTROAD := 206
  RAILBASE := 224
  LASTRAIL := 238
  POWERBASE := 208
  HPOWER := 208
  RADTILE := 52
  RESBASE := 240
  COMBASE := 423
  INDBASE := 612
  PORTBASE := 693
  LASTPORT := 708
  POLICESTATION := 774
  TILE_DIRT := 0

/-- The classic constants on a world of another size. -/
def classicOn (w h : Nat) : Consts :=
  { classic with WORLD_X := w, WORLD_Y := h }

/-! ## The grid -/

/-- The array `short Map[WORLD_Y][WORLD_X]`, read as `Map y x`. -/
abbrev Grid := Int → Int → Nat

/-- The assignment `Map[y][x] = v`. -/
def setCell (m : Grid) (x y : Int) (v : Nat) : Grid :=
  fun y1 x1 => if y1 = y ∧ x1 = x then v else m y1 x1

/-- The value `v & ~m` stored back into a 16-bit cell. -/
def clearBits (v m : Nat) : Nat := v &&& (0xFFFF ^^^ m)

/-- Modelled from the spec: the bounds check `TestBounds(x, y)` of
`simulation.h`, which is not among the sources; the grid is the rectangle
`0 .. WORLD_X - 1` by `0 .. WORLD_Y - 1`. -/
def TestBounds (c : Consts) (x y : Int) : Bool :=
  decide (0 ≤ x ∧ x < c.WORLD_X ∧ 0 ≤ y ∧ y < c.WORLD_Y)

/-- The cells of the grid in the order of the loops
`for (y = 0; y < WORLD_Y; y++) for (x = 0; x < WORLD_X; x++)`. -/
def cells (c : Consts) : List (Int × Int) :=
  (List.range c.WORLD_Y).flatMap fun (y : Nat) =>
    (List.range c.WORLD_X).map fun (x : Nat) => ((x : Int), (y : Int))

/-- The nested loop over all cells, `body x y` being the loop body. -/
def forEachCell {σ : Type} (c : Consts) (body : Int → Int → σ → σ) (s : σ) : σ :=
  (List.range c.WORLD_Y).foldl
    (fun s (y : Nat) =>
      (List.range c.WORLD_X).foldl (fun s (x : Nat) => body (x : Int) (y : Int) s) s) s

/-! ## tools.c: the connectivity fixer -/

/-- The table `RoadTable` of tools.c. -/
def RoadTable (c : Consts) : List Nat :=
  [c.ROADS, c.ROADS + 1, c.ROADS + 2, c.ROADS + 3,
   c.ROADS + 4, c.ROADS + 5, c.ROADS + 6, c.ROADS + 7,
   c.ROADS + 8, c.ROADS + 9, c.ROADS + 10, c.ROADS + 11,
   c.ROADS + 12, c.ROADS + 13, c.ROADS + 14, c.ROADS + 15]

/-- The table `RailTable` of tools.c. -/
def RailTable (c : Consts) : List Nat :=
  [c.RAILBASE, c.RAILBASE + 1, c.RAILBASE + 2, c.RAILBASE + 3,
   c.RAILBASE + 4, c.RAILBASE + 5, c.RAILBASE + 6, c.RAILBASE + 7,
   c.RAILBASE + 8, c.RAILBASE + 9, c.RAILBASE + 10, c.RAILBASE + 11,
   c.RAILBASE + 12, c.RAILBASE + 13, c.RAILBASE + 14, c.RAILBASE + 15]

/-- The table `WireTable` of tools.c, with its two literal entries. -/
def WireTable (c : Consts) : List Nat :=
  [c.POWERBASE, c.POWERBASE + 1, c.POWERBASE + 2, c.POWERBASE + 3,
   c.POWERBASE + 4, c.POWERBASE + 5, c.POWERBASE + 6, c.POWERBASE + 7,
   c.POWERBASE + 8, c.POWERBASE + 9, c.POWERBASE + 10, c.POWERBASE + 11,
   210, 211, c.POWERBASE + 14, c.POWERBASE + 15]

/-- The test `mapValue >= ROADBASE && mapValue <= LASTROAD`. -/
def isRoad (c : Consts) (v : Nat) : Bool := decide (c.ROADBASE ≤ v ∧ v ≤ c.LASTROAD)

/-- The test `mapValue >= RAILBASE && mapValue <= LASTRAIL`. -/
def isRail (c : Consts) (v : Nat) : Bool := decide (c.RAILBASE ≤ v ∧ v ≤ c.LASTRAIL)

/-- The test `mapValue >= POWERBASE && mapValue <= LASTPOWER`. -/
def isWire (c : Consts) (v : Nat) : Bool := decide (c.POWERBASE ≤ v ∧ v ≤ LASTPOWER)

/-- The neighbour test of the road block of `FixSingle`, on the cell value. -/
def roadConn (c : Consts) (cell : Nat) : Bool :=
  isRoad c (cell &&& c.LOMASK) || isRail c (cell &&& c.LOMASK)

/-- The neighbour test of the rail block of `FixSingle`, on the cell value. -/
def railConn (c : Consts) (cell : Nat) : Bool :=
  isRail c (cell &&& c.LOMASK) || isRoad c (cell &&& c.LOMASK)

/-- The neighbour test of the wire block of `FixSingle`, on the cell value. -/
def wireConn (c : Consts) (cell : Nat) : Bool :=
  isWire c (cell &&& c.LOMASK) || decide (cell &&& c.CONDBIT ≠ 0)

/-- The four guarded neighbour checks that each block of `FixSingle` runs:
north sets bit 1, east bit 2, south bit 4, west bit 8; `conn` is the block's
own test on a neighbour's cell value. -/
def connectMask (c : Consts) (Map : Grid) (conn : Nat → Bool) (x y : Int) : Nat :=
  let m0 : Nat := 0
  let m1 := if y > 0 ∧ conn (Map (y - 1) x) then m0 ||| 1 else m0
  let m2 := if x < (c.WORLD_X : Int) - 1 ∧ conn (Map y (x + 1)) then m1 ||| 2 else m1
  let m3 := if y < (c.WORLD_Y : Int) - 1 ∧ conn (Map (y + 1) x) then m2 ||| 4 else m2
  let m4 := if x > 0 ∧ conn (Map y (x - 1)) then m3 ||| 8 else m3
  m4

/-- The function `FixSingle(x, y)` of tools.c, on the grid. -/
def FixSingle (c : Consts) (Map : Grid) (x y : Int) : Grid :=
  if ¬ TestBounds c x y then Map
  else
    let tile := Map y x &&& c.LOMASK
    if tile < 1 ∨ tile ≥ LASTTILE then Map
    else if c.ROADBASE ≤ tile ∧ tile ≤ c.LASTROAD then
      let bitIndex := connectMask c Map (roadConn c) x y
      let tile := (RoadTable c).getD (bitIndex &&& 15) 0
      setCell Map x y ((Map y x &&& c.ALLBITS) ||| tile ||| c.BULLBIT ||| c.BURNBIT)
    else if c.RAILBASE ≤ tile ∧ tile ≤ c.LASTRAIL then
      let bitIndex := connectMask c Map (railConn c) x y
      let tile := (RailTable c).getD (bitIndex &&& 15) 0
      setCell Map x y ((Map y x &&& c.ALLBITS) ||| tile ||| c.BULLBIT ||| c.BURNBIT)
    else if c.POWERBASE ≤ tile ∧ tile ≤ LASTPOWER then
      let bitIndex := connectMask c Map (wireConn c) x y
      let tile := (WireTable c).getD (bitIndex &&& 15) 0
      setCell Map x y
        ((Map y x &&& c.ALLBITS) ||| tile ||| c.BULLBIT ||| c.BURNBIT ||| c.CONDBIT)
    else Map

/-! ## power.c: the state -/

/-- The globals read and written by power.c. -/
structure Sim where
  Map : Grid
  PowerMap : Grid
  SMapX : Int
  SMapY : Int
  PowerStackNum : Nat
  PowerStackX : Nat → Int
  PowerStackY : Nat → Int
  MaxPower : Nat
  NumPower : Nat
  CoalPop : Nat
  NuclearPop : Nat
  PwrdZCnt : Nat
  UnpwrdZCnt : Nat

/-- The function `MoveMapSim(MDir)`: the new state and the returned flag. -/
def MoveMapSim (c : Consts) (MDir : Nat) (s : Sim) : Sim × Bool :=
  match MDir with
  | 0 =>
    if s.SMapY > 0 then ({ s with SMapY := s.SMapY - 1 }, true)
    else if s.SMapY < 0 then ({ s with SMapY := 0 }, false)
    else (s, false)
  | 1 =>
    if s.SMapX < (c.WORLD_X : Int) - 1 then ({ s with SMapX := s.SMapX + 1 }, true)
    else if s.SMapX > (c.WORLD_X : Int) - 1 then ({ s with SMapX := (c.WORLD_X : Int) - 1 }, false)
    else (s, false)
  | 2 =>
    if s.SMapY < (c.WORLD_Y : Int) - 1 then ({ s with SMapY := s.SMapY + 1 }, true)
    else if s.SMapY > (c.WORLD_Y : Int) - 1 then ({ s with SMapY := (c.WORLD_Y : Int) - 1 }, false)
    else (s, false)
  | 3 =>
    if s.SMapX > 0 then ({ s with SMapX := s.SMapX - 1 }, true)
    else if s.SMapX < 0 then ({ s with SMapX := 0 }, false)
    else (s, false)
  | 4 => (s, true)
  | _ => (s, false)

/-- The condition tested by `TestForCond` on the cell it has moved to. -/
def condTile (c : Consts) (cell : Nat) : Bool :=
  (decide (cell &&& c.CONDBIT ≠ 0) || decide (cell &&& c.ZONEBIT ≠ 0)) &&
    decide (cell &&& c.LOMASK ≠ c.NUCLEAR) && decide (cell &&& c.LOMASK ≠ c.POWERPLANT) &&
    !decide (cell &&& c.POWERBIT ≠ 0)

/-- The function `TestForCond(TFDir)`: the position is saved, moved, tested
and restored on both return paths. -/
def TestForCond (c : Consts) (TFDir : Nat) (s : Sim) : Sim × Bool :=
  let xsave := s.SMapX
  let ysave := s.SMapY
  let r := MoveMapSim c TFDir s
  if r.2 then
    let s1 := r.1
    if condTile c (s1.Map s1.SMapY s1.SMapX) then
      ({ s1 with SMapX := xsave, SMapY := ysave }, true)
    else ({ s1 with SMapX := xsave, SMapY := ysave }, false)
  else ({ r.1 with SMapX := xsave, SMapY := ysave }, false)

/-- The function `PushPowerStack()`. -/
def PushPowerStack (s : Sim) : Sim :=
  if s.PowerStackNum < PWRSTKSIZE - 2 then
    { s with
      PowerStackNum := s.PowerStackNum + 1
      PowerStackX := Function.update s.PowerStackX (s.PowerStackNum + 1) s.SMapX
      PowerStackY := Function.update s.PowerStackY (s.PowerStackNum + 1) s.SMapY }
  else s

/-- The function `PullPowerStack()`. -/
def PullPowerStack (s : Sim) : Sim :=
  if s.PowerStackNum > 0 then
    { s with
      SMapX := s.PowerStackX s.PowerStackNum
      SMapY := s.PowerStackY s.PowerStackNum
      PowerStackNum := s.PowerStackNum - 1 }
  else s

/-- The function `QueuePowerPlant(x, y)`. -/
def QueuePowerPlant (x y : Int) (s : Sim) : Sim :=
  if s.PowerStackNum < PWRSTKSIZE - 2 then
    { s with
      PowerStackNum := s.PowerStackNum + 1
      PowerStackX := Function.update s.PowerStackX (s.PowerStackNum + 1) x
      PowerStackY := Function.update s.PowerStackY (s.PowerStackNum + 1) y }
  else s

/-- The loop body of `CountPowerPlants`. -/
def countBody (c : Consts) (x y : Int) (s : Sim) : Sim :=
  let tile := s.Map y x &&& c.LOMASK
  if s.Map y x &&& c.ZONEBIT ≠ 0 then
    if tile = c.POWERPLANT then { s with CoalPop := s.CoalPop + 1 }
    else if tile = c.NUCLEAR then { s with NuclearPop := s.NuclearPop + 1 }
    else s
  else s

/-- The function `CountPowerPlants()`. -/
def CountPowerPlants (c : Consts) (s : Sim) : Sim :=
  forEachCell c (countBody c) { s with CoalPop := 0, NuclearPop := 0 }

/-- The loop body of `FindPowerPlants`. -/
def findBody (c : Consts) (x y : Int) (s : Sim) : Sim :=
  let tile := s.Map y x &&& c.LOMASK
  if s.Map y x &&& c.ZONEBIT ≠ 0 then
    if tile = c.POWERPLANT ∨ tile = c.NUCLEAR then QueuePowerPlant x y s else s
  else s

/-- The function `FindPowerPlants()`. -/
def FindPowerPlants (c : Consts) (s : Sim) : Sim :=
  forEachCell c (findBody c) { s with PowerStackNum := 0 }

/-- The body of the clearing loop of `DoPowerScan` (lines 200-205). -/
def clearBody (c : Consts) (x y : Int) (s : Sim) : Sim :=
  { s with
    Map := setCell s.Map x y (clearBits (s.Map y x) c.POWERBIT)
    PowerMap := setCell s.PowerMap x y 0 }

/-- The body of the counting loop of the no-plant exit (lines 214-220). -/
def unpoweredBody (c : Consts) (x y : Int) (s : Sim) : Sim :=
  if s.Map y x &&& c.ZONEBIT ≠ 0 then { s with UnpwrdZCnt := s.UnpwrdZCnt + 1 } else s

/-- The counting of the no-plant exit of `DoPowerScan` (lines 210-220). -/
def noPlantCounts (c : Consts) (s : Sim) : Sim :=
  forEachCell c (unpoweredBody c) { s with PwrdZCnt := 0, UnpwrdZCnt := 0 }

/-- The body of the counting loop of the two other exits (lines 243-253 and
288-298, the same text). -/
def zoneBody (c : Consts) (x y : Int) (s : Sim) : Sim :=
  if s.Map y x &&& c.ZONEBIT ≠ 0 then
    if s.Map y x &&& c.POWERBIT ≠ 0 then { s with PwrdZCnt := s.PwrdZCnt + 1 }
    else { s with UnpwrdZCnt := s.UnpwrdZCnt + 1 }
  else s

/-- The counting of the capacity exit and of the final exit of `DoPowerScan`
(lines 240-253 and 285-298). -/
def zoneCounts (c : Consts) (s : Sim) : Sim :=
  forEachCell c (zoneBody c) { s with PwrdZCnt := 0, UnpwrdZCnt := 0 }

/-- The probing loop `while ((Dir < 4) && (ConNum < 2))` of `DoPowerScan`,
returning the state, `ConNum` and `ADir`.  The first argument counts the
iterations left: the loop is entered with `Dir = 0` and runs at most four
times. -/
def probeLoop (c : Consts) : Nat → Nat → Nat → Nat → Sim → Sim × Nat × Nat
  | 0, _, ConNum, ADir, s => (s, ConNum, ADir)
  | fuel + 1, Dir, ConNum, ADir, s =>
    if Dir < 4 ∧ ConNum < 2 then
      let r := TestForCond c Dir s
      if r.2 then probeLoop c fuel (Dir + 1) (ConNum + 1) Dir r.1
      else probeLoop c fuel (Dir + 1) ConNum ADir r.1
    else (s, ConNum, ADir)

/-- The assignments `Map[SMapY][SMapX] |= POWERBIT; PowerMap[SMapY][SMapX] = 1`. -/
def powerCell (c : Consts) (s : Sim) : Sim :=
  { s with
    Map := setCell s.Map s.SMapX s.SMapY (s.Map s.SMapY s.SMapX ||| c.POWERBIT)
    PowerMap := setCell s.PowerMap s.SMapX s.SMapY 1 }

/-- Where control goes after one pass through the body of the walk. -/
inductive Outcome where
  | finished (s : Sim)
  | next (ADir : Nat) (s : Sim)

/-- One pass through the body of the `do ... while (ConNum)` loop of
`DoPowerScan`, entered with direction `ADir`, followed by the loop tests: the
walk goes on when `ConNum` is not zero, otherwise the outer `while` pulls the
next position, and when the stack is empty the final counting runs. -/
def walkStep (c : Consts) (ADir : Nat) (s : Sim) : Outcome :=
  let s1 := { s with NumPower := s.NumPower + 1 }
  if s1.NumPower > s1.MaxPower then Outcome.finished (zoneCounts c s1)
  else
    let s2 := (MoveMapSim c ADir s1).1
    let s3 := powerCell c s2
    let r := probeLoop c 4 0 0 ADir s3
    let ConNum := r.2.1
    let s5 := if ConNum > 1 then PushPowerStack r.1 else r.1
    if ConNum ≠ 0 then Outcome.next r.2.2 s5
    else if s5.PowerStackNum > 0 then Outcome.next 4 (PullPowerStack s5)
    else Outcome.finished (zoneCounts c s5)

/-- The two nested loops of `DoPowerScan` as iterated walk steps; the first
argument bounds the number of steps and `none` means it was used up. -/
def scanLoop (c : Consts) : Nat → Nat → Sim → Option Sim
  | 0, _, _ => none
  | fuel + 1, ADir, s =>
    match walkStep c ADir s with
    | Outcome.finished s1 => some s1
    | Outcome.next ADir1 s1 => scanLoop c fuel ADir1 s1

/-- The state of `DoPowerScan` when the clearing loop has run (lines 193-205). -/
def scanPrelude (c : Consts) (s : Sim) : Sim :=
  let s1 := CountPowerPlants c s
  let s2 := { s1 with MaxPower := s1.CoalPop * 700 + s1.NuclearPop * 2000, NumPower := 0 }
  forEachCell c (clearBody c) s2

/-- The function `DoPowerScan()`.  Each walk step raises `NumPower` and the
scan returns once it passes `MaxPower`, so `MaxPower + 1` steps are allowed. -/
def DoPowerScan (c : Consts) (s : Sim) : Option Sim :=
  let s3 := scanPrelude c s
  if s3.CoalPop = 0 ∧ s3.NuclearPop = 0 then some (noPlantCounts c s3)
  else
    let s4 := FindPowerPlants c s3
    if s4.PowerStackNum > 0 then scanLoop c (s4.MaxPower + 1) 4 (PullPowerStack s4)
    else some (zoneCounts c s4)

/-! ## Vocabulary of the statements -/

/-- The cell value carries the powered flag. -/
def powered (c : Consts) (v : Nat) : Prop := v &&& c.POWERBIT ≠ 0

/-- The cell value carries the zone flag. -/
def zoned (c : Consts) (v : Nat) : Prop := v &&& c.ZONEBIT ≠ 0

/-- The cell value carries the conductive flag. -/
def conductive (c : Consts) (v : Nat) : Prop := v &&& c.CONDBIT ≠ 0

/-- The type code of a cell value. -/
def typeCode (c : Consts) (v : Nat) : Nat := v &&& c.LOMASK

/-- The cell value is a coal plant: zone flag with type code `POWERPLANT`. -/
def isCoal (c : Consts) (v : Nat) : Prop := zoned c v ∧ typeCode c v = c.POWERPLANT

/-- The cell value is a nuclear plant: zone flag with type code `NUCLEAR`. -/
def isNuclear (c : Consts) (v : Nat) : Prop := zoned c v ∧ typeCode c v = c.NUCLEAR

instance (c : Consts) (v : Nat) : Decidable (powered c v) := by unfold powered; infer_instance
instance (c : Consts) (v : Nat) : Decidable (zoned c v) := by unfold zoned; infer_instance
instance (c : Consts) (v : Nat) : Decidable (conductive c v) := by unfold conductive; infer_instance
instance (c : Consts) (v : Nat) : Decidable (isCoal c v) := by unfold isCoal; infer_instance
instance (c : Consts) (v : Nat) : Decidable (isNuclear c v) := by unfold isNuclear; infer_instance

/-- The position `(x, y)` is a cell of the grid. -/
def inGrid (c : Consts) (x y : Int) : Prop :=
  0 ≤ x ∧ x < c.WORLD_X ∧ 0 ≤ y ∧ y < c.WORLD_Y

instance (c : Consts) (x y : Int) : Decidable (inGrid c x y) := by unfold inGrid; infer_instance

/-- The number of cells of the grid whose value satisfies `p`. -/
def countCells (c : Consts) (m : Grid) (p : Nat → Prop) [DecidablePred p] : Nat :=
  (cells c).countP fun q => decide (p (m q.2 q.1))

/-- The cell value is a plant of either kind. -/
def isPlant (c : Consts) (v : Nat) : Prop := isCoal c v ∨ isNuclear c v

instance (c : Consts) (v : Nat) : Decidable (isPlant c v) := by unfold isPlant; infer_instance

/-- The plant cells of a map, in the order of the loops. -/
def plantCells (c : Consts) (m : Grid) : List (Int × Int) :=
  (cells c).filter fun q => decide (isPlant c (m q.2 q.1))

/-- A stack array after the values of `l` were queued on an empty stack: slot
`i` holds the `i`-th value for `i` from 1 to the number queued, the queue
taking no more than `PWRSTKSIZE - 2` values; the other slots keep `old`. -/
def stackOf (old : Nat → Int) (l : List Int) : Nat → Int :=
  fun i => if 1 ≤ i ∧ i ≤ min l.length (PWRSTKSIZE - 2) then l.getD (i - 1) 0 else old i

/-- A test state: the given map, everything else zero. -/
def simOf (m : Grid) : Sim where
  Map := m
  PowerMap := fun _ _ => 0
  SMapX := 0
  SMapY := 0
  PowerStackNum := 0
  PowerStackX := fun _ => 0
  PowerStackY := fun _ => 0
  MaxPower := 0
  NumPower := 0
  CoalPop := 0
  NuclearPop := 0
  PwrdZCnt := 0
  UnpwrdZCnt := 0

/-- A grid for the instances: a road at (5,5) with a rail to its north and a
wire to its east, and a wire at (7,5); all other cells bare land. -/
def toolsGrid : Grid := fun y x =>
  if y = 5 ∧ x = 5 then 66
  else if y = 4 ∧ x = 5 then 224
  else if y = 5 ∧ x = 6 then 208 + 16384
  else if y = 5 ∧ x = 7 then 208 + 16384
  else 0

/-- A grid without a plant whose cells all carry a stale powered flag: a
residential zone centre at (0,0), wire everywhere else. -/
def staleGrid : Grid := fun y x =>
  if y = 0 ∧ x = 0 then 244 + 1024 + 32768 else 208 + 16384 + 32768

/-- The column of the neighbour in direction `d` (1 east, 3 west). -/
def dirX (d : Nat) (x : Int) : Int :=
  match d with
  | 1 => x + 1
  | 3 => x - 1
  | _ => x

/-- The row of the neighbour in direction `d` (0 north, 2 south). -/
def dirY (d : Nat) (y : Int) : Int :=
  match d with
  | 0 => y - 1
  | 2 => y + 1
  | _ => y

/-- The neighbour of `(x, y)` in direction `d` is a conductive candidate on
the map `m`: it is a cell of the grid and passes the test of `TestForCond`. -/
def candidate (c : Consts) (m : Grid) (x y : Int) (d : Nat) : Bool :=
  decide (inGrid c (dirX d x) (dirY d y)) && condTile c (m (dirY d y) (dirX d x))

/-- The probing loop on the four test results alone: `ConNum` and `ADir`. -/
def probePure (t : Nat → Bool) : Nat → Nat → Nat → Nat → Nat × Nat
  | 0, _, ConNum, ADir => (ConNum, ADir)
  | fuel + 1, Dir, ConNum, ADir =>
    if Dir < 4 ∧ ConNum < 2 then
      if t Dir then probePure t fuel (Dir + 1) (ConNum + 1) Dir
      else probePure t fuel (Dir + 1) ConNum ADir
    else (ConNum, ADir)

/-- The state of a walk step that is not cut off, when the cell has been
powered: the counter raised, the position moved, the two maps written. -/
def visit (c : Consts) (ADir : Nat) (s : Sim) : Sim :=
  powerCell c (MoveMapSim c ADir { s with NumPower := s.NumPower + 1 }).1

/-- The outcome `(ConNum, ADir)` of the probing loop run in state `v`. -/
def probeOf (c : Consts) (ADir : Nat) (v : Sim) : Nat × Nat :=
  probePure (fun d => (TestForCond c d v).2) 4 0 0 ADir

/-- The state of `DoPowerScan` at its first walk step: the plants queued and
the first position pulled. -/
def scanStart (c : Consts) (s : Sim) : Sim :=
  PullPowerStack (FindPowerPlants c (scanPrelude c s))

/-- The capacity computed by `DoPowerScan` on the map `m`. -/
def capacity (c : Consts) (m : Grid) : Nat :=
  countCells c m (isCoal c) * 700 + countCells c m (isNuclear c) * 2000

/-- The grid of the scenario of the spec on a 2 x 2 world: a coal plant at
(0,0), a wire at (1,0), bare land at (0,1) and (1,1). -/
def scenarioGrid : Grid := fun y x =>
  if y = 0 ∧ x = 0 then 750 + 1024
  else if y = 0 ∧ x = 1 then 208 + 16384
  else 0

/-- The cell value carries the conductive flag or the zone flag. -/
def condOrZone (c : Consts) (v : Nat) : Prop := conductive c v ∨ zoned c v

/-- What holds at the head of every walk step entered with direction `a`:
the position is a cell of the grid, the direction is one of the five, the
cell the step moves to is a cell of the grid carrying the conductive or the
zone flag, so is every position on the stack, the stack holds at most
`PWRSTKSIZE - 2` positions, and every powered cell of the grid carries the
conductive or the zone flag. -/
structure Good (c : Consts) (a : Nat) (t : Sim) : Prop where
  pos : inGrid c t.SMapX t.SMapY
  dir : a ≤ 4
  target : inGrid c (dirX a t.SMapX) (dirY a t.SMapY)
    ∧ condOrZone c (t.Map (dirY a t.SMapY) (dirX a t.SMapX))
  stack : ∀ i, 1 ≤ i → i ≤ t.PowerStackNum →
    inGrid c (t.PowerStackX i) (t.PowerStackY i)
    ∧ condOrZone c (t.Map (t.PowerStackY i) (t.PowerStackX i))
  bound : t.PowerStackNum ≤ PWRSTKSIZE - 2
  lit : ∀ x y, inGrid c x y → powered c (t.Map y x) → condOrZone c (t.Map y x)

/-- What holds in a walk step when the cell has been powered: as `Good`, with
the cell at the position itself carrying the conductive or the zone flag. -/
structure Visited (c : Consts) (v : Sim) : Prop where
  pos : inGrid c v.SMapX v.SMapY
  here : condOrZone c (v.Map v.SMapY v.SMapX)
  stack : ∀ i, 1 ≤ i → i ≤ v.PowerStackNum →
    inGrid c (v.PowerStackX i) (v.PowerStackY i)
    ∧ condOrZone c (v.Map (v.PowerStackY i) (v.PowerStackX i))
  bound : v.PowerStackNum ≤ PWRSTKSIZE - 2
  lit : ∀ x y, inGrid c x y → powered c (v.Map y x) → condOrZone c (v.Map y x)

/-- The walk-step invariant of the scenario of the spec: the capacity is at
least 2, no cell has changed its conductive or zone flag, before the first
step the walk stands on the plant with its east and south neighbours
cleared, before the second it stands on the plant heading east, and the
plant and the wire are powered from the first and the second step on. -/
structure ScenarioInv (c : Consts) (s : Sim) (a : Nat) (t : Sim) : Prop where
  cap : 2 ≤ t.MaxPower
  kept : ∀ x y, condOrZone c (t.Map y x) ↔ condOrZone c (s.Map y x)
  first : t.NumPower = 0 → a = 4 ∧ t.SMapX = 0 ∧ t.SMapY = 0
    ∧ t.Map 0 1 = clearBits (s.Map 0 1) c.POWERBIT
    ∧ t.Map 1 0 = clearBits (s.Map 1 0) c.POWERBIT
  second : t.NumPower = 1 → a = 1 ∧ t.SMapX = 0 ∧ t.SMapY = 0
  plantLit : 1 ≤ t.NumPower → powered c (t.Map 0 0)
  wireLit : 2 ≤ t.NumPower → powered c (t.Map 0 1)

/-- Two states agree on everything a walk step reads: the two maps on the
cells of the grid, the position, the stack up to its top, the two counters
of the capacity. -/
structure Agree (c : Consts) (t u : Sim) : Prop where
  map : ∀ x y, inGrid c x y → t.Map y x = u.Map y x
  pmap : ∀ x y, inGrid c x y → t.PowerMap y x = u.PowerMap y x
  px : t.SMapX = u.SMapX
  py : t.SMapY = u.SMapY
  num : t.PowerStackNum = u.PowerStackNum
  sx : ∀ i, 1 ≤ i → i ≤ t.PowerStackNum → t.PowerStackX i = u.PowerStackX i
  sy : ∀ i, 1 ≤ i → i ≤ t.PowerStackNum → t.PowerStackY i = u.PowerStackY i
  np : t.NumPower = u.NumPower
  mp : t.MaxPower = u.MaxPower

/-- Two returned states agree on what the scan produces: the two maps on the
cells of the grid and the two reported counts. -/
structure SameResult (c : Consts) (t u : Sim) : Prop where
  map : ∀ x y, inGrid c x y → t.Map y x = u.Map y x
  pmap : ∀ x y, inGrid c x y → t.PowerMap y x = u.PowerMap y x
  pwrd : t.PwrdZCnt = u.PwrdZCnt
  unpwrd : t.UnpwrdZCnt = u.UnpwrdZCnt

/-- The scenario grid with stale power state all over: every cell carries
the powered flag, `PowerMap` is all ones, and the position, the stack and
the counters hold leftovers. -/
def staleSim : Sim where
  Map := fun y x => scenarioGrid y x ||| 32768
  PowerMap := fun _ _ => 1
  SMapX := 7
  SMapY := -3
  PowerStackNum := 5
  PowerStackX := fun _ => 9
  PowerStackY := fun _ => 9
  MaxPower := 11
  NumPower := 13
  CoalPop := 17
  NuclearPop := 19
  PwrdZCnt := 23
  UnpwrdZCnt := 29

/-- The column of the `i`-th cell of the straight line that leaves `(px, py)`
in direction `d`. -/
def lineX (d : Nat) (px : Int) (i : Nat) : Int := px + (i : Int) * dirX d 0

/-- The row of the `i`-th cell of the straight line that leaves `(px, py)`
in direction `d`. -/
def lineY (d : Nat) (py : Int) (i : Nat) : Int := py + (i : Int) * dirY d 0

/-- The cell `(x, y)` is one of the first `k` cells of the line, the plant
cell `(px, py)` being cell 0. -/
def onLine (d : Nat) (px py : Int) (k : Nat) (x y : Int) : Prop :=
  ∃ i, i < k ∧ x = lineX d px i ∧ y = lineY d py i

/-- A map whose only plant is a coal plant at `(px, py)` and whose only
conductive or zone-flagged cells are that plant and a straight line of `N`
wire cells leaving it in direction `d`: the line lies in the grid, its
cells carry the conductive flag and a type code that is not a plant code,
and no other cell of the grid carries the conductive or the zone flag. -/
structure LineWorld (c : Consts) (m : Grid) (d : Nat) (px py : Int) (N : Nat) : Prop where
  dir : d < 4
  inside : ∀ i, i ≤ N → inGrid c (lineX d px i) (lineY d py i)
  plant : isCoal c (m py px)
  wire : ∀ i, 1 ≤ i → i ≤ N →
    conductive c (m (lineY d py i) (lineX d px i))
    ∧ typeCode c (m (lineY d py i) (lineX d px i)) ≠ c.POWERPLANT
    ∧ typeCode c (m (lineY d py i) (lineX d px i)) ≠ c.NUCLEAR
  rest : ∀ x y, inGrid c x y → ¬ onLine d px py (N + 1) x y →
    ¬ conductive c (m y x) ∧ ¬ zoned c (m y x)

/-- The map `m1` is the cleared map `m` with exactly the first `k` cells of
the line powered. -/
structure LineMap (c : Consts) (m m1 : Grid) (d : Nat) (px py : Int) (k : Nat) : Prop where
  lit : ∀ x y, inGrid c x y → onLine d px py k x y →
    m1 y x = clearBits (m y x) c.POWERBIT ||| c.POWERBIT
  dark : ∀ x y, inGrid c x y → ¬ onLine d px py k x y →
    m1 y x = clearBits (m y x) c.POWERBIT

/-- The walk-step invariant on a line world: the capacity is 700, the walk
has powered the first `NumPower` cells of the line and nothing else, it is
about to move to the next cell of the line, and the stack is empty. -/
structure LineInv (c : Consts) (s : Sim) (d : Nat) (px py : Int) (N : Nat) (a : Nat)
    (t : Sim) : Prop where
  cap : t.MaxPower = 700
  le : t.NumPower ≤ 700
  cnt : t.NumPower ≤ N
  target : dirX a t.SMapX = lineX d px t.NumPower ∧ dirY a t.SMapY = lineY d py t.NumPower
  empty : t.PowerStackNum = 0
  map : LineMap c s.Map t.Map d px py t.NumPower

/-- A world of one row: a coal plant at (0,0) and a straight line of 750 wire
cells east of it, bare land beyond. -/
def longGrid : Grid := fun y x =>
  if y = 0 ∧ x = 0 then 750 + 1024 + 16384
  else if y = 0 ∧ 1 ≤ x ∧ x ≤ 750 then 208 + 16384
  else 0

/-! ## tools.c: constants, state and result codes -/

/-- `#define TINYEXP 624` (tools.c). -/
def TINYEXP : Nat := 624

/-- `#define LASTTINYEXP 627` (tools.c). -/
def LASTTINYEXP : Nat := 627

/-- `#define SOMETINYEXP 625` (tools.c). -/
def SOMETINYEXP : Nat := 625

/-- `#define DIRT 0` (tools.c). -/
def DIRT : Nat := 0

/-- `#define RIVER 2` (tools.c). -/
def RIVER : Nat := 2

/-- `#define REDGE 3` (tools.c). -/
def REDGE : Nat := 3

/-- `#define CHANNEL 4` (tools.c). -/
def CHANNEL : Nat := 4

/-- `#define HANDBALL 5` (tools.c). -/
def HANDBALL : Nat := 5

/-- `#define LHBALL 6` (tools.c). -/
def LHBALL : Nat := 6

/-- `#define BRWH 7` (tools.c). -/
def BRWH : Nat := 7

/-- `#define BRWV 8` (tools.c). -/
def BRWV : Nat := 8

/-- `#define HBRIDGE 64` (tools.c). -/
def HBRIDGE : Nat := 64

/-- `#define VBRIDGE 65` (tools.c). -/
def VBRIDGE : Nat := 65

/-- `#define RUBBLE 44` (tools.c). -/
def RUBBLE : Nat := 44

/-- `#define LASTRUBBLE 47` (tools.c). -/
def LASTRUBBLE : Nat := 47

/-- `#define TILE_FIRESTBASE 761` (tools.c). -/
def TILE_FIRESTBASE : Nat := 761

/-- `#define TILE_POLICESTBASE 770` (tools.c). -/
def TILE_POLICESTBASE : Nat := 770

/-- `#define TILE_COALBASE 745` (tools.c). -/
def TILE_COALBASE : Nat := 745

/-- `#define TILE_POWERPLANT 750` (tools.c). -/
def TILE_POWERPLANT : Nat := 750

/-- `#define TILE_NUCLEARBASE 811` (tools.c). -/
def TILE_NUCLEARBASE : Nat := 811

/-- `#define TILE_NUCLEAR 816` (tools.c). -/
def TILE_NUCLEAR : Nat := 816

/-- `#define TILE_STADIUMBASE 779` (tools.c). -/
def TILE_STADIUMBASE : Nat := 779

/-- `#define TILE_STADIUM 784` (tools.c). -/
def TILE_STADIUM : Nat := 784

/-- `#define TILE_PORTBASE 693` (tools.c). -/
def TILE_PORTBASE : Nat := 693

/-- `#define TILE_PORT 698` (tools.c). -/
def TILE_PORT : Nat := 698

/-- `#define TILE_AIRPORTBASE 709` (tools.c). -/
def TILE_AIRPORTBASE : Nat := 709

/-- `#define TILE_AIRPORT 716` (tools.c). -/
def TILE_AIRPORT : Nat := 716

/-- `#define AIRPORTBASE TILE_AIRPORTBASE` (tools.c). -/
def AIRPORTBASE : Nat := TILE_AIRPORTBASE

/-- `#define LASTAIRPORT 744` (tools.c). -/
def LASTAIRPORT : Nat := 744

/-- `#define COALBASE TILE_COALBASE` (tools.c). -/
def COALBASE : Nat := TILE_COALBASE

/-- `#define LASTPOWERPLANT 760` (tools.c). -/
def LASTPOWERPLANT : Nat := 760

/-- `#define STADIUMBASE TILE_STADIUMBASE` (tools.c). -/
def STADIUMBASE : Nat := TILE_STADIUMBASE

/-- `#define LASTSTADIUM 799` (tools.c). -/
def LASTSTADIUM : Nat := 799

/-- `#define TOOLRESULT_OK 0` (tools.c). -/
def TOOLRESULT_OK : Nat := 0

/-- `#define TOOLRESULT_FAILED 1` (tools.c). -/
def TOOLRESULT_FAILED : Nat := 1

/-- `#define TOOLRESULT_NO_MONEY 2` (tools.c). -/
def TOOLRESULT_NO_MONEY : Nat := 2

/-- `#define TOOLRESULT_NEED_BULLDOZE 3` (tools.c). -/
def TOOLRESULT_NEED_BULLDOZE : Nat := 3

/-- `#define TOOL_RESIDENTIAL_COST 100` (tools.c). -/
def TOOL_RESIDENTIAL_COST : Int := 100

/-- `#define TOOL_FIRESTATION_COST 500` (tools.c). -/
def TOOL_FIRESTATION_COST : Int := 500

/-- `#define TOOL_POWERPLANT_COST 3000` (tools.c). -/
def TOOL_POWERPLANT_COST : Int := 3000

/-- `#define TOOL_AIRPORT_COST 10000` (tools.c). -/
def TOOL_AIRPORT_COST : Int := 10000

/-- The globals read and written by the tools: the map and the funds. -/
structure City where
  Map : Grid
  TotalFunds : Int

/-- Modelled from the spec: the function `Spend(n)`, which is not among the
sources; it subtracts `n` from `TotalFunds`. -/
def Spend (n : Int) (s : City) : City :=
  { s with TotalFunds := s.TotalFunds - n }

/-- The function `CheckFunds(cost)`. -/
def CheckFunds (s : City) (cost : Int) : Bool :=
  if cost ≤ 0 then true
  else if s.TotalFunds ≥ cost then true
  else false

/-- The 16-bit pattern left in a `short` by the assignment of an `int`. -/
def toShort (v : Nat) : Nat := v % 65536

/-! ## tools.c: the footprint checks -/

/-- The offsets `(dx, dy)` of a square footprint of `n` cells per side whose
first row and column are at offset `lo`, in the order of the loops
`for (dy = lo; ...) for (dx = lo; ...)`. -/
def offsets (lo : Int) (n : Nat) : List (Int × Int) :=
  (List.range n).flatMap fun (j : Nat) =>
    (List.range n).map fun (i : Nat) => (lo + (i : Int), lo + (j : Int))

/-- The test `tile == RUBBLE || (tile >= TINYEXP && tile <= LASTTINYEXP)` of
the footprint checks and of the clearing loops. -/
def cheapToClear (tile : Nat) : Bool :=
  decide (tile = RUBBLE) || (decide (TINYEXP ≤ tile) && decide (tile ≤ LASTTINYEXP))

/-- The loop of `Check3x3Area`, `Check4x4Area` and `Check6x6Area` (the same
body in the three) over the offsets left to visit: `none` is the `return 0`
inside the loop, otherwise the final `clearCost`. -/
def areaLoop (c : Consts) (Map : Grid) (x y : Int) : List (Int × Int) → Int → Option Int
  | [], clearCost => some clearCost
  | o :: rest, clearCost =>
    let tile := Map (y + o.2) (x + o.1) &&& c.LOMASK
    if tile ≠ DIRT then
      if cheapToClear tile then areaLoop c Map x y rest (clearCost + 1)
      else none
    else areaLoop c Map x y rest clearCost

/-- The function `Check3x3Area(x, y, &cost)`: the returned flag and `*cost`. -/
def Check3x3Area (c : Consts) (Map : Grid) (x y : Int) (cost : Int) : Bool × Int :=
  if x < 1 ∨ x ≥ (c.WORLD_X : Int) - 1 ∨ y < 1 ∨ y ≥ (c.WORLD_Y : Int) - 1 then (false, cost)
  else
    match areaLoop c Map x y (offsets (-1) 3) 0 with
    | some clearCost => (true, clearCost)
    | none => (false, cost)

/-- The function `Check4x4Area(x, y, &cost)`: the returned flag and `*cost`. -/
def Check4x4Area (c : Consts) (Map : Grid) (x y : Int) (cost : Int) : Bool × Int :=
  if x < 1 ∨ x ≥ (c.WORLD_X : Int) - 2 ∨ y < 1 ∨ y ≥ (c.WORLD_Y : Int) - 2 then (false, cost)
  else
    match areaLoop c Map x y (offsets (-1) 4) 0 with
    | some clearCost => (true, clearCost)
    | none => (false, cost)

/-- The function `Check6x6Area(x, y, &cost)`: the returned flag and `*cost`. -/
def Check6x6Area (c : Consts) (Map : Grid) (x y : Int) (cost : Int) : Bool × Int :=
  if x < 2 ∨ x ≥ (c.WORLD_X : Int) - 3 ∨ y < 2 ∨ y ≥ (c.WORLD_Y : Int) - 3 then (false, cost)
  else
    match areaLoop c Map x y (offsets (-2) 6) 0 with
    | some clearCost => (true, clearCost)
    | none => (false, cost)

/-! ## tools.c: placing zones and buildings -/

/-- The function `FixZone(x, y, tilePtr)`; the pointer is not used. -/
def FixZone (c : Consts) (Map : Grid) (x y : Int) : Grid :=
  if ¬ TestBounds c x y then Map
  else
    let m0 := FixSingle c Map x y
    let m1 := if TestBounds c (x - 1) y then FixSingle c m0 (x - 1) y else m0
    let m2 := if TestBounds c (x + 1) y then FixSingle c m1 (x + 1) y else m1
    let m3 := if TestBounds c x (y - 1) then FixSingle c m2 x (y - 1) else m2
    let m4 := if TestBounds c x (y + 1) then FixSingle c m3 x (y + 1) else m3
    m4

/-- The body of the clearing loops of the three placement functions. -/
def clearCell (c : Consts) (x y : Int) (m : Grid) (o : Int × Int) : Grid :=
  let tile := m (y + o.2) (x + o.1) &&& c.LOMASK
  if tile ≠ DIRT ∧ cheapToClear tile then setCell m (x + o.1) (y + o.2) DIRT else m

/-- The body of the placing loop of `PlaceZone`, on the map and `index`. -/
def zoneCell (c : Consts) (x y : Int) (baseValue : Nat) (st : Grid × Nat) (o : Int × Int) :
    Grid × Nat :=
  if o.1 = 0 ∧ o.2 = 0 then
    (setCell st.1 x y (toShort ((baseValue + 4) ||| c.ZONEBIT ||| c.BULLBIT ||| c.CONDBIT)),
      st.2 + 1)
  else
    (setCell st.1 (x + o.1) (y + o.2) (toShort ((baseValue + st.2) ||| c.BULLBIT ||| c.CONDBIT)),
      st.2 + 1)

/-- The body of the placing loops of `Place4x4Building` and `Place6x6Building`
(the same but for the index `skip` that is stepped over), on the map and
`index`. -/
def buildingCell (c : Consts) (x y : Int) (baseValue centerTile skip : Nat) (st : Grid × Nat)
    (o : Int × Int) : Grid × Nat :=
  if o.1 = 0 ∧ o.2 = 0 then
    (setCell st.1 x y (toShort (centerTile ||| c.ZONEBIT ||| c.BULLBIT)), st.2 + 1)
  else
    let index := if st.2 = skip then st.2 + 1 else st.2
    (setCell st.1 (x + o.1) (y + o.2) (toShort ((baseValue + index) ||| c.BULLBIT)), index + 1)

/-- The body of the fixing loops of the three placement functions. -/
def fixCell (c : Consts) (x y : Int) (m : Grid) (o : Int × Int) : Grid :=
  FixZone c m (x + o.1) (y + o.2)

/-- The part of a placement function after the footprint check: the funds
check, the clearing loop with its charge, the charge for the building, the
placing loop `place` and the fixing loop, over the offsets `offs`. -/
def placeWith (c : Consts) (s : City) (mapX mapY : Int) (offs : List (Int × Int))
    (place : Grid → Grid) (bulldozeCost totalCost0 : Int) : Nat × City :=
  let totalCost := totalCost0 + bulldozeCost
  if ¬ CheckFunds s totalCost then (TOOLRESULT_NO_MONEY, s)
  else
    let s1 :=
      if bulldozeCost > 0 then
        Spend bulldozeCost { s with Map := offs.foldl (clearCell c mapX mapY) s.Map }
      else s
    let s2 := Spend (totalCost - bulldozeCost) s1
    let s3 := { s2 with Map := place s2.Map }
    let s4 := { s3 with Map := offs.foldl (fixCell c mapX mapY) s3.Map }
    (TOOLRESULT_OK, s4)

/-- The function `PlaceZone(mapX, mapY, baseValue, totalCost)`: the result
code and the state. -/
def PlaceZone (c : Consts) (s : City) (mapX mapY : Int) (baseValue : Nat) (totalCost : Int) :
    Nat × City :=
  let r := Check3x3Area c s.Map mapX mapY 0
  if ¬ r.1 then (TOOLRESULT_FAILED, s)
  else
    placeWith c s mapX mapY (offsets (-1) 3)
      (fun m => ((offsets (-1) 3).foldl (zoneCell c mapX mapY baseValue) (m, 0)).1) r.2 totalCost

/-- The function `Place4x4Building(mapX, mapY, baseValue, centerTile,
totalCost)`: the result code and the state. -/
def Place4x4Building (c : Consts) (s : City) (mapX mapY : Int) (baseValue centerTile : Nat)
    (totalCost : Int) : Nat × City :=
  let r := Check4x4Area c s.Map mapX mapY 0
  if ¬ r.1 then (TOOLRESULT_FAILED, s)
  else
    placeWith c s mapX mapY (offsets (-1) 4)
      (fun m => ((offsets (-1) 4).foldl (buildingCell c mapX mapY baseValue centerTile 5)
        (m, 0)).1) r.2 totalCost

/-- The function `Place6x6Building(mapX, mapY, baseValue, centerTile,
totalCost)`: the result code and the state. -/
def Place6x6Building (c : Consts) (s : City) (mapX mapY : Int) (baseValue centerTile : Nat)
    (totalCost : Int) : Nat × City :=
  let r := Check6x6Area c s.Map mapX mapY 0
  if ¬ r.1 then (TOOLRESULT_FAILED, s)
  else
    placeWith c s mapX mapY (offsets (-2) 6)
      (fun m => ((offsets (-2) 6).foldl (buildingCell c mapX mapY baseValue centerTile 14)
        (m, 0)).1) r.2 totalCost

/-- The function `DoFireStation(mapX, mapY)`. -/
def DoFireStation (c : Consts) (s : City) (mapX mapY : Int) : Nat × City :=
  PlaceZone c s mapX mapY TILE_FIRESTBASE TOOL_FIRESTATION_COST

/-- The function `DoResidential(mapX, mapY)`. -/
def DoResidential (c : Consts) (s : City) (mapX mapY : Int) : Nat × City :=
  PlaceZone c s mapX mapY c.RESBASE TOOL_RESIDENTIAL_COST

/-- The function `DoPowerPlant(mapX, mapY)`. -/
def DoPowerPlant (c : Consts) (s : City) (mapX mapY : Int) : Nat × City :=
  Place4x4Building c s mapX mapY TILE_COALBASE TILE_POWERPLANT TOOL_POWERPLANT_COST

/-- The function `DoAirport(mapX, mapY)`. -/
def DoAirport (c : Consts) (s : City) (mapX mapY : Int) : Nat × City :=
  Place6x6Building c s mapX mapY TILE_AIRPORTBASE TILE_AIRPORT TOOL_AIRPORT_COST

/-! ## tools.c: the bulldozer -/

/-- The function `checkSize(tileValue)`. -/
def checkSize (c : Consts) (tileValue : Nat) : Nat :=
  if ((tileValue : Int) ≥ (c.RESBASE : Int) - 1 ∧ (tileValue : Int) ≤ (c.PORTBASE : Int) - 1)
      ∨ (tileValue ≥ LASTPOWERPLANT + 1 ∧ tileValue ≤ c.POLICESTATION + 4) then 3
  else if (tileValue ≥ c.PORTBASE ∧ tileValue ≤ c.LASTPORT)
      ∨ (tileValue ≥ COALBASE ∧ tileValue ≤ LASTPOWERPLANT)
      ∨ (tileValue ≥ STADIUMBASE ∧ tileValue ≤ LASTSTADIUM) then 4
  else if tileValue ≥ AIRPORTBASE ∧ tileValue ≤ LASTAIRPORT then 6
  else 0

/-- The chain of tests of `checkBigZone` in its order: the type code tested,
the values given to `*deltaHPtr` and `*deltaVPtr`, and the size returned. -/
def bigZoneTable : List (Nat × Int × Int × Nat) :=
  [(750, 0, 0, 4),
   (698, 0, 0, 4),
   (816, 0, 0, 4),
   (785, 0, 0, 4),
   (716, 0, 0, 6),
   (TILE_COALBASE + 1, -1, 0, 4),
   (TILE_COALBASE + 2, 0, -1, 4),
   (TILE_COALBASE + 3, -1, -1, 4),
   (TILE_COALBASE + 4, 1, 0, 4),
   (TILE_COALBASE + 5, 1, -1, 4),
   (TILE_COALBASE + 6, 0, 1, 4),
   (TILE_COALBASE + 7, -1, 1, 4),
   (TILE_COALBASE + 8, 1, 1, 4),
   (TILE_NUCLEARBASE + 1, -1, 0, 4),
   (TILE_NUCLEARBASE + 2, 0, -1, 4),
   (TILE_NUCLEARBASE + 3, -1, -1, 4),
   (TILE_NUCLEARBASE + 4, 1, 0, 4),
   (TILE_NUCLEARBASE + 5, 1, -1, 4),
   (TILE_NUCLEARBASE + 6, 0, 1, 4),
   (TILE_NUCLEARBASE + 7, -1, 1, 4),
   (TILE_NUCLEARBASE + 8, 1, 1, 4),
   (TILE_STADIUMBASE + 1, -1, 0, 4),
   (TILE_STADIUMBASE + 2, 0, -1, 4),
   (TILE_STADIUMBASE + 3, -1, -1, 4),
   (TILE_STADIUMBASE + 4, 1, 0, 4),
   (TILE_STADIUMBASE + 5, 1, -1, 4),
   (TILE_STADIUMBASE + 6, 0, 1, 4),
   (TILE_STADIUMBASE + 7, -1, 1, 4),
   (TILE_STADIUMBASE + 8, 1, 1, 4),
   (TILE_PORTBASE + 1, -1, 0, 4),
   (TILE_PORTBASE + 2, 0, -1, 4),
   (TILE_PORTBASE + 3, -1, -1, 4),
   (TILE_PORTBASE + 4, 1, 0, 4),
   (TILE_PORTBASE + 5, 1, -1, 4),
   (TILE_PORTBASE + 6, 0, 1, 4),
   (TILE_PORTBASE + 7, -1, 1, 4),
   (TILE_PORTBASE + 8, 1, 1, 4),
   (TILE_AIRPORTBASE, -2, -2, 6),
   (TILE_AIRPORTBASE + 1, -1, -2, 6),
   (TILE_AIRPORTBASE + 2, 0, -2, 6),
   (TILE_AIRPORTBASE + 3, 1, -2, 6),
   (TILE_AIRPORTBASE + 4, 2, -2, 6),
   (TILE_AIRPORTBASE + 5, 3, -2, 6),
   (TILE_AIRPORTBASE + 6, -2, -1, 6),
   (TILE_AIRPORTBASE + 7, -1, -1, 6),
   (TILE_AIRPORTBASE + 8, 0, -1, 6),
   (TILE_AIRPORTBASE + 9, 1, -1, 6),
   (TILE_AIRPORTBASE + 10, 2, -1, 6),
   (TILE_AIRPORTBASE + 11, 3, -1, 6),
   (TILE_AIRPORTBASE + 12, -2, 0, 6),
   (TILE_AIRPORTBASE + 13, -1, 0, 6),
   (TILE_AIRPORTBASE + 14, 1, 0, 6),
   (TILE_AIRPORTBASE + 15, 2, 0, 6),
   (TILE_AIRPORTBASE + 16, 3, 0, 6),
   (TILE_AIRPORTBASE + 17, -2, 1, 6),
   (TILE_AIRPORTBASE + 18, -1, 1, 6),
   (TILE_AIRPORTBASE + 19, 0, 1, 6),
   (TILE_AIRPORTBASE + 20, 1, 1, 6),
   (TILE_AIRPORTBASE + 21, 2, 1, 6),
   (TILE_AIRPORTBASE + 22, 3, 1, 6),
   (TILE_AIRPORTBASE + 23, -2, 2, 6),
   (TILE_AIRPORTBASE + 24, -1, 2, 6),
   (TILE_AIRPORTBASE + 25, 0, 2, 6),
   (TILE_AIRPORTBASE + 26, 1, 2, 6),
   (TILE_AIRPORTBASE + 27, 2, 2, 6),
   (TILE_AIRPORTBASE + 28, 3, 2, 6),
   (TILE_AIRPORTBASE + 29, -2, 3, 6),
   (TILE_AIRPORTBASE + 30, -1, 3, 6),
   (TILE_AIRPORTBASE + 31, 0, 3, 6),
   (TILE_AIRPORTBASE + 32, 1, 3, 6),
   (TILE_AIRPORTBASE + 33, 2, 3, 6),
   (TILE_AIRPORTBASE + 34, 3, 3, 6),
   (TILE_COALBASE, 0, 0, 4),
   (TILE_NUCLEARBASE, 0, 0, 4),
   (TILE_STADIUMBASE, 0, 0, 4),
   (TILE_PORTBASE, 0, 0, 4)]

/-- The function `checkBigZone(id, &deltaH, &deltaV)`: the size returned and
the two offsets, which stay as the caller set them (0) when no test matches. -/
def checkBigZone (id : Nat) : Nat × Int × Int :=
  match bigZoneTable.find? (fun e => decide (id = e.1)) with
  | some e => (e.2.2.2, e.2.1, e.2.2.1)
  | none => (0, 0, 0)

/-- The body of the first pass of the rubble functions. -/
def unzoneCell (c : Consts) (x y : Int) (m : Grid) (o : Int × Int) : Grid :=
  if TestBounds c (x + o.1) (y + o.2) then
    setCell m (x + o.1) (y + o.2) (clearBits (m (y + o.2) (x + o.1)) c.ZONEBIT)
  else m

/-- The body of the second pass of the rubble functions. -/
def rubbleCell (c : Consts) (x y : Int) (m : Grid) (o : Int × Int) : Grid :=
  if TestBounds c (x + o.1) (y + o.2) then
    let zz := m (y + o.2) (x + o.1) &&& c.LOMASK
    if zz ≠ c.RADTILE ∧ zz ≠ 0 then
      setCell m (x + o.1) (y + o.2) (toShort (SOMETINYEXP ||| c.ANIMBIT ||| c.BULLBIT))
    else m
  else m

/-- The two passes of a rubble function over the offsets `offs`. -/
def putRubble (c : Consts) (m : Grid) (x y : Int) (offs : List (Int × Int)) : Grid :=
  offs.foldl (rubbleCell c x y) (offs.foldl (unzoneCell c x y) m)

/-- The function `put3x3Rubble(x, y)`. -/
def put3x3Rubble (c : Consts) (m : Grid) (x y : Int) : Grid := putRubble c m x y (offsets (-1) 3)

/-- The function `put4x4Rubble(x, y)`. -/
def put4x4Rubble (c : Consts) (m : Grid) (x y : Int) : Grid := putRubble c m x y (offsets (-1) 4)

/-- The function `put6x6Rubble(x, y)`. -/
def put6x6Rubble (c : Consts) (m : Grid) (x y : Int) : Grid := putRubble c m x y (offsets (-2) 6)

/-- The `switch (zoneSize)` of `DoBulldozer` on a centre `(x, y)`: the three
sizes spend 1, lay the rubble and return ok; `none` is any other size. -/
def rubbleSwitch (c : Consts) (s : City) (zoneSize : Nat) (x y : Int) : Option (Nat × City) :=
  if zoneSize = 3 then
    some (TOOLRESULT_OK, { Spend 1 s with Map := put3x3Rubble c s.Map x y })
  else if zoneSize = 4 then
    some (TOOLRESULT_OK, { Spend 1 s with Map := put4x4Rubble c s.Map x y })
  else if zoneSize = 6 then
    some (TOOLRESULT_OK, { Spend 1 s with Map := put6x6Rubble c s.Map x y })
  else none

/-- The tile is one of the water tiles `RIVER`, `REDGE`, `CHANNEL`. -/
def isWater (tile : Nat) : Bool :=
  decide (tile = RIVER) || decide (tile = REDGE) || decide (tile = CHANNEL)

/-- The tile is one of the bridge tiles `HANDBALL`, `LHBALL`, `HBRIDGE`,
`VBRIDGE`, `BRWH`, `BRWV`. -/
def isBridge (tile : Nat) : Bool :=
  decide (tile = HANDBALL) || decide (tile = LHBALL) || decide (tile = HBRIDGE)
    || decide (tile = VBRIDGE) || decide (tile = BRWH) || decide (tile = BRWV)

/-- The zone part of `DoBulldozer`: the centre found from the zone flag or
from `checkBigZone`; `none` when control falls to the bulldozing of the
single tile. -/
def bulldozeZone (c : Consts) (s : City) (mapX mapY : Int) (tile : Nat) : Option (Nat × City) :=
  if s.Map mapY mapX &&& c.ZONEBIT ≠ 0 then rubbleSwitch c s (checkSize c tile) mapX mapY
  else
    let r := checkBigZone tile
    if r.1 ≠ 0 then
      let centerX := mapX + r.2.1
      let centerY := mapY + r.2.2
      if TestBounds c centerX centerY then rubbleSwitch c s r.1 centerX centerY
      else none
    else none

/-- The function `DoBulldozer(mapX, mapY)`: the result code and the state. -/
def DoBulldozer (c : Consts) (s : City) (mapX mapY : Int) : Nat × City :=
  if mapX < 0 ∨ mapX ≥ (c.WORLD_X : Int) ∨ mapY < 0 ∨ mapY ≥ (c.WORLD_Y : Int) then
    (TOOLRESULT_FAILED, s)
  else
    let tile := s.Map mapY mapX &&& c.LOMASK
    if tile = DIRT then (TOOLRESULT_OK, s)
    else if s.TotalFunds < 1 then (TOOLRESULT_NO_MONEY, s)
    else if (isWater tile ∨ isBridge tile) ∧ s.TotalFunds < 5 then (TOOLRESULT_NO_MONEY, s)
    else
      match bulldozeZone c s mapX mapY tile with
      | some r => r
      | none =>
        if isWater tile then (TOOLRESULT_FAILED, s)
        else if isBridge tile then
          let s1 := Spend 5 s
          let s2 := { s1 with Map := setCell s1.Map mapX mapY RIVER }
          (TOOLRESULT_OK, { s2 with Map := FixZone c s2.Map mapX mapY })
        else if tile = c.RADTILE then (TOOLRESULT_FAILED, s)
        else
          let s1 := Spend 1 s
          let s2 := { s1 with Map := setCell s1.Map mapX mapY DIRT }
          (TOOLRESULT_OK, { s2 with Map := FixZone c s2.Map mapX mapY })

/-- A state for the instances: the given map and funds. -/
def cityOf (m : Grid) (funds : Int) : City where
  Map := m
  TotalFunds := funds

/-! ## Vocabulary of the statements about tools.c -/

/-- What tools.c relies on about the header besides `WF` and `TilesWF`: the
tile codes below `LASTTILE` fit under the type-code mask, the road range
starts above bare land and above the radiation tile, the rail range is not
empty and ends below `LASTTILE`, every flag is a non-empty set of bits of
`ALLBITS`, and the zone, the animation and the conductive flag share no bit
with one another or with the bulldozable and burnable flags. -/
structure Consts.ToolsWF (c : Consts) : Prop where
  tiles_fit : LASTTILE ≤ c.LOMASK
  road_pos : 1 ≤ c.ROADBASE
  rad_road : c.RADTILE < c.ROADBASE
  rail_le : c.RAILBASE ≤ c.LASTRAIL
  rail_last : c.LASTRAIL < LASTTILE
  power_all : c.POWERBIT &&& c.ALLBITS = c.POWERBIT
  cond_all : c.CONDBIT &&& c.ALLBITS = c.CONDBIT
  zone_all : c.ZONEBIT &&& c.ALLBITS = c.ZONEBIT
  burn_all : c.BURNBIT &&& c.ALLBITS = c.BURNBIT
  bull_all : c.BULLBIT &&& c.ALLBITS = c.BULLBIT
  anim_all : c.ANIMBIT &&& c.ALLBITS = c.ANIMBIT
  cond_pos : 0 < c.CONDBIT
  zone_pos : 0 < c.ZONEBIT
  bull_pos : 0 < c.BULLBIT
  zone_cond : c.ZONEBIT &&& c.CONDBIT = 0
  zone_burn : c.ZONEBIT &&& c.BURNBIT = 0
  zone_bull : c.ZONEBIT &&& c.BULLBIT = 0
  zone_anim : c.ZONEBIT &&& c.ANIMBIT = 0
  anim_cond : c.ANIMBIT &&& c.CONDBIT = 0
  anim_burn : c.ANIMBIT &&& c.BURNBIT = 0
  anim_bull : c.ANIMBIT &&& c.BULLBIT = 0
  cond_burn : c.CONDBIT &&& c.BURNBIT = 0
  cond_bull : c.CONDBIT &&& c.BULLBIT = 0

/-- The flags of a cell value: its bits under `ALLBITS`. -/
def flagsOf (c : Consts) (v : Nat) : Nat := v &&& c.ALLBITS

/-- The cell value carries the bulldozable flag. -/
def bulldozable (c : Consts) (v : Nat) : Prop := v &&& c.BULLBIT ≠ 0

instance (c : Consts) (v : Nat) : Decidable (bulldozable c v) := by
  unfold bulldozable; infer_instance

/-- The 4-bit mask as the specification words it: bit 0 for the north
neighbour, bit 1 for the east, bit 2 for the south, bit 3 for the west, a bit
being set when the neighbour is a cell of the grid and `conn` holds of its
value. -/
def specMask (c : Consts) (Map : Grid) (conn : Nat → Bool) (x y : Int) : Nat :=
  (if TestBounds c x (y - 1) = true ∧ conn (Map (y - 1) x) = true then 1 else 0)
    + (if TestBounds c (x + 1) y = true ∧ conn (Map y (x + 1)) = true then 2 else 0)
    + (if TestBounds c x (y + 1) = true ∧ conn (Map (y + 1) x) = true then 4 else 0)
    + (if TestBounds c (x - 1) y = true ∧ conn (Map y (x - 1)) = true then 8 else 0)

/-- Every cell of the footprint at `(x, y)` with offsets `offs` is a cell of
the grid. -/
def footprintInside (c : Consts) (x y : Int) (offs : List (Int × Int)) : Bool :=
  offs.all fun o => TestBounds c (x + o.1) (y + o.2)

/-- The cell value holds bare land, the rubble tile `RUBBLE` or a tile of
`TINYEXP .. LASTTINYEXP`. -/
def clearable (c : Consts) (cell : Nat) : Bool :=
  decide (cell &&& c.LOMASK = DIRT) || decide (cell &&& c.LOMASK = RUBBLE)
    || (decide (TINYEXP ≤ cell &&& c.LOMASK) && decide (cell &&& c.LOMASK ≤ LASTTINYEXP))

/-- The cell value holds bare land, a tile of `RUBBLE .. LASTRUBBLE` or a tile
of `TINYEXP .. LASTTINYEXP`. -/
def clearableRange (c : Consts) (cell : Nat) : Bool :=
  decide (cell &&& c.LOMASK = DIRT)
    || (decide (RUBBLE ≤ cell &&& c.LOMASK) && decide (cell &&& c.LOMASK ≤ LASTRUBBLE))
    || (decide (TINYEXP ≤ cell &&& c.LOMASK) && decide (cell &&& c.LOMASK ≤ LASTTINYEXP))

/-- Every cell of the footprint satisfies `p`. -/
def footprintAll (Map : Grid) (x y : Int) (offs : List (Int × Int)) (p : Nat → Bool) : Bool :=
  offs.all fun o => p (Map (y + o.2) (x + o.1))

/-- The number of cells of the footprint that do not hold bare land. -/
def clearingFee (c : Consts) (Map : Grid) (x y : Int) (offs : List (Int × Int)) : Nat :=
  offs.countP fun o => decide (Map (y + o.2) (x + o.1) &&& c.LOMASK ≠ DIRT)

/-- The value that the rubble functions store: the tile `SOMETINYEXP` with the
animation and the bulldozable flag. -/
def rubbleMark (c : Consts) : Nat := toShort (SOMETINYEXP ||| c.ANIMBIT ||| c.BULLBIT)

/-- A list of stores `Map[y + dy][x + dx] = v`, done from left to right. -/
def writeAll (m : Grid) (x y : Int) (ws : List ((Int × Int) × Nat)) : Grid :=
  ws.foldl (fun m w => setCell m (x + w.1.1) (y + w.1.2) w.2) m

/-- The stores of the placing loop of `PlaceZone` over the offsets `offs`,
entered with `index`. -/
def zoneWrites (c : Consts) (baseValue : Nat) : List (Int × Int) → Nat → List ((Int × Int) × Nat)
  | [], _ => []
  | o :: rest, index =>
    (if o.1 = 0 ∧ o.2 = 0 then
        ((0, 0), toShort ((baseValue + 4) ||| c.ZONEBIT ||| c.BULLBIT ||| c.CONDBIT))
      else (o, toShort ((baseValue + index) ||| c.BULLBIT ||| c.CONDBIT)))
      :: zoneWrites c baseValue rest (index + 1)

/-- The stores of the placing loop of `Place4x4Building` and
`Place6x6Building` over the offsets `offs`, entered with `index`. -/
def buildingWrites (c : Consts) (baseValue centerTile skip : Nat) :
    List (Int × Int) → Nat → List ((Int × Int) × Nat)
  | [], _ => []
  | o :: rest, index =>
    if o.1 = 0 ∧ o.2 = 0 then
      ((0, 0), toShort (centerTile ||| c.ZONEBIT ||| c.BULLBIT))
        :: buildingWrites c baseValue centerTile skip rest (index + 1)
    else
      (o, toShort ((baseValue + (if index = skip then index + 1 else index)) ||| c.BULLBIT))
        :: buildingWrites c baseValue centerTile skip rest
            ((if index = skip then index + 1 else index) + 1)

/-- A grid of bare land. -/
def blankGrid : Grid := fun _ _ => 0

/-- A grid for the instances: bare land but for the rubble tile 44 at (4,4),
the tiny explosion 625 at (6,5) and the rubble tile 45 at (20,20). -/
def rubbleGrid : Grid := fun y x =>
  if y = 4 ∧ x = 4 then 44 + 4096
  else if y = 5 ∧ x = 6 then 625 + 2048 + 4096
  else if y = 20 ∧ x = 20 then 45 + 4096
  else 0

/-- The type code of the cell value is in none of the three ranges that
`FixSingle` rewrites. -/
def uncategorised (c : Consts) (v : Nat) : Prop :=
  ¬ (c.ROADBASE ≤ typeCode c v ∧ typeCode c v ≤ c.LASTROAD)
  ∧ ¬ (c.RAILBASE ≤ typeCode c v ∧ typeCode c v ≤ c.LASTRAIL)
  ∧ ¬ (c.POWERBASE ≤ typeCode c v ∧ typeCode c v ≤ LASTPOWER)

/-- The value a rubble function leaves at a cell that held `v`. -/
def rubbleOf (c : Consts) (v : Nat) : Nat :=
  if clearBits v c.ZONEBIT &&& c.LOMASK ≠ c.RADTILE ∧ clearBits v c.ZONEBIT &&& c.LOMASK ≠ 0
  then rubbleMark c else clearBits v c.ZONEBIT

/-- The call of the bulldozer with result `res` has removed the structure of
footprint `offs` around `(x, y)` from the grid `before`: it returned ok, every
cell of the footprint holds the rubble mark and carries no zone flag, and no
cell outside the footprint has changed. -/
def Demolished (c : Consts) (before : Grid) (res : Nat × City) (x y : Int)
    (offs : List (Int × Int)) : Prop :=
  res.1 = TOOLRESULT_OK
  ∧ (∀ o ∈ offs, res.2.Map (y + o.2) (x + o.1) = rubbleMark c
      ∧ ¬ zoned c (res.2.Map (y + o.2) (x + o.1)))
  ∧ (∀ x1 y1 : Int, (∀ o ∈ offs, ¬ (x1 = x + o.1 ∧ y1 = y + o.2)) →
      res.2.Map y1 x1 = before y1 x1)

/-! ## tools.c: roads, rails, wires and parks -/

/-- `#define ROAD_COST 10` (tools.c). -/
def ROAD_COST : Int := 10

/-- `#define BRIDGE_COST 50` (tools.c). -/
def BRIDGE_COST : Int := 50

/-- `#define RAIL_COST 20` (tools.c). -/
def RAIL_COST : Int := 20

/-- `#define TUNNEL_COST 100` (tools.c). -/
def TUNNEL_COST : Int := 100

/-- `#define WIRE_COST 5` (tools.c). -/
def WIRE_COST : Int := 5

/-- `#define UNDERWATER_WIRE_COST 25` (tools.c). -/
def UNDERWATER_WIRE_COST : Int := 25

/-- `#define TOOL_PARK_COST 10` (tools.c). -/
def TOOL_PARK_COST : Int := 10

/-- `#define TOOL_NUCLEAR_COST 5000` (tools.c). -/
def TOOL_NUCLEAR_COST : Int := 5000

/-- `#define TOOL_STADIUM_COST 5000` (tools.c). -/
def TOOL_STADIUM_COST : Int := 5000

/-- `#define TOOL_SEAPORT_COST 3000` (tools.c). -/
def TOOL_SEAPORT_COST : Int := 3000

/-- `#define VRAILROAD 75` (tools.c). -/
def VRAILROAD : Nat := 75

/-- `#define HRAIL 224` (tools.c). -/
def HRAIL : Nat := 224

/-- `#define VRAIL 225` (tools.c). -/
def VRAIL : Nat := 225

/-- `#define TILE_WOODS 37` (tools.c). -/
def TILE_WOODS : Nat := 37

/-- The function `LayRoad(x, y, tilePtr)`, `tilePtr` being `&Map[y][x]` as in
every call: the returned flag and the state. -/
def LayRoad (c : Consts) (s : City) (x y : Int) : Nat × City :=
  let tile := s.Map y x &&& c.LOMASK
  if isWater tile then
    if s.TotalFunds < BRIDGE_COST then (0, s)
    else
      let s1 := Spend BRIDGE_COST s
      if (y > 0 ∧ s1.Map (y - 1) x &&& c.LOMASK = VRAIL)
          ∨ (y < (c.WORLD_Y : Int) - 1 ∧ s1.Map (y + 1) x &&& c.LOMASK = VRAIL) then
        (1, { s1 with Map := setCell s1.Map x y (toShort (VRAILROAD ||| c.BULLBIT)) })
      else
        (1, { s1 with Map := setCell s1.Map x y (toShort (HBRIDGE ||| c.BULLBIT)) })
  else if tile = DIRT ∨ (TINYEXP ≤ tile ∧ tile ≤ LASTTINYEXP) then
    if s.TotalFunds < ROAD_COST then (0, s)
    else
      let s1 := Spend ROAD_COST s
      (1, { s1 with Map := setCell s1.Map x y (toShort (c.ROADS ||| c.BULLBIT ||| c.BURNBIT)) })
  else (0, s)

/-- The function `LayRail(x, y, tilePtr)`, `tilePtr` being `&Map[y][x]`: the
returned flag and the state. -/
def LayRail (c : Consts) (s : City) (x y : Int) : Nat × City :=
  let tile := s.Map y x &&& c.LOMASK
  if isWater tile then
    if s.TotalFunds < TUNNEL_COST then (0, s)
    else
      let s1 := Spend TUNNEL_COST s
      (1, { s1 with Map := setCell s1.Map x y (toShort (HRAIL ||| c.BULLBIT)) })
  else if tile = DIRT ∨ (TINYEXP ≤ tile ∧ tile ≤ LASTTINYEXP) then
    if s.TotalFunds < RAIL_COST then (0, s)
    else
      let s1 := Spend RAIL_COST s
      (1, { s1 with
        Map := setCell s1.Map x y (toShort (c.RAILBASE ||| c.BULLBIT ||| c.BURNBIT)) })
  else (0, s)

/-- The function `LayWire(x, y, tilePtr)`, `tilePtr` being `&Map[y][x]`: the
returned flag and the state. -/
def LayWire (c : Consts) (s : City) (x y : Int) : Nat × City :=
  let tile := s.Map y x &&& c.LOMASK
  if isWater tile then
    if s.TotalFunds < UNDERWATER_WIRE_COST then (0, s)
    else
      let s1 := Spend UNDERWATER_WIRE_COST s
      (1, { s1 with Map := setCell s1.Map x y (toShort (c.HPOWER ||| c.CONDBIT ||| c.BULLBIT)) })
  else if tile = DIRT ∨ (TINYEXP ≤ tile ∧ tile ≤ LASTTINYEXP) then
    if s.TotalFunds < WIRE_COST then (0, s)
    else
      let s1 := Spend WIRE_COST s
      (1, { s1 with
        Map := setCell s1.Map x y
          (toShort (c.HPOWER ||| c.CONDBIT ||| c.BULLBIT ||| c.BURNBIT)) })
  else (0, s)

/-- The `switch (zoneSize)` of `LayDoze` on a centre `(x, y)`: the three
sizes spend 1, lay the rubble and return 1; `none` is any other size. -/
def dozeSwitch (c : Consts) (s : City) (zoneSize : Nat) (x y : Int) : Option (Nat × City) :=
  if zoneSize = 3 then some (1, { Spend 1 s with Map := put3x3Rubble c s.Map x y })
  else if zoneSize = 4 then some (1, { Spend 1 s with Map := put4x4Rubble c s.Map x y })
  else if zoneSize = 6 then some (1, { Spend 1 s with Map := put6x6Rubble c s.Map x y })
  else none

/-- The function `LayDoze(x, y, tilePtr)`, `tilePtr` being `&Map[y][x]`: the
returned flag and the state. -/
def LayDoze (c : Consts) (s : City) (x y : Int) : Nat × City :=
  if ¬ TestBounds c x y then (0, s)
  else
    let tile := s.Map y x &&& c.LOMASK
    if tile = DIRT then (1, s)
    else if s.TotalFunds < 1 then (0, s)
    else if isBridge tile ∧ s.TotalFunds < 5 then (0, s)
    else
      let zonePart : Option (Nat × City) :=
        if s.Map y x &&& c.ZONEBIT ≠ 0 then
          match dozeSwitch c s (checkSize c tile) x y with
          | some r => some r
          | none =>
            let s1 := Spend 1 s
            some (1, { s1 with Map := setCell s1.Map x y (toShort (RUBBLE ||| c.BULLBIT)) })
        else
          let r := checkBigZone tile
          if r.1 ≠ 0 then
            if TestBounds c (x + r.2.1) (y + r.2.2) then
              dozeSwitch c s r.1 (x + r.2.1) (y + r.2.2)
            else none
          else none
      match zonePart with
      | some r => r
      | none =>
        if isWater tile ∨ tile = c.RADTILE then (0, s)
        else if isBridge tile then
          let s1 := Spend 5 s
          (1, { s1 with Map := setCell s1.Map x y RIVER })
        else
          let s1 := Spend 1 s
          (1, { s1 with Map := setCell s1.Map x y DIRT })

/-- The auto-bulldoze step of `ConnectTile` for the commands 2 to 4. -/
def autoBulldoze (c : Consts) (s : City) (x y : Int) (command : Int) : City :=
  if command ≥ 2 ∧ command ≤ 4 then
    if s.TotalFunds > 0 ∧ s.Map y x &&& c.BULLBIT ≠ 0 then
      if s.Map y x &&& c.LOMASK ≥ RUBBLE ∧ s.Map y x &&& c.LOMASK ≤ LASTRUBBLE then
        let s1 := Spend 1 s
        { s1 with Map := setCell s1.Map x y DIRT }
      else s
    else s
  else s

/-- The function `ConnectTile(x, y, tilePtr, command)`, `tilePtr` being
`&Map[y][x]` as in every call: the returned flag and the state. -/
def ConnectTile (c : Consts) (s : City) (x y : Int) (command : Int) : Nat × City :=
  if ¬ TestBounds c x y then (0, s)
  else
    let s1 := autoBulldoze c s x y command
    if command = 0 then (1, { s1 with Map := FixZone c s1.Map x y })
    else if command = 1 then
      let r := LayDoze c s1 x y
      (r.1, { r.2 with Map := FixZone c r.2.Map x y })
    else if command = 2 then
      let r := LayRoad c s1 x y
      (r.1, { r.2 with Map := FixZone c r.2.Map x y })
    else if command = 3 then
      let r := LayRail c s1 x y
      (r.1, { r.2 with Map := FixZone c r.2.Map x y })
    else if command = 4 then
      let r := LayWire c s1 x y
      (r.1, { r.2 with Map := FixZone c r.2.Map x y })
    else (1, s1)

/-- The part shared by `DoRoad`, `DoRail` and `DoWire`, which differ in the
two costs checked and in the command passed to `ConnectTile`. -/
def layTool (c : Consts) (s : City) (mapX mapY : Int) (waterCost landCost : Int)
    (command : Int) : Nat × City :=
  if mapX < 0 ∨ mapX ≥ (c.WORLD_X : Int) ∨ mapY < 0 ∨ mapY ≥ (c.WORLD_Y : Int) then
    (TOOLRESULT_FAILED, s)
  else
    let baseTile := s.Map mapY mapX &&& c.LOMASK
    if baseTile ≠ DIRT ∧ baseTile ≠ RIVER ∧ baseTile ≠ REDGE ∧ baseTile ≠ CHANNEL
        ∧ ¬ (baseTile ≥ TINYEXP ∧ baseTile ≤ LASTTINYEXP) then
      (TOOLRESULT_NEED_BULLDOZE, s)
    else if (baseTile = RIVER ∨ baseTile = REDGE ∨ baseTile = CHANNEL)
        ∧ ¬ CheckFunds s waterCost then
      (TOOLRESULT_NO_MONEY, s)
    else if ¬ CheckFunds s landCost then (TOOLRESULT_NO_MONEY, s)
    else
      let r := ConnectTile c s mapX mapY command
      if r.1 = 0 then (TOOLRESULT_FAILED, r.2) else (TOOLRESULT_OK, r.2)

/-- The function `DoRoad(mapX, mapY)`: the result code and the state. -/
def DoRoad (c : Consts) (s : City) (mapX mapY : Int) : Nat × City :=
  layTool c s mapX mapY BRIDGE_COST ROAD_COST 2

/-- The function `DoRail(mapX, mapY)`: the result code and the state. -/
def DoRail (c : Consts) (s : City) (mapX mapY : Int) : Nat × City :=
  layTool c s mapX mapY TUNNEL_COST RAIL_COST 3

/-- The function `DoWire(mapX, mapY)`: the result code and the state. -/
def DoWire (c : Consts) (s : City) (mapX mapY : Int) : Nat × City :=
  layTool c s mapX mapY UNDERWATER_WIRE_COST WIRE_COST 4

/-- The function `DoPark(mapX, mapY)`: the result code and the state.
`randval` is the value returned by `SimRandom(4)`, which is not among the
sources. -/
def DoPark (c : Consts) (s : City) (mapX mapY : Int) (randval : Nat) : Nat × City :=
  if mapX < 0 ∨ mapX ≥ (c.WORLD_X : Int) ∨ mapY < 0 ∨ mapY ≥ (c.WORLD_Y : Int) then
    (TOOLRESULT_FAILED, s)
  else
    let tile := s.Map mapY mapX &&& c.LOMASK
    if tile ≠ c.TILE_DIRT then (TOOLRESULT_NEED_BULLDOZE, s)
    else if ¬ CheckFunds s TOOL_PARK_COST then (TOOLRESULT_NO_MONEY, s)
    else
      let s1 := Spend TOOL_PARK_COST s
      (TOOLRESULT_OK,
        { s1 with
          Map := setCell s1.Map mapX mapY
            (toShort ((randval + TILE_WOODS) ||| c.BURNBIT ||| c.BULLBIT)) })

/-- The function `DoNuclearPlant(mapX, mapY)`. -/
def DoNuclearPlant (c : Consts) (s : City) (mapX mapY : Int) : Nat × City :=
  Place4x4Building c s mapX mapY TILE_NUCLEARBASE TILE_NUCLEAR TOOL_NUCLEAR_COST

/-- The function `DoStadium(mapX, mapY)`. -/
def DoStadium (c : Consts) (s : City) (mapX mapY : Int) : Nat × City :=
  Place4x4Building c s mapX mapY TILE_STADIUMBASE TILE_STADIUM TOOL_STADIUM_COST

/-- The function `DoSeaport(mapX, mapY)`. -/
def DoSeaport (c : Consts) (s : City) (mapX mapY : Int) : Nat × City :=
  Place4x4Building c s mapX mapY TILE_PORTBASE TILE_PORT TOOL_SEAPORT_COST

/-- What the tools rely on about the terrain and zone codes of the header:
the radiation tile lies above the water tiles and the bridge helper tiles
`HANDBALL .. BRWV`, the road range starts no higher than `HBRIDGE`, and the
residential codes and the seaport codes lie above the rail range. -/
structure Consts.TerrainWF (c : Consts) : Prop where
  rad_terrain : BRWV < c.RADTILE
  road_bridge : c.ROADBASE ≤ HBRIDGE
  res_rail : c.LASTRAIL + 1 < c.RESBASE
  port_rail : c.LASTRAIL < c.PORTBASE

/-- The cell `(x1, y1)` lies in the square footprint of `n` cells per side
whose first row and column are at offset `lo` from `(x, y)`. -/
def inFootprint (x y : Int) (lo : Int) (n : Nat) (x1 y1 : Int) : Prop :=
  x + lo ≤ x1 ∧ x1 < x + lo + n ∧ y + lo ≤ y1 ∧ y1 < y + lo + n

/-- A grid for the instances: a river at (3,3), a river edge at (4,3), a
channel at (5,3), the bridge tile `HBRIDGE` at (3,5), the radiation tile at
(5,5), a tree at (7,7), a tiny explosion at (9,9), a rubble tile at (11,11),
and a residential zone centre at (20,20); bare land elsewhere. -/
def terrainGrid : Grid := fun y x =>
  if y = 3 ∧ x = 3 then 2
  else if y = 3 ∧ x = 4 then 3
  else if y = 3 ∧ x = 5 then 4
  else if y = 5 ∧ x = 3 then 64 + 4096
  else if y = 5 ∧ x = 5 then 52
  else if y = 7 ∧ x = 7 then 21 + 4096 + 8192
  else if y = 9 ∧ x = 9 then 625 + 2048 + 4096
  else if y = 11 ∧ x = 11 then 44 + 4096
  else if y = 20 ∧ x = 20 then 244 + 1024 + 4096 + 16384
  else 0

/-- The grid `after` is the grid `before` with the rubble laid on the square
footprint of `n` cells per side at offset `lo` around `(x, y)`: every cell of
the footprint that is a cell of the grid and held neither bare land nor the
radiation tile holds `SOMETINYEXP` with the animation and the bulldozable
flag and no other flag, a cell of the footprint that held bare land or the
radiation tile keeps its type code, no cell of the footprint in the grid
carries the zone flag, and every cell outside the footprint is unchanged. -/
def RubbleLaid (c : Consts) (before after : Grid) (x y : Int) (lo : Int) (n : Nat) : Prop :=
  (∀ x1 y1 : Int, inFootprint x y lo n x1 y1 → TestBounds c x1 y1 = true →
    (typeCode c (before y1 x1) ≠ DIRT → typeCode c (before y1 x1) ≠ c.RADTILE →
      after y1 x1 = SOMETINYEXP ||| c.ANIMBIT ||| c.BULLBIT
      ∧ typeCode c (after y1 x1) = SOMETINYEXP
      ∧ flagsOf c (after y1 x1) = c.ANIMBIT ||| c.BULLBIT)
    ∧ (typeCode c (before y1 x1) = DIRT ∨ typeCode c (before y1 x1) = c.RADTILE →
      typeCode c (after y1 x1) = typeCode c (before y1 x1))
    ∧ ¬ zoned c (after y1 x1))
  ∧ (∀ x1 y1 : Int, ¬ inFootprint x y lo n x1 y1 → after y1 x1 = before y1 x1)

/-- A grid for the instances: a wire at (5,5) with a wire on each of its four
sides, a rail at (15,15) with a rail on each side, a road at (25,25) with a
road on each side; bare land elsewhere. -/
def crossGrid : Grid := fun y x =>
  if (y = 5 ∧ (x = 4 ∨ x = 5 ∨ x = 6)) ∨ (x = 5 ∧ (y = 4 ∨ y = 6)) then 208 + 16384
  else if (y = 15 ∧ (x = 14 ∨ x = 15 ∨ x = 16)) ∨ (x = 15 ∧ (y = 14 ∨ y = 16)) then 224
  else if (y = 25 ∧ (x = 24 ∨ x = 25 ∨ x = 26)) ∨ (x = 25 ∧ (y = 24 ∨ y = 26)) then 66
  else 0

/-- The auto-bulldoze step of `ConnectTile` fires at `(x, y)` for a laying
command: funds are positive and the cell carries the bulldozable flag and a
type code in `RUBBLE .. LASTRUBBLE`. -/
def autoClears (c : Consts) (s : City) (x y : Int) : Prop :=
  s.TotalFunds > 0 ∧ s.Map y x &&& c.BULLBIT ≠ 0
    ∧ s.Map y x &&& c.LOMASK ≥ RUBBLE ∧ s.Map y x &&& c.LOMASK ≤ LASTRUBBLE

/-- The walk that starts at `s0` with direction 4 comes to the head of a walk
step with direction `a` and state `t`. -/
inductive Reach (c : Consts) (s0 : Sim) : Nat → Sim → Prop where
  | start : Reach c s0 4 s0
  | step (a : Nat) (t : Sim) (a1 : Nat) (t1 : Sim) :
      Reach c s0 a t → walkStep c a t = Outcome.next a1 t1 → Reach c s0 a1 t1

/-- A state for the instances: the map `crossGrid`, the walk standing on the
wire at (5,5) with capacity 700, nothing counted, the stack empty. -/
def crossSim : Sim :=
  { simOf crossGrid with SMapX := 5, SMapY := 5, MaxPower := 700 }

/-- The state `crossSim` with a full stack: `PWRSTKSIZE - 2` positions. -/
def crossSimFull : Sim :=
  { crossSim with PowerStackNum := 998 }

/-- The cells `(x, y)` and `(x1, y1)` are 4-adjacent. -/
def adjacent (x y x1 y1 : Int) : Prop :=
  (x1 = x ∧ (y1 = y - 1 ∨ y1 = y + 1)) ∨ (y1 = y ∧ (x1 = x - 1 ∨ x1 = x + 1))

/-- The type code of the cell value is one of the two plant codes, the test
`tile == NUCLEAR || tile == POWERPLANT` that `TestForCond` makes on the tile
alone. -/
def plantCode (c : Consts) (v : Nat) : Prop :=
  typeCode c v = c.POWERPLANT ∨ typeCode c v = c.NUCLEAR

/-- The cell `(x, y)` of the grid is powered and joined to a powered plant
cell by a path of 4-adjacent powered cells of the grid. -/
inductive Fed (c : Consts) (m : Grid) : Int → Int → Prop where
  | plant (x y : Int) : inGrid c x y → isPlant c (m y x) → powered c (m y x) → Fed c m x y
  | step (x y x1 y1 : Int) : Fed c m x y → adjacent x y x1 y1 → inGrid c x1 y1 →
      powered c (m y1 x1) → Fed c m x1 y1

/-- What holds, besides `Good`, at the head of every walk step entered with
direction `a`: every powered cell of the grid is fed, and is a plant cell or
a cell with another type code that carries the conductive or the zone flag;
the cell the walk stands on is powered, or a plant cell when it has just been
pulled; the cell a walking step moves to has no plant code; and every
position on the stack is a plant cell or powered. -/
structure Feeding (c : Consts) (a : Nat) (t : Sim) : Prop where
  lit : ∀ x y, inGrid c x y → powered c (t.Map y x) →
    Fed c t.Map x y
    ∧ (isPlant c (t.Map y x) ∨ (¬ plantCode c (t.Map y x) ∧ condOrZone c (t.Map y x)))
  here : isPlant c (t.Map t.SMapY t.SMapX) ∨ powered c (t.Map t.SMapY t.SMapX)
  walking : a < 4 → powered c (t.Map t.SMapY t.SMapX)
    ∧ ¬ plantCode c (t.Map (dirY a t.SMapY) (dirX a t.SMapX))
  stack : ∀ i, 1 ≤ i → i ≤ t.PowerStackNum →
    isPlant c (t.Map (t.PowerStackY i) (t.PowerStackX i))
    ∨ powered c (t.Map (t.PowerStackY i) (t.PowerStackX i))

/-- The cell value conducts for the walk: it carries the conductive or the
zone flag and its type code is none of the two plant codes. -/
def conducts (c : Consts) (v : Nat) : Prop := condOrZone c v ∧ ¬ plantCode c v

/-- The cell `(x, y)` of the grid conducts and is joined to a plant cell by a
path of 4-adjacent conducting cells of the grid. -/
inductive Wired (c : Consts) (m : Grid) : Int → Int → Prop where
  | first (px py x y : Int) : inGrid c px py → isPlant c (m py px) → adjacent px py x y →
      inGrid c x y → conducts c (m y x) → Wired c m x y
  | step (x y x1 y1 : Int) : Wired c m x y → adjacent x y x1 y1 → inGrid c x1 y1 →
      conducts c (m y1 x1) → Wired c m x1 y1

/-- The position `(x, y)` is on the stack. -/
def onStack (t : Sim) (x y : Int) : Prop :=
  ∃ i, 1 ≤ i ∧ i ≤ t.PowerStackNum ∧ t.PowerStackX i = x ∧ t.PowerStackY i = y

/-- What holds at the head of every walk step entered with direction `a` as
long as no push was dropped: a powered cell of the grid that still has a
candidate among its neighbours is on the stack, or is the cell the step moves
to, or has that cell as the candidate; and a plant cell of the grid is
powered, or on the stack, or the cell the step moves to. -/
structure Sweeping (c : Consts) (a : Nat) (t : Sim) : Prop where
  closed : ∀ x y d, inGrid c x y → powered c (t.Map y x) → d < 4 →
    candidate c t.Map x y d = true →
    onStack t x y ∨ (x = dirX a t.SMapX ∧ y = dirY a t.SMapY)
      ∨ (dirX d x = dirX a t.SMapX ∧ dirY d y = dirY a t.SMapY)
  plants : ∀ x y, inGrid c x y → isPlant c (t.Map y x) →
    powered c (t.Map y x) ∨ onStack t x y ∨ (x = dirX a t.SMapX ∧ y = dirY a t.SMapY)

/-- A grid for the instances, on a 2 x 2 world: a coal plant at (0,0); at
(1,0) a cell that carries the conductive flag, no zone flag, and the type code
of the coal plant; bare land at (0,1) and (1,1). -/
def plantCodeGrid : Grid := fun y x =>
  if y = 0 ∧ x = 0 then 750 + 1024
  else if y = 0 ∧ x = 1 then 750 + 16384
  else 0

/-! ## Facts about the constants and the bit operations -/

theorem classic_wf : classic.WF := by
  constructor <;> decide

theorem classic_tiles_wf : classic.TilesWF := by
  constructor <;> decide

theorem land_lor_right (a b m : Nat) : (a ||| b) &&& m = (a &&& m) ||| (b &&& m) := by
  apply Nat.eq_of_testBit_eq; intro i
  simp only [Nat.testBit_or, Nat.testBit_and]
  cases a.testBit i <;> cases b.testBit i <;> cases m.testBit i <;> rfl

theorem land_land_zero (v a m : Nat) (h : a &&& m = 0) : (v &&& a) &&& m = 0 := by
  rw [Nat.land_assoc, h]; simp

theorem land_low (L t : Nat) (hL : ∃ k, k ≤ 15 ∧ L + 1 = 2 ^ k) (ht : t ≤ L) : t &&& L = t := by
  obtain ⟨k, -, hk⟩ := hL
  have hLk : L = 2 ^ k - 1 := by omega
  rw [hLk, Nat.and_pow_two_sub_one_eq_mod]
  apply Nat.mod_eq_of_lt; omega

theorem store_absorb3 (v A t B C : Nat) :
    ((((v &&& A) ||| t ||| B ||| C) &&& A) ||| t ||| B ||| C) = ((v &&& A) ||| t ||| B ||| C) := by
  apply Nat.eq_of_testBit_eq; intro i
  simp only [Nat.testBit_or, Nat.testBit_and]
  cases v.testBit i <;> cases A.testBit i <;> cases t.testBit i <;> cases B.testBit i <;>
    cases C.testBit i <;> rfl

theorem store_absorb4 (v A t B C D : Nat) :
    ((((v &&& A) ||| t ||| B ||| C ||| D) &&& A) ||| t ||| B ||| C ||| D)
      = ((v &&& A) ||| t ||| B ||| C ||| D) := by
  apply Nat.eq_of_testBit_eq; intro i
  simp only [Nat.testBit_or, Nat.testBit_and]
  cases v.testBit i <;> cases A.testBit i <;> cases t.testBit i <;> cases B.testBit i <;>
    cases C.testBit i <;> cases D.testBit i <;> rfl

/-- The type code read back from a cell written by the road or rail block. -/
theorem store_code3 (c : Consts) (h : c.WF) (v t : Nat) (ht : t ≤ c.LOMASK) :
    ((v &&& c.ALLBITS) ||| t ||| c.BULLBIT ||| c.BURNBIT) &&& c.LOMASK = t := by
  rw [land_lor_right, land_lor_right, land_lor_right, land_land_zero _ _ _ h.allbits_lo,
    h.bull_lo, h.burn_lo, land_low _ _ h.lomask_low ht]
  simp

/-- The type code read back from a cell written by the wire block. -/
theorem store_code4 (c : Consts) (h : c.WF) (v t : Nat) (ht : t ≤ c.LOMASK) :
    ((v &&& c.ALLBITS) ||| t ||| c.BULLBIT ||| c.BURNBIT ||| c.CONDBIT) &&& c.LOMASK = t := by
  rw [land_lor_right, store_code3 c h v t ht, h.cond_lo]
  simp

/-! ## FixSingle -/

theorem setCell_same (m : Grid) (x y : Int) (v : Nat) : setCell m x y v y x = v := by
  simp [setCell]

theorem setCell_other (m : Grid) (x y x1 y1 : Int) (v : Nat) (hne : ¬ (x1 = x ∧ y1 = y)) :
    setCell m x y v y1 x1 = m y1 x1 := by
  unfold setCell
  rw [if_neg]
  intro hh
  exact hne ⟨hh.2, hh.1⟩

theorem connectMask_setCell (c : Consts) (m : Grid) (conn : Nat → Bool) (x y : Int) (v : Nat) :
    connectMask c (setCell m x y v) conn x y = connectMask c m conn x y := by
  unfold connectMask
  rw [setCell_other m x y x (y - 1) v (by omega), setCell_other m x y (x + 1) y v (by omega),
    setCell_other m x y x (y + 1) v (by omega), setCell_other m x y (x - 1) y v (by omega)]

theorem RoadTable_getD (c : Consts) (k : Nat) (hk : k ≤ 15) :
    (RoadTable c).getD k 0 = c.ROADS + k := by
  interval_cases k <;> rfl

theorem RailTable_getD (c : Consts) (k : Nat) (hk : k ≤ 15) :
    (RailTable c).getD k 0 = c.RAILBASE + k := by
  interval_cases k <;> rfl

theorem WireTable_getD (c : Consts) (k : Nat) (hk : k ≤ 15) :
    (WireTable c).getD k 0 = c.POWERBASE + k ∨ (WireTable c).getD k 0 = 210
      ∨ (WireTable c).getD k 0 = 211 := by
  interval_cases k <;> simp [WireTable]

theorem FixSingle_other (c : Consts) (Map : Grid) (x y x1 y1 : Int)
    (hne : ¬ (x1 = x ∧ y1 = y)) : FixSingle c Map x y y1 x1 = Map y1 x1 := by
  unfold FixSingle
  dsimp only
  split_ifs <;> first | rfl | exact setCell_other _ _ _ _ _ _ hne

theorem FixSingle_outside (c : Consts) (Map : Grid) (x y : Int)
    (hb : TestBounds c x y = false) : FixSingle c Map x y = Map := by
  unfold FixSingle
  simp [hb]

theorem FixSingle_uncategorised (c : Consts) (Map : Grid) (x y : Int)
    (h1 : ¬ (c.ROADBASE ≤ typeCode c (Map y x) ∧ typeCode c (Map y x) ≤ c.LASTROAD))
    (h2 : ¬ (c.RAILBASE ≤ typeCode c (Map y x) ∧ typeCode c (Map y x) ≤ c.LASTRAIL))
    (h3 : ¬ (c.POWERBASE ≤ typeCode c (Map y x) ∧ typeCode c (Map y x) ≤ LASTPOWER)) :
    FixSingle c Map x y = Map := by
  unfold typeCode at h1 h2 h3
  unfold FixSingle
  dsimp only
  rw [if_neg h1, if_neg h2, if_neg h3]
  split_ifs <;> rfl

/-- The second of two calls of `FixSingle` at a cell whose stored value `w`
has the shape the first call writes, with type code `t`: it rewrites nothing. -/
theorem FixSingle_settled (c : Consts) (m : Grid) (x y : Int) (w : Nat)
    (hw : m y x = w)
    (hroad : c.ROADBASE ≤ w &&& c.LOMASK ∧ w &&& c.LOMASK ≤ c.LASTROAD →
      (w &&& c.ALLBITS) ||| (RoadTable c).getD (connectMask c m (roadConn c) x y &&& 15) 0
        ||| c.BULLBIT ||| c.BURNBIT = w)
    (hrail : ¬ (c.ROADBASE ≤ w &&& c.LOMASK ∧ w &&& c.LOMASK ≤ c.LASTROAD) →
      c.RAILBASE ≤ w &&& c.LOMASK ∧ w &&& c.LOMASK ≤ c.LASTRAIL →
      (w &&& c.ALLBITS) ||| (RailTable c).getD (connectMask c m (railConn c) x y &&& 15) 0
        ||| c.BULLBIT ||| c.BURNBIT = w)
    (hwire : ¬ (c.ROADBASE ≤ w &&& c.LOMASK ∧ w &&& c.LOMASK ≤ c.LASTROAD) →
      ¬ (c.RAILBASE ≤ w &&& c.LOMASK ∧ w &&& c.LOMASK ≤ c.LASTRAIL) →
      c.POWERBASE ≤ w &&& c.LOMASK ∧ w &&& c.LOMASK ≤ LASTPOWER →
      (w &&& c.ALLBITS) ||| (WireTable c).getD (connectMask c m (wireConn c) x y &&& 15) 0
        ||| c.BULLBIT ||| c.BURNBIT ||| c.CONDBIT = w) :
    FixSingle c m x y = m := by
  have hself : ∀ v, v = w → setCell m x y v = m := by
    intro v hv
    funext y1 x1
    unfold setCell
    split_ifs with hh
    · rw [hh.1, hh.2, hw, hv]
    · rfl
  unfold FixSingle
  dsimp only
  rw [hw]
  split_ifs with hb ht h1 h2 h3
  all_goals first
    | rfl
    | exact hself _ (hroad h1)
    | exact hself _ (hrail h1 h2)
    | exact hself _ (hwire h1 h2 h3)

/-- The four things `FixSingle` can do: nothing, or rewrite the cell from the
road, the rail or the wire table. -/
theorem FixSingle_cases (c : Consts) (m : Grid) (x y : Int) :
    FixSingle c m x y = m
    ∨ (∃ k, k ≤ 15 ∧ FixSingle c m x y = setCell m x y
        ((m y x &&& c.ALLBITS) ||| (RoadTable c).getD k 0 ||| c.BULLBIT ||| c.BURNBIT)
        ∧ k = connectMask c m (roadConn c) x y &&& 15)
    ∨ (∃ k, k ≤ 15 ∧ FixSingle c m x y = setCell m x y
        ((m y x &&& c.ALLBITS) ||| (RailTable c).getD k 0 ||| c.BULLBIT ||| c.BURNBIT)
        ∧ k = connectMask c m (railConn c) x y &&& 15)
    ∨ (∃ k, k ≤ 15 ∧ FixSingle c m x y = setCell m x y
        ((m y x &&& c.ALLBITS) ||| (WireTable c).getD k 0 ||| c.BULLBIT ||| c.BURNBIT
          ||| c.CONDBIT)
        ∧ k = connectMask c m (wireConn c) x y &&& 15) := by
  unfold FixSingle
  dsimp only
  split_ifs with hb ht h1 h2 h3
  all_goals first
    | exact Or.inl rfl
    | exact Or.inr (Or.inl ⟨_, Nat.and_le_right, rfl, rfl⟩)
    | exact Or.inr (Or.inr (Or.inl ⟨_, Nat.and_le_right, rfl, rfl⟩))
    | exact Or.inr (Or.inr (Or.inr ⟨_, Nat.and_le_right, rfl, rfl⟩))

theorem FixSingle_twice (c : Consts) (h : c.WF) (ht : c.TilesWF) (m : Grid) (x y : Int) :
    FixSingle c (FixSingle c m x y) x y = FixSingle c m x y := by
  have hlp : LASTPOWER = 222 := rfl
  have hlh : LHPOWER = 210 := rfl
  have t1 := ht.roads_ge
  have t2 := ht.roads_le
  have t3 := ht.road_power
  have t4 := ht.power_le
  have t5 := ht.power_rail
  have t6 := ht.lastpower_rail
  have t7 := ht.rail_fits
  rcases FixSingle_cases c m x y with h0 | ⟨k, hk, hfix, hmask⟩ | ⟨k, hk, hfix, hmask⟩
    | ⟨k, hk, hfix, hmask⟩
  · rw [h0, h0]
  · rw [hfix]
    have htab := RoadTable_getD c k hk
    have hcode := store_code3 c h (m y x) ((RoadTable c).getD k 0) (by omega)
    apply FixSingle_settled c _ x y _ (setCell_same _ _ _ _)
    · intro _
      rw [connectMask_setCell, ← hmask]
      exact store_absorb3 _ _ _ _ _
    · intro hn _
      rw [hcode] at hn
      exact absurd ⟨by omega, by omega⟩ hn
    · intro hn _ _
      rw [hcode] at hn
      exact absurd ⟨by omega, by omega⟩ hn
  · rw [hfix]
    have htab := RailTable_getD c k hk
    have hcode := store_code3 c h (m y x) ((RailTable c).getD k 0) (by omega)
    apply FixSingle_settled c _ x y _ (setCell_same _ _ _ _)
    · intro hr
      rw [hcode] at hr
      omega
    · intro _ _
      rw [connectMask_setCell, ← hmask]
      exact store_absorb3 _ _ _ _ _
    · intro _ _ hw
      rw [hcode] at hw
      omega
  · rw [hfix]
    have htab := WireTable_getD c k hk
    have hcode := store_code4 c h (m y x) ((WireTable c).getD k 0) (by omega)
    apply FixSingle_settled c _ x y _ (setCell_same _ _ _ _)
    · intro hr
      rw [hcode] at hr
      omega
    · intro _ hr
      rw [hcode] at hr
      omega
    · intro _ _ _
      rw [connectMask_setCell, ← hmask]
      exact store_absorb4 _ _ _ _ _ _

/-- C9. `FixSingle` is idempotent: for every grid and every `(x, y)` the grid
after two consecutive calls `FixSingle(x, y)` is the grid after one call, and
so is the type code stored at `(x, y)`. -/
theorem FixSingle_idempotent (c : Consts) (h : c.WF) (ht : c.TilesWF) (m : Grid) (x y : Int) :
    FixSingle c (FixSingle c m x y) x y = FixSingle c m x y
    ∧ typeCode c (FixSingle c (FixSingle c m x y) x y y x)
        = typeCode c (FixSingle c m x y y x) := by
  have h2 := FixSingle_twice c h ht m x y
  exact ⟨h2, by rw [h2]⟩

/-- C9, instance: the road at (5,5) of `toolsGrid` under the classic constants. -/
theorem FixSingle_idempotent_witness :
    classic.WF ∧ classic.TilesWF
    ∧ FixSingle classic (FixSingle classic toolsGrid 5 5) 5 5 = FixSingle classic toolsGrid 5 5
    ∧ typeCode classic (FixSingle classic (FixSingle classic toolsGrid 5 5) 5 5 5 5)
        = typeCode classic (FixSingle classic toolsGrid 5 5 5 5) :=
  ⟨classic_wf, classic_tiles_wf,
    FixSingle_idempotent classic classic_wf classic_tiles_wf toolsGrid 5 5⟩

/-- C10. `FixSingle(x, y)` never modifies a cell other than `(x, y)`, and it
leaves the whole grid unchanged when `(x, y)` is out of bounds or when the
type code at `(x, y)` lies outside the three ranges `ROADBASE..LASTROAD`,
`RAILBASE..LASTRAIL` and `POWERBASE..LASTPOWER`. -/
theorem FixSingle_frame (c : Consts) (m : Grid) (x y : Int) :
    (∀ x1 y1 : Int, ¬ (x1 = x ∧ y1 = y) → FixSingle c m x y y1 x1 = m y1 x1)
    ∧ (TestBounds c x y = false → FixSingle c m x y = m)
    ∧ (¬ (c.ROADBASE ≤ typeCode c (m y x) ∧ typeCode c (m y x) ≤ c.LASTROAD) →
        ¬ (c.RAILBASE ≤ typeCode c (m y x) ∧ typeCode c (m y x) ≤ c.LASTRAIL) →
        ¬ (c.POWERBASE ≤ typeCode c (m y x) ∧ typeCode c (m y x) ≤ LASTPOWER) →
        FixSingle c m x y = m) :=
  ⟨fun x1 y1 hne => FixSingle_other c m x y x1 y1 hne,
    FixSingle_outside c m x y, FixSingle_uncategorised c m x y⟩

/-- C10, instance on `toolsGrid`: fixing the road at (5,5) leaves the wire at
(6,5) alone, a call at (120,5) is out of bounds, and a call on the bare land
at (9,9) changes nothing. -/
theorem FixSingle_frame_witness :
    FixSingle classic toolsGrid 5 5 5 6 = toolsGrid 5 6
    ∧ FixSingle classic toolsGrid 120 5 = toolsGrid
    ∧ FixSingle classic toolsGrid 9 9 = toolsGrid :=
  ⟨(FixSingle_frame classic toolsGrid 5 5).1 6 5 (by decide),
    (FixSingle_frame classic toolsGrid 120 5).2.1 (by decide),
    (FixSingle_frame classic toolsGrid 9 9).2.2 (by decide) (by decide) (by decide)⟩

/-! ## The loops over all cells -/

theorem foldl_flatMap_eq {α β σ : Type} (f : σ → β → σ) (g : α → List β) (l : List α) (s : σ) :
    (l.flatMap g).foldl f s = l.foldl (fun s a => (g a).foldl f s) s := by
  induction l generalizing s with
  | nil => rfl
  | cons a l ih => simp [List.flatMap_cons, List.foldl_append, ih]

/-- The nested loop visits the list `cells` from left to right. -/
theorem forEachCell_eq {σ : Type} (c : Consts) (body : Int → Int → σ → σ) (s : σ) :
    forEachCell c body s = (cells c).foldl (fun s q => body q.1 q.2 s) s := by
  unfold forEachCell cells
  rw [foldl_flatMap_eq]
  congr
  funext s y
  rw [List.foldl_map]

theorem mem_cells (c : Consts) (x y : Int) : (x, y) ∈ cells c ↔ inGrid c x y := by
  unfold cells inGrid
  simp only [List.mem_flatMap, List.mem_map, List.mem_range, Prod.mk.injEq]
  constructor
  · rintro ⟨b, hb, a, ha, rfl, rfl⟩
    omega
  · rintro ⟨h1, h2, h3, h4⟩
    exact ⟨y.toNat, by omega, x.toNat, by omega, by omega, by omega⟩

theorem cells_nodup (c : Consts) : (cells c).Nodup := by
  unfold cells
  rw [List.nodup_flatMap]
  constructor
  · intro y _
    apply List.Nodup.map _ (List.nodup_range _)
    intro a b hab
    simp only [Prod.mk.injEq, Nat.cast_inj, and_true] at hab
    exact hab
  · apply List.Pairwise.imp _ (List.nodup_range c.WORLD_Y)
    intro a b hab
    simp only [Function.onFun]
    intro q hq1 hq2
    simp only [List.mem_map, List.mem_range] at hq1 hq2
    obtain ⟨x1, -, rfl⟩ := hq1
    obtain ⟨x2, -, h2⟩ := hq2
    simp only [Prod.mk.injEq, Nat.cast_inj] at h2
    exact hab h2.2.symm

/-- Induction over a left fold, the invariant seeing the part already visited. -/
theorem foldl_split_inv {α σ : Type} (f : σ → α → σ) (P : List α → σ → Prop) (l : List α)
    (s : σ) (h0 : P [] s)
    (hstep : ∀ pre a post t, l = pre ++ a :: post → P pre t → P (pre ++ [a]) (f t a)) :
    P l (l.foldl f s) := by
  have key : ∀ post pre t, l = pre ++ post → P pre t → P l (post.foldl f t) := by
    intro post
    induction post with
    | nil =>
      intro pre t hl hp
      rw [List.append_nil] at hl
      rw [hl]
      exact hp
    | cons a post ih =>
      intro pre t hl hp
      rw [List.foldl_cons]
      apply ih (pre ++ [a]) (f t a)
      · rw [hl, List.append_assoc]; rfl
      · exact hstep pre a post t hl hp
  exact key l [] s rfl h0

/-- Induction over the nested loop: the invariant sees the cells already
visited, and the cell being visited is a cell of the grid not visited before. -/
theorem forEachCell_inv {σ : Type} (c : Consts) (body : Int → Int → σ → σ)
    (P : List (Int × Int) → σ → Prop) (s : σ) (h0 : P [] s)
    (hstep : ∀ pre x y t, inGrid c x y → (x, y) ∉ pre → (∀ q ∈ pre, q ∈ cells c) →
      P pre t → P (pre ++ [(x, y)]) (body x y t)) :
    P (cells c) (forEachCell c body s) := by
  rw [forEachCell_eq]
  apply foldl_split_inv _ P _ _ h0
  intro pre a post t hl hp
  have hnd := cells_nodup c
  rw [hl] at hnd
  have hmem : a ∈ cells c := by rw [hl]; simp
  obtain ⟨x, y⟩ := a
  apply hstep pre x y t ((mem_cells c x y).1 hmem) _ _ hp
  · intro hin
    have := (List.nodup_append.1 hnd).2.2
    exact this hin (List.mem_cons_self _ _)
  · intro q hq
    rw [hl]
    exact List.mem_append_left _ hq

/-! ## The loops of the scan in closed form -/

theorem countCells_eq (c : Consts) (m : Grid) (p : Nat → Prop) [DecidablePred p] :
    countCells c m p = (cells c).countP fun q => decide (p (m q.2 q.1)) := rfl

theorem CountPowerPlants_eq (c : Consts) (hne : c.POWERPLANT ≠ c.NUCLEAR) (s : Sim) :
    CountPowerPlants c s = { s with
      CoalPop := countCells c s.Map (isCoal c)
      NuclearPop := countCells c s.Map (isNuclear c) } := by
  unfold CountPowerPlants
  have key := forEachCell_inv c (countBody c)
    (fun pre t => t = { s with
      CoalPop := pre.countP fun q => decide (isCoal c (s.Map q.2 q.1))
      NuclearPop := pre.countP fun q => decide (isNuclear c (s.Map q.2 q.1)) })
    { s with CoalPop := 0, NuclearPop := 0 } rfl
    (by
      intro pre x y t _ _ _ ht
      subst ht
      simp only [List.countP_append, List.countP_cons, List.countP_nil]
      unfold countBody isCoal isNuclear zoned typeCode
      dsimp only
      by_cases hz : s.Map y x &&& c.ZONEBIT ≠ 0
      · by_cases h1 : s.Map y x &&& c.LOMASK = c.POWERPLANT
        · have h2 : ¬ (s.Map y x &&& c.LOMASK = c.NUCLEAR) := by rw [h1]; exact hne
          simp [hz, h1, hne]
        · by_cases h2 : s.Map y x &&& c.LOMASK = c.NUCLEAR
          · have h3 : ¬ c.NUCLEAR = c.POWERPLANT := fun e => hne e.symm
            simp [hz, h2, h3]
          · simp [hz, h1, h2]
      · simp [hz])
  exact key

theorem clearLoop_eq (c : Consts) (s : Sim) :
    forEachCell c (clearBody c) s = { s with
      Map := fun y x => if inGrid c x y then clearBits (s.Map y x) c.POWERBIT else s.Map y x
      PowerMap := fun y x => if inGrid c x y then 0 else s.PowerMap y x } := by
  have key := forEachCell_inv c (clearBody c)
    (fun pre t => t = { s with
      Map := fun y x => if (x, y) ∈ pre then clearBits (s.Map y x) c.POWERBIT else s.Map y x
      PowerMap := fun y x => if (x, y) ∈ pre then 0 else s.PowerMap y x })
    s (by simp)
    (by
      intro pre x y t _ hnew _ ht
      subst ht
      unfold clearBody
      simp only [if_neg hnew]
      congr 1
      · funext y1 x1
        unfold setCell
        by_cases hh : y1 = y ∧ x1 = x
        · simp [hh]
        · have : ¬ (x1 = x ∧ y1 = y) := fun e => hh ⟨e.2, e.1⟩
          simp [hh, this]
      · funext y1 x1
        unfold setCell
        by_cases hh : y1 = y ∧ x1 = x
        · simp [hh]
        · have : ¬ (x1 = x ∧ y1 = y) := fun e => hh ⟨e.2, e.1⟩
          simp [hh, this])
  rw [key]
  congr 1
  · funext y x
    simp only [mem_cells]
  · funext y x
    simp only [mem_cells]

theorem zoneCounts_eq (c : Consts) (s : Sim) :
    zoneCounts c s = { s with
      PwrdZCnt := countCells c s.Map (fun v => zoned c v ∧ powered c v)
      UnpwrdZCnt := countCells c s.Map (fun v => zoned c v ∧ ¬ powered c v) } := by
  unfold zoneCounts
  have key := forEachCell_inv c (zoneBody c)
    (fun pre t => t = { s with
      PwrdZCnt := pre.countP fun q => decide (zoned c (s.Map q.2 q.1) ∧ powered c (s.Map q.2 q.1))
      UnpwrdZCnt := pre.countP fun q =>
        decide (zoned c (s.Map q.2 q.1) ∧ ¬ powered c (s.Map q.2 q.1)) })
    { s with PwrdZCnt := 0, UnpwrdZCnt := 0 } rfl
    (by
      intro pre x y t _ _ _ ht
      subst ht
      simp only [List.countP_append, List.countP_cons, List.countP_nil]
      unfold zoneBody zoned powered
      dsimp only
      by_cases hz : s.Map y x &&& c.ZONEBIT ≠ 0
      · by_cases hp : s.Map y x &&& c.POWERBIT ≠ 0
        · simp [hz, hp]
        · simp [hz, hp]
      · simp [hz])
  exact key

theorem noPlantCounts_eq (c : Consts) (s : Sim) :
    noPlantCounts c s = { s with
      PwrdZCnt := 0
      UnpwrdZCnt := countCells c s.Map (zoned c) } := by
  unfold noPlantCounts
  have key := forEachCell_inv c (unpoweredBody c)
    (fun pre t => t = { s with
      PwrdZCnt := 0
      UnpwrdZCnt := pre.countP fun q => decide (zoned c (s.Map q.2 q.1)) })
    { s with PwrdZCnt := 0, UnpwrdZCnt := 0 } rfl
    (by
      intro pre x y t _ _ _ ht
      subst ht
      simp only [List.countP_append, List.countP_cons, List.countP_nil]
      unfold unpoweredBody zoned
      dsimp only
      by_cases hz : s.Map y x &&& c.ZONEBIT ≠ 0
      · simp [hz]
      · simp [hz])
  exact key

theorem stackOf_nil (old : Nat → Int) : stackOf old [] = old := by
  funext i
  unfold stackOf
  rw [if_neg]
  simp only [List.length_nil]
  omega

theorem stackOf_push (old : Nat → Int) (l : List Int) (x : Int)
    (h : l.length < PWRSTKSIZE - 2) :
    Function.update (stackOf old l) (l.length + 1) x = stackOf old (l ++ [x]) := by
  funext i
  unfold stackOf
  simp only [Function.update_apply, List.length_append, List.length_singleton]
  by_cases hi : i = l.length + 1
  · subst hi
    have h1 : 1 ≤ l.length + 1 ∧ l.length + 1 ≤ min (l.length + 1) (PWRSTKSIZE - 2) := by omega
    simp [h1]
  · rw [if_neg hi]
    by_cases h1 : 1 ≤ i ∧ i ≤ min l.length (PWRSTKSIZE - 2)
    · have h2 : 1 ≤ i ∧ i ≤ min (l.length + 1) (PWRSTKSIZE - 2) := by omega
      rw [if_pos h1, if_pos h2]
      rw [List.getD_append _ _ _ _ (by omega)]
    · have h2 : ¬ (1 ≤ i ∧ i ≤ min (l.length + 1) (PWRSTKSIZE - 2)) := by omega
      rw [if_neg h1, if_neg h2]

theorem stackOf_full (old : Nat → Int) (l : List Int) (x : Int)
    (h : ¬ l.length < PWRSTKSIZE - 2) : stackOf old (l ++ [x]) = stackOf old l := by
  funext i
  unfold stackOf
  simp only [List.length_append, List.length_singleton]
  by_cases h1 : 1 ≤ i ∧ i ≤ min l.length (PWRSTKSIZE - 2)
  · have h2 : 1 ≤ i ∧ i ≤ min (l.length + 1) (PWRSTKSIZE - 2) := by omega
    rw [if_pos h1, if_pos h2]
    rw [List.getD_append _ _ _ _ (by omega)]
  · have h2 : ¬ (1 ≤ i ∧ i ≤ min (l.length + 1) (PWRSTKSIZE - 2)) := by omega
    rw [if_neg h1, if_neg h2]

theorem FindPowerPlants_eq (c : Consts) (s : Sim) :
    FindPowerPlants c s = { s with
      PowerStackNum := min (plantCells c s.Map).length (PWRSTKSIZE - 2)
      PowerStackX := stackOf s.PowerStackX ((plantCells c s.Map).map Prod.fst)
      PowerStackY := stackOf s.PowerStackY ((plantCells c s.Map).map Prod.snd) } := by
  unfold FindPowerPlants plantCells
  have key := forEachCell_inv c (findBody c)
    (fun pre t => t = { s with
      PowerStackNum := min (pre.filter fun q => decide (isPlant c (s.Map q.2 q.1))).length
        (PWRSTKSIZE - 2)
      PowerStackX := stackOf s.PowerStackX
        ((pre.filter fun q => decide (isPlant c (s.Map q.2 q.1))).map Prod.fst)
      PowerStackY := stackOf s.PowerStackY
        ((pre.filter fun q => decide (isPlant c (s.Map q.2 q.1))).map Prod.snd) })
    { s with PowerStackNum := 0 }
    (by simp [stackOf_nil])
    (by
      intro pre x y t _ _ _ ht
      subst ht
      rw [List.filter_append]
      by_cases hp : isPlant c (s.Map y x)
      · have hf : List.filter (fun q => decide (isPlant c (s.Map q.2 q.1))) [(x, y)] = [(x, y)] := by
          simp [List.filter_cons, hp]
        have hb : s.Map y x &&& c.ZONEBIT ≠ 0 ∧
            (s.Map y x &&& c.LOMASK = c.POWERPLANT ∨ s.Map y x &&& c.LOMASK = c.NUCLEAR) := by
          unfold isPlant isCoal isNuclear zoned typeCode at hp
          tauto
        rw [hf]
        unfold findBody
        dsimp only
        rw [if_pos hb.1, if_pos hb.2]
        unfold QueuePowerPlant
        dsimp only
        generalize (pre.filter fun q => decide (isPlant c (s.Map q.2 q.1))) = pl
        by_cases hlen : pl.length < PWRSTKSIZE - 2
        · have h1 : min pl.length (PWRSTKSIZE - 2) = pl.length := by omega
          have h2 : min (pl.length + 1) (PWRSTKSIZE - 2) = pl.length + 1 := by omega
          rw [h1, if_pos hlen]
          simp only [List.map_append, List.map_cons, List.map_nil, List.length_append,
            List.length_singleton, h2]
          have e1 := stackOf_push s.PowerStackX (pl.map Prod.fst) x (by simpa using hlen)
          have e2 := stackOf_push s.PowerStackY (pl.map Prod.snd) y (by simpa using hlen)
          simp only [List.length_map] at e1 e2
          rw [e1, e2]
        · have h1 : min pl.length (PWRSTKSIZE - 2) = PWRSTKSIZE - 2 := by omega
          have h2 : min (pl.length + 1) (PWRSTKSIZE - 2) = PWRSTKSIZE - 2 := by omega
          rw [h1, if_neg (by omega)]
          simp only [List.map_append, List.map_cons, List.map_nil, List.length_append,
            List.length_singleton, h2]
          rw [stackOf_full _ _ _ (by simpa using hlen), stackOf_full _ _ _ (by simpa using hlen)]
      · have hf : List.filter (fun q => decide (isPlant c (s.Map q.2 q.1))) [(x, y)] = [] := by
          simp [List.filter_cons, hp]
        have hb : ¬ (s.Map y x &&& c.ZONEBIT ≠ 0 ∧
            (s.Map y x &&& c.LOMASK = c.POWERPLANT ∨ s.Map y x &&& c.LOMASK = c.NUCLEAR)) := by
          unfold isPlant isCoal isNuclear zoned typeCode at hp
          tauto
        rw [hf, List.append_nil]
        unfold findBody
        dsimp only
        by_cases hz : s.Map y x &&& c.ZONEBIT ≠ 0
        · rw [if_pos hz, if_neg (fun e => hb ⟨hz, e⟩)]
        · rw [if_neg hz])
  exact key

/-! ## The powered flag -/

theorem testBit_of_land_zero (a b i : Nat) (h : a &&& b = 0) (ha : a.testBit i = true) :
    b.testBit i = false := by
  have := congrArg (fun n => Nat.testBit n i) h
  simp only [Nat.testBit_and, Nat.zero_testBit, ha, Bool.true_and] at this
  exact this

theorem testBit_of_lt_16 (a i : Nat) (h : a < 65536) (ha : a.testBit i = true) : i < 16 := by
  by_contra hi
  have : a.testBit i = false := by
    apply Nat.testBit_lt_two_pow
    calc a < 2 ^ 16 := by omega
      _ ≤ 2 ^ i := Nat.pow_le_pow_right (by norm_num) (by omega)
  rw [this] at ha
  exact Bool.false_ne_true ha

theorem testBit_ffff (i : Nat) : (0xFFFF : Nat).testBit i = decide (i < 16) := by
  have : (0xFFFF : Nat) = 2 ^ 16 - 1 := by norm_num
  rw [this, Nat.testBit_two_pow_sub_one]

/-- Clearing the bits of `p` leaves none of them. -/
theorem clearBits_self (v p : Nat) (hp : p < 65536) : clearBits v p &&& p = 0 := by
  apply Nat.eq_of_testBit_eq
  intro i
  unfold clearBits
  simp only [Nat.testBit_and, Nat.testBit_xor, Nat.zero_testBit, testBit_ffff]
  by_cases hpi : p.testBit i = true
  · have := testBit_of_lt_16 p i hp hpi
    simp [hpi, this]
  · simp [hpi]

/-- Clearing the bits of `p` keeps every bit of a 16-bit mask disjoint from `p`. -/
theorem clearBits_mask (v p m : Nat) (hm : m < 65536) (hd : p &&& m = 0) :
    clearBits v p &&& m = v &&& m := by
  apply Nat.eq_of_testBit_eq
  intro i
  unfold clearBits
  simp only [Nat.testBit_and, Nat.testBit_xor, testBit_ffff]
  by_cases hmi : m.testBit i = true
  · have h16 := testBit_of_lt_16 m i hm hmi
    have hpi : p.testBit i = false := by
      by_contra hh
      have := testBit_of_land_zero p m i hd (by simpa using hh)
      rw [this] at hmi
      exact Bool.false_ne_true hmi
    simp [hmi, h16, hpi]
  · simp [hmi]

/-- Setting the bits of `p` keeps every bit of a mask disjoint from `p`. -/
theorem lor_mask (v p m : Nat) (hd : p &&& m = 0) : (v ||| p) &&& m = v &&& m := by
  rw [land_lor_right, hd]
  simp

theorem lor_self (v p : Nat) : (v ||| p) &&& p = p := by
  apply Nat.eq_of_testBit_eq
  intro i
  simp only [Nat.testBit_and, Nat.testBit_or]
  cases v.testBit i <;> cases p.testBit i <;> rfl

theorem powered_lor (c : Consts) (h : c.WF) (v : Nat) : powered c (v ||| c.POWERBIT) := by
  unfold powered
  rw [lor_self]
  have := h.power_pos
  omega

theorem not_powered_clearBits (c : Consts) (h : c.WF) (v : Nat) :
    ¬ powered c (clearBits v c.POWERBIT) := by
  unfold powered
  rw [clearBits_self _ _ h.power_lt]
  simp

theorem zoned_clearBits (c : Consts) (h : c.WF) (v : Nat) :
    zoned c (clearBits v c.POWERBIT) ↔ zoned c v := by
  unfold zoned
  rw [clearBits_mask _ _ _ h.zone_lt h.power_zone]

theorem zoned_lor (c : Consts) (h : c.WF) (v : Nat) :
    zoned c (v ||| c.POWERBIT) ↔ zoned c v := by
  unfold zoned
  rw [lor_mask _ _ _ h.power_zone]

/-! ## The scan without a plant -/

/-- The state when the clearing loop has run. -/
theorem scanPrelude_eq (c : Consts) (h : c.WF) (s : Sim) :
    scanPrelude c s = { s with
      Map := fun y x => if inGrid c x y then clearBits (s.Map y x) c.POWERBIT else s.Map y x
      PowerMap := fun y x => if inGrid c x y then 0 else s.PowerMap y x
      CoalPop := countCells c s.Map (isCoal c)
      NuclearPop := countCells c s.Map (isNuclear c)
      MaxPower := countCells c s.Map (isCoal c) * 700 + countCells c s.Map (isNuclear c) * 2000
      NumPower := 0 } := by
  unfold scanPrelude
  dsimp only
  rw [clearLoop_eq, CountPowerPlants_eq c h.plants_ne]

theorem countCells_eq_zero (c : Consts) (m : Grid) (p : Nat → Prop) [DecidablePred p]
    (h : ∀ x y, inGrid c x y → ¬ p (m y x)) : countCells c m p = 0 := by
  unfold countCells
  rw [List.countP_eq_zero]
  intro q hq
  obtain ⟨x, y⟩ := q
  have := h x y ((mem_cells c x y).1 hq)
  simpa using this

theorem countCells_pos (c : Consts) (m : Grid) (p : Nat → Prop) [DecidablePred p]
    (x y : Int) (hin : inGrid c x y) (hp : p (m y x)) : 0 < countCells c m p := by
  unfold countCells
  rw [List.countP_pos_iff]
  exact ⟨(x, y), (mem_cells c x y).2 hin, by simpa using hp⟩

/-- The scan on a grid without a plant: the no-plant exit is taken. -/
theorem DoPowerScan_noPlant (c : Consts) (h : c.WF) (s : Sim)
    (hno : ∀ x y, inGrid c x y → ¬ isCoal c (s.Map y x) ∧ ¬ isNuclear c (s.Map y x)) :
    DoPowerScan c s = some (noPlantCounts c (scanPrelude c s)) := by
  have h1 : countCells c s.Map (isCoal c) = 0 :=
    countCells_eq_zero c s.Map _ fun x y hin => (hno x y hin).1
  have h2 : countCells c s.Map (isNuclear c) = 0 :=
    countCells_eq_zero c s.Map _ fun x y hin => (hno x y hin).2
  unfold DoPowerScan
  dsimp only
  rw [if_pos]
  rw [scanPrelude_eq c h]
  exact ⟨h1, h2⟩

theorem staleGrid_noPlant (x y : Int) :
    ¬ isCoal classic (staleGrid y x) ∧ ¬ isNuclear classic (staleGrid y x) := by
  unfold staleGrid
  split_ifs <;> decide

/-- C1. On every grid that contains no cell carrying the zone flag with the
type code `POWERPLANT` or `NUCLEAR`, `DoPowerScan` returns, and afterwards no
cell of `Map` has the powered flag and every `PowerMap` entry is 0. -/
theorem DoPowerScan_no_plant_unpowered (c : Consts) (h : c.WF) (s : Sim)
    (hno : ∀ x y, inGrid c x y → ¬ isCoal c (s.Map y x) ∧ ¬ isNuclear c (s.Map y x)) :
    ∃ s1, DoPowerScan c s = some s1
      ∧ ∀ x y, inGrid c x y → ¬ powered c (s1.Map y x) ∧ s1.PowerMap y x = 0 := by
  refine ⟨_, DoPowerScan_noPlant c h s hno, ?_⟩
  intro x y hin
  rw [noPlantCounts_eq, scanPrelude_eq c h]
  dsimp only
  rw [if_pos hin, if_pos hin]
  exact ⟨not_powered_clearBits c h _, rfl⟩

/-- C1, instance: `staleGrid` under the classic constants. -/
theorem DoPowerScan_no_plant_unpowered_witness :
    (∀ x y, inGrid classic x y →
      ¬ isCoal classic ((simOf staleGrid).Map y x) ∧ ¬ isNuclear classic ((simOf staleGrid).Map y x))
    ∧ ∃ s1, DoPowerScan classic (simOf staleGrid) = some s1
      ∧ ∀ x y, inGrid classic x y → ¬ powered classic (s1.Map y x) ∧ s1.PowerMap y x = 0 :=
  ⟨fun x y _ => staleGrid_noPlant x y,
    DoPowerScan_no_plant_unpowered classic classic_wf (simOf staleGrid)
      (fun x y _ => staleGrid_noPlant x y)⟩

/-! ## The helpers of the walk -/

/-- `MoveMapSim` writes nothing but the position. -/
theorem MoveMapSim_frame (c : Consts) (d : Nat) (s : Sim) :
    (MoveMapSim c d s).1 = { s with
      SMapX := (MoveMapSim c d s).1.SMapX
      SMapY := (MoveMapSim c d s).1.SMapY } := by
  unfold MoveMapSim
  split <;> (try split_ifs) <;> rfl

/-- `TestForCond` restores the position: the state is unchanged. -/
theorem TestForCond_fst (c : Consts) (d : Nat) (s : Sim) : (TestForCond c d s).1 = s := by
  unfold TestForCond
  dsimp only
  split_ifs <;> (dsimp only; rw [MoveMapSim_frame])

theorem probeLoop_eq (c : Consts) (s : Sim) (fuel Dir ConNum ADir : Nat) :
    probeLoop c fuel Dir ConNum ADir s
      = (s, probePure (fun d => (TestForCond c d s).2) fuel Dir ConNum ADir) := by
  induction fuel generalizing Dir ConNum ADir with
  | zero => rfl
  | succ n ih =>
    unfold probeLoop probePure
    dsimp only
    split_ifs
    · rw [TestForCond_fst, ih]
    · rw [TestForCond_fst, ih]
    · rfl

/-- In the grid, `MoveMapSim` goes to the neighbour when there is one and
stays otherwise. -/
theorem MoveMapSim_inGrid (c : Consts) (d : Nat) (s : Sim) (hd : d ≤ 4)
    (hin : inGrid c s.SMapX s.SMapY) :
    MoveMapSim c d s =
      if inGrid c (dirX d s.SMapX) (dirY d s.SMapY) then
        ({ s with SMapX := dirX d s.SMapX, SMapY := dirY d s.SMapY }, true)
      else (s, false) := by
  unfold inGrid at hin ⊢
  interval_cases d <;> unfold MoveMapSim dirX dirY <;> dsimp only <;> split_ifs <;>
    first | rfl | omega

theorem TestForCond_inGrid (c : Consts) (d : Nat) (s : Sim) (hd : d < 4)
    (hin : inGrid c s.SMapX s.SMapY) :
    (TestForCond c d s).2 = candidate c s.Map s.SMapX s.SMapY d := by
  unfold TestForCond candidate
  dsimp only
  rw [MoveMapSim_inGrid c d s (by omega) hin]
  by_cases hn : inGrid c (dirX d s.SMapX) (dirY d s.SMapY)
  · rw [if_pos hn]
    have hdec : decide (inGrid c (dirX d s.SMapX) (dirY d s.SMapY)) = true := by simpa using hn
    rw [hdec]
    dsimp only
    by_cases hc : condTile c (s.Map (dirY d s.SMapY) (dirX d s.SMapX)) = true
    · rw [if_pos hc, hc]; rfl
    · rw [if_neg hc]
      simp only [Bool.not_eq_true] at hc
      rw [hc]; rfl
  · rw [if_neg hn]
    have hdec : decide (inGrid c (dirX d s.SMapX) (dirY d s.SMapY)) = false := by simpa using hn
    rw [hdec]
    rfl

/-! ## One walk step -/

/-- The five ways through a walk step. -/
theorem walkStep_cases (c : Consts) (ADir : Nat) (s : Sim) :
    (s.MaxPower < s.NumPower + 1 ∧
      walkStep c ADir s = Outcome.finished (zoneCounts c { s with NumPower := s.NumPower + 1 }))
    ∨ (s.NumPower + 1 ≤ s.MaxPower ∧
      ((2 ≤ (probeOf c ADir (visit c ADir s)).1 ∧ walkStep c ADir s =
          Outcome.next (probeOf c ADir (visit c ADir s)).2 (PushPowerStack (visit c ADir s)))
      ∨ ((probeOf c ADir (visit c ADir s)).1 = 1 ∧ walkStep c ADir s =
          Outcome.next (probeOf c ADir (visit c ADir s)).2 (visit c ADir s))
      ∨ ((probeOf c ADir (visit c ADir s)).1 = 0 ∧ 0 < (visit c ADir s).PowerStackNum ∧
          walkStep c ADir s = Outcome.next 4 (PullPowerStack (visit c ADir s)))
      ∨ ((probeOf c ADir (visit c ADir s)).1 = 0 ∧ (visit c ADir s).PowerStackNum = 0 ∧
          walkStep c ADir s = Outcome.finished (zoneCounts c (visit c ADir s))))) := by
  unfold walkStep
  dsimp only
  by_cases hcut : s.NumPower + 1 > s.MaxPower
  · left
    exact ⟨hcut, by rw [if_pos hcut]⟩
  · right
    refine ⟨by omega, ?_⟩
    rw [if_neg hcut, probeLoop_eq]
    dsimp only
    change _ ∨ _ ∨ _ ∨ _
    have hv : powerCell c (MoveMapSim c ADir { s with NumPower := s.NumPower + 1 }).1
        = visit c ADir s := rfl
    rw [hv]
    have hp : probePure (fun d => (TestForCond c d (visit c ADir s)).2) 4 0 0 ADir
        = probeOf c ADir (visit c ADir s) := rfl
    rw [hp]
    generalize probeOf c ADir (visit c ADir s) = r
    generalize visit c ADir s = v
    rcases Nat.lt_trichotomy r.1 1 with h0 | h1 | h2
    · have h0 : r.1 = 0 := by omega
      right; right
      simp only [h0, gt_iff_lt, Nat.not_lt_zero, if_false, ne_eq, not_true_eq_false]
      by_cases hs : 0 < v.PowerStackNum
      · left; exact ⟨trivial, hs, by rw [if_pos hs]⟩
      · right; exact ⟨trivial, by omega, by rw [if_neg hs]⟩
    · right; left
      refine ⟨h1, ?_⟩
      simp [h1]
    · left
      refine ⟨h2, ?_⟩
      have : r.1 ≠ 0 := by omega
      simp [h2, this]

/-! ## The loop of walk steps -/

/-- Invariant reasoning over the loop: a property kept by every step that
goes on, and enough at every exit, gives the exit property of the result. -/
theorem scanLoop_inv (c : Consts) (I : Nat → Sim → Prop) (Q : Sim → Prop)
    (hnext : ∀ a s a1 s1, I a s → walkStep c a s = Outcome.next a1 s1 → I a1 s1)
    (hfin : ∀ a s s1, I a s → walkStep c a s = Outcome.finished s1 → Q s1) :
    ∀ fuel a s s1, I a s → scanLoop c fuel a s = some s1 → Q s1 := by
  intro fuel
  induction fuel with
  | zero =>
    intro a s s1 _ h
    simp [scanLoop] at h
  | succ n ih =>
    intro a s s1 hI h
    unfold scanLoop at h
    cases hw : walkStep c a s with
    | finished t =>
      rw [hw] at h
      simp only [Option.some.injEq] at h
      subst h
      exact hfin a s t hI hw
    | next a1 t =>
      rw [hw] at h
      exact ih a1 t s1 (hnext a s a1 t hI hw) h

theorem PushPowerStack_counters (s : Sim) :
    (PushPowerStack s).NumPower = s.NumPower ∧ (PushPowerStack s).MaxPower = s.MaxPower
    ∧ (PushPowerStack s).Map = s.Map ∧ (PushPowerStack s).PowerMap = s.PowerMap
    ∧ (PushPowerStack s).SMapX = s.SMapX ∧ (PushPowerStack s).SMapY = s.SMapY := by
  unfold PushPowerStack
  split_ifs <;> exact ⟨rfl, rfl, rfl, rfl, rfl, rfl⟩

theorem PullPowerStack_counters (s : Sim) :
    (PullPowerStack s).NumPower = s.NumPower ∧ (PullPowerStack s).MaxPower = s.MaxPower
    ∧ (PullPowerStack s).Map = s.Map ∧ (PullPowerStack s).PowerMap = s.PowerMap := by
  unfold PullPowerStack
  split_ifs <;> exact ⟨rfl, rfl, rfl, rfl⟩

theorem visit_counters (c : Consts) (a : Nat) (s : Sim) :
    (visit c a s).NumPower = s.NumPower + 1 ∧ (visit c a s).MaxPower = s.MaxPower
    ∧ (visit c a s).PowerStackNum = s.PowerStackNum
    ∧ (visit c a s).PowerStackX = s.PowerStackX ∧ (visit c a s).PowerStackY = s.PowerStackY := by
  unfold visit powerCell
  rw [MoveMapSim_frame]
  exact ⟨rfl, rfl, rfl, rfl, rfl⟩

/-- A step that goes on has raised the counter by one, within the capacity. -/
theorem walkStep_next_counters (c : Consts) (a : Nat) (s : Sim) (a1 : Nat) (s1 : Sim)
    (h : walkStep c a s = Outcome.next a1 s1) :
    s1.NumPower = s.NumPower + 1 ∧ s1.MaxPower = s.MaxPower ∧ s.NumPower + 1 ≤ s.MaxPower := by
  have hv := visit_counters c a s
  rcases walkStep_cases c a s with ⟨_, hw⟩ | ⟨hle, ⟨_, hw⟩ | ⟨_, hw⟩ | ⟨_, _, hw⟩ | ⟨_, _, hw⟩⟩
  · rw [hw] at h; cases h
  · rw [hw] at h
    injection h with _ h2
    subst h2
    have hp := PushPowerStack_counters (visit c a s)
    exact ⟨by rw [hp.1, hv.1], by rw [hp.2.1, hv.2.1], hle⟩
  · rw [hw] at h
    injection h with _ h2
    subst h2
    exact ⟨hv.1, hv.2.1, hle⟩
  · rw [hw] at h
    injection h with _ h2
    subst h2
    have hp := PullPowerStack_counters (visit c a s)
    exact ⟨by rw [hp.1, hv.1], by rw [hp.2.1, hv.2.1], hle⟩
  · rw [hw] at h; cases h

/-- The loop returns whenever the steps allowed cover what is left of the
capacity, plus the one step that notices the capacity is passed. -/
theorem scanLoop_total (c : Consts) :
    ∀ fuel a s, s.NumPower ≤ s.MaxPower → s.MaxPower + 1 ≤ s.NumPower + fuel →
      ∃ s1, scanLoop c fuel a s = some s1 := by
  intro fuel
  induction fuel with
  | zero =>
    intro a s h1 hle
    omega
  | succ n ih =>
    intro a s h1 hle
    unfold scanLoop
    cases hw : walkStep c a s with
    | finished t => exact ⟨t, rfl⟩
    | next a1 t =>
      have hc := walkStep_next_counters c a s a1 t hw
      exact ih a1 t (by omega) (by omega)

/-! ## The shape of the scan -/

theorem plantCells_length (c : Consts) (m : Grid) :
    (plantCells c m).length = countCells c m (isPlant c) := by
  unfold plantCells countCells
  rw [List.countP_eq_length_filter]

theorem mem_plantCells (c : Consts) (m : Grid) (x y : Int) :
    (x, y) ∈ plantCells c m ↔ inGrid c x y ∧ isPlant c (m y x) := by
  unfold plantCells
  rw [List.mem_filter, mem_cells]
  simp

theorem plantCells_ne_nil (c : Consts) (m : Grid)
    (h : ¬ (countCells c m (isCoal c) = 0 ∧ countCells c m (isNuclear c) = 0)) :
    plantCells c m ≠ [] := by
  intro hnil
  apply h
  constructor
  · apply countCells_eq_zero
    intro x y hin hc
    have : (x, y) ∈ plantCells c m := (mem_plantCells c m x y).2 ⟨hin, Or.inl hc⟩
    rw [hnil] at this
    exact List.not_mem_nil _ this
  · apply countCells_eq_zero
    intro x y hin hc
    have : (x, y) ∈ plantCells c m := (mem_plantCells c m x y).2 ⟨hin, Or.inr hc⟩
    rw [hnil] at this
    exact List.not_mem_nil _ this

theorem scanPrelude_plantCells (c : Consts) (h : c.WF) (s : Sim) :
    plantCells c (scanPrelude c s).Map = plantCells c s.Map := by
  unfold plantCells
  apply List.filter_congr
  intro q hq
  obtain ⟨x, y⟩ := q
  have hin := (mem_cells c x y).1 hq
  rw [scanPrelude_eq c h]
  dsimp only
  rw [if_pos hin]
  unfold isPlant isCoal isNuclear zoned typeCode
  have hlo : c.LOMASK < 65536 := by
    obtain ⟨k, hk, hk2⟩ := h.lomask_low
    have : 2 ^ k ≤ 2 ^ 15 := Nat.pow_le_pow_right (by norm_num) hk
    omega
  have e1 := clearBits_mask (s.Map y x) _ _ h.zone_lt h.power_zone
  have e2 := clearBits_mask (s.Map y x) _ _ hlo h.power_lo
  simp only [e1, e2]

/-- The scan either takes the no-plant exit or enters the loop of walk steps
at `scanStart` with `capacity + 1` steps allowed. -/
theorem DoPowerScan_cases (c : Consts) (h : c.WF) (s : Sim) :
    ((∀ x y, inGrid c x y → ¬ isCoal c (s.Map y x) ∧ ¬ isNuclear c (s.Map y x))
      ∧ DoPowerScan c s = some (noPlantCounts c (scanPrelude c s)))
    ∨ (plantCells c s.Map ≠ []
      ∧ DoPowerScan c s = scanLoop c (capacity c s.Map + 1) 4 (scanStart c s)) := by
  by_cases h0 : countCells c s.Map (isCoal c) = 0 ∧ countCells c s.Map (isNuclear c) = 0
  · left
    have hno : ∀ x y, inGrid c x y → ¬ isCoal c (s.Map y x) ∧ ¬ isNuclear c (s.Map y x) := by
      intro x y hin
      constructor
      · intro hc
        have := countCells_pos c s.Map (isCoal c) x y hin hc
        omega
      · intro hc
        have := countCells_pos c s.Map (isNuclear c) x y hin hc
        omega
    exact ⟨hno, DoPowerScan_noPlant c h s hno⟩
  · right
    have hne := plantCells_ne_nil c s.Map h0
    refine ⟨hne, ?_⟩
    have hlen : 0 < (plantCells c s.Map).length := List.length_pos.2 hne
    unfold DoPowerScan
    dsimp only
    have hpre : (scanPrelude c s).CoalPop = countCells c s.Map (isCoal c)
        ∧ (scanPrelude c s).NuclearPop = countCells c s.Map (isNuclear c)
        ∧ (scanPrelude c s).MaxPower = capacity c s.Map := by
      rw [scanPrelude_eq c h]
      exact ⟨rfl, rfl, rfl⟩
    rw [if_neg (by rw [hpre.1, hpre.2.1]; exact h0)]
    have hnum : (FindPowerPlants c (scanPrelude c s)).PowerStackNum
        = min (plantCells c s.Map).length (PWRSTKSIZE - 2) := by
      rw [FindPowerPlants_eq, scanPrelude_plantCells c h]
    have hmax : (FindPowerPlants c (scanPrelude c s)).MaxPower = capacity c s.Map := by
      rw [FindPowerPlants_eq]
      exact hpre.2.2
    have h998 : PWRSTKSIZE - 2 = 998 := rfl
    rw [if_pos (by rw [hnum]; omega), hmax]
    rfl

/-- The two maps after the visit of a walk step. -/
theorem visit_maps (c : Consts) (a : Nat) (s : Sim) :
    (visit c a s).Map = setCell s.Map (visit c a s).SMapX (visit c a s).SMapY
        (s.Map (visit c a s).SMapY (visit c a s).SMapX ||| c.POWERBIT)
    ∧ (visit c a s).PowerMap = setCell s.PowerMap (visit c a s).SMapX (visit c a s).SMapY 1 := by
  unfold visit powerCell
  rw [MoveMapSim_frame]
  exact ⟨rfl, rfl⟩

/-- A step that goes on leaves the maps as the visit wrote them. -/
theorem walkStep_next_maps (c : Consts) (a : Nat) (s : Sim) (a1 : Nat) (s1 : Sim)
    (h : walkStep c a s = Outcome.next a1 s1) :
    s1.Map = (visit c a s).Map ∧ s1.PowerMap = (visit c a s).PowerMap := by
  rcases walkStep_cases c a s with ⟨_, hw⟩ | ⟨hle, ⟨_, hw⟩ | ⟨_, hw⟩ | ⟨_, _, hw⟩ | ⟨_, _, hw⟩⟩
  · rw [hw] at h; cases h
  · rw [hw] at h
    injection h with _ h2
    subst h2
    have hp := PushPowerStack_counters (visit c a s)
    exact ⟨hp.2.2.1, hp.2.2.2.1⟩
  · rw [hw] at h
    injection h with _ h2
    subst h2
    exact ⟨rfl, rfl⟩
  · rw [hw] at h
    injection h with _ h2
    subst h2
    have hp := PullPowerStack_counters (visit c a s)
    exact ⟨hp.2.2.1, hp.2.2.2⟩
  · rw [hw] at h; cases h

/-- A step that returns has run the counting on the state cut off by the
capacity, or on the visited state with nothing left to do. -/
theorem walkStep_finished_cases (c : Consts) (a : Nat) (s : Sim) (s1 : Sim)
    (h : walkStep c a s = Outcome.finished s1) :
    (s.MaxPower < s.NumPower + 1 ∧ s1 = zoneCounts c { s with NumPower := s.NumPower + 1 })
    ∨ (s.NumPower + 1 ≤ s.MaxPower ∧ s1 = zoneCounts c (visit c a s)
        ∧ (probeOf c a (visit c a s)).1 = 0 ∧ (visit c a s).PowerStackNum = 0) := by
  rcases walkStep_cases c a s with ⟨hlt, hw⟩ | ⟨hle, ⟨_, hw⟩ | ⟨_, hw⟩ | ⟨_, _, hw⟩ | ⟨h0, hs, hw⟩⟩
  · rw [hw] at h
    injection h with h2
    exact Or.inl ⟨hlt, h2.symm⟩
  · rw [hw] at h; cases h
  · rw [hw] at h; cases h
  · rw [hw] at h; cases h
  · rw [hw] at h
    injection h with h2
    exact Or.inr ⟨hle, h2.symm, h0, hs⟩

/-- The maps and the counters at the first walk step. -/
theorem scanStart_fields (c : Consts) (h : c.WF) (s : Sim) :
    (scanStart c s).Map = (scanPrelude c s).Map
    ∧ (scanStart c s).PowerMap = (scanPrelude c s).PowerMap
    ∧ (scanStart c s).NumPower = 0
    ∧ (scanStart c s).MaxPower = capacity c s.Map := by
  unfold scanStart
  have hp := PullPowerStack_counters (FindPowerPlants c (scanPrelude c s))
  rw [hp.1, hp.2.1, hp.2.2.1, hp.2.2.2, FindPowerPlants_eq, scanPrelude_eq c h]
  exact ⟨rfl, rfl, rfl, rfl⟩

/-- Invariant reasoning over the whole scan: the scan returns, and a property
that holds at the no-plant exit, or is established from an invariant of the
walk steps at their exits, holds of the state returned. -/
theorem DoPowerScan_inv (c : Consts) (h : c.WF) (s : Sim) (I : Nat → Sim → Prop)
    (Q : Sim → Prop)
    (hno : (∀ x y, inGrid c x y → ¬ isCoal c (s.Map y x) ∧ ¬ isNuclear c (s.Map y x)) →
      Q (noPlantCounts c (scanPrelude c s)))
    (hstart : plantCells c s.Map ≠ [] → I 4 (scanStart c s))
    (hnext : ∀ a t a1 t1, I a t → walkStep c a t = Outcome.next a1 t1 → I a1 t1)
    (hfin : ∀ a t t1, I a t → walkStep c a t = Outcome.finished t1 → Q t1) :
    ∃ s1, DoPowerScan c s = some s1 ∧ Q s1 := by
  rcases DoPowerScan_cases c h s with ⟨hnp, hd⟩ | ⟨hpl, hd⟩
  · exact ⟨_, hd, hno hnp⟩
  · have hf := scanStart_fields c h s
    obtain ⟨s1, hs1⟩ := scanLoop_total c (capacity c s.Map + 1) 4 (scanStart c s)
      (by rw [hf.2.2.1]; omega) (by rw [hf.2.2.1, hf.2.2.2]; omega)
    refine ⟨s1, by rw [hd, hs1], ?_⟩
    exact scanLoop_inv c I Q hnext hfin _ _ _ _ (hstart hpl) hs1

/-! ## Termination -/

theorem classicOn_wf (w h : Nat) (hw : 0 < w) (hh : 0 < h) (hs : w * h < 32768) :
    (classicOn w h).WF :=
  { classic_wf with world_x_pos := hw, world_y_pos := hh, world_small := hs }

/-- A step that returns has raised the counter by one. -/
theorem walkStep_finished_counters (c : Consts) (a : Nat) (s : Sim) (s1 : Sim)
    (h : walkStep c a s = Outcome.finished s1) :
    s1.NumPower = s.NumPower + 1 ∧ s1.MaxPower = s.MaxPower := by
  rcases walkStep_finished_cases c a s s1 h with ⟨_, h1⟩ | ⟨_, h1, _, _⟩
  · rw [h1, zoneCounts_eq]
    exact ⟨rfl, rfl⟩
  · rw [h1, zoneCounts_eq]
    have := visit_counters c a s
    exact ⟨this.1, this.2.1⟩

/-- The counter `NumPower` counts the walk steps: a loop that returns has
raised it by the number of steps it ran, and that many steps are enough. -/
theorem scanLoop_steps (c : Consts) :
    ∀ fuel a s s1, scanLoop c fuel a s = some s1 →
      s1.MaxPower = s.MaxPower ∧ s.NumPower < s1.NumPower ∧ s1.NumPower - s.NumPower ≤ fuel
      ∧ scanLoop c (s1.NumPower - s.NumPower) a s = some s1
      ∧ (s.NumPower ≤ s.MaxPower → s1.NumPower ≤ s.MaxPower + 1) := by
  intro fuel
  induction fuel with
  | zero =>
    intro a s s1 h
    simp [scanLoop] at h
  | succ n ih =>
    intro a s s1 h
    unfold scanLoop at h
    cases hw : walkStep c a s with
    | finished t =>
      rw [hw] at h
      simp only [Option.some.injEq] at h
      subst h
      have hc := walkStep_finished_counters c a s t hw
      have h1 : t.NumPower - s.NumPower = 1 := by omega
      refine ⟨hc.2, by omega, by omega, ?_, by omega⟩
      rw [h1]
      unfold scanLoop
      rw [hw]
    | next a1 t =>
      rw [hw] at h
      have hc := walkStep_next_counters c a s a1 t hw
      obtain ⟨i1, i2, i3, i4, i5⟩ := ih a1 t s1 h
      have h1 : s1.NumPower - s.NumPower = (s1.NumPower - t.NumPower) + 1 := by omega
      refine ⟨by rw [i1, hc.2.1], by omega, by omega, ?_, ?_⟩
      · rw [h1]
        unfold scanLoop
        rw [hw]
        exact i4
      · intro _
        have := i5 (by omega)
        omega

/-- C7. `DoPowerScan` terminates on every grid state: it returns a state, and
the loops have then run exactly `NumPower` walk steps, which is at most
`MaxPower + 1`; each step raises `NumPower` by one and a step goes on only
while `NumPower` does not pass `MaxPower`. -/
theorem DoPowerScan_terminates (c : Consts) (h : c.WF) (s : Sim) :
    (∃ s1, DoPowerScan c s = some s1
      ∧ s1.NumPower ≤ s1.MaxPower + 1
      ∧ (plantCells c s.Map = [] → s1.NumPower = 0)
      ∧ (plantCells c s.Map ≠ [] → scanLoop c s1.NumPower 4 (scanStart c s) = some s1))
    ∧ (∀ a t a1 t1, walkStep c a t = Outcome.next a1 t1 →
        t1.NumPower = t.NumPower + 1 ∧ t1.MaxPower = t.MaxPower ∧ t.NumPower + 1 ≤ t.MaxPower)
    ∧ (∀ a t t1, walkStep c a t = Outcome.finished t1 → t1.NumPower = t.NumPower + 1) := by
  refine ⟨?_, fun a t a1 t1 hw => walkStep_next_counters c a t a1 t1 hw,
    fun a t t1 hw => (walkStep_finished_counters c a t t1 hw).1⟩
  rcases DoPowerScan_cases c h s with ⟨hnp, hd⟩ | ⟨hpl, hd⟩
  · refine ⟨_, hd, ?_, ?_, ?_⟩
    · rw [noPlantCounts_eq, scanPrelude_eq c h]
      exact Nat.zero_le _
    · intro _
      rw [noPlantCounts_eq, scanPrelude_eq c h]
    · intro hne
      exfalso
      apply hne
      apply List.eq_nil_iff_forall_not_mem.2
      intro q hq
      obtain ⟨x, y⟩ := q
      have := (mem_plantCells c s.Map x y).1 hq
      rcases this.2 with hc | hn
      · exact (hnp x y this.1).1 hc
      · exact (hnp x y this.1).2 hn
  · have hf := scanStart_fields c h s
    obtain ⟨s1, hs1⟩ := scanLoop_total c (capacity c s.Map + 1) 4 (scanStart c s)
      (by rw [hf.2.2.1]; omega) (by rw [hf.2.2.1, hf.2.2.2]; omega)
    obtain ⟨i1, i2, i3, i4, i5⟩ := scanLoop_steps c _ _ _ _ hs1
    rw [hf.2.2.1] at i2 i3 i4 i5
    simp only [Nat.sub_zero] at i3 i4
    refine ⟨s1, by rw [hd, hs1], ?_, fun hnil => absurd hnil hpl, fun _ => i4⟩
    rw [i1]
    exact i5 (Nat.zero_le _)

/-- C7, instance: the scenario grid on a 2 x 2 world. -/
theorem DoPowerScan_terminates_witness :
    (classicOn 2 2).WF
    ∧ ∃ s1, DoPowerScan (classicOn 2 2) (simOf scenarioGrid) = some s1
      ∧ s1.NumPower ≤ s1.MaxPower + 1 :=
  ⟨classicOn_wf 2 2 (by decide) (by decide) (by decide),
    let ⟨s1, h1, h2, _⟩ :=
      (DoPowerScan_terminates (classicOn 2 2)
        (classicOn_wf 2 2 (by decide) (by decide) (by decide)) (simOf scenarioGrid)).1
    ⟨s1, h1, h2⟩⟩

/-! ## What the scan leaves alone -/

theorem lomask_lt (c : Consts) (h : c.WF) : c.LOMASK < 65536 := by
  obtain ⟨k, hk, hk2⟩ := h.lomask_low
  have : 2 ^ k ≤ 2 ^ 15 := Nat.pow_le_pow_right (by norm_num) hk
  omega

/-- The scan keeps every bit of every 16-bit mask disjoint from the powered
flag, in every cell. -/
theorem DoPowerScan_keeps_mask (c : Consts) (h : c.WF) (s : Sim) :
    ∃ s1, DoPowerScan c s = some s1 ∧
      ∀ m, m < 65536 → c.POWERBIT &&& m = 0 → ∀ x y, s1.Map y x &&& m = s.Map y x &&& m := by
  apply DoPowerScan_inv c h s
    (fun _ t => ∀ m, m < 65536 → c.POWERBIT &&& m = 0 →
      ∀ x y, t.Map y x &&& m = s.Map y x &&& m)
  · intro _ m hm hd x y
    rw [noPlantCounts_eq, scanPrelude_eq c h]
    dsimp only
    split_ifs
    · exact clearBits_mask _ _ _ hm hd
    · rfl
  · intro _ m hm hd x y
    rw [(scanStart_fields c h s).1, scanPrelude_eq c h]
    dsimp only
    split_ifs
    · exact clearBits_mask _ _ _ hm hd
    · rfl
  · intro a t a1 t1 hI hw m hm hd x y
    rw [(walkStep_next_maps c a t a1 t1 hw).1, (visit_maps c a t).1]
    unfold setCell
    split_ifs with hc
    · rw [lor_mask _ _ _ hd, ← hc.1, ← hc.2]
      exact hI m hm hd x y
    · exact hI m hm hd x y
  · intro a t t1 hI hw m hm hd x y
    rcases walkStep_finished_cases c a t t1 hw with ⟨_, h1⟩ | ⟨_, h1, _, _⟩
    · rw [h1, zoneCounts_eq]
      exact hI m hm hd x y
    · rw [h1, zoneCounts_eq]
      dsimp only
      rw [(visit_maps c a t).1]
      unfold setCell
      split_ifs with hc
      · rw [lor_mask _ _ _ hd, ← hc.1, ← hc.2]
        exact hI m hm hd x y
      · exact hI m hm hd x y

/-- C8. `DoPowerScan` changes nothing in `Map` except the powered flag: in
every cell the type code and each of the flags conductive, zone, burnable,
bulldozable and animated are after the scan what they were before it. -/
theorem DoPowerScan_frame (c : Consts) (h : c.WF) (s : Sim) :
    ∃ s1, DoPowerScan c s = some s1 ∧ ∀ x y,
      typeCode c (s1.Map y x) = typeCode c (s.Map y x)
      ∧ s1.Map y x &&& c.CONDBIT = s.Map y x &&& c.CONDBIT
      ∧ s1.Map y x &&& c.ZONEBIT = s.Map y x &&& c.ZONEBIT
      ∧ s1.Map y x &&& c.BURNBIT = s.Map y x &&& c.BURNBIT
      ∧ s1.Map y x &&& c.BULLBIT = s.Map y x &&& c.BULLBIT
      ∧ s1.Map y x &&& c.ANIMBIT = s.Map y x &&& c.ANIMBIT := by
  obtain ⟨s1, hs1, hk⟩ := DoPowerScan_keeps_mask c h s
  refine ⟨s1, hs1, fun x y => ⟨?_, ?_, ?_, ?_, ?_, ?_⟩⟩
  · exact hk _ (lomask_lt c h) h.power_lo x y
  · exact hk _ h.cond_lt h.power_cond x y
  · exact hk _ h.zone_lt h.power_zone x y
  · exact hk _ h.burn_lt h.power_burn x y
  · exact hk _ h.bull_lt h.power_bull x y
  · exact hk _ h.anim_lt h.power_anim x y

/-- C8, instance: the scenario grid on a 2 x 2 world; the wire at (1,0) keeps
its type code 208 and its conductive flag. -/
theorem DoPowerScan_frame_witness :
    (classicOn 2 2).WF
    ∧ ∃ s1, DoPowerScan (classicOn 2 2) (simOf scenarioGrid) = some s1
      ∧ typeCode (classicOn 2 2) (s1.Map 0 1) = 208
      ∧ s1.Map 0 1 &&& (classicOn 2 2).CONDBIT = 16384 :=
  ⟨classicOn_wf 2 2 (by decide) (by decide) (by decide),
    let ⟨s1, h1, h2⟩ := DoPowerScan_frame (classicOn 2 2)
      (classicOn_wf 2 2 (by decide) (by decide) (by decide)) (simOf scenarioGrid)
    ⟨s1, h1, (h2 1 0).1, (h2 1 0).2.1⟩⟩

/-! ## Counting cells -/

theorem countCells_congr (c : Consts) (m1 m2 : Grid) (p q : Nat → Prop) [DecidablePred p]
    [DecidablePred q] (h : ∀ x y, inGrid c x y → (p (m1 y x) ↔ q (m2 y x))) :
    countCells c m1 p = countCells c m2 q := by
  unfold countCells
  apply List.countP_congr
  intro r hr
  obtain ⟨x, y⟩ := r
  have := h x y ((mem_cells c x y).1 hr)
  simpa using this

theorem countP_split {α : Type} (l : List α) (p q : α → Prop) [DecidablePred p]
    [DecidablePred q] :
    (l.countP fun a => decide (p a ∧ q a)) + (l.countP fun a => decide (p a ∧ ¬ q a))
      = l.countP fun a => decide (p a) := by
  induction l with
  | nil => rfl
  | cons a l ih =>
    simp only [List.countP_cons]
    by_cases hp : p a <;> by_cases hq : q a <;>
      simp only [hp, hq, and_self, and_true, and_false, false_and, true_and, not_true_eq_false,
        not_false_eq_true, decide_True, decide_False, if_true, if_false,
        Bool.false_eq_true] <;> omega

theorem countCells_split (c : Consts) (m : Grid) (p q : Nat → Prop) [DecidablePred p]
    [DecidablePred q] :
    countCells c m (fun v => p v ∧ q v) + countCells c m (fun v => p v ∧ ¬ q v)
      = countCells c m p := by
  unfold countCells
  exact countP_split (cells c) (fun r => p (m r.2 r.1)) (fun r => q (m r.2 r.1))

/-- Two predicates that differ on one entry of a list without repetition
differ by at most one in their counts. -/
theorem countP_le_succ_of_agree {α : Type} (l : List α) (hnd : l.Nodup) (a : α)
    (f g : α → Bool) (h : ∀ b ∈ l, b ≠ a → f b = g b) : l.countP f ≤ l.countP g + 1 := by
  induction l with
  | nil => simp
  | cons b l ih =>
    have hnd2 := List.nodup_cons.1 hnd
    simp only [List.countP_cons]
    by_cases hb : b = a
    · have heq : l.countP f = l.countP g := by
        apply List.countP_congr
        intro r hr
        have hne : r ≠ a := by
          intro e
          apply hnd2.1
          rw [hb, ← e]
          exact hr
        rw [h r (List.mem_cons_of_mem _ hr) hne]
      rw [heq]
      split_ifs <;> omega
    · have := ih hnd2.2 (fun r hr hne => h r (List.mem_cons_of_mem _ hr) hne)
      rw [h b (List.mem_cons_self _ _) hb]
      split_ifs <;> omega

/-- Writing one cell raises a count of cells by at most one. -/
theorem countCells_setCell_le (c : Consts) (m : Grid) (x y : Int) (v : Nat) (p : Nat → Prop)
    [DecidablePred p] : countCells c (setCell m x y v) p ≤ countCells c m p + 1 := by
  unfold countCells
  apply countP_le_succ_of_agree (cells c) (cells_nodup c) (x, y)
  intro r _ hne
  obtain ⟨x1, y1⟩ := r
  have : ¬ (x1 = x ∧ y1 = y) := by
    intro e
    apply hne
    rw [e.1, e.2]
  dsimp only
  rw [setCell_other m x y x1 y1 v this]

/-! ## The reported counts and the capacity bound -/

/-- C5. On every exit path of `DoPowerScan` the reported counts describe the
final grid: `PwrdZCnt` is the number of cells carrying both the zone flag and
the powered flag, `UnpwrdZCnt` the number of cells carrying the zone flag
without the powered flag, their sum is the number of zone-flagged cells, and
`PwrdZCnt` is 0 when there is no plant. -/
theorem DoPowerScan_counts (c : Consts) (h : c.WF) (s : Sim) :
    ∃ s1, DoPowerScan c s = some s1
      ∧ s1.PwrdZCnt = countCells c s1.Map (fun v => zoned c v ∧ powered c v)
      ∧ s1.UnpwrdZCnt = countCells c s1.Map (fun v => zoned c v ∧ ¬ powered c v)
      ∧ s1.PwrdZCnt + s1.UnpwrdZCnt = countCells c s1.Map (zoned c)
      ∧ (plantCells c s.Map = [] → s1.PwrdZCnt = 0) := by
  have hsum : ∀ t : Sim,
      t.PwrdZCnt = countCells c t.Map (fun v => zoned c v ∧ powered c v) →
      t.UnpwrdZCnt = countCells c t.Map (fun v => zoned c v ∧ ¬ powered c v) →
      t.PwrdZCnt + t.UnpwrdZCnt = countCells c t.Map (zoned c) := by
    intro t h1 h2
    rw [h1, h2]
    exact countCells_split c t.Map (zoned c) (powered c)
  rcases DoPowerScan_cases c h s with ⟨hnp, hd⟩ | ⟨hpl, hd⟩
  · have hclear : ∀ x y, inGrid c x y →
        ¬ powered c ((noPlantCounts c (scanPrelude c s)).Map y x) := by
      intro x y hin
      rw [noPlantCounts_eq, scanPrelude_eq c h]
      dsimp only
      rw [if_pos hin]
      exact not_powered_clearBits c h _
    have h1 : (noPlantCounts c (scanPrelude c s)).PwrdZCnt
        = countCells c (noPlantCounts c (scanPrelude c s)).Map
            (fun v => zoned c v ∧ powered c v) := by
      rw [countCells_eq_zero c _ _ (fun x y hin hzp => hclear x y hin hzp.2), noPlantCounts_eq]
    have h2 : (noPlantCounts c (scanPrelude c s)).UnpwrdZCnt
        = countCells c (noPlantCounts c (scanPrelude c s)).Map
            (fun v => zoned c v ∧ ¬ powered c v) := by
      rw [countCells_congr c _ (noPlantCounts c (scanPrelude c s)).Map
        (fun v => zoned c v ∧ ¬ powered c v) (zoned c)
        (fun x y hin => ⟨fun hz => hz.1, fun hz => ⟨hz, hclear x y hin⟩⟩)]
      rw [noPlantCounts_eq]
    refine ⟨_, hd, h1, h2, hsum _ h1 h2, fun _ => ?_⟩
    rw [noPlantCounts_eq]
  · obtain ⟨s1, hs1, hq⟩ := DoPowerScan_inv c h s (fun _ _ => True)
      (fun t => t.PwrdZCnt = countCells c t.Map (fun v => zoned c v ∧ powered c v)
        ∧ t.UnpwrdZCnt = countCells c t.Map (fun v => zoned c v ∧ ¬ powered c v))
      (fun hnp => by
        exfalso
        apply hpl
        apply List.eq_nil_iff_forall_not_mem.2
        intro q hq
        obtain ⟨x, y⟩ := q
        have := (mem_plantCells c s.Map x y).1 hq
        rcases this.2 with hc | hn
        · exact (hnp x y this.1).1 hc
        · exact (hnp x y this.1).2 hn)
      (fun _ => trivial) (fun _ _ _ _ _ _ => trivial)
      (fun a t t1 _ hw => by
        rcases walkStep_finished_cases c a t t1 hw with ⟨_, h1⟩ | ⟨_, h1, _, _⟩
        · rw [h1, zoneCounts_eq]
          exact ⟨rfl, rfl⟩
        · rw [h1, zoneCounts_eq]
          exact ⟨rfl, rfl⟩)
    exact ⟨s1, hs1, hq.1, hq.2, hsum _ hq.1 hq.2, fun hnil => absurd hnil hpl⟩

/-- C5, instance: the scenario grid on a 2 x 2 world. -/
theorem DoPowerScan_counts_witness :
    (classicOn 2 2).WF
    ∧ ∃ s1, DoPowerScan (classicOn 2 2) (simOf scenarioGrid) = some s1
      ∧ s1.PwrdZCnt + s1.UnpwrdZCnt = countCells (classicOn 2 2) s1.Map (zoned (classicOn 2 2)) :=
  ⟨classicOn_wf 2 2 (by decide) (by decide) (by decide),
    let ⟨s1, h1, _, _, h4, _⟩ := DoPowerScan_counts (classicOn 2 2)
      (classicOn_wf 2 2 (by decide) (by decide) (by decide)) (simOf scenarioGrid)
    ⟨s1, h1, h4⟩⟩

/-- C4. After `DoPowerScan` the number of cells with the powered flag is at
most `700 * C + 2000 * N`, where `C` and `N` are the numbers of cells of the
input grid that carry the zone flag with type code `POWERPLANT` and `NUCLEAR`. -/
theorem DoPowerScan_capacity_bound (c : Consts) (h : c.WF) (s : Sim) :
    ∃ s1, DoPowerScan c s = some s1
      ∧ countCells c s1.Map (powered c)
          ≤ 700 * countCells c s.Map (isCoal c) + 2000 * countCells c s.Map (isNuclear c) := by
  have hcap : capacity c s.Map
      = 700 * countCells c s.Map (isCoal c) + 2000 * countCells c s.Map (isNuclear c) := by
    unfold capacity
    ring
  rw [← hcap]
  have hclear : countCells c (scanPrelude c s).Map (powered c) = 0 := by
    apply countCells_eq_zero
    intro x y hin
    rw [scanPrelude_eq c h]
    dsimp only
    rw [if_pos hin]
    exact not_powered_clearBits c h _
  apply DoPowerScan_inv c h s
    (fun _ t => countCells c t.Map (powered c) ≤ t.NumPower ∧ t.NumPower ≤ t.MaxPower
      ∧ t.MaxPower = capacity c s.Map)
  · intro _
    rw [noPlantCounts_eq]
    dsimp only
    rw [hclear]
    exact Nat.zero_le _
  · intro _
    have hf := scanStart_fields c h s
    rw [hf.1, hf.2.2.1, hf.2.2.2, hclear]
    exact ⟨le_refl _, Nat.zero_le _, rfl⟩
  · intro a t a1 t1 hI hw
    have hc := walkStep_next_counters c a t a1 t1 hw
    rw [(walkStep_next_maps c a t a1 t1 hw).1, (visit_maps c a t).1, hc.1, hc.2.1]
    have := countCells_setCell_le c t.Map (visit c a t).SMapX (visit c a t).SMapY
      (t.Map (visit c a t).SMapY (visit c a t).SMapX ||| c.POWERBIT) (powered c)
    exact ⟨by omega, hc.2.2, hI.2.2⟩
  · intro a t t1 hI hw
    rcases walkStep_finished_cases c a t t1 hw with ⟨_, h1⟩ | ⟨hle, h1, _, _⟩
    · rw [h1, zoneCounts_eq]
      dsimp only
      omega
    · rw [h1, zoneCounts_eq]
      dsimp only
      rw [(visit_maps c a t).1]
      have := countCells_setCell_le c t.Map (visit c a t).SMapX (visit c a t).SMapY
        (t.Map (visit c a t).SMapY (visit c a t).SMapX ||| c.POWERBIT) (powered c)
      omega

/-- C4, instance: the scenario grid on a 2 x 2 world. -/
theorem DoPowerScan_capacity_bound_witness :
    (classicOn 2 2).WF
    ∧ ∃ s1, DoPowerScan (classicOn 2 2) (simOf scenarioGrid) = some s1
      ∧ countCells (classicOn 2 2) s1.Map (powered (classicOn 2 2)) ≤ 700 * 1 + 2000 * 0 :=
  ⟨classicOn_wf 2 2 (by decide) (by decide) (by decide),
    DoPowerScan_capacity_bound (classicOn 2 2)
      (classicOn_wf 2 2 (by decide) (by decide) (by decide)) (simOf scenarioGrid)⟩

/-! ## The probing loop -/

/-- The direction the probing loop hands on, when it found a candidate, is
one of the four and passed the test. -/
theorem probePure_found (t : Nat → Bool) (a : Nat) (h : 1 ≤ (probePure t 4 0 0 a).1) :
    (probePure t 4 0 0 a).2 < 4 ∧ t (probePure t 4 0 0 a).2 = true := by
  revert h
  cases h0 : t 0 <;> cases h1 : t 1 <;> cases h2 : t 2 <;> cases h3 : t 3 <;>
    simp [probePure, h0, h1, h2, h3]

/-- The probing loop finds nothing exactly when the four tests fail, and then
hands on the direction it was entered with. -/
theorem probePure_none (t : Nat → Bool) (a : Nat) (h : (probePure t 4 0 0 a).1 = 0) :
    (probePure t 4 0 0 a).2 = a ∧ t 0 = false ∧ t 1 = false ∧ t 2 = false ∧ t 3 = false := by
  revert h
  cases h0 : t 0 <;> cases h1 : t 1 <;> cases h2 : t 2 <;> cases h3 : t 3 <;>
    simp [probePure, h0, h1, h2, h3]

/-- The probing loop with a single passing test hands on its direction. -/
theorem probePure_single (t : Nat → Bool) (a d : Nat) (hd : d < 4) (ht : t d = true)
    (hother : ∀ e, e < 4 → e ≠ d → t e = false) : probePure t 4 0 0 a = (1, d) := by
  interval_cases d
  · have h1 := hother 1 (by omega) (by omega)
    have h2 := hother 2 (by omega) (by omega)
    have h3 := hother 3 (by omega) (by omega)
    simp [probePure, ht, h1, h2, h3]
  · have h0 := hother 0 (by omega) (by omega)
    have h2 := hother 2 (by omega) (by omega)
    have h3 := hother 3 (by omega) (by omega)
    simp [probePure, ht, h0, h2, h3]
  · have h0 := hother 0 (by omega) (by omega)
    have h1 := hother 1 (by omega) (by omega)
    have h3 := hother 3 (by omega) (by omega)
    simp [probePure, ht, h0, h1, h3]
  · have h0 := hother 0 (by omega) (by omega)
    have h1 := hother 1 (by omega) (by omega)
    have h2 := hother 2 (by omega) (by omega)
    simp [probePure, ht, h0, h1, h2]

/-- The probing loop never counts more than two candidates. -/
theorem probePure_le_two (t : Nat → Bool) (a : Nat) : (probePure t 4 0 0 a).1 ≤ 2 := by
  cases h0 : t 0 <;> cases h1 : t 1 <;> cases h2 : t 2 <;> cases h3 : t 3 <;>
    simp [probePure, h0, h1, h2, h3]

/-! ## The flags under the visit -/

theorem condOrZone_lor (c : Consts) (h : c.WF) (v : Nat) :
    condOrZone c (v ||| c.POWERBIT) ↔ condOrZone c v := by
  unfold condOrZone conductive zoned
  rw [lor_mask _ _ _ h.power_cond, lor_mask _ _ _ h.power_zone]

theorem condOrZone_clearBits (c : Consts) (h : c.WF) (v : Nat) :
    condOrZone c (clearBits v c.POWERBIT) ↔ condOrZone c v := by
  unfold condOrZone conductive zoned
  rw [clearBits_mask _ _ _ h.cond_lt h.power_cond, clearBits_mask _ _ _ h.zone_lt h.power_zone]

/-- A candidate carries the conductive or the zone flag. -/
theorem condOrZone_of_condTile (c : Consts) (v : Nat) (h : condTile c v = true) :
    condOrZone c v := by
  unfold condTile at h
  unfold condOrZone conductive zoned
  simp only [Bool.and_eq_true, Bool.or_eq_true, decide_eq_true_eq] at h
  exact h.1.1.1

/-- The position after the visit, from a position in the grid with a
neighbour to move to: the neighbour. -/
theorem visit_pos (c : Consts) (a : Nat) (s : Sim) (ha : a ≤ 4)
    (hin : inGrid c s.SMapX s.SMapY) (ht : inGrid c (dirX a s.SMapX) (dirY a s.SMapY)) :
    (visit c a s).SMapX = dirX a s.SMapX ∧ (visit c a s).SMapY = dirY a s.SMapY := by
  have e := MoveMapSim_inGrid c a { s with NumPower := s.NumPower + 1 } ha hin
  rw [if_pos ht] at e
  unfold visit
  rw [e]
  exact ⟨rfl, rfl⟩

/-! ## The invariant of the walk -/

/-- The visit changes the conductive and zone flags of no cell. -/
theorem condOrZone_visit (c : Consts) (h : c.WF) (a : Nat) (s : Sim) (x y : Int) :
    condOrZone c ((visit c a s).Map y x) ↔ condOrZone c (s.Map y x) := by
  rw [(visit_maps c a s).1]
  unfold setCell
  split_ifs with hc
  · rw [condOrZone_lor c h, hc.1, hc.2]
  · rfl

/-- The visit leaves powered what was powered. -/
theorem powered_visit (c : Consts) (h : c.WF) (a : Nat) (s : Sim) (x y : Int)
    (hp : powered c (s.Map y x)) : powered c ((visit c a s).Map y x) := by
  rw [(visit_maps c a s).1]
  unfold setCell
  split_ifs with hc
  · exact powered_lor c h _
  · exact hp

/-- The visit powers the cell at its position. -/
theorem powered_visit_here (c : Consts) (h : c.WF) (a : Nat) (s : Sim) :
    powered c ((visit c a s).Map (visit c a s).SMapY (visit c a s).SMapX) := by
  rw [(visit_maps c a s).1, setCell_same]
  exact powered_lor c h _

/-- The visit powers no other cell. -/
theorem powered_visit_elsewhere (c : Consts) (a : Nat) (s : Sim) (x y : Int)
    (hne : ¬ (x = (visit c a s).SMapX ∧ y = (visit c a s).SMapY)) :
    (visit c a s).Map y x = s.Map y x := by
  rw [(visit_maps c a s).1]
  exact setCell_other _ _ _ _ _ _ hne

theorem Visited_of_Good (c : Consts) (h : c.WF) (a : Nat) (t : Sim) (hg : Good c a t) :
    Visited c (visit c a t) := by
  have hpos := visit_pos c a t hg.dir hg.pos hg.target.1
  have hst := visit_counters c a t
  constructor
  · rw [hpos.1, hpos.2]; exact hg.target.1
  · rw [condOrZone_visit c h, hpos.1, hpos.2]; exact hg.target.2
  · intro i h1 h2
    rw [hst.2.2.1] at h2
    rw [hst.2.2.2.1, hst.2.2.2.2, condOrZone_visit c h]
    exact hg.stack i h1 h2
  · rw [hst.2.2.1]; exact hg.bound
  · intro x y hin hp
    rw [condOrZone_visit c h]
    by_cases hc : x = (visit c a t).SMapX ∧ y = (visit c a t).SMapY
    · rw [hc.1, hc.2, hpos.1, hpos.2]; exact hg.target.2
    · rw [powered_visit_elsewhere c a t x y hc] at hp
      exact hg.lit x y hin hp

/-- A direction that passes the test of the probing loop can be walked. -/
theorem Good_of_test (c : Consts) (v : Sim) (hv : Visited c v) (d : Nat) (hd : d < 4)
    (ht : (TestForCond c d v).2 = true) : Good c d v := by
  rw [TestForCond_inGrid c d v hd hv.pos] at ht
  unfold candidate at ht
  simp only [Bool.and_eq_true, decide_eq_true_eq] at ht
  exact ⟨hv.pos, by omega, ⟨ht.1, condOrZone_of_condTile c _ ht.2⟩, hv.stack, hv.bound, hv.lit⟩

theorem dirX_four (x : Int) : dirX 4 x = x := rfl

theorem dirY_four (y : Int) : dirY 4 y = y := rfl

theorem Good_push (c : Consts) (v : Sim) (hv : Visited c v) (d : Nat) (hg : Good c d v) :
    Good c d (PushPowerStack v) := by
  unfold PushPowerStack
  split_ifs with hlt
  · refine ⟨hg.pos, hg.dir, hg.target, ?_, ?_, hg.lit⟩
    · intro i h1 h2
      dsimp only at h2 ⊢
      by_cases hi : i = v.PowerStackNum + 1
      · subst hi
        simp only [Function.update_same]
        exact ⟨hv.pos, hv.here⟩
      · simp only [Function.update_noteq hi]
        exact hv.stack i h1 (by omega)
    · dsimp only
      omega
  · exact hg

theorem Good_pull (c : Consts) (v : Sim) (hv : Visited c v) (hs : 0 < v.PowerStackNum) :
    Good c 4 (PullPowerStack v) := by
  unfold PullPowerStack
  rw [if_pos hs]
  have htop := hv.stack v.PowerStackNum (by omega) (le_refl _)
  refine ⟨htop.1, le_refl _, ⟨htop.1, htop.2⟩, ?_, ?_, hv.lit⟩
  · intro i h1 h2
    dsimp only at h2 ⊢
    exact hv.stack i h1 (by omega)
  · dsimp only
    have := hv.bound
    omega

/-- The invariant is kept by every walk step that goes on. -/
theorem Good_next (c : Consts) (h : c.WF) (a : Nat) (t : Sim) (a1 : Nat) (t1 : Sim)
    (hg : Good c a t) (hw : walkStep c a t = Outcome.next a1 t1) : Good c a1 t1 := by
  have hv := Visited_of_Good c h a t hg
  have hfound : 1 ≤ (probeOf c a (visit c a t)).1 →
      Good c (probeOf c a (visit c a t)).2 (visit c a t) := by
    intro h1
    have := probePure_found (fun d => (TestForCond c d (visit c a t)).2) a h1
    exact Good_of_test c _ hv _ this.1 this.2
  rcases walkStep_cases c a t with ⟨_, hw2⟩ | ⟨hle, ⟨hk, hw2⟩ | ⟨hk, hw2⟩ | ⟨hk, hs, hw2⟩ | ⟨_, _, hw2⟩⟩
  · rw [hw2] at hw; cases hw
  · rw [hw2] at hw
    injection hw with e1 e2
    subst e1 e2
    exact Good_push c _ hv _ (hfound (by omega))
  · rw [hw2] at hw
    injection hw with e1 e2
    subst e1 e2
    exact hfound (by omega)
  · rw [hw2] at hw
    injection hw with e1 e2
    subst e1 e2
    exact Good_pull c _ hv hs
  · rw [hw2] at hw; cases hw

theorem condOrZone_of_isPlant (c : Consts) (v : Nat) (h : isPlant c v) : condOrZone c v := by
  rcases h with h1 | h1
  · exact Or.inr h1.1
  · exact Or.inr h1.1

/-- Every position queued by `FindPowerPlants` is a plant cell, and the
queue holds as many positions as there are plant cells, up to
`PWRSTKSIZE - 2`. -/
theorem FindPowerPlants_stack (c : Consts) (s : Sim) :
    (FindPowerPlants c s).PowerStackNum = min (plantCells c s.Map).length (PWRSTKSIZE - 2)
    ∧ (FindPowerPlants c s).Map = s.Map
    ∧ ∀ i, 1 ≤ i → i ≤ (FindPowerPlants c s).PowerStackNum →
      ∃ hlt : i - 1 < (plantCells c s.Map).length,
        ((FindPowerPlants c s).PowerStackX i, (FindPowerPlants c s).PowerStackY i)
          = (plantCells c s.Map).get ⟨i - 1, hlt⟩ := by
  rw [FindPowerPlants_eq]
  refine ⟨rfl, rfl, ?_⟩
  intro i h1 h2
  dsimp only at h2 ⊢
  have hlt : i - 1 < (plantCells c s.Map).length := by omega
  refine ⟨hlt, ?_⟩
  unfold stackOf
  simp only [List.length_map]
  rw [if_pos ⟨h1, h2⟩, if_pos ⟨h1, h2⟩]
  rw [List.getD_eq_getElem _ _ (by simpa using hlt), List.getD_eq_getElem _ _ (by simpa using hlt)]
  simp

/-- The invariant holds at the first walk step. -/
theorem Good_start (c : Consts) (h : c.WF) (s : Sim) (hpl : plantCells c s.Map ≠ []) :
    Good c 4 (scanStart c s) := by
  have hF := FindPowerPlants_stack c (scanPrelude c s)
  rw [scanPrelude_plantCells c h] at hF
  obtain ⟨hnum, hmap, hent⟩ := hF
  have hlen : 0 < (plantCells c s.Map).length := List.length_pos.2 hpl
  have h998 : PWRSTKSIZE - 2 = 998 := rfl
  have hpos : 0 < (FindPowerPlants c (scanPrelude c s)).PowerStackNum := by
    rw [hnum]; omega
  have hgood : ∀ i, 1 ≤ i → i ≤ (FindPowerPlants c (scanPrelude c s)).PowerStackNum →
      inGrid c ((FindPowerPlants c (scanPrelude c s)).PowerStackX i)
        ((FindPowerPlants c (scanPrelude c s)).PowerStackY i)
      ∧ condOrZone c ((scanPrelude c s).Map ((FindPowerPlants c (scanPrelude c s)).PowerStackY i)
        ((FindPowerPlants c (scanPrelude c s)).PowerStackX i)) := by
    intro i h1 h2
    obtain ⟨hlt, he⟩ := hent i h1 h2
    have hmem : ((FindPowerPlants c (scanPrelude c s)).PowerStackX i,
        (FindPowerPlants c (scanPrelude c s)).PowerStackY i) ∈ plantCells c s.Map := by
      rw [he]
      exact List.get_mem _ _ _
    rw [← scanPrelude_plantCells c h] at hmem
    have := (mem_plantCells c _ _ _).1 hmem
    exact ⟨this.1, condOrZone_of_isPlant c _ this.2⟩
  have hclear : ∀ x y, inGrid c x y → ¬ powered c ((scanPrelude c s).Map y x) := by
    intro x y hin
    rw [scanPrelude_eq c h]
    dsimp only
    rw [if_pos hin]
    exact not_powered_clearBits c h _
  unfold scanStart PullPowerStack
  rw [if_pos hpos]
  have htop := hgood _ hpos (le_refl _)
  refine ⟨htop.1, le_refl _, ⟨htop.1, ?_⟩, ?_, ?_, ?_⟩
  · dsimp only [dirX_four, dirY_four]
    rw [hmap]
    exact htop.2
  · intro i h1 h2
    dsimp only at h2 ⊢
    rw [hmap]
    exact hgood i h1 (by omega)
  · dsimp only
    rw [hnum]
    omega
  · intro x y hin hp
    dsimp only at hp
    rw [hmap] at hp
    exact absurd hp (hclear x y hin)

/-- The scan with the invariant `Good` built in: a property that follows
from an invariant of the walk steps, given `Good`, holds of the result. -/
theorem DoPowerScan_inv_good (c : Consts) (h : c.WF) (s : Sim) (I : Nat → Sim → Prop)
    (Q : Sim → Prop)
    (hno : (∀ x y, inGrid c x y → ¬ isCoal c (s.Map y x) ∧ ¬ isNuclear c (s.Map y x)) →
      Q (noPlantCounts c (scanPrelude c s)))
    (hstart : plantCells c s.Map ≠ [] → I 4 (scanStart c s))
    (hnext : ∀ a t a1 t1, Good c a t → I a t → walkStep c a t = Outcome.next a1 t1 → I a1 t1)
    (hfin : ∀ a t t1, Good c a t → I a t → walkStep c a t = Outcome.finished t1 → Q t1) :
    ∃ s1, DoPowerScan c s = some s1 ∧ Q s1 :=
  DoPowerScan_inv c h s (fun a t => Good c a t ∧ I a t) Q hno
    (fun hpl => ⟨Good_start c h s hpl, hstart hpl⟩)
    (fun a t a1 t1 hI hw => ⟨Good_next c h a t a1 t1 hI.1 hw, hnext a t a1 t1 hI.1 hI.2 hw⟩)
    (fun a t t1 hI hw => hfin a t t1 hI.1 hI.2 hw)

/-! ## The scenario of the spec -/

/-- The first position pulled is a plant cell. -/
theorem scanStart_pos (c : Consts) (h : c.WF) (s : Sim) (hpl : plantCells c s.Map ≠ []) :
    ((scanStart c s).SMapX, (scanStart c s).SMapY) ∈ plantCells c s.Map
    ∧ (scanStart c s).PowerStackNum + 1 = min (plantCells c s.Map).length (PWRSTKSIZE - 2) := by
  have hF := FindPowerPlants_stack c (scanPrelude c s)
  rw [scanPrelude_plantCells c h] at hF
  obtain ⟨hnum, _, hent⟩ := hF
  have hlen : 0 < (plantCells c s.Map).length := List.length_pos.2 hpl
  have h998 : PWRSTKSIZE - 2 = 998 := rfl
  have hpos : 0 < (FindPowerPlants c (scanPrelude c s)).PowerStackNum := by
    rw [hnum]; omega
  obtain ⟨hlt, he⟩ := hent _ hpos (le_refl _)
  unfold scanStart PullPowerStack
  rw [if_pos hpos]
  dsimp only
  constructor
  · rw [he]
    exact List.get_mem _ _ _
  · rw [← hnum]
    omega

theorem condTile_iff (c : Consts) (v : Nat) :
    condTile c v = true ↔
      condOrZone c v ∧ typeCode c v ≠ c.NUCLEAR ∧ typeCode c v ≠ c.POWERPLANT ∧ ¬ powered c v := by
  unfold condTile condOrZone conductive zoned typeCode powered
  simp only [Bool.and_eq_true, Bool.or_eq_true, decide_eq_true_eq, Bool.not_eq_true',
    decide_eq_false_iff_not]
  tauto

theorem typeCode_clearBits (c : Consts) (h : c.WF) (v : Nat) :
    typeCode c (clearBits v c.POWERBIT) = typeCode c v := by
  unfold typeCode
  exact clearBits_mask _ _ _ (lomask_lt c h) h.power_lo

theorem typeCode_lor (c : Consts) (h : c.WF) (v : Nat) :
    typeCode c (v ||| c.POWERBIT) = typeCode c v := by
  unfold typeCode
  exact lor_mask _ _ _ h.power_lo

/-- The visit of a walk step under the invariant of the scenario. -/
theorem scenario_visit (c : Consts) (h : c.WF) (s : Sim) (hx : 2 ≤ c.WORLD_X)
    (hy : 2 ≤ c.WORLD_Y) (hwire : conductive c (s.Map 0 1))
    (hcode : typeCode c (s.Map 0 1) ≠ c.POWERPLANT ∧ typeCode c (s.Map 0 1) ≠ c.NUCLEAR)
    (hdry : ¬ conductive c (s.Map 1 0) ∧ ¬ zoned c (s.Map 1 0))
    (a : Nat) (t : Sim) (hg : Good c a t) (hi : ScenarioInv c s a t) :
    (∀ x y, condOrZone c ((visit c a t).Map y x) ↔ condOrZone c (s.Map y x))
    ∧ powered c ((visit c a t).Map 0 0)
    ∧ (1 ≤ t.NumPower → powered c ((visit c a t).Map 0 1))
    ∧ (t.NumPower = 0 → probeOf c a (visit c a t) = (1, 1)
        ∧ (visit c a t).SMapX = 0 ∧ (visit c a t).SMapY = 0) := by
  obtain ⟨_, hK, h0, h1, hp0, hp1⟩ := hi
  have hpos := visit_pos c a t hg.dir hg.pos hg.target.1
  have hv := Visited_of_Good c h a t hg
  have hstart : t.NumPower = 0 → (visit c a t).SMapX = 0 ∧ (visit c a t).SMapY = 0 := by
    intro hn
    obtain ⟨ha, hx0, hy0, -, -⟩ := h0 hn
    rw [hpos.1, hpos.2, ha, hx0, hy0]
    exact ⟨rfl, rfl⟩
  refine ⟨fun x y => by rw [condOrZone_visit c h]; exact hK x y, ?_, ?_, ?_⟩
  · by_cases hn : t.NumPower = 0
    · have hh := powered_visit_here c h a t
      rw [(hstart hn).1, (hstart hn).2] at hh
      exact hh
    · exact powered_visit c h a t 0 0 (hp0 (by omega))
  · intro hge
    by_cases hn : t.NumPower = 1
    · obtain ⟨ha, hx0, hy0⟩ := h1 hn
      have hh := powered_visit_here c h a t
      rw [hpos.1, hpos.2, hx0, hy0] at hh
      subst ha
      exact hh
    · exact powered_visit c h a t 1 0 (hp1 (by omega))
  · intro hn
    obtain ⟨ha, hx0, hy0, hm1, hm2⟩ := h0 hn
    obtain ⟨hvx, hvy⟩ := hstart hn
    refine ⟨?_, hvx, hvy⟩
    have he : (visit c a t).Map 0 1 = clearBits (s.Map 0 1) c.POWERBIT := by
      rw [powered_visit_elsewhere c a t 1 0 (by rw [hvx]; omega), hm1]
    have hs : (visit c a t).Map 1 0 = clearBits (s.Map 1 0) c.POWERBIT := by
      rw [powered_visit_elsewhere c a t 0 1 (by rw [hvy]; omega), hm2]
    have htest : ∀ d, d < 4 → (TestForCond c d (visit c a t)).2
        = candidate c (visit c a t).Map 0 0 d := by
      intro d hd
      rw [TestForCond_inGrid c d _ hd hv.pos, hvx, hvy]
    unfold probeOf
    apply probePure_single _ a 1 (by omega)
    · dsimp only
      rw [htest 1 (by omega)]
      unfold candidate
      have hin : inGrid c (dirX 1 0) (dirY 1 0) := by
        unfold inGrid dirX dirY
        dsimp only
        omega
      have e1 : dirX 1 (0 : Int) = 1 := rfl
      have e2 : dirY 1 (0 : Int) = 0 := rfl
      have hc : condTile c ((visit c a t).Map (dirY 1 0) (dirX 1 0)) = true := by
        rw [condTile_iff, e1, e2, he, condOrZone_clearBits c h, typeCode_clearBits c h]
        exact ⟨Or.inl hwire, hcode.2, hcode.1, not_powered_clearBits c h _⟩
      simp [hin, hc]
    · intro e he4 hne
      dsimp only
      rw [htest e he4]
      unfold candidate
      interval_cases e
      · have hout : ¬ inGrid c (dirX 0 0) (dirY 0 0) := by
          unfold inGrid dirX dirY
          dsimp only
          omega
        simp [hout]
      · exact absurd rfl hne
      · have e1 : dirX 2 (0 : Int) = 0 := rfl
        have e2 : dirY 2 (0 : Int) = 1 := rfl
        have hc : condTile c ((visit c a t).Map (dirY 2 0) (dirX 2 0)) = false := by
          rw [← Bool.not_eq_true, condTile_iff, e1, e2, hs, condOrZone_clearBits c h]
          intro hh
          rcases hh.1 with hh1 | hh1
          · exact hdry.1 hh1
          · exact hdry.2 hh1
        simp [hc]
      · have hout : ¬ inGrid c (dirX 3 0) (dirY 3 0) := by
          unfold inGrid dirX dirY
          dsimp only
          omega
        simp [hout]

/-- C3. On a grid whose only plant is a coal-plant cell at (0,0), with a wire
cell (conductive flag set) at (1,0) and a cell at (0,1) that carries neither
the conductive nor the zone flag, after `DoPowerScan` the cells (0,0) and
(1,0) have the powered flag and the cell (0,1) does not. -/
theorem DoPowerScan_scenario (c : Consts) (h : c.WF) (s : Sim) (hx : 2 ≤ c.WORLD_X)
    (hy : 2 ≤ c.WORLD_Y) (hplant : isCoal c (s.Map 0 0))
    (honly : ∀ x y, inGrid c x y → isPlant c (s.Map y x) → x = 0 ∧ y = 0)
    (hwire : conductive c (s.Map 0 1))
    (hcode : typeCode c (s.Map 0 1) ≠ c.POWERPLANT ∧ typeCode c (s.Map 0 1) ≠ c.NUCLEAR)
    (hdry : ¬ conductive c (s.Map 1 0) ∧ ¬ zoned c (s.Map 1 0)) :
    ∃ s1, DoPowerScan c s = some s1
      ∧ powered c (s1.Map 0 0) ∧ powered c (s1.Map 0 1) ∧ ¬ powered c (s1.Map 1 0) := by
  have hin00 : inGrid c 0 0 := by unfold inGrid; omega
  have hin10 : inGrid c 1 0 := by unfold inGrid; omega
  have hin01 : inGrid c 0 1 := by unfold inGrid; omega
  have hnotcz : ¬ condOrZone c (s.Map 1 0) := fun hh => hh.elim hdry.1 hdry.2
  apply DoPowerScan_inv_good c h s (ScenarioInv c s)
  · intro hno
    exact absurd hplant (hno 0 0 hin00).1
  · intro hpl
    have hf := scanStart_fields c h s
    have hp := (scanStart_pos c h s hpl).1
    have hp2 := (mem_plantCells c s.Map _ _).1 hp
    have hxy := honly _ _ hp2.1 hp2.2
    have hcap : 0 < countCells c s.Map (isCoal c) := countCells_pos c s.Map _ 0 0 hin00 hplant
    refine ⟨?_, ?_, ?_, ?_, ?_, ?_⟩
    · rw [hf.2.2.2]; unfold capacity; omega
    · intro x y
      rw [hf.1, scanPrelude_eq c h]
      dsimp only
      split_ifs
      · exact condOrZone_clearBits c h _
      · rfl
    · intro _
      refine ⟨rfl, hxy.1, hxy.2, ?_, ?_⟩
      · rw [hf.1, scanPrelude_eq c h]
        dsimp only
        rw [if_pos hin10]
      · rw [hf.1, scanPrelude_eq c h]
        dsimp only
        rw [if_pos hin01]
    · intro h1; rw [hf.2.2.1] at h1; omega
    · intro h1; rw [hf.2.2.1] at h1; omega
    · intro h1; rw [hf.2.2.1] at h1; omega
  · intro a t a1 t1 hg hi hw
    obtain ⟨v1, v2, v3, v4⟩ := scenario_visit c h s hx hy hwire hcode hdry a t hg hi
    have hc := walkStep_next_counters c a t a1 t1 hw
    have hm := (walkStep_next_maps c a t a1 t1 hw).1
    refine ⟨by rw [hc.2.1]; exact hi.cap, fun x y => by rw [hm]; exact v1 x y, ?_, ?_, ?_, ?_⟩
    · intro h1; omega
    · intro h1
      obtain ⟨hpr, hvx, hvy⟩ := v4 (by omega)
      rcases walkStep_cases c a t with ⟨_, hw2⟩ | ⟨_, ⟨hk, hw2⟩ | ⟨hk, hw2⟩ | ⟨hk, _, hw2⟩
        | ⟨_, _, hw2⟩⟩
      · rw [hw2] at hw; cases hw
      · rw [hpr] at hk; omega
      · rw [hw2] at hw
        injection hw with e1 e2
        subst e1 e2
        rw [hpr]
        exact ⟨rfl, hvx, hvy⟩
      · rw [hpr] at hk; cases hk
      · rw [hw2] at hw; cases hw
    · intro _; rw [hm]; exact v2
    · intro h1; rw [hm]; exact v3 (by omega)
  · intro a t t1 hg hi hw
    obtain ⟨v1, v2, v3, v4⟩ := scenario_visit c h s hx hy hwire hcode hdry a t hg hi
    rcases walkStep_finished_cases c a t t1 hw with ⟨hlt, h1⟩ | ⟨hle, h1, hk, _⟩
    · have hcap := hi.cap
      rw [h1, zoneCounts_eq]
      dsimp only
      refine ⟨hi.plantLit (by omega), hi.wireLit (by omega), fun hp => ?_⟩
      exact hnotcz ((hi.kept 0 1).1 (hg.lit 0 1 hin01 hp))
    · have hv := Visited_of_Good c h a t hg
      have hn : t.NumPower ≠ 0 := by
        intro hn
        rw [(v4 hn).1] at hk
        cases hk
      rw [h1, zoneCounts_eq]
      dsimp only
      refine ⟨v2, v3 (by omega), fun hp => ?_⟩
      exact hnotcz ((v1 0 1).1 (hv.lit 0 1 hin01 hp))

theorem scenarioGrid_only (x y : Int) (hp : isPlant (classicOn 2 2) (scenarioGrid y x)) :
    x = 0 ∧ y = 0 := by
  unfold scenarioGrid at hp
  split_ifs at hp with h1 h2
  · exact ⟨h1.2, h1.1⟩
  · exact absurd hp (by decide)
  · exact absurd hp (by decide)

/-- C3, instance: the 2 x 2 world of the spec under the classic constants. -/
theorem DoPowerScan_scenario_witness :
    ∃ s1, DoPowerScan (classicOn 2 2) (simOf scenarioGrid) = some s1
      ∧ powered (classicOn 2 2) (s1.Map 0 0) ∧ powered (classicOn 2 2) (s1.Map 0 1)
      ∧ ¬ powered (classicOn 2 2) (s1.Map 1 0) :=
  DoPowerScan_scenario (classicOn 2 2) (classicOn_wf 2 2 (by decide) (by decide) (by decide))
    (simOf scenarioGrid) (by decide) (by decide) (by decide)
    (fun x y _ hp => scenarioGrid_only x y hp) (by decide) (by decide) (by decide)

/-! ## Two runs side by side -/

theorem probePure_congr (t1 t2 : Nat → Bool) (a : Nat) (h : ∀ d, d < 4 → t1 d = t2 d) :
    probePure t1 4 0 0 a = probePure t2 4 0 0 a := by
  have h0 := h 0 (by omega)
  have h1 := h 1 (by omega)
  have h2 := h 2 (by omega)
  have h3 := h 3 (by omega)
  simp [probePure, h0, h1, h2, h3]

/-- The counting of the exits reads the map on the cells of the grid only. -/
theorem zoneCounts_congr (c : Consts) (t u : Sim)
    (hm : ∀ x y, inGrid c x y → t.Map y x = u.Map y x)
    (hp : ∀ x y, inGrid c x y → t.PowerMap y x = u.PowerMap y x) :
    SameResult c (zoneCounts c t) (zoneCounts c u) := by
  rw [zoneCounts_eq, zoneCounts_eq]
  refine ⟨hm, hp, ?_, ?_⟩
  · exact countCells_congr c t.Map u.Map (fun v => zoned c v ∧ powered c v)
      (fun v => zoned c v ∧ powered c v) (fun x y hin => by rw [hm x y hin])
  · exact countCells_congr c t.Map u.Map (fun v => zoned c v ∧ ¬ powered c v)
      (fun v => zoned c v ∧ ¬ powered c v) (fun x y hin => by rw [hm x y hin])

/-- The direction in force carries over to a state that agrees. -/
theorem Good_congr (c : Consts) (a : Nat) (t u : Sim) (hg : Good c a t) (hr : Agree c t u) :
    Good c a u := by
  refine ⟨?_, hg.dir, ?_, ?_, ?_, ?_⟩
  · rw [← hr.px, ← hr.py]; exact hg.pos
  · rw [← hr.px, ← hr.py, ← hr.map _ _ hg.target.1]; exact hg.target
  · intro i h1 h2
    rw [← hr.num] at h2
    have := hg.stack i h1 h2
    rw [← hr.sx i h1 h2, ← hr.sy i h1 h2, ← hr.map _ _ this.1]
    exact this
  · rw [← hr.num]; exact hg.bound
  · intro x y hin hp
    rw [← hr.map x y hin] at hp ⊢
    exact hg.lit x y hin hp

/-- The visits of two states that agree. -/
theorem Agree_visit (c : Consts) (a : Nat) (t u : Sim) (hg : Good c a t)
    (hr : Agree c t u) : Agree c (visit c a t) (visit c a u) := by
  have hgu := Good_congr c a t u hg hr
  have hpt := visit_pos c a t hg.dir hg.pos hg.target.1
  have hpu := visit_pos c a u hgu.dir hgu.pos hgu.target.1
  have hct := visit_counters c a t
  have hcu := visit_counters c a u
  have hx : (visit c a t).SMapX = (visit c a u).SMapX := by rw [hpt.1, hpu.1, hr.px]
  have hy : (visit c a t).SMapY = (visit c a u).SMapY := by rw [hpt.2, hpu.2, hr.py]
  have hin : inGrid c (visit c a t).SMapX (visit c a t).SMapY := by
    rw [hpt.1, hpt.2]; exact hg.target.1
  refine ⟨?_, ?_, hx, hy, ?_, ?_, ?_, ?_, ?_⟩
  · intro x y hxy
    rw [(visit_maps c a t).1, (visit_maps c a u).1, ← hx, ← hy]
    unfold setCell
    split_ifs
    · rw [hr.map _ _ hin]
    · exact hr.map x y hxy
  · intro x y hxy
    rw [(visit_maps c a t).2, (visit_maps c a u).2, ← hx, ← hy]
    unfold setCell
    split_ifs
    · rfl
    · exact hr.pmap x y hxy
  · rw [hct.2.2.1, hcu.2.2.1]; exact hr.num
  · intro i h1 h2
    rw [hct.2.2.1] at h2
    rw [hct.2.2.2.1, hcu.2.2.2.1]
    exact hr.sx i h1 h2
  · intro i h1 h2
    rw [hct.2.2.1] at h2
    rw [hct.2.2.2.2, hcu.2.2.2.2]
    exact hr.sy i h1 h2
  · rw [hct.1, hcu.1, hr.np]
  · rw [hct.2.1, hcu.2.1]; exact hr.mp

/-- The probing loop gives the same outcome in two states that agree. -/
theorem probeOf_congr (c : Consts) (a : Nat) (v w : Sim) (hv : inGrid c v.SMapX v.SMapY)
    (hr : Agree c v w) : probeOf c a v = probeOf c a w := by
  unfold probeOf
  apply probePure_congr
  intro d hd
  dsimp only
  have hw : inGrid c w.SMapX w.SMapY := by rw [← hr.px, ← hr.py]; exact hv
  rw [TestForCond_inGrid c d v hd hv, TestForCond_inGrid c d w hd hw, ← hr.px, ← hr.py]
  unfold candidate
  by_cases hin : inGrid c (dirX d v.SMapX) (dirY d v.SMapY)
  · rw [hr.map _ _ hin]
  · simp [hin]

theorem Agree_push (c : Consts) (v w : Sim) (hr : Agree c v w) :
    Agree c (PushPowerStack v) (PushPowerStack w) := by
  unfold PushPowerStack
  rw [← hr.num, ← hr.px, ← hr.py]
  split_ifs with hlt
  · refine ⟨hr.map, hr.pmap, rfl, rfl, rfl, ?_, ?_, hr.np, hr.mp⟩
    · intro i h1 h2
      dsimp only at h2 ⊢
      by_cases hi : i = v.PowerStackNum + 1
      · subst hi
        simp only [Function.update_same]
      · simp only [Function.update_noteq hi]
        exact hr.sx i h1 (by omega)
    · intro i h1 h2
      dsimp only at h2 ⊢
      by_cases hi : i = v.PowerStackNum + 1
      · subst hi
        simp only [Function.update_same]
      · simp only [Function.update_noteq hi]
        exact hr.sy i h1 (by omega)
  · exact hr

theorem Agree_pull (c : Consts) (v w : Sim) (hr : Agree c v w) :
    Agree c (PullPowerStack v) (PullPowerStack w) := by
  unfold PullPowerStack
  rw [← hr.num]
  split_ifs with hlt
  · refine ⟨hr.map, hr.pmap, ?_, ?_, rfl, ?_, ?_, hr.np, hr.mp⟩
    · exact hr.sx _ (by omega) (le_refl _)
    · exact hr.sy _ (by omega) (le_refl _)
    · intro i h1 h2
      dsimp only at h2 ⊢
      exact hr.sx i h1 (by omega)
    · intro i h1 h2
      dsimp only at h2 ⊢
      exact hr.sy i h1 (by omega)
  · exact hr

/-- A walk step takes the same way in two states that agree, and the two
states it leaves agree again. -/
theorem walkStep_congr (c : Consts) (h : c.WF) (a : Nat) (t u : Sim) (hg : Good c a t)
    (hr : Agree c t u) :
    (∃ a1 t1 u1, walkStep c a t = Outcome.next a1 t1 ∧ walkStep c a u = Outcome.next a1 u1
      ∧ Agree c t1 u1)
    ∨ (∃ t1 u1, walkStep c a t = Outcome.finished t1 ∧ walkStep c a u = Outcome.finished u1
      ∧ SameResult c t1 u1) := by
  have hv := Visited_of_Good c h a t hg
  have hrv := Agree_visit c a t u hg hr
  have hpr := probeOf_congr c a (visit c a t) (visit c a u) hv.pos hrv
  have hnp := hr.np
  have hmp := hr.mp
  have hnum := hrv.num
  have hu := walkStep_cases c a u
  rw [← hpr, ← hnp, ← hmp, ← hnum] at hu
  rcases walkStep_cases c a t with ⟨hlt, hw⟩ | ⟨hle, ⟨hk, hw⟩ | ⟨hk, hw⟩ | ⟨hk, hs, hw⟩
    | ⟨hk, hs, hw⟩⟩
  · right
    rcases hu with ⟨_, hw2⟩ | ⟨hle2, _⟩
    · refine ⟨_, _, hw, hw2, ?_⟩
      exact zoneCounts_congr c _ _ hr.map hr.pmap
    · omega
  · left
    rcases hu with ⟨hlt2, _⟩ | ⟨_, ⟨_, hw2⟩ | ⟨hk2, _⟩ | ⟨hk2, _, _⟩ | ⟨hk2, _, _⟩⟩
    · omega
    · exact ⟨_, _, _, hw, hw2, Agree_push c _ _ hrv⟩
    · omega
    · omega
    · omega
  · left
    rcases hu with ⟨hlt2, _⟩ | ⟨_, ⟨hk2, _⟩ | ⟨_, hw2⟩ | ⟨hk2, _, _⟩ | ⟨hk2, _, _⟩⟩
    · omega
    · omega
    · exact ⟨_, _, _, hw, hw2, hrv⟩
    · omega
    · omega
  · left
    rcases hu with ⟨hlt2, _⟩ | ⟨_, ⟨hk2, _⟩ | ⟨hk2, _⟩ | ⟨_, _, hw2⟩ | ⟨_, hs2, _⟩⟩
    · omega
    · omega
    · omega
    · exact ⟨_, _, _, hw, hw2, Agree_pull c _ _ hrv⟩
    · omega
  · right
    rcases hu with ⟨hlt2, _⟩ | ⟨_, ⟨hk2, _⟩ | ⟨hk2, _⟩ | ⟨_, hs2, _⟩ | ⟨_, _, hw2⟩⟩
    · omega
    · omega
    · omega
    · omega
    · exact ⟨_, _, hw, hw2, zoneCounts_congr c _ _ hrv.map hrv.pmap⟩

/-- The loop of walk steps returns results that agree from states that agree. -/
theorem scanLoop_congr (c : Consts) (h : c.WF) :
    ∀ fuel a t u t1, Good c a t → Agree c t u → scanLoop c fuel a t = some t1 →
      ∃ u1, scanLoop c fuel a u = some u1 ∧ SameResult c t1 u1 := by
  intro fuel
  induction fuel with
  | zero =>
    intro a t u t1 _ _ hs
    simp [scanLoop] at hs
  | succ n ih =>
    intro a t u t1 hg hr hs
    unfold scanLoop at hs ⊢
    rcases walkStep_congr c h a t u hg hr with ⟨a1, t2, u2, hw1, hw2, hr2⟩ | ⟨t2, u2, hw1, hw2, hr2⟩
    · rw [hw1] at hs
      rw [hw2]
      exact ih a1 t2 u2 t1 (Good_next c h a t a1 t2 hg hw1) hr2 hs
    · rw [hw1] at hs
      rw [hw2]
      simp only [Option.some.injEq] at hs
      subst hs
      exact ⟨u2, rfl, hr2⟩

/-! ## Stale power state -/

theorem isCoal_clearBits (c : Consts) (h : c.WF) (v : Nat) :
    isCoal c (clearBits v c.POWERBIT) ↔ isCoal c v := by
  unfold isCoal
  rw [zoned_clearBits c h, typeCode_clearBits c h]

theorem isNuclear_clearBits (c : Consts) (h : c.WF) (v : Nat) :
    isNuclear c (clearBits v c.POWERBIT) ↔ isNuclear c v := by
  unfold isNuclear
  rw [zoned_clearBits c h, typeCode_clearBits c h]

/-- Maps that agree outside the powered flag have the same plants. -/
theorem plants_of_agree (c : Consts) (h : c.WF) (m1 m2 : Grid)
    (hagree : ∀ x y, inGrid c x y → clearBits (m1 y x) c.POWERBIT = clearBits (m2 y x) c.POWERBIT) :
    (∀ x y, inGrid c x y → (isCoal c (m1 y x) ↔ isCoal c (m2 y x)))
    ∧ (∀ x y, inGrid c x y → (isNuclear c (m1 y x) ↔ isNuclear c (m2 y x)))
    ∧ plantCells c m1 = plantCells c m2
    ∧ capacity c m1 = capacity c m2 := by
  have hc : ∀ x y, inGrid c x y → (isCoal c (m1 y x) ↔ isCoal c (m2 y x)) := by
    intro x y hin
    rw [← isCoal_clearBits c h (m1 y x), ← isCoal_clearBits c h (m2 y x), hagree x y hin]
  have hn : ∀ x y, inGrid c x y → (isNuclear c (m1 y x) ↔ isNuclear c (m2 y x)) := by
    intro x y hin
    rw [← isNuclear_clearBits c h (m1 y x), ← isNuclear_clearBits c h (m2 y x), hagree x y hin]
  refine ⟨hc, hn, ?_, ?_⟩
  · unfold plantCells
    apply List.filter_congr
    intro q hq
    obtain ⟨x, y⟩ := q
    have hin := (mem_cells c x y).1 hq
    unfold isPlant
    have e1 := hc x y hin
    have e2 := hn x y hin
    simp only [e1, e2]
  · unfold capacity
    rw [countCells_congr c m1 m2 (isCoal c) (isCoal c) hc,
      countCells_congr c m1 m2 (isNuclear c) (isNuclear c) hn]

/-- The state at the first walk step in terms of the plant cells of the map. -/
theorem scanStart_closed (c : Consts) (h : c.WF) (s : Sim) (hpl : plantCells c s.Map ≠ []) :
    (scanStart c s).SMapX = ((plantCells c s.Map).map Prod.fst).getD
        (min (plantCells c s.Map).length (PWRSTKSIZE - 2) - 1) 0
    ∧ (scanStart c s).SMapY = ((plantCells c s.Map).map Prod.snd).getD
        (min (plantCells c s.Map).length (PWRSTKSIZE - 2) - 1) 0
    ∧ (scanStart c s).PowerStackNum = min (plantCells c s.Map).length (PWRSTKSIZE - 2) - 1
    ∧ (∀ i, 1 ≤ i → i ≤ min (plantCells c s.Map).length (PWRSTKSIZE - 2) →
        (scanStart c s).PowerStackX i = ((plantCells c s.Map).map Prod.fst).getD (i - 1) 0
        ∧ (scanStart c s).PowerStackY i = ((plantCells c s.Map).map Prod.snd).getD (i - 1) 0) := by
  have hlen : 0 < (plantCells c s.Map).length := List.length_pos.2 hpl
  have h998 : PWRSTKSIZE - 2 = 998 := rfl
  have hF := FindPowerPlants_eq c (scanPrelude c s)
  rw [scanPrelude_plantCells c h] at hF
  have hpos : 0 < (FindPowerPlants c (scanPrelude c s)).PowerStackNum := by
    rw [hF]; dsimp only; omega
  have hidx : ∀ i, 1 ≤ i → i ≤ min (plantCells c s.Map).length (PWRSTKSIZE - 2) →
      (FindPowerPlants c (scanPrelude c s)).PowerStackX i
        = ((plantCells c s.Map).map Prod.fst).getD (i - 1) 0
      ∧ (FindPowerPlants c (scanPrelude c s)).PowerStackY i
        = ((plantCells c s.Map).map Prod.snd).getD (i - 1) 0 := by
    intro i h1 h2
    rw [hF]
    dsimp only
    unfold stackOf
    simp only [List.length_map]
    rw [if_pos ⟨h1, h2⟩, if_pos ⟨h1, h2⟩]
    exact ⟨rfl, rfl⟩
  have hnum : (FindPowerPlants c (scanPrelude c s)).PowerStackNum
      = min (plantCells c s.Map).length (PWRSTKSIZE - 2) := by rw [hF]
  unfold scanStart PullPowerStack
  rw [if_pos hpos]
  dsimp only
  rw [hnum]
  have htop := hidx (min (plantCells c s.Map).length (PWRSTKSIZE - 2)) (by omega) (le_refl _)
  exact ⟨htop.1, htop.2, rfl, hidx⟩

/-- The first walk steps of two states whose maps agree outside the powered
flag agree. -/
theorem Agree_start (c : Consts) (h : c.WF) (s u : Sim)
    (hagree : ∀ x y, inGrid c x y →
      clearBits (s.Map y x) c.POWERBIT = clearBits (u.Map y x) c.POWERBIT)
    (hpl : plantCells c s.Map ≠ []) : Agree c (scanStart c s) (scanStart c u) := by
  obtain ⟨_, _, hpe, hce⟩ := plants_of_agree c h s.Map u.Map hagree
  have hpl2 : plantCells c u.Map ≠ [] := by rw [← hpe]; exact hpl
  have hs := scanStart_closed c h s hpl
  have hu := scanStart_closed c h u hpl2
  rw [← hpe] at hu
  have fs := scanStart_fields c h s
  have fu := scanStart_fields c h u
  have hlen : 0 < (plantCells c s.Map).length := List.length_pos.2 hpl
  refine ⟨?_, ?_, ?_, ?_, ?_, ?_, ?_, ?_, ?_⟩
  · intro x y hin
    rw [fs.1, fu.1, scanPrelude_eq c h, scanPrelude_eq c h]
    dsimp only
    rw [if_pos hin, if_pos hin]
    exact hagree x y hin
  · intro x y hin
    rw [fs.2.1, fu.2.1, scanPrelude_eq c h, scanPrelude_eq c h]
    dsimp only
    rw [if_pos hin, if_pos hin]
  · rw [hs.1, hu.1]
  · rw [hs.2.1, hu.2.1]
  · rw [hs.2.2.1, hu.2.2.1]
  · intro i h1 h2
    rw [hs.2.2.1] at h2
    rw [(hs.2.2.2 i h1 (by omega)).1, (hu.2.2.2 i h1 (by omega)).1]
  · intro i h1 h2
    rw [hs.2.2.1] at h2
    rw [(hs.2.2.2 i h1 (by omega)).2, (hu.2.2.2 i h1 (by omega)).2]
  · rw [fs.2.2.1, fu.2.2.1]
  · rw [fs.2.2.2, fu.2.2.2, hce]

/-- The scans of two states whose maps agree outside the powered flag return
results that agree. -/
theorem DoPowerScan_congr (c : Consts) (h : c.WF) (s u : Sim)
    (hagree : ∀ x y, inGrid c x y →
      clearBits (s.Map y x) c.POWERBIT = clearBits (u.Map y x) c.POWERBIT) :
    ∃ s1 u1, DoPowerScan c s = some s1 ∧ DoPowerScan c u = some u1 ∧ SameResult c s1 u1 := by
  obtain ⟨hce, hne, hpe, hcap⟩ := plants_of_agree c h s.Map u.Map hagree
  rcases DoPowerScan_cases c h s with ⟨hnp, hd⟩ | ⟨hpl, hd⟩
  · have hnp2 : ∀ x y, inGrid c x y → ¬ isCoal c (u.Map y x) ∧ ¬ isNuclear c (u.Map y x) := by
      intro x y hin
      rw [← hce x y hin, ← hne x y hin]
      exact hnp x y hin
    refine ⟨_, _, hd, DoPowerScan_noPlant c h u hnp2, ?_⟩
    have hmap : ∀ x y, inGrid c x y →
        (scanPrelude c s).Map y x = (scanPrelude c u).Map y x := by
      intro x y hin
      rw [scanPrelude_eq c h, scanPrelude_eq c h]
      dsimp only
      rw [if_pos hin, if_pos hin]
      exact hagree x y hin
    rw [noPlantCounts_eq, noPlantCounts_eq]
    refine ⟨hmap, ?_, rfl, ?_⟩
    · intro x y hin
      rw [scanPrelude_eq c h, scanPrelude_eq c h]
      dsimp only
      rw [if_pos hin, if_pos hin]
    · exact countCells_congr c _ _ (zoned c) (zoned c) (fun x y hin => by rw [hmap x y hin])
  · have hpl2 : plantCells c u.Map ≠ [] := by rw [← hpe]; exact hpl
    have hd2 : DoPowerScan c u = scanLoop c (capacity c u.Map + 1) 4 (scanStart c u) := by
      rcases DoPowerScan_cases c h u with ⟨hnp2, _⟩ | ⟨_, hd2⟩
      · exfalso
        obtain ⟨q, hq⟩ := List.exists_mem_of_ne_nil _ hpl2
        obtain ⟨x, y⟩ := q
        have := (mem_plantCells c u.Map x y).1 hq
        rcases this.2 with hc | hn
        · exact (hnp2 x y this.1).1 hc
        · exact (hnp2 x y this.1).2 hn
      · exact hd2
    have hf := scanStart_fields c h s
    obtain ⟨s1, hs1⟩ := scanLoop_total c (capacity c s.Map + 1) 4 (scanStart c s)
      (by rw [hf.2.2.1]; omega) (by rw [hf.2.2.1, hf.2.2.2]; omega)
    obtain ⟨u1, hu1, hsame⟩ := scanLoop_congr c h _ _ _ _ s1 (Good_start c h s hpl)
      (Agree_start c h s u hagree hpl) hs1
    exact ⟨s1, u1, by rw [hd, hs1], by rw [hd2, ← hcap, hu1], hsame⟩

theorem clearBits_idem (c : Consts) (h : c.WF) (v w : Nat)
    (hk : ∀ m, m < 65536 → c.POWERBIT &&& m = 0 → v &&& m = w &&& m) :
    clearBits v c.POWERBIT = clearBits w c.POWERBIT := by
  unfold clearBits
  apply hk
  · have h1 : (0xFFFF : Nat) < 2 ^ 16 := by norm_num
    have h2 : c.POWERBIT < 2 ^ 16 := by have := h.power_lt; omega
    have := Nat.xor_lt_two_pow h1 h2
    omega
  · apply Nat.eq_of_testBit_eq
    intro i
    simp only [Nat.testBit_and, Nat.testBit_xor, Nat.zero_testBit, testBit_ffff]
    by_cases hpi : c.POWERBIT.testBit i = true
    · have := testBit_of_lt_16 _ i h.power_lt hpi
      simp [hpi, this]
    · simp [hpi]

/-- C6. The result of `DoPowerScan` does not depend on stale power state: two
input states whose maps agree in every cell on the type code and on every
flag but the powered one, and that differ arbitrarily in the powered flags,
in `PowerMap`, in the power stack, in the position and in all counters, give
the same final `Map`, `PowerMap`, `PwrdZCnt` and `UnpwrdZCnt`; and a second
`DoPowerScan` run right after the first gives again what the first gave. -/
theorem DoPowerScan_stale_independent (c : Consts) (h : c.WF) (s u : Sim)
    (hagree : ∀ x y, inGrid c x y →
      clearBits (s.Map y x) c.POWERBIT = clearBits (u.Map y x) c.POWERBIT) :
    (∃ s1 u1, DoPowerScan c s = some s1 ∧ DoPowerScan c u = some u1
      ∧ (∀ x y, inGrid c x y → s1.Map y x = u1.Map y x ∧ s1.PowerMap y x = u1.PowerMap y x)
      ∧ s1.PwrdZCnt = u1.PwrdZCnt ∧ s1.UnpwrdZCnt = u1.UnpwrdZCnt)
    ∧ (∃ s1 s2, DoPowerScan c s = some s1 ∧ DoPowerScan c s1 = some s2
      ∧ (∀ x y, inGrid c x y → s2.Map y x = s1.Map y x ∧ s2.PowerMap y x = s1.PowerMap y x)
      ∧ s2.PwrdZCnt = s1.PwrdZCnt ∧ s2.UnpwrdZCnt = s1.UnpwrdZCnt) := by
  constructor
  · obtain ⟨s1, u1, h1, h2, hs⟩ := DoPowerScan_congr c h s u hagree
    exact ⟨s1, u1, h1, h2, fun x y hin => ⟨hs.map x y hin, hs.pmap x y hin⟩, hs.pwrd, hs.unpwrd⟩
  · obtain ⟨s1, h1, hk⟩ := DoPowerScan_keeps_mask c h s
    have hag : ∀ x y, inGrid c x y →
        clearBits (s1.Map y x) c.POWERBIT = clearBits (s.Map y x) c.POWERBIT := by
      intro x y _
      exact clearBits_idem c h _ _ (fun m hm hd => hk m hm hd x y)
    obtain ⟨s2, s3, h2, h3, hs⟩ := DoPowerScan_congr c h s1 s hag
    rw [h1] at h3
    simp only [Option.some.injEq] at h3
    subst h3
    exact ⟨s1, s2, h1, h2, fun x y hin => ⟨hs.map x y hin, hs.pmap x y hin⟩, hs.pwrd, hs.unpwrd⟩

theorem staleSim_agrees (x y : Int) :
    clearBits ((simOf scenarioGrid).Map y x) (classicOn 2 2).POWERBIT
      = clearBits (staleSim.Map y x) (classicOn 2 2).POWERBIT := by
  show clearBits (scenarioGrid y x) 32768 = clearBits (scenarioGrid y x ||| 32768) 32768
  unfold scenarioGrid
  split_ifs <;> decide

/-- C6, instance: the scenario grid, clean and with stale power state. -/
theorem DoPowerScan_stale_independent_witness :
    ∃ s1 u1, DoPowerScan (classicOn 2 2) (simOf scenarioGrid) = some s1
      ∧ DoPowerScan (classicOn 2 2) staleSim = some u1
      ∧ (∀ x y, inGrid (classicOn 2 2) x y →
          s1.Map y x = u1.Map y x ∧ s1.PowerMap y x = u1.PowerMap y x)
      ∧ s1.PwrdZCnt = u1.PwrdZCnt ∧ s1.UnpwrdZCnt = u1.UnpwrdZCnt :=
  (DoPowerScan_stale_independent (classicOn 2 2)
    (classicOn_wf 2 2 (by decide) (by decide) (by decide)) (simOf scenarioGrid) staleSim
    (fun x y _ => staleSim_agrees x y)).1

/-! ## A straight line of wire -/

/-- A neighbour of a cell of the line that lies on the line is the next cell
or the one before. -/
theorem line_neighbour (d e : Nat) (hd : d < 4) (he : e < 4) (px py : Int) (k j : Nat)
    (hx : dirX e (lineX d px k) = lineX d px j) (hy : dirY e (lineY d py k) = lineY d py j) :
    (e = d ∧ j = k + 1) ∨ j + 1 = k := by
  unfold lineX at hx
  unfold lineY at hy
  interval_cases d <;> interval_cases e <;> simp only [dirX, dirY] at hx hy <;> omega

/-- The neighbour in the direction of the line is the next cell. -/
theorem line_next (d : Nat) (hd : d < 4) (px py : Int) (k : Nat) :
    dirX d (lineX d px k) = lineX d px (k + 1) ∧ dirY d (lineY d py k) = lineY d py (k + 1) := by
  unfold lineX lineY
  interval_cases d <;> simp only [dirX, dirY] <;> constructor <;> push_cast <;> omega

/-- The cells of the line are distinct. -/
theorem line_injective (d : Nat) (hd : d < 4) (px py : Int) (i j : Nat)
    (hx : lineX d px i = lineX d px j) (hy : lineY d py i = lineY d py j) : i = j := by
  unfold lineX at hx
  unfold lineY at hy
  interval_cases d <;> simp only [dirX, dirY] at hx hy <;> omega

theorem line_zero (d : Nat) (px py : Int) : lineX d px 0 = px ∧ lineY d py 0 = py := by
  unfold lineX lineY
  simp

/-- In a list without repetition exactly one entry of which passes a test,
the test counts one. -/
theorem countP_eq_one {α : Type} (l : List α) (hnd : l.Nodup) (a : α) (ha : a ∈ l)
    (p : α → Bool) (hp : ∀ b ∈ l, (p b = true ↔ b = a)) : l.countP p = 1 := by
  induction l with
  | nil => exact absurd ha (List.not_mem_nil _)
  | cons b l ih =>
    have hnd2 := List.nodup_cons.1 hnd
    rw [List.countP_cons]
    by_cases hb : b = a
    · have h0 : l.countP p = 0 := by
        rw [List.countP_eq_zero]
        intro r hr hpr
        have := (hp r (List.mem_cons_of_mem _ hr)).1 hpr
        apply hnd2.1
        rw [hb, ← this]
        exact hr
      have h1 : p b = true := (hp b (List.mem_cons_self _ _)).2 hb
      rw [h0, if_pos h1]
    · have ha2 : a ∈ l := by
        rcases List.mem_cons.1 ha with e | e
        · exact absurd e.symm hb
        · exact e
      have h1 : ¬ p b = true := fun e => hb ((hp b (List.mem_cons_self _ _)).1 e)
      rw [ih hnd2.2 ha2 (fun r hr => hp r (List.mem_cons_of_mem _ hr)), if_neg h1]

/-- A property that holds of exactly one cell of the grid counts one. -/
theorem countCells_eq_one (c : Consts) (m : Grid) (p : Nat → Prop) [DecidablePred p]
    (x0 y0 : Int) (hin : inGrid c x0 y0) (hp : p (m y0 x0))
    (honly : ∀ x y, inGrid c x y → p (m y x) → x = x0 ∧ y = y0) : countCells c m p = 1 := by
  unfold countCells
  apply countP_eq_one (cells c) (cells_nodup c) (x0, y0) ((mem_cells c x0 y0).2 hin)
  intro q hq
  obtain ⟨x, y⟩ := q
  have hq2 := (mem_cells c x y).1 hq
  simp only [decide_eq_true_eq, Prod.mk.injEq]
  constructor
  · exact honly x y hq2
  · rintro ⟨rfl, rfl⟩
    exact hp

theorem probePure_all_false (t : Nat → Bool) (a : Nat) (h : ∀ e, e < 4 → t e = false) :
    probePure t 4 0 0 a = (0, a) := by
  have h0 := h 0 (by omega)
  have h1 := h 1 (by omega)
  have h2 := h 2 (by omega)
  have h3 := h 3 (by omega)
  simp [probePure, h0, h1, h2, h3]

/-- What a cell of a line map carries. -/
theorem LineMap_cell (c : Consts) (h : c.WF) (m m1 : Grid) (d : Nat) (px py : Int) (k : Nat)
    (hm : LineMap c m m1 d px py k) (x y : Int) (hin : inGrid c x y) :
    (condOrZone c (m1 y x) ↔ condOrZone c (m y x))
    ∧ typeCode c (m1 y x) = typeCode c (m y x)
    ∧ (powered c (m1 y x) ↔ onLine d px py k x y) := by
  by_cases ho : onLine d px py k x y
  · rw [hm.lit x y hin ho, condOrZone_lor c h, condOrZone_clearBits c h, typeCode_lor c h,
      typeCode_clearBits c h]
    exact ⟨Iff.rfl, rfl, ⟨fun _ => ho, fun _ => powered_lor c h _⟩⟩
  · rw [hm.dark x y hin ho, condOrZone_clearBits c h, typeCode_clearBits c h]
    exact ⟨Iff.rfl, rfl, ⟨fun hp => absurd hp (not_powered_clearBits c h _), fun hh => absurd hh ho⟩⟩

/-- Powering the next cell of the line extends the line map by one. -/
theorem LineMap_step (c : Consts) (m m1 : Grid) (d : Nat) (hd : d < 4) (px py : Int) (k : Nat)
    (hm : LineMap c m m1 d px py k) (hin : inGrid c (lineX d px k) (lineY d py k)) :
    LineMap c m (setCell m1 (lineX d px k) (lineY d py k)
      (m1 (lineY d py k) (lineX d px k) ||| c.POWERBIT)) d px py (k + 1) := by
  have hnot : ¬ onLine d px py k (lineX d px k) (lineY d py k) := by
    rintro ⟨i, hi, hx, hy⟩
    have := line_injective d hd px py k i hx hy
    omega
  constructor
  · intro x y hxy ho
    unfold setCell
    split_ifs with hc
    · rw [hm.dark _ _ hin hnot, hc.1, hc.2]
    · obtain ⟨i, hi, hx, hy⟩ := ho
      have hik : i ≠ k := by
        intro e
        apply hc
        rw [hx, hy, e]
        exact ⟨rfl, rfl⟩
      exact hm.lit x y hxy ⟨i, by omega, hx, hy⟩
  · intro x y hxy ho
    unfold setCell
    split_ifs with hc
    · exfalso
      apply ho
      exact ⟨k, by omega, hc.2, hc.1⟩
    · apply hm.dark x y hxy
      rintro ⟨i, hi, hx, hy⟩
      exact ho ⟨i, by omega, hx, hy⟩

/-- On a line world with the first `k + 1` cells of the line powered, the only
candidate next to cell `k` is cell `k + 1`, when the line has one. -/
theorem line_candidate (c : Consts) (h : c.WF) (m m1 : Grid) (d : Nat) (px py : Int)
    (N k : Nat) (hw : LineWorld c m d px py N) (hm : LineMap c m m1 d px py (k + 1))
    (e : Nat) (he : e < 4) :
    candidate c m1 (lineX d px k) (lineY d py k) e = true ↔ e = d ∧ k < N := by
  unfold candidate
  simp only [Bool.and_eq_true, decide_eq_true_eq]
  constructor
  · rintro ⟨hin, hc⟩
    have hcell := LineMap_cell c h m m1 d px py (k + 1) hm _ _ hin
    rw [condTile_iff] at hc
    have hon : onLine d px py (N + 1) (dirX e (lineX d px k)) (dirY e (lineY d py k)) := by
      by_contra hoff
      have := hw.rest _ _ hin hoff
      rcases hcell.1.1 hc.1 with h1 | h1
      · exact this.1 h1
      · exact this.2 h1
    obtain ⟨j, hj, hx, hy⟩ := hon
    rcases line_neighbour d e hw.dir he px py k j hx hy with ⟨hed, hjk⟩ | hjk
    · exact ⟨hed, by omega⟩
    · exfalso
      apply hc.2.2.2
      rw [hcell.2.2]
      exact ⟨j, by omega, hx, hy⟩
  · rintro ⟨hed, hk⟩
    subst hed
    have hn := line_next e hw.dir px py k
    rw [hn.1, hn.2]
    have hin := hw.inside (k + 1) (by omega)
    have hcell := LineMap_cell c h m m1 e px py (k + 1) hm _ _ hin
    refine ⟨hin, ?_⟩
    rw [condTile_iff, hcell.1, hcell.2.1, hcell.2.2]
    have hwire := hw.wire (k + 1) (by omega) (by omega)
    refine ⟨Or.inl hwire.1, hwire.2.2, hwire.2.1, ?_⟩
    rintro ⟨i, hi, hx, hy⟩
    have := line_injective e hw.dir px py (k + 1) i hx hy
    omega

/-- The probing loop on cell `k` of the line, the first `k + 1` cells powered:
it finds the next cell alone, or nothing at the end of the line. -/
theorem line_probe (c : Consts) (h : c.WF) (m : Grid) (d : Nat) (px py : Int) (N k : Nat)
    (hw : LineWorld c m d px py N) (v : Sim) (a : Nat)
    (hx : v.SMapX = lineX d px k) (hy : v.SMapY = lineY d py k) (hk : k ≤ N)
    (hm : LineMap c m v.Map d px py (k + 1)) :
    (k < N → probeOf c a v = (1, d)) ∧ (k = N → probeOf c a v = (0, a)) := by
  have hin : inGrid c v.SMapX v.SMapY := by rw [hx, hy]; exact hw.inside k hk
  have htest : ∀ e, e < 4 →
      ((TestForCond c e v).2 = true ↔ e = d ∧ k < N) := by
    intro e he
    rw [TestForCond_inGrid c e v he hin, hx, hy]
    exact line_candidate c h m v.Map d px py N k hw hm e he
  constructor
  · intro hlt
    unfold probeOf
    apply probePure_single _ a d hw.dir
    · exact (htest d hw.dir).2 ⟨rfl, hlt⟩
    · intro e he hne
      dsimp only
      rw [← Bool.not_eq_true]
      intro ht
      exact hne ((htest e he).1 ht).1
  · intro heq
    unfold probeOf
    apply probePure_all_false
    intro e he
    dsimp only
    rw [← Bool.not_eq_true]
    intro ht
    have := ((htest e he).1 ht).2
    omega

/-- The visit of a walk step under the invariant of the line. -/
theorem line_visit (c : Consts) (h : c.WF) (s : Sim) (d : Nat) (px py : Int) (N : Nat)
    (hw : LineWorld c s.Map d px py N) (a : Nat) (t : Sim) (hg : Good c a t)
    (hi : LineInv c s d px py N a t) :
    (visit c a t).SMapX = lineX d px t.NumPower
    ∧ (visit c a t).SMapY = lineY d py t.NumPower
    ∧ LineMap c s.Map (visit c a t).Map d px py (t.NumPower + 1)
    ∧ (visit c a t).PowerStackNum = 0
    ∧ (t.NumPower < N → probeOf c a (visit c a t) = (1, d))
    ∧ (t.NumPower = N → probeOf c a (visit c a t) = (0, a)) := by
  have hpos := visit_pos c a t hg.dir hg.pos hg.target.1
  have hx : (visit c a t).SMapX = lineX d px t.NumPower := by rw [hpos.1, hi.target.1]
  have hy : (visit c a t).SMapY = lineY d py t.NumPower := by rw [hpos.2, hi.target.2]
  have hmap : LineMap c s.Map (visit c a t).Map d px py (t.NumPower + 1) := by
    rw [(visit_maps c a t).1, hx, hy]
    exact LineMap_step c s.Map t.Map d hw.dir px py t.NumPower hi.map (hw.inside _ hi.cnt)
  have hpr := line_probe c h s.Map d px py N t.NumPower hw (visit c a t) a hx hy hi.cnt hmap
  exact ⟨hx, hy, hmap, by rw [(visit_counters c a t).2.2.1]; exact hi.empty, hpr.1, hpr.2⟩

/-- On a line world the plant cell is the only plant. -/
theorem LineWorld_only (c : Consts) (m : Grid) (d : Nat) (px py : Int) (N : Nat)
    (hw : LineWorld c m d px py N) (x y : Int) (hin : inGrid c x y) (hp : isPlant c (m y x)) :
    x = px ∧ y = py := by
  have hz : zoned c (m y x) := by
    rcases hp with h1 | h1
    · exact h1.1
    · exact h1.1
  have hon : onLine d px py (N + 1) x y := by
    by_contra hoff
    exact (hw.rest x y hin hoff).2 hz
  obtain ⟨i, hi, hx, hy⟩ := hon
  by_cases h0 : i = 0
  · subst h0
    rw [hx, hy]
    exact line_zero d px py
  · exfalso
    have hwire := hw.wire i (by omega) (by omega)
    rw [← hx, ← hy] at hwire
    rcases hp with h1 | h1
    · exact hwire.2.1 h1.2
    · exact hwire.2.2 h1.2

/-- The capacity of a line world is that of one coal plant. -/
theorem LineWorld_capacity (c : Consts) (h : c.WF) (m : Grid) (d : Nat) (px py : Int) (N : Nat)
    (hw : LineWorld c m d px py N) :
    capacity c m = 700 ∧ (plantCells c m).length = 1 := by
  have hin : inGrid c px py := by
    have := hw.inside 0 (Nat.zero_le _)
    rw [(line_zero d px py).1, (line_zero d px py).2] at this
    exact this
  have h1 : countCells c m (isCoal c) = 1 :=
    countCells_eq_one c m _ px py hin hw.plant
      (fun x y hxy hp => LineWorld_only c m d px py N hw x y hxy (Or.inl hp))
  have h2 : countCells c m (isNuclear c) = 0 := by
    apply countCells_eq_zero
    intro x y hxy hn
    have := LineWorld_only c m d px py N hw x y hxy (Or.inr hn)
    rw [this.1, this.2] at hn
    exact h.plants_ne (hw.plant.2.symm.trans hn.2)
  have h3 : countCells c m (isPlant c) = 1 :=
    countCells_eq_one c m _ px py hin (Or.inl hw.plant)
      (fun x y hxy hp => LineWorld_only c m d px py N hw x y hxy hp)
  constructor
  · unfold capacity
    rw [h1, h2]
  · rw [plantCells_length, h3]

/-- The invariant of the line holds at the first walk step. -/
theorem LineInv_start (c : Consts) (h : c.WF) (s : Sim) (d : Nat) (px py : Int) (N : Nat)
    (hw : LineWorld c s.Map d px py N) (hpl : plantCells c s.Map ≠ []) :
    LineInv c s d px py N 4 (scanStart c s) := by
  have hf := scanStart_fields c h s
  have hcap := LineWorld_capacity c h s.Map d px py N hw
  have hp := scanStart_pos c h s hpl
  have hp2 := (mem_plantCells c s.Map _ _).1 hp.1
  have hxy := LineWorld_only c s.Map d px py N hw _ _ hp2.1 hp2.2
  have h998 : PWRSTKSIZE - 2 = 998 := rfl
  refine ⟨by rw [hf.2.2.2]; exact hcap.1, by rw [hf.2.2.1]; omega, by rw [hf.2.2.1]; omega,
    ?_, ?_, ?_⟩
  · rw [hf.2.2.1, dirX_four, dirY_four, hxy.1, hxy.2, (line_zero d px py).1,
      (line_zero d px py).2]
    exact ⟨rfl, rfl⟩
  · have := hp.2
    rw [hcap.2] at this
    omega
  · rw [hf.2.2.1, hf.1]
    constructor
    · rintro x y _ ⟨i, hi, _, _⟩
      omega
    · intro x y hin _
      rw [scanPrelude_eq c h]
      dsimp only
      rw [if_pos hin]

/-- The scan of a line world leaves powered exactly the first `N + 1` cells
of the line, the plant being the first, or the first 700 when that is less. -/
theorem DoPowerScan_line_cells (c : Consts) (h : c.WF) (s : Sim) (d : Nat) (px py : Int)
    (N : Nat) (hw : LineWorld c s.Map d px py N) :
    ∃ s1, DoPowerScan c s = some s1 ∧ ∀ x y, inGrid c x y →
      (powered c (s1.Map y x) ↔ onLine d px py (min (N + 1) 700) x y) := by
  have hin : inGrid c px py := by
    have := hw.inside 0 (Nat.zero_le _)
    rw [(line_zero d px py).1, (line_zero d px py).2] at this
    exact this
  apply DoPowerScan_inv_good c h s (LineInv c s d px py N)
  · intro hno
    exact absurd hw.plant (hno px py hin).1
  · exact LineInv_start c h s d px py N hw
  · intro a t a1 t1 hg hi hwk
    obtain ⟨vx, vy, vmap, vst, vp1, vp0⟩ := line_visit c h s d px py N hw a t hg hi
    have hc := walkStep_next_counters c a t a1 t1 hwk
    have hcnt := hi.cnt
    have hcap := hi.cap
    by_cases hlt : t.NumPower < N
    · have hpr := vp1 hlt
      rcases walkStep_cases c a t with ⟨_, hw2⟩ | ⟨_, ⟨hk, hw2⟩ | ⟨hk, hw2⟩ | ⟨hk, _, hw2⟩
        | ⟨_, _, hw2⟩⟩
      · rw [hw2] at hwk; cases hwk
      · rw [hpr] at hk; omega
      · rw [hw2] at hwk
        injection hwk with e1 e2
        subst e1 e2
        rw [hpr]
        have hn := line_next d hw.dir px py t.NumPower
        refine ⟨by rw [hc.2.1]; exact hcap, by rw [hc.1]; omega, by rw [hc.1]; omega,
          ?_, vst, ?_⟩
        · rw [hc.1, vx, vy]
          exact hn
        · rw [hc.1]
          exact vmap
      · rw [hpr] at hk; cases hk
      · rw [hw2] at hwk; cases hwk
    · have hpr := vp0 (by omega)
      rcases walkStep_cases c a t with ⟨_, hw2⟩ | ⟨_, ⟨hk, hw2⟩ | ⟨hk, hw2⟩ | ⟨hk, hs, hw2⟩
        | ⟨_, _, hw2⟩⟩
      · rw [hw2] at hwk; cases hwk
      · rw [hpr] at hk; omega
      · rw [hpr] at hk; cases hk
      · omega
      · rw [hw2] at hwk; cases hwk
  · intro a t t1 hg hi hwk x y hxy
    obtain ⟨vx, vy, vmap, vst, vp1, vp0⟩ := line_visit c h s d px py N hw a t hg hi
    have hcnt := hi.cnt
    have hcap := hi.cap
    have hle := hi.le
    rcases walkStep_finished_cases c a t t1 hwk with ⟨hcut, h1⟩ | ⟨hgo, h1, hk, _⟩
    · rw [h1, zoneCounts_eq]
      dsimp only
      rw [(LineMap_cell c h s.Map t.Map d px py t.NumPower hi.map x y hxy).2.2]
      have e : min (N + 1) 700 = t.NumPower := by omega
      rw [e]
    · have hN : t.NumPower = N := by
        by_contra hne
        rw [vp1 (by omega)] at hk
        cases hk
      rw [h1, zoneCounts_eq]
      dsimp only
      rw [(LineMap_cell c h s.Map _ d px py (t.NumPower + 1) vmap x y hxy).2.2]
      have e : min (N + 1) 700 = t.NumPower + 1 := by omega
      rw [e]

/-- A property that holds exactly of the first `K` cells of a line lying in
the grid counts `K`. -/
theorem countCells_onLine (c : Consts) (m : Grid) (d : Nat) (hd : d < 4) (px py : Int) (K : Nat)
    (p : Nat → Prop) [DecidablePred p]
    (hin : ∀ i, i < K → inGrid c (lineX d px i) (lineY d py i))
    (hiff : ∀ x y, inGrid c x y → (p (m y x) ↔ onLine d px py K x y)) :
    countCells c m p = K := by
  have hL : ((List.range K).map fun i => (lineX d px i, lineY d py i)).Nodup := by
    apply List.Nodup.map _ (List.nodup_range K)
    intro i j hij
    simp only [Prod.mk.injEq] at hij
    exact line_injective d hd px py i j hij.1 hij.2
  have hmem : ∀ q : Int × Int,
      q ∈ ((List.range K).map fun i => (lineX d px i, lineY d py i))
        ↔ onLine d px py K q.1 q.2 := by
    intro q
    obtain ⟨x, y⟩ := q
    simp only [List.mem_map, List.mem_range, Prod.mk.injEq]
    unfold onLine
    constructor
    · rintro ⟨i, hi, hx, hy⟩
      exact ⟨i, hi, hx.symm, hy.symm⟩
    · rintro ⟨i, hi, hx, hy⟩
      exact ⟨i, hi, hx.symm, hy.symm⟩
  have hcount : countCells c m p = (cells c).countP
      (fun q => decide (q ∈ ((List.range K).map fun i => (lineX d px i, lineY d py i)))) := by
    unfold countCells
    apply List.countP_congr
    intro q hq
    obtain ⟨x, y⟩ := q
    have h1 := hiff x y ((mem_cells c x y).1 hq)
    have h2 := hmem (x, y)
    simp only [decide_eq_true_eq]
    rw [h1, h2]
  rw [hcount, List.countP_eq_length_filter]
  have hperm : List.Perm
      ((cells c).filter
        (fun q => decide (q ∈ ((List.range K).map fun i => (lineX d px i, lineY d py i)))))
      ((List.range K).map fun i => (lineX d px i, lineY d py i)) := by
    rw [List.perm_ext_iff_of_nodup ((cells_nodup c).filter _) hL]
    intro q
    rw [List.mem_filter]
    simp only [decide_eq_true_eq]
    constructor
    · exact fun hq => hq.2
    · intro hq
      refine ⟨?_, hq⟩
      obtain ⟨i, hi, hx, hy⟩ := (hmem q).1 hq
      obtain ⟨x, y⟩ := q
      dsimp only at hx hy
      rw [hx, hy]
      exact (mem_cells c _ _).2 (hin i hi)
  rw [hperm.length_eq]
  simp

/-- C2. On every grid whose only plant is a single coal-plant cell and whose
only conductive or zone-flagged cells are that plant and a straight line of
`N` wire cells leaving it in one of the four directions, `DoPowerScan`
powers the plant cell and all `N` cells of the line, and nothing else, when
`N + 1 ≤ 700`; when `N + 1 > 700` it powers exactly 700 cells, the plant and
the first 699 cells of the line. -/
theorem DoPowerScan_straight_line (c : Consts) (h : c.WF) (s : Sim) (d : Nat) (px py : Int)
    (N : Nat) (hw : LineWorld c s.Map d px py N) :
    ∃ s1, DoPowerScan c s = some s1
      ∧ (N + 1 ≤ 700 →
          (∀ i, i ≤ N → powered c (s1.Map (lineY d py i) (lineX d px i)))
          ∧ countCells c s1.Map (powered c) = N + 1)
      ∧ (700 < N + 1 →
          (∀ x y, inGrid c x y →
            (powered c (s1.Map y x) ↔ ∃ i, i < 700 ∧ x = lineX d px i ∧ y = lineY d py i))
          ∧ countCells c s1.Map (powered c) = 700) := by
  obtain ⟨s1, hs1, hcells⟩ := DoPowerScan_line_cells c h s d px py N hw
  have hcount : countCells c s1.Map (powered c) = min (N + 1) 700 :=
    countCells_onLine c s1.Map d hw.dir px py _ (powered c)
      (fun i hi => hw.inside i (by omega)) hcells
  refine ⟨s1, hs1, ?_, ?_⟩
  · intro hle
    have e : min (N + 1) 700 = N + 1 := by omega
    rw [e] at hcells hcount
    refine ⟨fun i hi => ?_, hcount⟩
    rw [hcells _ _ (hw.inside i hi)]
    exact ⟨i, by omega, rfl, rfl⟩
  · intro hgt
    have e : min (N + 1) 700 = 700 := by omega
    rw [e] at hcells hcount
    exact ⟨hcells, hcount⟩

theorem longGrid_lineWorld : LineWorld (classicOn 800 1) (simOf longGrid).Map 1 0 0 750 := by
  have hX : ∀ i : Nat, lineX 1 0 i = (i : Int) := by
    intro i
    unfold lineX dirX
    simp
  have hY : ∀ i : Nat, lineY 1 0 i = 0 := by
    intro i
    unfold lineY dirY
    simp
  constructor
  · decide
  · intro i hi
    rw [hX, hY]
    unfold inGrid
    show 0 ≤ (i : Int) ∧ (i : Int) < ((800 : Nat) : Int) ∧ (0 : Int) ≤ 0 ∧ (0 : Int) < ((1 : Nat) : Int)
    omega
  · decide
  · intro i h1 h2
    rw [hX, hY]
    have hv : (simOf longGrid).Map 0 (i : Int) = 208 + 16384 := by
      show longGrid 0 (i : Int) = _
      unfold longGrid
      rw [if_neg (by omega), if_pos (by omega)]
    rw [hv]
    decide
  · intro x y hin hoff
    unfold inGrid at hin
    have hin2 : 0 ≤ x ∧ x < ((800 : Nat) : Int) ∧ 0 ≤ y ∧ y < ((1 : Nat) : Int) := hin
    have hx : 750 < x := by
      by_contra hle
      apply hoff
      refine ⟨x.toNat, by omega, ?_, ?_⟩
      · rw [hX]; omega
      · rw [hY]; omega
    have hv : (simOf longGrid).Map y x = 0 := by
      show longGrid y x = _
      unfold longGrid
      rw [if_neg (by omega), if_neg (by omega)]
    rw [hv]
    decide

/-- C2, instance: the line of 750 wire cells on a world of 800 by 1 cells;
the capacity cuts the walk after 700 cells. -/
theorem DoPowerScan_straight_line_witness :
    LineWorld (classicOn 800 1) (simOf longGrid).Map 1 0 0 750
    ∧ ∃ s1, DoPowerScan (classicOn 800 1) (simOf longGrid) = some s1
      ∧ countCells (classicOn 800 1) s1.Map (powered (classicOn 800 1)) = 700 :=
  ⟨longGrid_lineWorld,
    let ⟨s1, h1, _, h3⟩ := DoPowerScan_straight_line (classicOn 800 1)
      (classicOn_wf 800 1 (by decide) (by decide) (by decide)) (simOf longGrid) 1 0 0 750
      longGrid_lineWorld
    ⟨s1, h1, (h3 (by decide)).2⟩⟩

theorem classic_tools_wf : classic.ToolsWF := by
  constructor <;> decide

/-! ## FixSingle: the mask, the type code and the flags -/

/-- The mask built by four guarded `|=` is the sum of the bits set. -/
theorem mask_sum (p1 p2 p3 p4 : Prop) [Decidable p1] [Decidable p2] [Decidable p3]
    [Decidable p4] :
    (if p4 then (if p3 then (if p2 then (if p1 then (0 : Nat) ||| 1 else 0) ||| 2
        else (if p1 then (0 : Nat) ||| 1 else 0)) ||| 4
      else (if p2 then (if p1 then (0 : Nat) ||| 1 else 0) ||| 2
        else (if p1 then (0 : Nat) ||| 1 else 0))) ||| 8
    else (if p3 then (if p2 then (if p1 then (0 : Nat) ||| 1 else 0) ||| 2
        else (if p1 then (0 : Nat) ||| 1 else 0)) ||| 4
      else (if p2 then (if p1 then (0 : Nat) ||| 1 else 0) ||| 2
        else (if p1 then (0 : Nat) ||| 1 else 0))))
    = (if p1 then 1 else 0) + (if p2 then 2 else 0) + (if p3 then 4 else 0)
      + (if p4 then 8 else 0) := by
  by_cases h1 : p1 <;> by_cases h2 : p2 <;> by_cases h3 : p3 <;> by_cases h4 : p4 <;>
    simp only [h1, h2, h3, h4, if_true, if_false] <;> rfl

/-- At a cell of the grid the guards of `FixSingle` are the bounds checks on
the four neighbours, so that its mask is the mask of the specification. -/
theorem connectMask_eq_specMask (c : Consts) (m : Grid) (conn : Nat → Bool) (x y : Int)
    (hb : TestBounds c x y = true) :
    connectMask c m conn x y = specMask c m conn x y := by
  unfold TestBounds at hb
  simp only [decide_eq_true_eq] at hb
  have e1 : (y > 0 ∧ conn (m (y - 1) x) = true)
      ↔ (TestBounds c x (y - 1) = true ∧ conn (m (y - 1) x) = true) := by
    unfold TestBounds; simp only [decide_eq_true_eq]
    constructor
    · rintro ⟨a, b⟩; exact ⟨⟨hb.1, hb.2.1, by omega, by omega⟩, b⟩
    · rintro ⟨a, b⟩; exact ⟨by omega, b⟩
  have e2 : (x < (c.WORLD_X : Int) - 1 ∧ conn (m y (x + 1)) = true)
      ↔ (TestBounds c (x + 1) y = true ∧ conn (m y (x + 1)) = true) := by
    unfold TestBounds; simp only [decide_eq_true_eq]
    constructor
    · rintro ⟨a, b⟩; exact ⟨⟨by omega, by omega, hb.2.2.1, hb.2.2.2⟩, b⟩
    · rintro ⟨a, b⟩; exact ⟨by omega, b⟩
  have e3 : (y < (c.WORLD_Y : Int) - 1 ∧ conn (m (y + 1) x) = true)
      ↔ (TestBounds c x (y + 1) = true ∧ conn (m (y + 1) x) = true) := by
    unfold TestBounds; simp only [decide_eq_true_eq]
    constructor
    · rintro ⟨a, b⟩; exact ⟨⟨hb.1, hb.2.1, by omega, by omega⟩, b⟩
    · rintro ⟨a, b⟩; exact ⟨by omega, b⟩
  have e4 : (x > 0 ∧ conn (m y (x - 1)) = true)
      ↔ (TestBounds c (x - 1) y = true ∧ conn (m y (x - 1)) = true) := by
    unfold TestBounds; simp only [decide_eq_true_eq]
    constructor
    · rintro ⟨a, b⟩; exact ⟨⟨by omega, by omega, hb.2.2.1, hb.2.2.2⟩, b⟩
    · rintro ⟨a, b⟩; exact ⟨by omega, b⟩
  unfold connectMask specMask
  dsimp only
  simp only [e1, e2, e3, e4]
  by_cases h1 : (TestBounds c x (y - 1) = true ∧ conn (m (y - 1) x) = true) <;>
  by_cases h2 : (TestBounds c (x + 1) y = true ∧ conn (m y (x + 1)) = true) <;>
  by_cases h3 : (TestBounds c x (y + 1) = true ∧ conn (m (y + 1) x) = true) <;>
  by_cases h4 : (TestBounds c (x - 1) y = true ∧ conn (m y (x - 1)) = true) <;>
    simp only [h1, h2, h3, h4, if_true, if_false] <;> rfl

theorem specMask_le (c : Consts) (m : Grid) (conn : Nat → Bool) (x y : Int) :
    specMask c m conn x y ≤ 15 := by
  unfold specMask
  split_ifs <;> omega

/-- The bits of the mask of the specification. -/
theorem specMask_bits (c : Consts) (m : Grid) (conn : Nat → Bool) (x y : Int) :
    ((specMask c m conn x y).testBit 0 = true
        ↔ (TestBounds c x (y - 1) = true ∧ conn (m (y - 1) x) = true))
    ∧ ((specMask c m conn x y).testBit 1 = true
        ↔ (TestBounds c (x + 1) y = true ∧ conn (m y (x + 1)) = true))
    ∧ ((specMask c m conn x y).testBit 2 = true
        ↔ (TestBounds c x (y + 1) = true ∧ conn (m (y + 1) x) = true))
    ∧ ((specMask c m conn x y).testBit 3 = true
        ↔ (TestBounds c (x - 1) y = true ∧ conn (m y (x - 1)) = true)) := by
  unfold specMask
  by_cases h1 : (TestBounds c x (y - 1) = true ∧ conn (m (y - 1) x) = true) <;>
  by_cases h2 : (TestBounds c (x + 1) y = true ∧ conn (m y (x + 1)) = true) <;>
  by_cases h3 : (TestBounds c x (y + 1) = true ∧ conn (m (y + 1) x) = true) <;>
  by_cases h4 : (TestBounds c (x - 1) y = true ∧ conn (m y (x - 1)) = true) <;>
    simp only [h1, h2, h3, h4, if_true, if_false, iff_true, iff_false] <;> decide

theorem land_15 (k : Nat) (hk : k ≤ 15) : k &&& 15 = k := by
  interval_cases k <;> rfl

/-- The value stored by `FixSingle` at a road cell of the grid. -/
theorem FixSingle_road (c : Consts) (ht : c.TilesWF) (hr : c.ToolsWF) (m : Grid) (x y : Int)
    (hb : TestBounds c x y = true)
    (hc : c.ROADBASE ≤ m y x &&& c.LOMASK ∧ m y x &&& c.LOMASK ≤ c.LASTROAD) :
    FixSingle c m x y y x
      = (m y x &&& c.ALLBITS) ||| (c.ROADS + specMask c m (roadConn c) x y) ||| c.BULLBIT
          ||| c.BURNBIT := by
  have h1 : ¬ (m y x &&& c.LOMASK < 1 ∨ m y x &&& c.LOMASK ≥ LASTTILE) := by
    have := hr.road_pos; have := ht.road_power; have := ht.power_le
    unfold LASTTILE; unfold LHPOWER at *; omega
  unfold FixSingle
  dsimp only
  rw [if_neg (by simp [hb]), if_neg h1, if_pos hc, setCell_same,
    connectMask_eq_specMask c m _ x y hb, land_15 _ (specMask_le c m _ x y),
    RoadTable_getD c _ (specMask_le c m _ x y)]

/-- The value stored by `FixSingle` at a rail cell of the grid. -/
theorem FixSingle_rail (c : Consts) (ht : c.TilesWF) (hr : c.ToolsWF) (m : Grid) (x y : Int)
    (hb : TestBounds c x y = true)
    (hc : c.RAILBASE ≤ m y x &&& c.LOMASK ∧ m y x &&& c.LOMASK ≤ c.LASTRAIL) :
    FixSingle c m x y y x
      = (m y x &&& c.ALLBITS) ||| (c.RAILBASE + specMask c m (railConn c) x y) ||| c.BULLBIT
          ||| c.BURNBIT := by
  have h1 : ¬ (m y x &&& c.LOMASK < 1 ∨ m y x &&& c.LOMASK ≥ LASTTILE) := by
    have := hr.rail_last; have := ht.lastpower_rail
    unfold LASTTILE at *; unfold LASTPOWER at *; omega
  have h2 : ¬ (c.ROADBASE ≤ m y x &&& c.LOMASK ∧ m y x &&& c.LOMASK ≤ c.LASTROAD) := by
    have := ht.road_power; have := ht.power_le; have := ht.lastpower_rail
    unfold LHPOWER LASTPOWER at *; omega
  unfold FixSingle
  dsimp only
  rw [if_neg (by simp [hb]), if_neg h1, if_neg h2, if_pos hc, setCell_same,
    connectMask_eq_specMask c m _ x y hb, land_15 _ (specMask_le c m _ x y),
    RailTable_getD c _ (specMask_le c m _ x y)]

/-- The value stored by `FixSingle` at a wire cell of the grid. -/
theorem FixSingle_wire (c : Consts) (ht : c.TilesWF) (m : Grid) (x y : Int)
    (hb : TestBounds c x y = true)
    (hc : c.POWERBASE ≤ m y x &&& c.LOMASK ∧ m y x &&& c.LOMASK ≤ LASTPOWER) :
    FixSingle c m x y y x
      = (m y x &&& c.ALLBITS) ||| (WireTable c).getD (specMask c m (wireConn c) x y) 0
          ||| c.BULLBIT ||| c.BURNBIT ||| c.CONDBIT := by
  have h1 : ¬ (m y x &&& c.LOMASK < 1 ∨ m y x &&& c.LOMASK ≥ LASTTILE) := by
    have := ht.road_power
    unfold LASTTILE; unfold LASTPOWER at *; omega
  have h2 : ¬ (c.ROADBASE ≤ m y x &&& c.LOMASK ∧ m y x &&& c.LOMASK ≤ c.LASTROAD) := by
    have := ht.road_power; omega
  have h3 : ¬ (c.RAILBASE ≤ m y x &&& c.LOMASK ∧ m y x &&& c.LOMASK ≤ c.LASTRAIL) := by
    have := ht.lastpower_rail; omega
  unfold FixSingle
  dsimp only
  rw [if_neg (by simp [hb]), if_neg h1, if_neg h2, if_neg h3, if_pos hc, setCell_same,
    connectMask_eq_specMask c m _ x y hb, land_15 _ (specMask_le c m _ x y)]

theorem railConn_eq_roadConn (c : Consts) : railConn c = roadConn c := by
  funext v
  unfold railConn roadConn
  exact Bool.or_comm _ _

theorem WireTable_le (c : Consts) (ht : c.TilesWF) (k : Nat) (hk : k ≤ 15) :
    (WireTable c).getD k 0 ≤ c.LOMASK := by
  have h1 := ht.power_rail; have h2 := ht.rail_fits; have h3 := ht.power_le
  have h4 := ht.lastpower_rail
  unfold LHPOWER at h3
  unfold LASTPOWER at h4
  interval_cases k <;> simp [WireTable] <;> omega

/-- C11. At a cell `(x, y)` of the grid whose type code is in the road range
(in the rail range), `FixSingle(x, y)` leaves the type code `ROADS + m`
(`RAILBASE + m`), where `m < 16` is the mask of the specification: bit 0 is
set exactly when the north neighbour is a cell of the grid whose type code is
in the road or the rail range, bit 1 likewise for the east neighbour, bit 2
for the south and bit 3 for the west one, so that a neighbour outside the grid
never sets its bit. -/
theorem FixSingle_road_rail_code (c : Consts) (h : c.WF) (ht : c.TilesWF) (hr : c.ToolsWF)
    (m : Grid) (x y : Int) (hb : TestBounds c x y = true) :
    (isRoad c (typeCode c (m y x)) = true →
      typeCode c (FixSingle c m x y y x) = c.ROADS + specMask c m (roadConn c) x y)
    ∧ (isRail c (typeCode c (m y x)) = true →
      typeCode c (FixSingle c m x y y x) = c.RAILBASE + specMask c m (roadConn c) x y)
    ∧ specMask c m (roadConn c) x y < 16
    ∧ ((specMask c m (roadConn c) x y).testBit 0 = true
        ↔ (TestBounds c x (y - 1) = true
          ∧ (isRoad c (typeCode c (m (y - 1) x)) = true
            ∨ isRail c (typeCode c (m (y - 1) x)) = true)))
    ∧ ((specMask c m (roadConn c) x y).testBit 1 = true
        ↔ (TestBounds c (x + 1) y = true
          ∧ (isRoad c (typeCode c (m y (x + 1))) = true
            ∨ isRail c (typeCode c (m y (x + 1))) = true)))
    ∧ ((specMask c m (roadConn c) x y).testBit 2 = true
        ↔ (TestBounds c x (y + 1) = true
          ∧ (isRoad c (typeCode c (m (y + 1) x)) = true
            ∨ isRail c (typeCode c (m (y + 1) x)) = true)))
    ∧ ((specMask c m (roadConn c) x y).testBit 3 = true
        ↔ (TestBounds c (x - 1) y = true
          ∧ (isRoad c (typeCode c (m y (x - 1))) = true
            ∨ isRail c (typeCode c (m y (x - 1))) = true))) := by
  have hle := specMask_le c m (roadConn c) x y
  have hconn : ∀ v, roadConn c v = true
      ↔ (isRoad c (typeCode c v) = true ∨ isRail c (typeCode c v) = true) := by
    intro v; unfold roadConn typeCode; simp only [Bool.or_eq_true]
  obtain ⟨b0, b1, b2, b3⟩ := specMask_bits c m (roadConn c) x y
  refine ⟨?_, ?_, by omega, ?_, ?_, ?_, ?_⟩
  · intro hc
    unfold isRoad typeCode at hc
    simp only [decide_eq_true_eq] at hc
    unfold typeCode
    rw [FixSingle_road c ht hr m x y hb hc]
    apply store_code3 c h
    have := ht.roads_le; have := ht.road_power; have := ht.power_rail; have := ht.rail_fits
    omega
  · intro hc
    unfold isRail typeCode at hc
    simp only [decide_eq_true_eq] at hc
    unfold typeCode
    rw [FixSingle_rail c ht hr m x y hb hc, railConn_eq_roadConn]
    apply store_code3 c h
    have := ht.rail_fits
    omega
  · rw [b0, hconn]
  · rw [b1, hconn]
  · rw [b2, hconn]
  · rw [b3, hconn]

/-- C11, instance: the road at (5,5) of `toolsGrid`, with a rail to its north
and a wire to its east, becomes the road tile `ROADS + 1`; the rail at (5,4),
with that road to its south, becomes the rail tile `RAILBASE + 4`. -/
theorem FixSingle_road_rail_code_witness :
    TestBounds classic 5 5 = true
    ∧ typeCode classic (FixSingle classic toolsGrid 5 5 5 5) = classic.ROADS + 1
    ∧ typeCode classic (FixSingle classic toolsGrid 5 4 4 5) = classic.RAILBASE + 4 :=
  ⟨by decide,
    (FixSingle_road_rail_code classic classic_wf classic_tiles_wf classic_tools_wf toolsGrid 5 5
      (by decide)).1 (by decide),
    (FixSingle_road_rail_code classic classic_wf classic_tiles_wf classic_tools_wf toolsGrid 5 4
      (by decide)).2.1 (by decide)⟩

/-- C12. At a cell `(x, y)` of the grid whose type code is in the power-line
range `POWERBASE .. LASTPOWER`, `FixSingle(x, y)` leaves the type code
`WireTable[m]`, where `m < 16` is the mask of the specification: bit 0 is set
exactly when the north neighbour is a cell of the grid that has a type code of
the power-line range or carries the conductive flag, bit 1 likewise for the
east neighbour, bit 2 for the south and bit 3 for the west one; and
`WireTable[m]` is `POWERBASE + m` for every `m` but 12 and 13, where it is 210
and 211. -/
theorem FixSingle_wire_code (c : Consts) (h : c.WF) (ht : c.TilesWF)
    (m : Grid) (x y : Int) (hb : TestBounds c x y = true)
    (hc : isWire c (typeCode c (m y x)) = true) :
    typeCode c (FixSingle c m x y y x) = (WireTable c).getD (specMask c m (wireConn c) x y) 0
    ∧ specMask c m (wireConn c) x y < 16
    ∧ ((specMask c m (wireConn c) x y).testBit 0 = true
        ↔ (TestBounds c x (y - 1) = true
          ∧ (isWire c (typeCode c (m (y - 1) x)) = true ∨ conductive c (m (y - 1) x))))
    ∧ ((specMask c m (wireConn c) x y).testBit 1 = true
        ↔ (TestBounds c (x + 1) y = true
          ∧ (isWire c (typeCode c (m y (x + 1))) = true ∨ conductive c (m y (x + 1)))))
    ∧ ((specMask c m (wireConn c) x y).testBit 2 = true
        ↔ (TestBounds c x (y + 1) = true
          ∧ (isWire c (typeCode c (m (y + 1) x)) = true ∨ conductive c (m (y + 1) x))))
    ∧ ((specMask c m (wireConn c) x y).testBit 3 = true
        ↔ (TestBounds c (x - 1) y = true
          ∧ (isWire c (typeCode c (m y (x - 1))) = true ∨ conductive c (m y (x - 1)))))
    ∧ (∀ k, k < 16 → k ≠ 12 → k ≠ 13 → (WireTable c).getD k 0 = c.POWERBASE + k)
    ∧ (WireTable c).getD 12 0 = 210 ∧ (WireTable c).getD 13 0 = 211 := by
  have hle := specMask_le c m (wireConn c) x y
  have hconn : ∀ v, wireConn c v = true
      ↔ (isWire c (typeCode c v) = true ∨ conductive c v) := by
    intro v; unfold wireConn typeCode conductive
    simp only [Bool.or_eq_true, decide_eq_true_eq]
  obtain ⟨b0, b1, b2, b3⟩ := specMask_bits c m (wireConn c) x y
  refine ⟨?_, by omega, ?_, ?_, ?_, ?_, ?_, rfl, rfl⟩
  · unfold isWire typeCode at hc
    simp only [decide_eq_true_eq] at hc
    unfold typeCode
    rw [FixSingle_wire c ht m x y hb hc]
    exact store_code4 c h _ _ (WireTable_le c ht _ hle)
  · rw [b0, hconn]
  · rw [b1, hconn]
  · rw [b2, hconn]
  · rw [b3, hconn]
  · intro k hk h12 h13
    interval_cases k <;> first | rfl | exact absurd rfl h12 | exact absurd rfl h13

/-- C12, instance: the wire at (6,5) of `toolsGrid` has a conductive wire to
its east and a road to its west, so that its mask is 2 and its type code
becomes `POWERBASE + 2`. -/
theorem FixSingle_wire_code_witness :
    TestBounds classic 6 5 = true ∧ isWire classic (typeCode classic (toolsGrid 5 6)) = true
    ∧ typeCode classic (FixSingle classic toolsGrid 6 5 5 6) = classic.POWERBASE + 2 :=
  ⟨by decide, by decide,
    (FixSingle_wire_code classic classic_wf classic_tiles_wf toolsGrid 6 5 (by decide)
      (by decide)).1.trans (by decide)⟩

/-- A type code shares no bit with a flag. -/
theorem low_flag (c : Consts) (h : c.WF) (t f : Nat) (ht : t ≤ c.LOMASK)
    (hf : f &&& c.LOMASK = 0) : t &&& f = 0 := by
  rw [← land_low _ _ h.lomask_low ht, Nat.land_assoc, Nat.land_comm c.LOMASK f, hf]
  simp

theorem flag_lo (c : Consts) (h : c.WF) (f : Nat) (hf : f &&& c.ALLBITS = f) :
    f &&& c.LOMASK = 0 := by
  rw [← hf, Nat.land_assoc, h.allbits_lo]
  simp

/-- A flag of `ALLBITS` that shares no bit with what is or-ed in is read back
unchanged from `(v & ALLBITS) | t | B | U`. -/
theorem flag_keep3 (v A t B U f : Nat) (hf : f &&& A = f) (ht : t &&& f = 0)
    (hB : f &&& B = 0) (hU : f &&& U = 0) :
    ((v &&& A) ||| t ||| B ||| U) &&& f = v &&& f := by
  apply Nat.eq_of_testBit_eq; intro i
  have h1 := congrArg (fun n => n.testBit i) hf
  have h2 := congrArg (fun n => n.testBit i) ht
  have h3 := congrArg (fun n => n.testBit i) hB
  have h4 := congrArg (fun n => n.testBit i) hU
  simp only [Nat.testBit_and, Nat.zero_testBit] at h1 h2 h3 h4
  simp only [Nat.testBit_or, Nat.testBit_and]
  revert h1 h2 h3 h4
  cases v.testBit i <;> cases A.testBit i <;> cases t.testBit i <;> cases B.testBit i <;>
    cases U.testBit i <;> cases f.testBit i <;> simp

theorem flag_keep4 (v A t B U C f : Nat) (hf : f &&& A = f) (ht : t &&& f = 0)
    (hB : f &&& B = 0) (hU : f &&& U = 0) (hC : f &&& C = 0) :
    ((v &&& A) ||| t ||| B ||| U ||| C) &&& f = v &&& f := by
  rw [land_lor_right, flag_keep3 v A t B U f hf ht hB hU, Nat.land_comm C f, hC]
  simp

/-- The flags read back from `(v & ALLBITS) | t | B | U`. -/
theorem flags_store3 (v A t B U : Nat) (ht : t &&& A = 0) (hB : B &&& A = B) (hU : U &&& A = U) :
    ((v &&& A) ||| t ||| B ||| U) &&& A = (v &&& A) ||| B ||| U := by
  rw [land_lor_right, land_lor_right, land_lor_right, ht, hB, hU, Nat.land_assoc, Nat.and_self]
  simp

theorem flags_store4 (v A t B U C : Nat) (ht : t &&& A = 0) (hB : B &&& A = B) (hU : U &&& A = U)
    (hC : C &&& A = C) :
    ((v &&& A) ||| t ||| B ||| U ||| C) &&& A = (v &&& A) ||| B ||| U ||| C := by
  rw [land_lor_right, flags_store3 v A t B U ht hB hU, hC]

theorem RoadTable_le (c : Consts) (ht : c.TilesWF) (k : Nat) (hk : k ≤ 15) :
    (RoadTable c).getD k 0 ≤ c.LOMASK := by
  rw [RoadTable_getD c k hk]
  have := ht.roads_le; have := ht.road_power; have := ht.power_rail; have := ht.rail_fits
  omega

theorem RailTable_le (c : Consts) (ht : c.TilesWF) (k : Nat) (hk : k ≤ 15) :
    (RailTable c).getD k 0 ≤ c.LOMASK := by
  rw [RailTable_getD c k hk]
  have := ht.rail_fits
  omega

/-- `FixSingle` keeps, at every cell, every flag of `ALLBITS` that shares no
bit with the bulldozable, the burnable and the conductive flag. -/
theorem FixSingle_keeps_flag (c : Consts) (h : c.WF) (ht : c.TilesWF) (m : Grid) (x y : Int)
    (f : Nat) (hf : f &&& c.ALLBITS = f) (hB : f &&& c.BULLBIT = 0) (hU : f &&& c.BURNBIT = 0)
    (hC : f &&& c.CONDBIT = 0) (x1 y1 : Int) :
    FixSingle c m x y y1 x1 &&& f = m y1 x1 &&& f := by
  by_cases hxy : x1 = x ∧ y1 = y
  · obtain ⟨rfl, rfl⟩ := hxy
    have hlo := flag_lo c h f hf
    rcases FixSingle_cases c m x1 y1 with e | ⟨k, hk, e, -⟩ | ⟨k, hk, e, -⟩ | ⟨k, hk, e, -⟩
    · rw [e]
    · rw [e, setCell_same]
      exact flag_keep3 _ _ _ _ _ _ hf (low_flag c h _ f (RoadTable_le c ht k hk) hlo) hB hU
    · rw [e, setCell_same]
      exact flag_keep3 _ _ _ _ _ _ hf (low_flag c h _ f (RailTable_le c ht k hk) hlo) hB hU
    · rw [e, setCell_same]
      exact flag_keep4 _ _ _ _ _ _ _ hf (low_flag c h _ f (WireTable_le c ht k hk) hlo) hB hU hC
  · rw [FixSingle_other c m x y x1 y1 hxy]

/-- C13. `FixSingle` keeps every flag already set on the cell and adds only
the flags of the category: at a road or rail cell of the grid the flags after
the call are the old flags with bulldozable and burnable, at a power-line
cell the old flags with bulldozable, burnable and conductive; and at no cell
does a call of `FixSingle` set or clear the zone, the powered or the animated
flag. -/
theorem FixSingle_flags (c : Consts) (h : c.WF) (ht : c.TilesWF) (hr : c.ToolsWF)
    (m : Grid) (x y : Int) :
    (TestBounds c x y = true →
      isRoad c (typeCode c (m y x)) = true ∨ isRail c (typeCode c (m y x)) = true →
      flagsOf c (FixSingle c m x y y x) = flagsOf c (m y x) ||| c.BULLBIT ||| c.BURNBIT)
    ∧ (TestBounds c x y = true → isWire c (typeCode c (m y x)) = true →
      flagsOf c (FixSingle c m x y y x)
        = flagsOf c (m y x) ||| c.BULLBIT ||| c.BURNBIT ||| c.CONDBIT)
    ∧ (∀ x1 y1 : Int,
        FixSingle c m x y y1 x1 &&& c.ZONEBIT = m y1 x1 &&& c.ZONEBIT
        ∧ FixSingle c m x y y1 x1 &&& c.POWERBIT = m y1 x1 &&& c.POWERBIT
        ∧ FixSingle c m x y y1 x1 &&& c.ANIMBIT = m y1 x1 &&& c.ANIMBIT) := by
  have hlow : ∀ t, t ≤ c.LOMASK → t &&& c.ALLBITS = 0 := fun t htl =>
    low_flag c h t c.ALLBITS htl h.allbits_lo
  refine ⟨?_, ?_, ?_⟩
  · intro hb hc
    unfold flagsOf
    rcases hc with hc | hc
    · unfold isRoad typeCode at hc
      simp only [decide_eq_true_eq] at hc
      rw [FixSingle_road c ht hr m x y hb hc]
      apply flags_store3 _ _ _ _ _ _ hr.bull_all hr.burn_all
      rw [← RoadTable_getD c _ (specMask_le c m (roadConn c) x y)]
      exact hlow _ (RoadTable_le c ht _ (specMask_le c m _ x y))
    · unfold isRail typeCode at hc
      simp only [decide_eq_true_eq] at hc
      rw [FixSingle_rail c ht hr m x y hb hc]
      apply flags_store3 _ _ _ _ _ _ hr.bull_all hr.burn_all
      rw [← RailTable_getD c _ (specMask_le c m (railConn c) x y)]
      exact hlow _ (RailTable_le c ht _ (specMask_le c m _ x y))
  · intro hb hc
    unfold flagsOf
    unfold isWire typeCode at hc
    simp only [decide_eq_true_eq] at hc
    rw [FixSingle_wire c ht m x y hb hc]
    exact flags_store4 _ _ _ _ _ _ (hlow _ (WireTable_le c ht _ (specMask_le c m _ x y)))
      hr.bull_all hr.burn_all hr.cond_all
  · intro x1 y1
    exact ⟨FixSingle_keeps_flag c h ht m x y _ hr.zone_all hr.zone_bull hr.zone_burn hr.zone_cond
        x1 y1,
      FixSingle_keeps_flag c h ht m x y _ hr.power_all h.power_bull h.power_burn h.power_cond
        x1 y1,
      FixSingle_keeps_flag c h ht m x y _ hr.anim_all hr.anim_bull hr.anim_burn hr.anim_cond
        x1 y1⟩

/-- C13, instance on `toolsGrid`: the road at (5,5), stored without flags,
comes out with the bulldozable and the burnable flag; the wire at (6,5),
stored with the conductive flag, with these two and the conductive flag. -/
theorem FixSingle_flags_witness :
    TestBounds classic 5 5 = true ∧ isRoad classic (typeCode classic (toolsGrid 5 5)) = true
    ∧ flagsOf classic (FixSingle classic toolsGrid 5 5 5 5) = 4096 + 8192
    ∧ flagsOf classic (FixSingle classic toolsGrid 6 5 5 6) = 4096 + 8192 + 16384 :=
  ⟨by decide, by decide,
    ((FixSingle_flags classic classic_wf classic_tiles_wf classic_tools_wf toolsGrid 5 5).1
      (by decide) (Or.inl (by decide))).trans (by decide),
    ((FixSingle_flags classic classic_wf classic_tiles_wf classic_tools_wf toolsGrid 6 5).2.1
      (by decide) (by decide)).trans (by decide)⟩

/-! ## The footprints -/

theorem mem_offsets (lo : Int) (n : Nat) (o : Int × Int) :
    o ∈ offsets lo n ↔ (lo ≤ o.1 ∧ o.1 < lo + n ∧ lo ≤ o.2 ∧ o.2 < lo + n) := by
  unfold offsets
  simp only [List.mem_flatMap, List.mem_map, List.mem_range]
  constructor
  · rintro ⟨j, hj, i, hi, rfl⟩
    dsimp only
    omega
  · rintro ⟨h1, h2, h3, h4⟩
    refine ⟨(o.2 - lo).toNat, by omega, (o.1 - lo).toNat, by omega, ?_⟩
    apply Prod.ext
    · dsimp only; omega
    · dsimp only; omega

theorem offsets3 : offsets (-1) 3
    = [(-1, -1), (0, -1), (1, -1), (-1, 0), (0, 0), (1, 0), (-1, 1), (0, 1), (1, 1)] := by
  decide

theorem footprintInside_iff (c : Consts) (x y : Int) (lo : Int) (n : Nat) (hn : 0 < n) :
    footprintInside c x y (offsets lo n) = true
      ↔ (0 ≤ x + lo ∧ x + lo + n ≤ c.WORLD_X ∧ 0 ≤ y + lo ∧ y + lo + n ≤ c.WORLD_Y) := by
  unfold footprintInside
  rw [List.all_eq_true]
  constructor
  · intro hall
    have h1 := hall (lo, lo) ((mem_offsets lo n _).2 ⟨by simp, by simp; omega, by simp, by simp; omega⟩)
    have h2 := hall (lo + n - 1, lo + n - 1)
      ((mem_offsets lo n _).2 ⟨by simp; omega, by simp, by simp; omega, by simp⟩)
    unfold TestBounds at h1 h2
    simp only [decide_eq_true_eq] at h1 h2
    omega
  · intro hh o ho
    rw [mem_offsets] at ho
    unfold TestBounds
    simp only [decide_eq_true_eq]
    omega

theorem cheapToClear_iff (tile : Nat) :
    cheapToClear tile = true ↔ (tile = RUBBLE ∨ (TINYEXP ≤ tile ∧ tile ≤ LASTTINYEXP)) := by
  unfold cheapToClear
  simp only [Bool.or_eq_true, Bool.and_eq_true, decide_eq_true_eq]

theorem clearable_iff (c : Consts) (cell : Nat) :
    clearable c cell = true
      ↔ (cell &&& c.LOMASK = DIRT ∨ cheapToClear (cell &&& c.LOMASK) = true) := by
  rw [cheapToClear_iff]
  unfold clearable
  simp only [Bool.or_eq_true, Bool.and_eq_true, decide_eq_true_eq, or_assoc]

/-- The loop of the footprint checks in closed form. -/
theorem areaLoop_eq (c : Consts) (Map : Grid) (x y : Int) (offs : List (Int × Int)) :
    ∀ k : Int, areaLoop c Map x y offs k
      = if footprintAll Map x y offs (clearable c) = true
        then some (k + clearingFee c Map x y offs) else none := by
  induction offs with
  | nil => intro k; simp [areaLoop, footprintAll, clearingFee]
  | cons o rest ih =>
    intro k
    unfold areaLoop
    dsimp only
    have hall : footprintAll Map x y (o :: rest) (clearable c)
        = (clearable c (Map (y + o.2) (x + o.1)) && footprintAll Map x y rest (clearable c)) := by
      unfold footprintAll; rw [List.all_cons]
    rw [hall]
    by_cases hd : Map (y + o.2) (x + o.1) &&& c.LOMASK = DIRT
    · have hc : clearable c (Map (y + o.2) (x + o.1)) = true := (clearable_iff c _).2 (Or.inl hd)
      have hfee : clearingFee c Map x y (o :: rest) = clearingFee c Map x y rest := by
        unfold clearingFee
        rw [List.countP_cons_of_neg]
        simp [hd]
      rw [if_neg (by simp [hd]), ih, hc, hfee]
      simp
    · have hfee : clearingFee c Map x y (o :: rest) = clearingFee c Map x y rest + 1 := by
        unfold clearingFee
        rw [List.countP_cons_of_pos]
        simp [hd]
      rw [if_pos hd]
      by_cases hch : cheapToClear (Map (y + o.2) (x + o.1) &&& c.LOMASK) = true
      · have hc : clearable c (Map (y + o.2) (x + o.1)) = true :=
          (clearable_iff c _).2 (Or.inr hch)
        rw [if_pos hch, ih, hc, hfee]
        simp only [Bool.true_and]
        split_ifs
        · congr 1; push_cast; ring
        · rfl
      · have hc : clearable c (Map (y + o.2) (x + o.1)) = false := by
          rw [← Bool.not_eq_true, clearable_iff]
          rintro (h | h)
          · exact hd h
          · exact hch h
        rw [if_neg hch, hc]
        simp

/-- The shape shared by the three footprint checks. -/
theorem checkShape (c : Consts) (Map : Grid) (x y : Int) (cost : Int) (lo : Int) (n : Nat)
    (hn : 0 < n) (r : Bool × Int)
    (hr : r = if ¬ (0 ≤ x + lo ∧ x + lo + n ≤ c.WORLD_X ∧ 0 ≤ y + lo ∧ y + lo + n ≤ c.WORLD_Y)
      then (false, cost)
      else match areaLoop c Map x y (offsets lo n) 0 with
        | some clearCost => (true, clearCost)
        | none => (false, cost)) :
    (r.1 = true ↔ (footprintInside c x y (offsets lo n) = true
        ∧ footprintAll Map x y (offsets lo n) (clearable c) = true))
    ∧ (r.1 = true → r.2 = clearingFee c Map x y (offsets lo n))
    ∧ (r.1 = false → r.2 = cost) := by
  rw [footprintInside_iff c x y lo n hn]
  rw [areaLoop_eq] at hr
  subst hr
  by_cases hin : (0 ≤ x + lo ∧ x + lo + n ≤ c.WORLD_X ∧ 0 ≤ y + lo ∧ y + lo + n ≤ c.WORLD_Y)
  · by_cases hall : footprintAll Map x y (offsets lo n) (clearable c) = true
    · simp [hin, hall]
    · simp [hin, hall]
  · simp [hin]

theorem Check3x3Area_spec (c : Consts) (Map : Grid) (x y : Int) (cost : Int) :
    ((Check3x3Area c Map x y cost).1 = true ↔ (footprintInside c x y (offsets (-1) 3) = true
        ∧ footprintAll Map x y (offsets (-1) 3) (clearable c) = true))
    ∧ ((Check3x3Area c Map x y cost).1 = true →
        (Check3x3Area c Map x y cost).2 = clearingFee c Map x y (offsets (-1) 3))
    ∧ ((Check3x3Area c Map x y cost).1 = false → (Check3x3Area c Map x y cost).2 = cost) := by
  apply checkShape c Map x y cost (-1) 3 (by decide)
  unfold Check3x3Area
  congr 1
  apply propext
  push_cast
  constructor <;> intro hh <;> omega

theorem Check4x4Area_spec (c : Consts) (Map : Grid) (x y : Int) (cost : Int) :
    ((Check4x4Area c Map x y cost).1 = true ↔ (footprintInside c x y (offsets (-1) 4) = true
        ∧ footprintAll Map x y (offsets (-1) 4) (clearable c) = true))
    ∧ ((Check4x4Area c Map x y cost).1 = true →
        (Check4x4Area c Map x y cost).2 = clearingFee c Map x y (offsets (-1) 4))
    ∧ ((Check4x4Area c Map x y cost).1 = false → (Check4x4Area c Map x y cost).2 = cost) := by
  apply checkShape c Map x y cost (-1) 4 (by decide)
  unfold Check4x4Area
  congr 1
  apply propext
  push_cast
  constructor <;> intro hh <;> omega

theorem Check6x6Area_spec (c : Consts) (Map : Grid) (x y : Int) (cost : Int) :
    ((Check6x6Area c Map x y cost).1 = true ↔ (footprintInside c x y (offsets (-2) 6) = true
        ∧ footprintAll Map x y (offsets (-2) 6) (clearable c) = true))
    ∧ ((Check6x6Area c Map x y cost).1 = true →
        (Check6x6Area c Map x y cost).2 = clearingFee c Map x y (offsets (-2) 6))
    ∧ ((Check6x6Area c Map x y cost).1 = false → (Check6x6Area c Map x y cost).2 = cost) := by
  apply checkShape c Map x y cost (-2) 6 (by decide)
  unfold Check6x6Area
  congr 1
  apply propext
  push_cast
  constructor <;> intro hh <;> omega

/-- C16, as stated, fails: around (20,20) of `rubbleGrid` every cell of the
3x3 footprint is inside the grid and holds bare land or, at (20,20) itself,
the tile 45 of the range `RUBBLE .. LASTRUBBLE`; `Check3x3Area` returns 0. -/
theorem Check3x3Area_rubble_range_refuted :
    footprintInside classic 20 20 (offsets (-1) 3) = true
    ∧ footprintAll rubbleGrid 20 20 (offsets (-1) 3) (clearableRange classic) = true
    ∧ typeCode classic (rubbleGrid 20 20) = 45
    ∧ (Check3x3Area classic rubbleGrid 20 20 0).1 = false := by
  decide

/-- C16, amended. `Check3x3Area`, `Check4x4Area` and `Check6x6Area` return 1
exactly when every cell of the footprint is inside the grid and holds bare
land, the one rubble tile `RUBBLE` or a tile of `TINYEXP .. LASTTINYEXP`, and
they then report the number of cells of the footprint that do not hold bare
land. -/
theorem CheckArea_accepts_iff (c : Consts) (Map : Grid) (x y : Int) (cost : Int) :
    (((Check3x3Area c Map x y cost).1 = true ↔ (footprintInside c x y (offsets (-1) 3) = true
          ∧ footprintAll Map x y (offsets (-1) 3) (clearable c) = true))
      ∧ ((Check3x3Area c Map x y cost).1 = true →
          (Check3x3Area c Map x y cost).2 = clearingFee c Map x y (offsets (-1) 3)))
    ∧ (((Check4x4Area c Map x y cost).1 = true ↔ (footprintInside c x y (offsets (-1) 4) = true
          ∧ footprintAll Map x y (offsets (-1) 4) (clearable c) = true))
      ∧ ((Check4x4Area c Map x y cost).1 = true →
          (Check4x4Area c Map x y cost).2 = clearingFee c Map x y (offsets (-1) 4)))
    ∧ (((Check6x6Area c Map x y cost).1 = true ↔ (footprintInside c x y (offsets (-2) 6) = true
          ∧ footprintAll Map x y (offsets (-2) 6) (clearable c) = true))
      ∧ ((Check6x6Area c Map x y cost).1 = true →
          (Check6x6Area c Map x y cost).2 = clearingFee c Map x y (offsets (-2) 6))) :=
  ⟨⟨(Check3x3Area_spec c Map x y cost).1, (Check3x3Area_spec c Map x y cost).2.1⟩,
    ⟨(Check4x4Area_spec c Map x y cost).1, (Check4x4Area_spec c Map x y cost).2.1⟩,
    ⟨(Check6x6Area_spec c Map x y cost).1, (Check6x6Area_spec c Map x y cost).2.1⟩⟩

/-! ## The placement functions: funds and failure -/

theorem placeWith_no_money (c : Consts) (s : City) (x y : Int) (offs : List (Int × Int))
    (place : Grid → Grid) (b t : Int) (hf : CheckFunds s (t + b) = false) :
    placeWith c s x y offs place b t = (TOOLRESULT_NO_MONEY, s) := by
  unfold placeWith
  simp [hf]

theorem placeWith_ok (c : Consts) (s : City) (x y : Int) (offs : List (Int × Int))
    (place : Grid → Grid) (b t : Int) (hf : CheckFunds s (t + b) = true) :
    (placeWith c s x y offs place b t).1 = TOOLRESULT_OK
    ∧ (placeWith c s x y offs place b t).2.TotalFunds = s.TotalFunds - (t + b) * 1
        + (if b > 0 then 0 else b)
    ∧ (placeWith c s x y offs place b t).2.Map
        = offs.foldl (fixCell c x y)
            (place (if b > 0 then offs.foldl (clearCell c x y) s.Map else s.Map)) := by
  unfold placeWith
  simp only [hf, not_true_eq_false, if_false]
  by_cases hb : b > 0
  · simp only [hb, if_true, Spend]
    refine ⟨trivial, ?_, trivial⟩
    dsimp only
    ring
  · simp only [hb, if_false, Spend]
    refine ⟨trivial, ?_, trivial⟩
    dsimp only
    ring

theorem CheckFunds_true (s : City) (cost : Int) (h : s.TotalFunds ≥ cost) :
    CheckFunds s cost = true := by
  unfold CheckFunds
  split_ifs <;> rfl

theorem CheckFunds_false (s : City) (cost : Int) (h : s.TotalFunds < cost)
    (hpos : 0 < cost ∨ 0 ≤ s.TotalFunds) : CheckFunds s cost = false := by
  unfold CheckFunds
  rw [if_neg (by omega), if_neg (by omega)]

/-- The ways a placement fails, for a footprint check `r` that meets its
specification. -/
theorem place_failure (c : Consts) (s : City) (x y : Int) (offs : List (Int × Int))
    (place : Grid → Grid) (cost : Int) (r : Bool × Int) (res : Nat × City)
    (hres : res = if ¬ r.1 = true then (TOOLRESULT_FAILED, s)
      else placeWith c s x y offs place r.2 cost)
    (h1 : r.1 = true ↔ (footprintInside c x y offs = true
        ∧ footprintAll s.Map x y offs (clearable c) = true))
    (h2 : r.1 = true → r.2 = clearingFee c s.Map x y offs)
    (hpos : 0 < cost ∨ 0 ≤ s.TotalFunds) :
    (¬ (footprintInside c x y offs = true ∧ footprintAll s.Map x y offs (clearable c) = true) →
      res = (TOOLRESULT_FAILED, s))
    ∧ (footprintInside c x y offs = true → footprintAll s.Map x y offs (clearable c) = true →
        s.TotalFunds < cost + clearingFee c s.Map x y offs → res = (TOOLRESULT_NO_MONEY, s))
    ∧ (res.1 ≠ TOOLRESULT_OK → res.2 = s) := by
  subst hres
  refine ⟨?_, ?_, ?_⟩
  · intro hno
    rw [if_pos (fun hh => hno (h1.1 hh))]
  · intro hi hc hlt
    have hr := h1.2 ⟨hi, hc⟩
    rw [if_neg (by simp [hr]), h2 hr]
    apply placeWith_no_money
    apply CheckFunds_false _ _ hlt
    rcases hpos with hp | hp
    · left; omega
    · right; exact hp
  · intro hne
    by_cases hr : r.1 = true
    · rw [if_neg (by simp [hr])] at hne ⊢
      by_cases hf : CheckFunds s (cost + r.2) = true
      · exact absurd (placeWith_ok c s x y offs place r.2 cost hf).1 hne
      · rw [placeWith_no_money c s x y offs place r.2 cost (by simpa using hf)]
    · rw [if_pos hr]

/-- C14. When the 3x3 footprint at `(x, y)` lies inside the grid, each of its
nine cells holds bare land, the rubble tile `RUBBLE` or a tile of
`TINYEXP .. LASTTINYEXP`, and the funds are at least the base cost plus the
number `k` of cells that do not hold bare land, `PlaceZone` returns ok and
`TotalFunds` goes down by exactly the base cost plus `k`. -/
theorem PlaceZone_charges (c : Consts) (s : City) (x y : Int) (baseValue : Nat) (cost : Int)
    (hin : footprintInside c x y (offsets (-1) 3) = true)
    (hclear : footprintAll s.Map x y (offsets (-1) 3) (clearable c) = true)
    (hfunds : s.TotalFunds ≥ cost + clearingFee c s.Map x y (offsets (-1) 3)) :
    (PlaceZone c s x y baseValue cost).1 = TOOLRESULT_OK
    ∧ (PlaceZone c s x y baseValue cost).2.TotalFunds
        = s.TotalFunds - (cost + clearingFee c s.Map x y (offsets (-1) 3)) := by
  obtain ⟨h1, h2, -⟩ := Check3x3Area_spec c s.Map x y 0
  have hr := h1.2 ⟨hin, hclear⟩
  have hfee := h2 hr
  unfold PlaceZone
  dsimp only
  rw [if_neg (by simp [hr]), hfee]
  obtain ⟨e1, e2, -⟩ := placeWith_ok c s x y (offsets (-1) 3)
    (fun m => ((offsets (-1) 3).foldl (zoneCell c x y baseValue) (m, 0)).1)
    (clearingFee c s.Map x y (offsets (-1) 3)) cost (CheckFunds_true s _ hfunds)
  refine ⟨e1, ?_⟩
  rw [e2]
  split_ifs with hb
  · ring
  · have : (clearingFee c s.Map x y (offsets (-1) 3) : Int) = 0 := by omega
    rw [this]; ring

/-- C14, instance: a fire station (base 761, cost 500) at (5,5) of
`rubbleGrid`, whose footprint holds the rubble tile at (4,4) and the tiny
explosion at (6,5), with funds 502: the call returns ok and leaves funds 0. -/
theorem PlaceZone_charges_witness :
    footprintInside classic 5 5 (offsets (-1) 3) = true
    ∧ footprintAll rubbleGrid 5 5 (offsets (-1) 3) (clearable classic) = true
    ∧ clearingFee classic rubbleGrid 5 5 (offsets (-1) 3) = 2
    ∧ (PlaceZone classic (cityOf rubbleGrid 502) 5 5 761 500).1 = TOOLRESULT_OK
    ∧ (PlaceZone classic (cityOf rubbleGrid 502) 5 5 761 500).2.TotalFunds = 0 :=
  ⟨by decide, by decide, by decide,
    (PlaceZone_charges classic (cityOf rubbleGrid 502) 5 5 761 500 (by decide) (by decide)
      (by decide)).1,
    (PlaceZone_charges classic (cityOf rubbleGrid 502) 5 5 761 500 (by decide) (by decide)
      (by decide)).2.trans (by decide)⟩

/-- C15. A placement that does not return ok changes nothing. For `PlaceZone`,
`Place4x4Building` and `Place6x6Building`, on a state whose funds are not
negative or with a positive base cost: when a cell of the footprint is outside
the grid or holds a tile that is not bare land, `RUBBLE` or a tile of
`TINYEXP .. LASTTINYEXP`, the result is failed; when the footprint is clear
but `TotalFunds` is below the base cost plus the clearing fee, the result is
insufficient funds; and whenever the result is not ok, `Map` and `TotalFunds`
are those before the call. -/
theorem placement_failure_no_mutation (c : Consts) (s : City) (x y : Int)
    (baseValue centerTile : Nat) (cost : Int) (hpos : 0 < cost ∨ 0 ≤ s.TotalFunds) :
    ((¬ (footprintInside c x y (offsets (-1) 3) = true
          ∧ footprintAll s.Map x y (offsets (-1) 3) (clearable c) = true) →
        PlaceZone c s x y baseValue cost = (TOOLRESULT_FAILED, s))
      ∧ (footprintInside c x y (offsets (-1) 3) = true →
          footprintAll s.Map x y (offsets (-1) 3) (clearable c) = true →
          s.TotalFunds < cost + clearingFee c s.Map x y (offsets (-1) 3) →
          PlaceZone c s x y baseValue cost = (TOOLRESULT_NO_MONEY, s))
      ∧ ((PlaceZone c s x y baseValue cost).1 ≠ TOOLRESULT_OK →
          (PlaceZone c s x y baseValue cost).2 = s))
    ∧ ((¬ (footprintInside c x y (offsets (-1) 4) = true
          ∧ footprintAll s.Map x y (offsets (-1) 4) (clearable c) = true) →
        Place4x4Building c s x y baseValue centerTile cost = (TOOLRESULT_FAILED, s))
      ∧ (footprintInside c x y (offsets (-1) 4) = true →
          footprintAll s.Map x y (offsets (-1) 4) (clearable c) = true →
          s.TotalFunds < cost + clearingFee c s.Map x y (offsets (-1) 4) →
          Place4x4Building c s x y baseValue centerTile cost = (TOOLRESULT_NO_MONEY, s))
      ∧ ((Place4x4Building c s x y baseValue centerTile cost).1 ≠ TOOLRESULT_OK →
          (Place4x4Building c s x y baseValue centerTile cost).2 = s))
    ∧ ((¬ (footprintInside c x y (offsets (-2) 6) = true
          ∧ footprintAll s.Map x y (offsets (-2) 6) (clearable c) = true) →
        Place6x6Building c s x y baseValue centerTile cost = (TOOLRESULT_FAILED, s))
      ∧ (footprintInside c x y (offsets (-2) 6) = true →
          footprintAll s.Map x y (offsets (-2) 6) (clearable c) = true →
          s.TotalFunds < cost + clearingFee c s.Map x y (offsets (-2) 6) →
          Place6x6Building c s x y baseValue centerTile cost = (TOOLRESULT_NO_MONEY, s))
      ∧ ((Place6x6Building c s x y baseValue centerTile cost).1 ≠ TOOLRESULT_OK →
          (Place6x6Building c s x y baseValue centerTile cost).2 = s)) :=
  ⟨place_failure c s x y _ _ cost (Check3x3Area c s.Map x y 0) _ rfl
      (Check3x3Area_spec c s.Map x y 0).1 (Check3x3Area_spec c s.Map x y 0).2.1 hpos,
    place_failure c s x y _ _ cost (Check4x4Area c s.Map x y 0) _ rfl
      (Check4x4Area_spec c s.Map x y 0).1 (Check4x4Area_spec c s.Map x y 0).2.1 hpos,
    place_failure c s x y _ _ cost (Check6x6Area c s.Map x y 0) _ rfl
      (Check6x6Area_spec c s.Map x y 0).1 (Check6x6Area_spec c s.Map x y 0).2.1 hpos⟩

/-- C15, instance on `rubbleGrid`: a fire station at (20,20), where the tile 45
is in the way, fails; a coal plant at (5,5) with funds 3001, one short of the
cost 3000 plus the fee 2, is refused for lack of funds; an airport at (1,1),
partly outside the grid, fails; the state is unchanged each time. -/
theorem placement_failure_no_mutation_witness :
    PlaceZone classic (cityOf rubbleGrid 9000) 20 20 761 500
        = (TOOLRESULT_FAILED, cityOf rubbleGrid 9000)
    ∧ Place4x4Building classic (cityOf rubbleGrid 3001) 5 5 745 750 3000
        = (TOOLRESULT_NO_MONEY, cityOf rubbleGrid 3001)
    ∧ Place6x6Building classic (cityOf rubbleGrid 20000) 1 1 709 716 10000
        = (TOOLRESULT_FAILED, cityOf rubbleGrid 20000) :=
  ⟨(placement_failure_no_mutation classic (cityOf rubbleGrid 9000) 20 20 761 750 500
      (Or.inl (by decide))).1.1 (by decide),
    (placement_failure_no_mutation classic (cityOf rubbleGrid 3001) 5 5 745 750 3000
      (Or.inl (by decide))).2.1.2.1 (by decide) (by decide) (by decide),
    (placement_failure_no_mutation classic (cityOf rubbleGrid 20000) 1 1 709 716 10000
      (Or.inl (by decide))).2.2.1 (by decide)⟩

/-! ## The stores of the placing loops -/

theorem toShort_land (v f : Nat) (hf : f < 65536) : toShort v &&& f = v &&& f := by
  unfold toShort
  apply Nat.eq_of_testBit_eq; intro i
  simp only [Nat.testBit_and]
  have e : (65536 : Nat) = 2 ^ 16 := by norm_num
  rw [e, Nat.testBit_mod_two_pow]
  by_cases hi : f.testBit i = true
  · have := testBit_of_lt_16 f i hf hi
    simp [this]
  · simp [hi]

theorem lomask_lt_short (c : Consts) (h : c.WF) : c.LOMASK < 65536 := by
  obtain ⟨k, hk, e⟩ := h.lomask_low
  have : 2 ^ k ≤ 2 ^ 15 := Nat.pow_le_pow_right (by norm_num) hk
  omega

theorem writeAll_cons (m : Grid) (x y : Int) (w : (Int × Int) × Nat)
    (ws : List ((Int × Int) × Nat)) :
    writeAll m x y (w :: ws) = writeAll (setCell m (x + w.1.1) (y + w.1.2) w.2) x y ws := rfl

/-- A cell that no store addresses keeps its value. -/
theorem writeAll_other (x y : Int) (ws : List ((Int × Int) × Nat)) (x1 y1 : Int) :
    ∀ m : Grid, (∀ w ∈ ws, ¬ (x1 = x + w.1.1 ∧ y1 = y + w.1.2)) →
      writeAll m x y ws y1 x1 = m y1 x1 := by
  induction ws with
  | nil => intro m _; rfl
  | cons w ws ih =>
    intro m hno
    rw [writeAll_cons, ih _ (fun w1 hw1 => hno w1 (List.mem_cons_of_mem _ hw1)),
      setCell_other _ _ _ _ _ _ (hno w (List.mem_cons_self _ _))]

/-- Stores at distinct offsets: each addressed cell holds the value stored. -/
theorem writeAll_mem (x y : Int) (ws : List ((Int × Int) × Nat)) :
    ∀ m : Grid, (ws.map Prod.fst).Nodup → ∀ w ∈ ws,
      writeAll m x y ws (y + w.1.2) (x + w.1.1) = w.2 := by
  induction ws with
  | nil => intro m _ w hw; cases hw
  | cons w0 ws ih =>
    intro m hnd w hw
    rw [List.map_cons, List.nodup_cons] at hnd
    rw [writeAll_cons]
    rcases List.mem_cons.1 hw with rfl | hin
    · rw [writeAll_other x y ws _ _ _ ?_, setCell_same]
      intro w1 hw1 hh
      apply hnd.1
      have e : w1.1 = w.1 := Prod.ext (by omega) (by omega)
      rw [← e]
      exact List.mem_map_of_mem _ hw1
    · exact ih _ hnd.2 w hin

theorem zoneCell_step (c : Consts) (x y : Int) (baseValue : Nat) (m : Grid) (i : Nat)
    (o : Int × Int) (rest : List (Int × Int)) :
    ∃ w, zoneWrites c baseValue (o :: rest) i = w :: zoneWrites c baseValue rest (i + 1)
      ∧ zoneCell c x y baseValue (m, i) o = (setCell m (x + w.1.1) (y + w.1.2) w.2, i + 1) := by
  by_cases ho : o.1 = 0 ∧ o.2 = 0
  · refine ⟨((0, 0), toShort ((baseValue + 4) ||| c.ZONEBIT ||| c.BULLBIT ||| c.CONDBIT)), ?_, ?_⟩
    · simp only [zoneWrites, ho, and_self, if_true]
    · simp only [zoneCell, ho, and_self, if_true, Int.add_zero]
  · refine ⟨(o, toShort ((baseValue + i) ||| c.BULLBIT ||| c.CONDBIT)), ?_, ?_⟩
    · simp only [zoneWrites, ho, if_false]
    · simp only [zoneCell, ho, if_false]

theorem zoneCell_fold (c : Consts) (x y : Int) (baseValue : Nat) (offs : List (Int × Int)) :
    ∀ (m : Grid) (i : Nat), (offs.foldl (zoneCell c x y baseValue) (m, i)).1
      = writeAll m x y (zoneWrites c baseValue offs i) := by
  induction offs with
  | nil => intro m i; rfl
  | cons o rest ih =>
    intro m i
    obtain ⟨w, e1, e2⟩ := zoneCell_step c x y baseValue m i o rest
    rw [List.foldl_cons, e1, e2, writeAll_cons, ih]

theorem buildingCell_step (c : Consts) (x y : Int) (baseValue centerTile skip : Nat) (m : Grid)
    (i : Nat) (o : Int × Int) (rest : List (Int × Int)) :
    ∃ w j, buildingWrites c baseValue centerTile skip (o :: rest) i
        = w :: buildingWrites c baseValue centerTile skip rest j
      ∧ buildingCell c x y baseValue centerTile skip (m, i) o
        = (setCell m (x + w.1.1) (y + w.1.2) w.2, j) := by
  by_cases ho : o.1 = 0 ∧ o.2 = 0
  · refine ⟨((0, 0), toShort (centerTile ||| c.ZONEBIT ||| c.BULLBIT)), i + 1, ?_, ?_⟩
    · simp only [buildingWrites, ho, and_self, if_true]
    · simp only [buildingCell, ho, and_self, if_true, Int.add_zero]
  · refine ⟨(o, toShort ((baseValue + (if i = skip then i + 1 else i)) ||| c.BULLBIT)),
      (if i = skip then i + 1 else i) + 1, ?_, ?_⟩
    · simp only [buildingWrites, ho, if_false]
    · simp only [buildingCell, ho, if_false]

theorem buildingCell_fold (c : Consts) (x y : Int) (baseValue centerTile skip : Nat)
    (offs : List (Int × Int)) :
    ∀ (m : Grid) (i : Nat), (offs.foldl (buildingCell c x y baseValue centerTile skip) (m, i)).1
      = writeAll m x y (buildingWrites c baseValue centerTile skip offs i) := by
  induction offs with
  | nil => intro m i; rfl
  | cons o rest ih =>
    intro m i
    obtain ⟨w, j, e1, e2⟩ := buildingCell_step c x y baseValue centerTile skip m i o rest
    rw [List.foldl_cons, e1, e2, writeAll_cons, ih]

theorem zoneWrites_fst (c : Consts) (baseValue : Nat) (offs : List (Int × Int)) :
    ∀ i : Nat, (zoneWrites c baseValue offs i).map Prod.fst = offs := by
  induction offs with
  | nil => intro i; rfl
  | cons o rest ih =>
    intro i
    unfold zoneWrites
    rw [List.map_cons, ih]
    by_cases ho : o.1 = 0 ∧ o.2 = 0
    · rw [if_pos ho]
      congr 1
      exact (Prod.ext ho.1 ho.2 : o = (0, 0)).symm
    · rw [if_neg ho]

theorem buildingWrites_fst (c : Consts) (baseValue centerTile skip : Nat)
    (offs : List (Int × Int)) :
    ∀ i : Nat, (buildingWrites c baseValue centerTile skip offs i).map Prod.fst = offs := by
  induction offs with
  | nil => intro i; rfl
  | cons o rest ih =>
    intro i
    unfold buildingWrites
    by_cases ho : o.1 = 0 ∧ o.2 = 0
    · rw [if_pos ho, List.map_cons, ih]
      congr 1
      exact (Prod.ext ho.1 ho.2 : o = (0, 0)).symm
    · rw [if_neg ho, List.map_cons, ih]

theorem offsets_nodup3 : (offsets (-1) 3).Nodup := by decide

theorem offsets_nodup4 : (offsets (-1) 4).Nodup := by decide

theorem offsets_nodup6 : (offsets (-2) 6).Nodup := by decide

/-! ## What the fixing loops keep -/

theorem FixSingle_keeps_plain (c : Consts) (m : Grid) (x y x1 y1 : Int)
    (hp : uncategorised c (m y1 x1)) : FixSingle c m x y y1 x1 = m y1 x1 := by
  by_cases hxy : x1 = x ∧ y1 = y
  · obtain ⟨rfl, rfl⟩ := hxy
    rw [FixSingle_uncategorised c m x1 y1 hp.1 hp.2.1 hp.2.2]
  · exact FixSingle_other c m x y x1 y1 hxy

/-- The five calls of `FixZone` as one statement: whatever a call of
`FixSingle` keeps at a cell, `FixZone` keeps. -/
theorem FixZone_keeps (c : Consts) (P : Nat → Prop) (x1 y1 : Int)
    (hstep : ∀ (m : Grid) (a b : Int), P (m y1 x1) → FixSingle c m a b y1 x1 = m y1 x1)
    (m : Grid) (x y : Int) (hP : P (m y1 x1)) : FixZone c m x y y1 x1 = m y1 x1 := by
  have hs : ∀ (m1 : Grid) (a b : Int), m1 y1 x1 = m y1 x1 →
      FixSingle c m1 a b y1 x1 = m y1 x1 := by
    intro m1 a b e
    rw [hstep m1 a b (by rw [e]; exact hP), e]
  have hif : ∀ (m1 : Grid) (a b : Int), m1 y1 x1 = m y1 x1 →
      (if TestBounds c a b = true then FixSingle c m1 a b else m1) y1 x1 = m y1 x1 := by
    intro m1 a b e
    split_ifs
    · exact hs m1 a b e
    · exact e
  unfold FixZone
  by_cases hb : TestBounds c x y = true
  · rw [if_neg (not_not.2 hb)]
    exact hif _ _ _ (hif _ _ _ (hif _ _ _ (hif _ _ _ (hs _ _ _ rfl))))
  · rw [if_pos hb]

theorem fixFold_keeps (c : Consts) (P : Nat → Prop) (x1 y1 : Int)
    (hstep : ∀ (m : Grid) (a b : Int), P (m y1 x1) → FixSingle c m a b y1 x1 = m y1 x1)
    (x y : Int) (offs : List (Int × Int)) :
    ∀ m : Grid, P (m y1 x1) → (offs.foldl (fixCell c x y) m) y1 x1 = m y1 x1 := by
  induction offs with
  | nil => intro m _; rfl
  | cons o rest ih =>
    intro m hP
    have e : fixCell c x y m o y1 x1 = m y1 x1 := FixZone_keeps c P x1 y1 hstep m _ _ hP
    rw [List.foldl_cons, ih _ (by rw [e]; exact hP), e]

/-- The fixing loop of a placement keeps a cell whose type code is in none of
the ranges of `FixSingle`. -/
theorem fixFold_keeps_plain (c : Consts) (x y : Int) (offs : List (Int × Int)) (m : Grid)
    (x1 y1 : Int) (hp : uncategorised c (m y1 x1)) :
    (offs.foldl (fixCell c x y) m) y1 x1 = m y1 x1 :=
  fixFold_keeps c (uncategorised c) x1 y1
    (fun m1 a b h1 => FixSingle_keeps_plain c m1 a b x1 y1 h1) x y offs m hp

theorem FixZone_keeps_flag (c : Consts) (h : c.WF) (ht : c.TilesWF) (f : Nat)
    (hf : f &&& c.ALLBITS = f) (hB : f &&& c.BULLBIT = 0) (hU : f &&& c.BURNBIT = 0)
    (hC : f &&& c.CONDBIT = 0) (m : Grid) (x y x1 y1 : Int) :
    FixZone c m x y y1 x1 &&& f = m y1 x1 &&& f := by
  have hs : ∀ (m1 : Grid) (a b : Int), FixSingle c m1 a b y1 x1 &&& f = m1 y1 x1 &&& f :=
    fun m1 a b => FixSingle_keeps_flag c h ht m1 a b f hf hB hU hC x1 y1
  have hif : ∀ (m1 : Grid) (a b : Int),
      (if TestBounds c a b = true then FixSingle c m1 a b else m1) y1 x1 &&& f
        = m1 y1 x1 &&& f := by
    intro m1 a b
    split_ifs
    · exact hs m1 a b
    · rfl
  unfold FixZone
  by_cases hb : TestBounds c x y = true
  · rw [if_neg (not_not.2 hb)]
    show (if TestBounds c x (y + 1) = true then FixSingle c _ x (y + 1) else _) y1 x1 &&& f = _
    rw [hif, hif, hif, hif, hs]
  · rw [if_pos hb]

/-- The fixing loop of a placement keeps, at every cell, every flag that
`FixSingle` keeps. -/
theorem fixFold_keeps_flag (c : Consts) (h : c.WF) (ht : c.TilesWF) (f : Nat)
    (hf : f &&& c.ALLBITS = f) (hB : f &&& c.BULLBIT = 0) (hU : f &&& c.BURNBIT = 0)
    (hC : f &&& c.CONDBIT = 0) (x y : Int) (offs : List (Int × Int)) (x1 y1 : Int) :
    ∀ m : Grid, (offs.foldl (fixCell c x y) m) y1 x1 &&& f = m y1 x1 &&& f := by
  induction offs with
  | nil => intro m; rfl
  | cons o rest ih =>
    intro m
    rw [List.foldl_cons, ih]
    exact FixZone_keeps_flag c h ht f hf hB hU hC m _ _ x1 y1

/-! ## The grid after a placement -/

/-- A placement that returns ok has passed its footprint check and its funds
check, and its grid is the fixing loop run on the placing loop run on some
grid. -/
theorem place_ok_map (c : Consts) (s : City) (x y : Int) (offs : List (Int × Int))
    (place : Grid → Grid) (cost : Int) (r : Bool × Int) (res : Nat × City)
    (hres : res = if ¬ r.1 = true then (TOOLRESULT_FAILED, s)
      else placeWith c s x y offs place r.2 cost)
    (hok : res.1 = TOOLRESULT_OK) :
    r.1 = true ∧ CheckFunds s (cost + r.2) = true
    ∧ ∃ m0 : Grid, res.2.Map = offs.foldl (fixCell c x y) (place m0)
      ∧ (¬ r.2 > 0 → m0 = s.Map) := by
  subst hres
  by_cases hr : r.1 = true
  · rw [if_neg (by simp [hr])] at hok ⊢
    by_cases hf : CheckFunds s (cost + r.2) = true
    · exact ⟨hr, hf, _, (placeWith_ok c s x y offs place r.2 cost hf).2.2,
        fun hb => by rw [if_neg hb]⟩
    · rw [placeWith_no_money c s x y offs place r.2 cost (by simpa using hf)] at hok
      exact absurd hok (by show ¬ (2 : Nat) = 0; decide)
  · rw [if_pos hr] at hok
    exact absurd hok (by show ¬ (1 : Nat) = 0; decide)

/-- The cells of the footprint after a placement whose placing loop is the
list of stores `ws`: a cell keeps the value stored when its type code is in
none of the ranges of `FixSingle`, and it keeps in any case the flags of the
value stored that `FixSingle` keeps. -/
theorem placed_cells (c : Consts) (h : c.WF) (ht : c.TilesWF) (x y : Int)
    (offs : List (Int × Int)) (ws : List ((Int × Int) × Nat)) (hnd : offs.Nodup)
    (hfst : ws.map Prod.fst = offs) (m0 : Grid) (w : (Int × Int) × Nat) (hw : w ∈ ws) :
    (uncategorised c w.2 →
      (offs.foldl (fixCell c x y) (writeAll m0 x y ws)) (y + w.1.2) (x + w.1.1) = w.2)
    ∧ (∀ f, f &&& c.ALLBITS = f → f &&& c.BULLBIT = 0 → f &&& c.BURNBIT = 0 →
        f &&& c.CONDBIT = 0 →
        (offs.foldl (fixCell c x y) (writeAll m0 x y ws)) (y + w.1.2) (x + w.1.1) &&& f
          = w.2 &&& f) := by
  have e := writeAll_mem x y ws m0 (by rw [hfst]; exact hnd) w hw
  constructor
  · intro hp
    rw [fixFold_keeps_plain c x y offs _ _ _ (by rw [e]; exact hp), e]
  · intro f hf hB hU hC
    rw [fixFold_keeps_flag c h ht f hf hB hU hC, e]

/-- A cell outside the footprint is not addressed by the placing loop. -/
theorem placed_outside (x y : Int) (offs : List (Int × Int)) (ws : List ((Int × Int) × Nat))
    (hfst : ws.map Prod.fst = offs) (m0 : Grid) (x1 y1 : Int)
    (hout : ∀ o ∈ offs, ¬ (x1 = x + o.1 ∧ y1 = y + o.2)) :
    writeAll m0 x y ws y1 x1 = m0 y1 x1 := by
  apply writeAll_other
  intro w hw
  apply hout
  rw [← hfst]
  exact List.mem_map_of_mem _ hw

/-! ## The stores of the three placing loops, written out -/

theorem zoneWrites3 (c : Consts) (baseValue : Nat) :
    zoneWrites c baseValue (offsets (-1) 3) 0
      = [((-1, -1), toShort ((baseValue + 0) ||| c.BULLBIT ||| c.CONDBIT)),
         ((0, -1), toShort ((baseValue + 1) ||| c.BULLBIT ||| c.CONDBIT)),
         ((1, -1), toShort ((baseValue + 2) ||| c.BULLBIT ||| c.CONDBIT)),
         ((-1, 0), toShort ((baseValue + 3) ||| c.BULLBIT ||| c.CONDBIT)),
         ((0, 0), toShort ((baseValue + 4) ||| c.ZONEBIT ||| c.BULLBIT ||| c.CONDBIT)),
         ((1, 0), toShort ((baseValue + 5) ||| c.BULLBIT ||| c.CONDBIT)),
         ((-1, 1), toShort ((baseValue + 6) ||| c.BULLBIT ||| c.CONDBIT)),
         ((0, 1), toShort ((baseValue + 7) ||| c.BULLBIT ||| c.CONDBIT)),
         ((1, 1), toShort ((baseValue + 8) ||| c.BULLBIT ||| c.CONDBIT))] := by
  rfl

/-- The stores of the placing loop: the centre value at offset (0, 0), and
at the offset `(dx, dy)` of any other cell the base plus the row-major index
`3 * (dy + 1) + (dx + 1)`. -/
theorem zoneWrites_shape (c : Consts) (baseValue : Nat) :
    ∀ w ∈ zoneWrites c baseValue (offsets (-1) 3) 0,
      (w.1 = (0, 0) ∧ w.2 = toShort ((baseValue + 4) ||| c.ZONEBIT ||| c.BULLBIT ||| c.CONDBIT))
      ∨ (w.1 ≠ (0, 0) ∧ ∃ j : Nat, j ≤ 8 ∧ (j : Int) = 3 * (w.1.2 + 1) + (w.1.1 + 1)
          ∧ w.2 = toShort ((baseValue + j) ||| c.BULLBIT ||| c.CONDBIT)) := by
  intro w hw
  rw [zoneWrites3] at hw
  simp only [List.mem_cons, List.mem_singleton, List.not_mem_nil, or_false] at hw
  rcases hw with rfl | rfl | rfl | rfl | rfl | rfl | rfl | rfl | rfl
  · exact Or.inr ⟨by dsimp only; decide, 0, by decide, by dsimp only; decide, rfl⟩
  · exact Or.inr ⟨by dsimp only; decide, 1, by decide, by dsimp only; decide, rfl⟩
  · exact Or.inr ⟨by dsimp only; decide, 2, by decide, by dsimp only; decide, rfl⟩
  · exact Or.inr ⟨by dsimp only; decide, 3, by decide, by dsimp only; decide, rfl⟩
  · exact Or.inl ⟨rfl, rfl⟩
  · exact Or.inr ⟨by dsimp only; decide, 5, by decide, by dsimp only; decide, rfl⟩
  · exact Or.inr ⟨by dsimp only; decide, 6, by decide, by dsimp only; decide, rfl⟩
  · exact Or.inr ⟨by dsimp only; decide, 7, by decide, by dsimp only; decide, rfl⟩
  · exact Or.inr ⟨by dsimp only; decide, 8, by decide, by dsimp only; decide, rfl⟩

theorem buildingWrites4 (c : Consts) (baseValue centerTile : Nat) :
    buildingWrites c baseValue centerTile 5 (offsets (-1) 4) 0
      = [((-1, -1), toShort ((baseValue + 0) ||| c.BULLBIT)),
         ((0, -1), toShort ((baseValue + 1) ||| c.BULLBIT)),
         ((1, -1), toShort ((baseValue + 2) ||| c.BULLBIT)),
         ((2, -1), toShort ((baseValue + 3) ||| c.BULLBIT)),
         ((-1, 0), toShort ((baseValue + 4) ||| c.BULLBIT)),
         ((0, 0), toShort (centerTile ||| c.ZONEBIT ||| c.BULLBIT)),
         ((1, 0), toShort ((baseValue + 6) ||| c.BULLBIT)),
         ((2, 0), toShort ((baseValue + 7) ||| c.BULLBIT)),
         ((-1, 1), toShort ((baseValue + 8) ||| c.BULLBIT)),
         ((0, 1), toShort ((baseValue + 9) ||| c.BULLBIT)),
         ((1, 1), toShort ((baseValue + 10) ||| c.BULLBIT)),
         ((2, 1), toShort ((baseValue + 11) ||| c.BULLBIT)),
         ((-1, 2), toShort ((baseValue + 12) ||| c.BULLBIT)),
         ((0, 2), toShort ((baseValue + 13) ||| c.BULLBIT)),
         ((1, 2), toShort ((baseValue + 14) ||| c.BULLBIT)),
         ((2, 2), toShort ((baseValue + 15) ||| c.BULLBIT))] := by
  rfl

/-- The stores of the placing loop: the centre value at offset (0, 0), and
at the offset `(dx, dy)` of any other cell the base plus the row-major index
`4 * (dy + 1) + (dx + 1)`. -/
theorem buildingWrites4_shape (c : Consts) (baseValue centerTile : Nat) :
    ∀ w ∈ buildingWrites c baseValue centerTile 5 (offsets (-1) 4) 0,
      (w.1 = (0, 0) ∧ w.2 = toShort (centerTile ||| c.ZONEBIT ||| c.BULLBIT))
      ∨ (w.1 ≠ (0, 0) ∧ ∃ j : Nat, j ≤ 15 ∧ (j : Int) = 4 * (w.1.2 + 1) + (w.1.1 + 1)
          ∧ w.2 = toShort ((baseValue + j) ||| c.BULLBIT)) := by
  intro w hw
  rw [buildingWrites4] at hw
  simp only [List.mem_cons, List.mem_singleton, List.not_mem_nil, or_false] at hw
  rcases hw with rfl | rfl | rfl | rfl | rfl | rfl | rfl | rfl | rfl | rfl | rfl | rfl | rfl | rfl | rfl | rfl
  · exact Or.inr ⟨by dsimp only; decide, 0, by decide, by dsimp only; decide, rfl⟩
  · exact Or.inr ⟨by dsimp only; decide, 1, by decide, by dsimp only; decide, rfl⟩
  · exact Or.inr ⟨by dsimp only; decide, 2, by decide, by dsimp only; decide, rfl⟩
  · exact Or.inr ⟨by dsimp only; decide, 3, by decide, by dsimp only; decide, rfl⟩
  · exact Or.inr ⟨by dsimp only; decide, 4, by decide, by dsimp only; decide, rfl⟩
  · exact Or.inl ⟨rfl, rfl⟩
  · exact Or.inr ⟨by dsimp only; decide, 6, by decide, by dsimp only; decide, rfl⟩
  · exact Or.inr ⟨by dsimp only; decide, 7, by decide, by dsimp only; decide, rfl⟩
  · exact Or.inr ⟨by dsimp only; decide, 8, by decide, by dsimp only; decide, rfl⟩
  · exact Or.inr ⟨by dsimp only; decide, 9, by decide, by dsimp only; decide, rfl⟩
  · exact Or.inr ⟨by dsimp only; decide, 10, by decide, by dsimp only; decide, rfl⟩
  · exact Or.inr ⟨by dsimp only; decide, 11, by decide, by dsimp only; decide, rfl⟩
  · exact Or.inr ⟨by dsimp only; decide, 12, by decide, by dsimp only; decide, rfl⟩
  · exact Or.inr ⟨by dsimp only; decide, 13, by decide, by dsimp only; decide, rfl⟩
  · exact Or.inr ⟨by dsimp only; decide, 14, by decide, by dsimp only; decide, rfl⟩
  · exact Or.inr ⟨by dsimp only; decide, 15, by decide, by dsimp only; decide, rfl⟩

theorem buildingWrites6 (c : Consts) (baseValue centerTile : Nat) :
    buildingWrites c baseValue centerTile 14 (offsets (-2) 6) 0
      = [((-2, -2), toShort ((baseValue + 0) ||| c.BULLBIT)),
         ((-1, -2), toShort ((baseValue + 1) ||| c.BULLBIT)),
         ((0, -2), toShort ((baseValue + 2) ||| c.BULLBIT)),
         ((1, -2), toShort ((baseValue + 3) ||| c.BULLBIT)),
         ((2, -2), toShort ((baseValue + 4) ||| c.BULLBIT)),
         ((3, -2), toShort ((baseValue + 5) ||| c.BULLBIT)),
         ((-2, -1), toShort ((baseValue + 6) ||| c.BULLBIT)),
         ((-1, -1), toShort ((baseValue + 7) ||| c.BULLBIT)),
         ((0, -1), toShort ((baseValue + 8) ||| c.BULLBIT)),
         ((1, -1), toShort ((baseValue + 9) ||| c.BULLBIT)),
         ((2, -1), toShort ((baseValue + 10) ||| c.BULLBIT)),
         ((3, -1), toShort ((baseValue + 11) ||| c.BULLBIT)),
         ((-2, 0), toShort ((baseValue + 12) ||| c.BULLBIT)),
         ((-1, 0), toShort ((baseValue + 13) ||| c.BULLBIT)),
         ((0, 0), toShort (centerTile ||| c.ZONEBIT ||| c.BULLBIT)),
         ((1, 0), toShort ((baseValue + 15) ||| c.BULLBIT)),
         ((2, 0), toShort ((baseValue + 16) ||| c.BULLBIT)),
         ((3, 0), toShort ((baseValue + 17) ||| c.BULLBIT)),
         ((-2, 1), toShort ((baseValue + 18) ||| c.BULLBIT)),
         ((-1, 1), toShort ((baseValue + 19) ||| c.BULLBIT)),
         ((0, 1), toShort ((baseValue + 20) ||| c.BULLBIT)),
         ((1, 1), toShort ((baseValue + 21) ||| c.BULLBIT)),
         ((2, 1), toShort ((baseValue + 22) ||| c.BULLBIT)),
         ((3, 1), toShort ((baseValue + 23) ||| c.BULLBIT)),
         ((-2, 2), toShort ((baseValue + 24) ||| c.BULLBIT)),
         ((-1, 2), toShort ((baseValue + 25) ||| c.BULLBIT)),
         ((0, 2), toShort ((baseValue + 26) ||| c.BULLBIT)),
         ((1, 2), toShort ((baseValue + 27) ||| c.BULLBIT)),
         ((2, 2), toShort ((baseValue + 28) ||| c.BULLBIT)),
         ((3, 2), toShort ((baseValue + 29) ||| c.BULLBIT)),
         ((-2, 3), toShort ((baseValue + 30) ||| c.BULLBIT)),
         ((-1, 3), toShort ((baseValue + 31) ||| c.BULLBIT)),
         ((0, 3), toShort ((baseValue + 32) ||| c.BULLBIT)),
         ((1, 3), toShort ((baseValue + 33) ||| c.BULLBIT)),
         ((2, 3), toShort ((baseValue + 34) ||| c.BULLBIT)),
         ((3, 3), toShort ((baseValue + 35) ||| c.BULLBIT))] := by
  rfl

/-- The stores of the placing loop: the centre value at offset (0, 0), and
at the offset `(dx, dy)` of any other cell the base plus the row-major index
`6 * (dy + 2) + (dx + 2)`. -/
theorem buildingWrites6_shape (c : Consts) (baseValue centerTile : Nat) :
    ∀ w ∈ buildingWrites c baseValue centerTile 14 (offsets (-2) 6) 0,
      (w.1 = (0, 0) ∧ w.2 = toShort (centerTile ||| c.ZONEBIT ||| c.BULLBIT))
      ∨ (w.1 ≠ (0, 0) ∧ ∃ j : Nat, j ≤ 35 ∧ (j : Int) = 6 * (w.1.2 + 2) + (w.1.1 + 2)
          ∧ w.2 = toShort ((baseValue + j) ||| c.BULLBIT)) := by
  intro w hw
  rw [buildingWrites6] at hw
  simp only [List.mem_cons, List.mem_singleton, List.not_mem_nil, or_false] at hw
  rcases hw with rfl | rfl | rfl | rfl | rfl | rfl | rfl | rfl | rfl | rfl | rfl | rfl | rfl | rfl | rfl | rfl | rfl | rfl | rfl | rfl | rfl | rfl | rfl | rfl | rfl | rfl | rfl | rfl | rfl | rfl | rfl | rfl | rfl | rfl | rfl | rfl
  · exact Or.inr ⟨by dsimp only; decide, 0, by decide, by dsimp only; decide, rfl⟩
  · exact Or.inr ⟨by dsimp only; decide, 1, by decide, by dsimp only; decide, rfl⟩
  · exact Or.inr ⟨by dsimp only; decide, 2, by decide, by dsimp only; decide, rfl⟩
  · exact Or.inr ⟨by dsimp only; decide, 3, by decide, by dsimp only; decide, rfl⟩
  · exact Or.inr ⟨by dsimp only; decide, 4, by decide, by dsimp only; decide, rfl⟩
  · exact Or.inr ⟨by dsimp only; decide, 5, by decide, by dsimp only; decide, rfl⟩
  · exact Or.inr ⟨by dsimp only; decide, 6, by decide, by dsimp only; decide, rfl⟩
  · exact Or.inr ⟨by dsimp only; decide, 7, by decide, by dsimp only; decide, rfl⟩
  · exact Or.inr ⟨by dsimp only; decide, 8, by decide, by dsimp only; decide, rfl⟩
  · exact Or.inr ⟨by dsimp only; decide, 9, by decide, by dsimp only; decide, rfl⟩
  · exact Or.inr ⟨by dsimp only; decide, 10, by decide, by dsimp only; decide, rfl⟩
  · exact Or.inr ⟨by dsimp only; decide, 11, by decide, by dsimp only; decide, rfl⟩
  · exact Or.inr ⟨by dsimp only; decide, 12, by decide, by dsimp only; decide, rfl⟩
  · exact Or.inr ⟨by dsimp only; decide, 13, by decide, by dsimp only; decide, rfl⟩
  · exact Or.inl ⟨rfl, rfl⟩
  · exact Or.inr ⟨by dsimp only; decide, 15, by decide, by dsimp only; decide, rfl⟩
  · exact Or.inr ⟨by dsimp only; decide, 16, by decide, by dsimp only; decide, rfl⟩
  · exact Or.inr ⟨by dsimp only; decide, 17, by decide, by dsimp only; decide, rfl⟩
  · exact Or.inr ⟨by dsimp only; decide, 18, by decide, by dsimp only; decide, rfl⟩
  · exact Or.inr ⟨by dsimp only; decide, 19, by decide, by dsimp only; decide, rfl⟩
  · exact Or.inr ⟨by dsimp only; decide, 20, by decide, by dsimp only; decide, rfl⟩
  · exact Or.inr ⟨by dsimp only; decide, 21, by decide, by dsimp only; decide, rfl⟩
  · exact Or.inr ⟨by dsimp only; decide, 22, by decide, by dsimp only; decide, rfl⟩
  · exact Or.inr ⟨by dsimp only; decide, 23, by decide, by dsimp only; decide, rfl⟩
  · exact Or.inr ⟨by dsimp only; decide, 24, by decide, by dsimp only; decide, rfl⟩
  · exact Or.inr ⟨by dsimp only; decide, 25, by decide, by dsimp only; decide, rfl⟩
  · exact Or.inr ⟨by dsimp only; decide, 26, by decide, by dsimp only; decide, rfl⟩
  · exact Or.inr ⟨by dsimp only; decide, 27, by decide, by dsimp only; decide, rfl⟩
  · exact Or.inr ⟨by dsimp only; decide, 28, by decide, by dsimp only; decide, rfl⟩
  · exact Or.inr ⟨by dsimp only; decide, 29, by decide, by dsimp only; decide, rfl⟩
  · exact Or.inr ⟨by dsimp only; decide, 30, by decide, by dsimp only; decide, rfl⟩
  · exact Or.inr ⟨by dsimp only; decide, 31, by decide, by dsimp only; decide, rfl⟩
  · exact Or.inr ⟨by dsimp only; decide, 32, by decide, by dsimp only; decide, rfl⟩
  · exact Or.inr ⟨by dsimp only; decide, 33, by decide, by dsimp only; decide, rfl⟩
  · exact Or.inr ⟨by dsimp only; decide, 34, by decide, by dsimp only; decide, rfl⟩
  · exact Or.inr ⟨by dsimp only; decide, 35, by decide, by dsimp only; decide, rfl⟩

/-! ## The values stored by the placing loops -/

theorem disj_comm (a b : Nat) (h : a &&& b = 0) : b &&& a = 0 := by
  rw [Nat.land_comm]; exact h

theorem zone_lo (c : Consts) (h : c.WF) (hr : c.ToolsWF) : c.ZONEBIT &&& c.LOMASK = 0 :=
  flag_lo c h _ hr.zone_all

theorem anim_lo (c : Consts) (h : c.WF) (hr : c.ToolsWF) : c.ANIMBIT &&& c.LOMASK = 0 :=
  flag_lo c h _ hr.anim_all

/-- The type code of a stored value `t | F`, `F` being flags. -/
theorem code_store (c : Consts) (h : c.WF) (t F : Nat) (ht : t ≤ c.LOMASK)
    (hF : F &&& c.LOMASK = 0) : typeCode c (toShort (t ||| F)) = t := by
  unfold typeCode
  rw [toShort_land _ _ (lomask_lt_short c h), lor_mask _ _ _ hF, land_low _ _ h.lomask_low ht]

theorem lor_lo (L a b : Nat) (ha : a &&& L = 0) (hb : b &&& L = 0) : (a ||| b) &&& L = 0 := by
  rw [land_lor_right, ha, hb]; rfl

/-- A type code above the rail range is in none of the ranges of `FixSingle`. -/
theorem above_rail_plain (c : Consts) (ht : c.TilesWF) (hr : c.ToolsWF) (v : Nat)
    (hv : c.LASTRAIL < typeCode c v) : uncategorised c v := by
  have h1 := ht.road_power; have h2 := ht.power_le; have h3 := ht.lastpower_rail
  have h4 := hr.rail_le
  unfold LHPOWER at h2
  unfold LASTPOWER at h3
  unfold uncategorised
  unfold LASTPOWER
  refine ⟨?_, ?_, ?_⟩ <;> omega

/-- The value stored at a cell of a 3x3 zone other than the centre. -/
theorem zone_value (c : Consts) (h : c.WF) (hr : c.ToolsWF) (t : Nat) (ht : t ≤ c.LOMASK) :
    typeCode c (toShort (t ||| c.BULLBIT ||| c.CONDBIT)) = t
    ∧ toShort (t ||| c.BULLBIT ||| c.CONDBIT) &&& c.CONDBIT = c.CONDBIT
    ∧ toShort (t ||| c.BULLBIT ||| c.CONDBIT) &&& c.BULLBIT = c.BULLBIT
    ∧ toShort (t ||| c.BULLBIT ||| c.CONDBIT) &&& c.ZONEBIT = 0 := by
  refine ⟨?_, ?_, ?_, ?_⟩
  · rw [Nat.lor_assoc]
    exact code_store c h t _ ht (lor_lo _ _ _ h.bull_lo h.cond_lo)
  · rw [toShort_land _ _ h.cond_lt, lor_self]
  · rw [toShort_land _ _ h.bull_lt, lor_mask _ _ _ hr.cond_bull, lor_self]
  · rw [toShort_land _ _ h.zone_lt, lor_mask _ _ _ (disj_comm _ _ hr.zone_cond),
      lor_mask _ _ _ (disj_comm _ _ hr.zone_bull)]
    exact low_flag c h t _ ht (zone_lo c h hr)

/-- The value stored at the centre of a 3x3 zone. -/
theorem zone_centre_value (c : Consts) (h : c.WF) (hr : c.ToolsWF) (t : Nat)
    (ht : t ≤ c.LOMASK) :
    typeCode c (toShort (t ||| c.ZONEBIT ||| c.BULLBIT ||| c.CONDBIT)) = t
    ∧ toShort (t ||| c.ZONEBIT ||| c.BULLBIT ||| c.CONDBIT) &&& c.CONDBIT = c.CONDBIT
    ∧ toShort (t ||| c.ZONEBIT ||| c.BULLBIT ||| c.CONDBIT) &&& c.BULLBIT = c.BULLBIT := by
  refine ⟨?_, ?_, ?_⟩
  · rw [Nat.lor_assoc, Nat.lor_assoc]
    exact code_store c h t _ ht
      (lor_lo _ _ _ (zone_lo c h hr) (lor_lo _ _ _ h.bull_lo h.cond_lo))
  · rw [toShort_land _ _ h.cond_lt, lor_self]
  · rw [toShort_land _ _ h.bull_lt, lor_mask _ _ _ hr.cond_bull, lor_self]

theorem zone_centre_zoned (c : Consts) (h : c.WF) (hr : c.ToolsWF) (t : Nat) :
    toShort (t ||| c.ZONEBIT ||| c.BULLBIT ||| c.CONDBIT) &&& c.ZONEBIT = c.ZONEBIT := by
  rw [toShort_land _ _ h.zone_lt, lor_mask _ _ _ (disj_comm _ _ hr.zone_cond),
    lor_mask _ _ _ (disj_comm _ _ hr.zone_bull), lor_self]

/-- The value stored at a cell of a building other than the centre. -/
theorem building_value (c : Consts) (h : c.WF) (hr : c.ToolsWF) (t : Nat) (ht : t ≤ c.LOMASK) :
    typeCode c (toShort (t ||| c.BULLBIT)) = t
    ∧ toShort (t ||| c.BULLBIT) &&& c.CONDBIT = 0
    ∧ toShort (t ||| c.BULLBIT) &&& c.ZONEBIT = 0 := by
  refine ⟨code_store c h t _ ht h.bull_lo, ?_, ?_⟩
  · rw [toShort_land _ _ h.cond_lt, lor_mask _ _ _ (disj_comm _ _ hr.cond_bull)]
    exact low_flag c h t _ ht h.cond_lo
  · rw [toShort_land _ _ h.zone_lt, lor_mask _ _ _ (disj_comm _ _ hr.zone_bull)]
    exact low_flag c h t _ ht (zone_lo c h hr)

/-- The value stored at the centre of a building. -/
theorem building_centre_value (c : Consts) (h : c.WF) (hr : c.ToolsWF) (t : Nat)
    (ht : t ≤ c.LOMASK) :
    typeCode c (toShort (t ||| c.ZONEBIT ||| c.BULLBIT)) = t
    ∧ toShort (t ||| c.ZONEBIT ||| c.BULLBIT) &&& c.CONDBIT = 0 := by
  refine ⟨?_, ?_⟩
  · rw [Nat.lor_assoc]
    exact code_store c h t _ ht (lor_lo _ _ _ (zone_lo c h hr) h.bull_lo)
  · rw [toShort_land _ _ h.cond_lt, lor_mask _ _ _ (disj_comm _ _ hr.cond_bull),
      lor_mask _ _ _ hr.zone_cond]
    exact low_flag c h t _ ht h.cond_lo

theorem building_centre_zoned (c : Consts) (h : c.WF) (hr : c.ToolsWF) (t : Nat) :
    toShort (t ||| c.ZONEBIT ||| c.BULLBIT) &&& c.ZONEBIT = c.ZONEBIT := by
  rw [toShort_land _ _ h.zone_lt, lor_mask _ _ _ (disj_comm _ _ hr.zone_bull), lor_self]

/-- Every offset of a footprint is the offset of one of the stores. -/
theorem store_of_offset (offs : List (Int × Int)) (ws : List ((Int × Int) × Nat))
    (hfst : ws.map Prod.fst = offs) (o : Int × Int) (ho : o ∈ offs) :
    ∃ w ∈ ws, w.1 = o := by
  rw [← hfst, List.mem_map] at ho
  exact ho

/-! ## The grid after each of the three placements -/

theorem PlaceZone_map (c : Consts) (s : City) (x y : Int) (baseValue : Nat) (cost : Int)
    (hok : (PlaceZone c s x y baseValue cost).1 = TOOLRESULT_OK) :
    ∃ m0 : Grid, (PlaceZone c s x y baseValue cost).2.Map
      = (offsets (-1) 3).foldl (fixCell c x y)
          (writeAll m0 x y (zoneWrites c baseValue (offsets (-1) 3) 0)) := by
  obtain ⟨-, -, m0, e, -⟩ := place_ok_map c s x y (offsets (-1) 3)
    (fun m => ((offsets (-1) 3).foldl (zoneCell c x y baseValue) (m, 0)).1) cost
    (Check3x3Area c s.Map x y 0) (PlaceZone c s x y baseValue cost) rfl hok
  exact ⟨m0, by rw [e, zoneCell_fold]⟩

theorem Place4x4Building_map (c : Consts) (s : City) (x y : Int) (baseValue centerTile : Nat)
    (cost : Int) (hok : (Place4x4Building c s x y baseValue centerTile cost).1 = TOOLRESULT_OK) :
    ∃ m0 : Grid, (Place4x4Building c s x y baseValue centerTile cost).2.Map
      = (offsets (-1) 4).foldl (fixCell c x y)
          (writeAll m0 x y (buildingWrites c baseValue centerTile 5 (offsets (-1) 4) 0)) := by
  obtain ⟨-, -, m0, e, -⟩ := place_ok_map c s x y (offsets (-1) 4)
    (fun m => ((offsets (-1) 4).foldl (buildingCell c x y baseValue centerTile 5) (m, 0)).1) cost
    (Check4x4Area c s.Map x y 0) (Place4x4Building c s x y baseValue centerTile cost) rfl hok
  exact ⟨m0, by rw [e, buildingCell_fold]⟩

theorem Place6x6Building_map (c : Consts) (s : City) (x y : Int) (baseValue centerTile : Nat)
    (cost : Int) (hok : (Place6x6Building c s x y baseValue centerTile cost).1 = TOOLRESULT_OK) :
    ∃ m0 : Grid, (Place6x6Building c s x y baseValue centerTile cost).2.Map
      = (offsets (-2) 6).foldl (fixCell c x y)
          (writeAll m0 x y (buildingWrites c baseValue centerTile 14 (offsets (-2) 6) 0)) := by
  obtain ⟨-, -, m0, e, -⟩ := place_ok_map c s x y (offsets (-2) 6)
    (fun m => ((offsets (-2) 6).foldl (buildingCell c x y baseValue centerTile 14) (m, 0)).1) cost
    (Check6x6Area c s.Map x y 0) (Place6x6Building c s x y baseValue centerTile cost) rfl hok
  exact ⟨m0, by rw [e, buildingCell_fold]⟩

/-- After the placing and the fixing loop, every cell of the footprint keeps
the flags of the value stored there that `FixSingle` keeps. -/
theorem footprint_flag (c : Consts) (h : c.WF) (ht : c.TilesWF) (x y : Int)
    (offs : List (Int × Int)) (ws : List ((Int × Int) × Nat)) (hnd : offs.Nodup)
    (hfst : ws.map Prod.fst = offs) (m0 M : Grid)
    (hM : M = offs.foldl (fixCell c x y) (writeAll m0 x y ws))
    (f : Nat) (hf : f &&& c.ALLBITS = f) (hB : f &&& c.BULLBIT = 0) (hU : f &&& c.BURNBIT = 0)
    (hC : f &&& c.CONDBIT = 0) (o : Int × Int) (ho : o ∈ offs) :
    ∃ w ∈ ws, w.1 = o ∧ M (y + o.2) (x + o.1) &&& f = w.2 &&& f := by
  obtain ⟨w, hw, rfl⟩ := store_of_offset offs ws hfst o ho
  refine ⟨w, hw, rfl, ?_⟩
  rw [hM]
  exact (placed_cells c h ht x y offs ws hnd hfst m0 w hw).2 f hf hB hU hC

/-- After the placing and the fixing loop, every cell of the footprint holds
the value stored there, when no stored value has a type code in the ranges of
`FixSingle`. -/
theorem footprint_value (c : Consts) (h : c.WF) (ht : c.TilesWF) (x y : Int)
    (offs : List (Int × Int)) (ws : List ((Int × Int) × Nat)) (hnd : offs.Nodup)
    (hfst : ws.map Prod.fst = offs) (m0 M : Grid)
    (hM : M = offs.foldl (fixCell c x y) (writeAll m0 x y ws))
    (hplain : ∀ w ∈ ws, uncategorised c w.2) (o : Int × Int) (ho : o ∈ offs) :
    ∃ w ∈ ws, w.1 = o ∧ M (y + o.2) (x + o.1) = w.2 := by
  obtain ⟨w, hw, rfl⟩ := store_of_offset offs ws hfst o ho
  refine ⟨w, hw, rfl, ?_⟩
  rw [hM]
  exact (placed_cells c h ht x y offs ws hnd hfst m0 w hw).1 (hplain w hw)

theorem zoneWrites_plain (c : Consts) (h : c.WF) (ht : c.TilesWF) (hr : c.ToolsWF)
    (baseValue : Nat) (hbase : c.LASTRAIL < baseValue) (hfit : baseValue + 8 ≤ c.LOMASK) :
    ∀ w ∈ zoneWrites c baseValue (offsets (-1) 3) 0, uncategorised c w.2 := by
  intro w hw
  apply above_rail_plain c ht hr
  rcases zoneWrites_shape c baseValue w hw with ⟨-, e⟩ | ⟨-, j, hj, -, e⟩
  · rw [e, (zone_centre_value c h hr _ (by omega)).1]; omega
  · rw [e, (zone_value c h hr _ (by omega)).1]; omega

theorem buildingWrites4_plain (c : Consts) (h : c.WF) (ht : c.TilesWF) (hr : c.ToolsWF)
    (baseValue centerTile : Nat) (hbase : c.LASTRAIL < baseValue)
    (hfit : baseValue + 15 ≤ c.LOMASK) (hct : c.LASTRAIL < centerTile)
    (hcf : centerTile ≤ c.LOMASK) :
    ∀ w ∈ buildingWrites c baseValue centerTile 5 (offsets (-1) 4) 0, uncategorised c w.2 := by
  intro w hw
  apply above_rail_plain c ht hr
  rcases buildingWrites4_shape c baseValue centerTile w hw with ⟨-, e⟩ | ⟨-, j, hj, -, e⟩
  · rw [e, (building_centre_value c h hr _ hcf).1]; omega
  · rw [e, (building_value c h hr _ (by omega)).1]; omega

theorem buildingWrites6_plain (c : Consts) (h : c.WF) (ht : c.TilesWF) (hr : c.ToolsWF)
    (baseValue centerTile : Nat) (hbase : c.LASTRAIL < baseValue)
    (hfit : baseValue + 35 ≤ c.LOMASK) (hct : c.LASTRAIL < centerTile)
    (hcf : centerTile ≤ c.LOMASK) :
    ∀ w ∈ buildingWrites c baseValue centerTile 14 (offsets (-2) 6) 0, uncategorised c w.2 := by
  intro w hw
  apply above_rail_plain c ht hr
  rcases buildingWrites6_shape c baseValue centerTile w hw with ⟨-, e⟩ | ⟨-, j, hj, -, e⟩
  · rw [e, (building_centre_value c h hr _ hcf).1]; omega
  · rw [e, (building_value c h hr _ (by omega)).1]; omega

/-- The cells of a zone after `PlaceZone`, for a base above the rail range
whose nine codes fit under the type-code mask: each holds the value stored. -/
theorem PlaceZone_stored (c : Consts) (h : c.WF) (ht : c.TilesWF) (hr : c.ToolsWF) (s : City)
    (x y : Int) (baseValue : Nat) (cost : Int) (hbase : c.LASTRAIL < baseValue)
    (hfit : baseValue + 8 ≤ c.LOMASK)
    (hok : (PlaceZone c s x y baseValue cost).1 = TOOLRESULT_OK) (o : Int × Int)
    (ho : o ∈ offsets (-1) 3) :
    ∃ w ∈ zoneWrites c baseValue (offsets (-1) 3) 0, w.1 = o
      ∧ (PlaceZone c s x y baseValue cost).2.Map (y + o.2) (x + o.1) = w.2 := by
  obtain ⟨m0, e⟩ := PlaceZone_map c s x y baseValue cost hok
  exact footprint_value c h ht x y _ _ offsets_nodup3 (zoneWrites_fst c baseValue _ 0) m0 _ e
    (zoneWrites_plain c h ht hr baseValue hbase hfit) o ho

theorem Place4x4Building_stored (c : Consts) (h : c.WF) (ht : c.TilesWF) (hr : c.ToolsWF)
    (s : City) (x y : Int) (baseValue centerTile : Nat) (cost : Int)
    (hbase : c.LASTRAIL < baseValue) (hfit : baseValue + 15 ≤ c.LOMASK)
    (hct : c.LASTRAIL < centerTile) (hcf : centerTile ≤ c.LOMASK)
    (hok : (Place4x4Building c s x y baseValue centerTile cost).1 = TOOLRESULT_OK)
    (o : Int × Int) (ho : o ∈ offsets (-1) 4) :
    ∃ w ∈ buildingWrites c baseValue centerTile 5 (offsets (-1) 4) 0, w.1 = o
      ∧ (Place4x4Building c s x y baseValue centerTile cost).2.Map (y + o.2) (x + o.1) = w.2 := by
  obtain ⟨m0, e⟩ := Place4x4Building_map c s x y baseValue centerTile cost hok
  exact footprint_value c h ht x y _ _ offsets_nodup4 (buildingWrites_fst c _ _ _ _ 0) m0 _ e
    (buildingWrites4_plain c h ht hr baseValue centerTile hbase hfit hct hcf) o ho

theorem Place6x6Building_stored (c : Consts) (h : c.WF) (ht : c.TilesWF) (hr : c.ToolsWF)
    (s : City) (x y : Int) (baseValue centerTile : Nat) (cost : Int)
    (hbase : c.LASTRAIL < baseValue) (hfit : baseValue + 35 ≤ c.LOMASK)
    (hct : c.LASTRAIL < centerTile) (hcf : centerTile ≤ c.LOMASK)
    (hok : (Place6x6Building c s x y baseValue centerTile cost).1 = TOOLRESULT_OK)
    (o : Int × Int) (ho : o ∈ offsets (-2) 6) :
    ∃ w ∈ buildingWrites c baseValue centerTile 14 (offsets (-2) 6) 0, w.1 = o
      ∧ (Place6x6Building c s x y baseValue centerTile cost).2.Map (y + o.2) (x + o.1) = w.2 := by
  obtain ⟨m0, e⟩ := Place6x6Building_map c s x y baseValue centerTile cost hok
  exact footprint_value c h ht x y _ _ offsets_nodup6 (buildingWrites_fst c _ _ _ _ 0) m0 _ e
    (buildingWrites6_plain c h ht hr baseValue centerTile hbase hfit hct hcf) o ho

theorem centre_mem3 : ((0, 0) : Int × Int) ∈ offsets (-1) 3 := by decide

theorem centre_mem4 : ((0, 0) : Int × Int) ∈ offsets (-1) 4 := by decide

theorem centre_mem6 : ((0, 0) : Int × Int) ∈ offsets (-2) 6 := by decide

/-- The centre of a building after `Place4x4Building`. -/
theorem Place4x4Building_centre (c : Consts) (h : c.WF) (ht : c.TilesWF) (hr : c.ToolsWF)
    (s : City) (x y : Int) (baseValue centerTile : Nat) (cost : Int)
    (hbase : c.LASTRAIL < baseValue) (hfit : baseValue + 15 ≤ c.LOMASK)
    (hct : c.LASTRAIL < centerTile) (hcf : centerTile ≤ c.LOMASK)
    (hok : (Place4x4Building c s x y baseValue centerTile cost).1 = TOOLRESULT_OK) :
    (Place4x4Building c s x y baseValue centerTile cost).2.Map y x
      = toShort (centerTile ||| c.ZONEBIT ||| c.BULLBIT) := by
  obtain ⟨w, hw, e1, e2⟩ := Place4x4Building_stored c h ht hr s x y baseValue centerTile cost
    hbase hfit hct hcf hok (0, 0) centre_mem4
  simp only [Int.add_zero] at e2
  rcases buildingWrites4_shape c baseValue centerTile w hw with ⟨-, e⟩ | ⟨hne, -⟩
  · rw [e2, e]
  · exact absurd e1 hne

theorem Place6x6Building_centre (c : Consts) (h : c.WF) (ht : c.TilesWF) (hr : c.ToolsWF)
    (s : City) (x y : Int) (baseValue centerTile : Nat) (cost : Int)
    (hbase : c.LASTRAIL < baseValue) (hfit : baseValue + 35 ≤ c.LOMASK)
    (hct : c.LASTRAIL < centerTile) (hcf : centerTile ≤ c.LOMASK)
    (hok : (Place6x6Building c s x y baseValue centerTile cost).1 = TOOLRESULT_OK) :
    (Place6x6Building c s x y baseValue centerTile cost).2.Map y x
      = toShort (centerTile ||| c.ZONEBIT ||| c.BULLBIT) := by
  obtain ⟨w, hw, e1, e2⟩ := Place6x6Building_stored c h ht hr s x y baseValue centerTile cost
    hbase hfit hct hcf hok (0, 0) centre_mem6
  simp only [Int.add_zero] at e2
  rcases buildingWrites6_shape c baseValue centerTile w hw with ⟨-, e⟩ | ⟨hne, -⟩
  · rw [e2, e]
  · exact absurd e1 hne

theorem PlaceZone_centre (c : Consts) (h : c.WF) (ht : c.TilesWF) (hr : c.ToolsWF)
    (s : City) (x y : Int) (baseValue : Nat) (cost : Int)
    (hbase : c.LASTRAIL < baseValue) (hfit : baseValue + 8 ≤ c.LOMASK)
    (hok : (PlaceZone c s x y baseValue cost).1 = TOOLRESULT_OK) :
    (PlaceZone c s x y baseValue cost).2.Map y x
      = toShort ((baseValue + 4) ||| c.ZONEBIT ||| c.BULLBIT ||| c.CONDBIT) := by
  obtain ⟨w, hw, e1, e2⟩ := PlaceZone_stored c h ht hr s x y baseValue cost
    hbase hfit hok (0, 0) centre_mem3
  simp only [Int.add_zero] at e2
  rcases zoneWrites_shape c baseValue w hw with ⟨-, e⟩ | ⟨hne, -⟩
  · rw [e2, e]
  · exact absurd e1 hne

/-- C17. After a successful `PlaceZone(x, y, base, cost)`, for a base above
the rail range whose nine codes fit under the type-code mask (as the bases of
the five zone tools are), every one of the nine cells of the footprint carries
the conductive and the bulldozable flag, the cell at the offset `(dx, dy)`
holds the type code `base + 3 * (dy + 1) + (dx + 1)`, and the centre holds
`base + 4`. -/
theorem PlaceZone_cells (c : Consts) (h : c.WF) (ht : c.TilesWF) (hr : c.ToolsWF) (s : City)
    (x y : Int) (baseValue : Nat) (cost : Int) (hbase : c.LASTRAIL < baseValue)
    (hfit : baseValue + 8 ≤ c.LOMASK)
    (hok : (PlaceZone c s x y baseValue cost).1 = TOOLRESULT_OK) :
    (∀ dx dy : Int, -1 ≤ dx → dx ≤ 1 → -1 ≤ dy → dy ≤ 1 →
      conductive c ((PlaceZone c s x y baseValue cost).2.Map (y + dy) (x + dx))
      ∧ bulldozable c ((PlaceZone c s x y baseValue cost).2.Map (y + dy) (x + dx))
      ∧ (typeCode c ((PlaceZone c s x y baseValue cost).2.Map (y + dy) (x + dx)) : Int)
          = (baseValue : Int) + (3 * (dy + 1) + (dx + 1)))
    ∧ typeCode c ((PlaceZone c s x y baseValue cost).2.Map y x) = baseValue + 4 := by
  have hcp := hr.cond_pos
  have hbp := hr.bull_pos
  constructor
  · intro dx dy h1 h2 h3 h4
    obtain ⟨w, hw, e1, e2⟩ := PlaceZone_stored c h ht hr s x y baseValue cost hbase hfit hok
      (dx, dy) ((mem_offsets _ _ _).2 ⟨h1, by dsimp only; omega, h3, by dsimp only; omega⟩)
    dsimp only at e2
    rw [e2]
    unfold conductive bulldozable
    rcases zoneWrites_shape c baseValue w hw with ⟨e0, e⟩ | ⟨-, j, hj, hform, e⟩
    · obtain ⟨v1, v2, v3⟩ := zone_centre_value c h hr (baseValue + 4) (by omega)
      rw [e0] at e1
      have hdx : dx = 0 := (congrArg Prod.fst e1).symm
      have hdy : dy = 0 := (congrArg Prod.snd e1).symm
      rw [e, v1, v2, v3, hdx, hdy]
      refine ⟨by omega, by omega, ?_⟩
      push_cast; ring
    · obtain ⟨v1, v2, v3, -⟩ := zone_value c h hr (baseValue + j) (by omega)
      rw [e, v1, v2, v3]
      refine ⟨by omega, by omega, ?_⟩
      rw [e1] at hform
      dsimp only at hform
      push_cast
      rw [hform]
  · rw [PlaceZone_centre c h ht hr s x y baseValue cost hbase hfit hok]
    exact (zone_centre_value c h hr (baseValue + 4) (by omega)).1

/-- C17, instance: a fire station (base 761) placed at (5,5) of the blank
grid; its north-west corner (4,4) holds 761, its south-east corner (6,6) holds
769 and its centre 765, the corner being conductive and bulldozable. -/
theorem PlaceZone_cells_witness :
    (PlaceZone classic (cityOf blankGrid 1000) 5 5 761 500).1 = TOOLRESULT_OK
    ∧ conductive classic ((PlaceZone classic (cityOf blankGrid 1000) 5 5 761 500).2.Map 4 4)
    ∧ bulldozable classic ((PlaceZone classic (cityOf blankGrid 1000) 5 5 761 500).2.Map 4 4)
    ∧ (typeCode classic ((PlaceZone classic (cityOf blankGrid 1000) 5 5 761 500).2.Map 4 4) : Int)
        = 761
    ∧ (typeCode classic ((PlaceZone classic (cityOf blankGrid 1000) 5 5 761 500).2.Map 6 6) : Int)
        = 769
    ∧ typeCode classic ((PlaceZone classic (cityOf blankGrid 1000) 5 5 761 500).2.Map 5 5)
        = 765 :=
  by
  have k := PlaceZone_cells classic classic_wf classic_tiles_wf classic_tools_wf
    (cityOf blankGrid 1000) 5 5 761 500 (by decide) (by decide) (by decide)
  have k1 := k.1 (-1) (-1) (by decide) (by decide) (by decide) (by decide)
  have k2 := k.1 1 1 (by decide) (by decide) (by decide) (by decide)
  have e1 : (5 : Int) + -1 = 4 := rfl
  have e2 : (5 : Int) + 1 = 6 := rfl
  rw [e1] at k1
  rw [e2] at k2
  exact ⟨by decide, k1.1, k1.2.1, k1.2.2.trans (by decide), k2.2.2.trans (by decide), k.2⟩

/-- C18, as stated, fails: a coal plant placed by `DoPowerPlant` at (5,5) of
the blank grid with funds 5000 is placed, and its centre cell holds
`TILE_POWERPLANT | ZONEBIT | BULLBIT`, without the conductive flag. -/
theorem Place4x4Building_centre_not_conductive :
    (DoPowerPlant classic (cityOf blankGrid 5000) 5 5).1 = TOOLRESULT_OK
    ∧ (DoPowerPlant classic (cityOf blankGrid 5000) 5 5).2.Map 5 5 = 750 + 1024 + 4096
    ∧ ¬ conductive classic ((DoPowerPlant classic (cityOf blankGrid 5000) 5 5).2.Map 5 5) := by
  have e := Place4x4Building_centre classic classic_wf classic_tiles_wf classic_tools_wf
    (cityOf blankGrid 5000) 5 5 TILE_COALBASE TILE_POWERPLANT TOOL_POWERPLANT_COST
    (by decide) (by decide) (by decide) (by decide) (by decide)
  unfold DoPowerPlant
  refine ⟨by decide, ?_, ?_⟩
  · rw [e]; decide
  · rw [e]; decide

/-- C18, amended. After a successful `Place4x4Building` or `Place6x6Building`,
for a base and a centre tile above the rail range that fit under the type-code
mask (as those of the building tools are), no cell of the footprint carries
the conductive flag, the centre included; the centre cell carries the zone
flag. -/
theorem building_not_conductive (c : Consts) (h : c.WF) (ht : c.TilesWF) (hr : c.ToolsWF)
    (s : City) (x y : Int) (baseValue centerTile : Nat) (cost : Int)
    (hbase : c.LASTRAIL < baseValue) (hct : c.LASTRAIL < centerTile)
    (hcf : centerTile ≤ c.LOMASK) :
    (baseValue + 15 ≤ c.LOMASK →
      (Place4x4Building c s x y baseValue centerTile cost).1 = TOOLRESULT_OK →
      (∀ o ∈ offsets (-1) 4, ¬ conductive c
        ((Place4x4Building c s x y baseValue centerTile cost).2.Map (y + o.2) (x + o.1)))
      ∧ zoned c ((Place4x4Building c s x y baseValue centerTile cost).2.Map y x))
    ∧ (baseValue + 35 ≤ c.LOMASK →
      (Place6x6Building c s x y baseValue centerTile cost).1 = TOOLRESULT_OK →
      (∀ o ∈ offsets (-2) 6, ¬ conductive c
        ((Place6x6Building c s x y baseValue centerTile cost).2.Map (y + o.2) (x + o.1)))
      ∧ zoned c ((Place6x6Building c s x y baseValue centerTile cost).2.Map y x)) := by
  have hzp := hr.zone_pos
  constructor
  · intro hfit hok
    constructor
    · intro o ho
      obtain ⟨w, hw, -, e2⟩ := Place4x4Building_stored c h ht hr s x y baseValue centerTile cost
        hbase hfit hct hcf hok o ho
      unfold conductive
      rw [e2, not_not]
      rcases buildingWrites4_shape c baseValue centerTile w hw with ⟨-, e⟩ | ⟨-, j, hj, -, e⟩
      · rw [e]; exact (building_centre_value c h hr _ hcf).2
      · rw [e]; exact (building_value c h hr _ (by omega)).2.1
    · unfold zoned
      rw [Place4x4Building_centre c h ht hr s x y baseValue centerTile cost hbase hfit hct hcf
        hok, building_centre_zoned c h hr]
      omega
  · intro hfit hok
    constructor
    · intro o ho
      obtain ⟨w, hw, -, e2⟩ := Place6x6Building_stored c h ht hr s x y baseValue centerTile cost
        hbase hfit hct hcf hok o ho
      unfold conductive
      rw [e2, not_not]
      rcases buildingWrites6_shape c baseValue centerTile w hw with ⟨-, e⟩ | ⟨-, j, hj, -, e⟩
      · rw [e]; exact (building_centre_value c h hr _ hcf).2
      · rw [e]; exact (building_value c h hr _ (by omega)).2.1
    · unfold zoned
      rw [Place6x6Building_centre c h ht hr s x y baseValue centerTile cost hbase hfit hct hcf
        hok, building_centre_zoned c h hr]
      omega

/-- C18, amended, instance: an airport placed at (10,10) of the blank grid; its
centre carries the zone flag and not the conductive flag, like its corner
(8,8). -/
theorem building_not_conductive_witness :
    (Place6x6Building classic (cityOf blankGrid 20000) 10 10 709 716 10000).1 = TOOLRESULT_OK
    ∧ ¬ conductive classic
        ((Place6x6Building classic (cityOf blankGrid 20000) 10 10 709 716 10000).2.Map 10 10)
    ∧ ¬ conductive classic
        ((Place6x6Building classic (cityOf blankGrid 20000) 10 10 709 716 10000).2.Map 8 8)
    ∧ zoned classic
        ((Place6x6Building classic (cityOf blankGrid 20000) 10 10 709 716 10000).2.Map 10 10) :=
  by
  have k := (building_not_conductive classic classic_wf classic_tiles_wf classic_tools_wf
    (cityOf blankGrid 20000) 10 10 709 716 10000 (by decide) (by decide) (by decide)).2
    (by decide) (by decide)
  have k1 := k.1 (0, 0) (by decide)
  have k2 := k.1 (-2, -2) (by decide)
  have e1 : (10 : Int) + 0 = 10 := rfl
  have e2 : (10 : Int) + -2 = 8 := rfl
  dsimp only at k1 k2
  rw [e1] at k1
  rw [e2] at k2
  exact ⟨by decide, k1, k2, k.2⟩

/-- The zone flag on the cells of a footprint whose stores have the shape of
a placing loop: the centre carries it, no other cell does. -/
theorem footprint_zone_flag (c : Consts) (h : c.WF) (ht : c.TilesWF) (hr : c.ToolsWF)
    (x y : Int) (offs : List (Int × Int)) (ws : List ((Int × Int) × Nat)) (hnd : offs.Nodup)
    (hfst : ws.map Prod.fst = offs) (m0 M : Grid)
    (hM : M = offs.foldl (fixCell c x y) (writeAll m0 x y ws))
    (hshape : ∀ w ∈ ws, (w.1 = (0, 0) ∧ w.2 &&& c.ZONEBIT = c.ZONEBIT)
      ∨ (w.1 ≠ (0, 0) ∧ w.2 &&& c.ZONEBIT = 0))
    (o : Int × Int) (ho : o ∈ offs) :
    zoned c (M (y + o.2) (x + o.1)) ↔ o = (0, 0) := by
  have hzp := hr.zone_pos
  obtain ⟨w, hw, e1, e2⟩ := footprint_flag c h ht x y offs ws hnd hfst m0 M hM c.ZONEBIT
    hr.zone_all hr.zone_bull hr.zone_burn hr.zone_cond o ho
  unfold zoned
  rw [e2]
  rcases hshape w hw with ⟨e0, e⟩ | ⟨hne, e⟩
  · rw [e, ← e1, e0]
    exact ⟨fun _ => rfl, fun _ => by omega⟩
  · rw [e, ← e1]
    exact ⟨fun hh => absurd rfl hh, fun hh => absurd hh hne⟩

/-- C19. After a successful placement of any size at `(x, y)`, by `PlaceZone`,
`Place4x4Building` or `Place6x6Building` with a base whose codes fit under the
type-code mask, exactly one cell of the footprint carries the zone flag, and
it is the cell `(x, y)`: the cell at an offset of the footprint carries the
flag exactly when the offset is (0, 0). -/
theorem placement_one_zone_flag (c : Consts) (h : c.WF) (ht : c.TilesWF) (hr : c.ToolsWF)
    (s : City) (x y : Int) (baseValue centerTile : Nat) (cost : Int) :
    (baseValue + 8 ≤ c.LOMASK → (PlaceZone c s x y baseValue cost).1 = TOOLRESULT_OK →
      ∀ o ∈ offsets (-1) 3,
        (zoned c ((PlaceZone c s x y baseValue cost).2.Map (y + o.2) (x + o.1)) ↔ o = (0, 0)))
    ∧ (baseValue + 15 ≤ c.LOMASK →
      (Place4x4Building c s x y baseValue centerTile cost).1 = TOOLRESULT_OK →
      ∀ o ∈ offsets (-1) 4,
        (zoned c ((Place4x4Building c s x y baseValue centerTile cost).2.Map (y + o.2) (x + o.1))
          ↔ o = (0, 0)))
    ∧ (baseValue + 35 ≤ c.LOMASK →
      (Place6x6Building c s x y baseValue centerTile cost).1 = TOOLRESULT_OK →
      ∀ o ∈ offsets (-2) 6,
        (zoned c ((Place6x6Building c s x y baseValue centerTile cost).2.Map (y + o.2) (x + o.1))
          ↔ o = (0, 0))) := by
  refine ⟨?_, ?_, ?_⟩
  · intro hfit hok o ho
    obtain ⟨m0, e⟩ := PlaceZone_map c s x y baseValue cost hok
    apply footprint_zone_flag c h ht hr x y _ _ offsets_nodup3 (zoneWrites_fst c baseValue _ 0)
      m0 _ e _ o ho
    intro w hw
    rcases zoneWrites_shape c baseValue w hw with ⟨e0, e⟩ | ⟨hne, j, hj, -, e⟩
    · exact Or.inl ⟨e0, by rw [e]; exact zone_centre_zoned c h hr _⟩
    · exact Or.inr ⟨hne, by rw [e]; exact (zone_value c h hr _ (by omega)).2.2.2⟩
  · intro hfit hok o ho
    obtain ⟨m0, e⟩ := Place4x4Building_map c s x y baseValue centerTile cost hok
    apply footprint_zone_flag c h ht hr x y _ _ offsets_nodup4
      (buildingWrites_fst c baseValue centerTile 5 _ 0) m0 _ e _ o ho
    intro w hw
    rcases buildingWrites4_shape c baseValue centerTile w hw with ⟨e0, e⟩ | ⟨hne, j, hj, -, e⟩
    · exact Or.inl ⟨e0, by rw [e]; exact building_centre_zoned c h hr _⟩
    · exact Or.inr ⟨hne, by rw [e]; exact (building_value c h hr _ (by omega)).2.2⟩
  · intro hfit hok o ho
    obtain ⟨m0, e⟩ := Place6x6Building_map c s x y baseValue centerTile cost hok
    apply footprint_zone_flag c h ht hr x y _ _ offsets_nodup6
      (buildingWrites_fst c baseValue centerTile 14 _ 0) m0 _ e _ o ho
    intro w hw
    rcases buildingWrites6_shape c baseValue centerTile w hw with ⟨e0, e⟩ | ⟨hne, j, hj, -, e⟩
    · exact Or.inl ⟨e0, by rw [e]; exact building_centre_zoned c h hr _⟩
    · exact Or.inr ⟨hne, by rw [e]; exact (building_value c h hr _ (by omega)).2.2⟩

/-- C19, instance: a residential zone (base 240) at (5,5), a coal plant at
(20,20) and an airport at (40,40) of the blank grid: the centre carries the
zone flag, the cell east of it does not. -/
theorem placement_one_zone_flag_witness :
    (PlaceZone classic (cityOf blankGrid 20000) 5 5 240 100).1 = TOOLRESULT_OK
    ∧ zoned classic ((PlaceZone classic (cityOf blankGrid 20000) 5 5 240 100).2.Map 5 5)
    ∧ ¬ zoned classic ((PlaceZone classic (cityOf blankGrid 20000) 5 5 240 100).2.Map 5 6)
    ∧ zoned classic
        ((Place4x4Building classic (cityOf blankGrid 20000) 20 20 745 750 3000).2.Map 20 20)
    ∧ ¬ zoned classic
        ((Place6x6Building classic (cityOf blankGrid 20000) 40 40 709 716 10000).2.Map 40 41) :=
  by
  have k3 := (placement_one_zone_flag classic classic_wf classic_tiles_wf classic_tools_wf
    (cityOf blankGrid 20000) 5 5 240 244 100).1 (by decide) (by decide)
  have k4 := (placement_one_zone_flag classic classic_wf classic_tiles_wf classic_tools_wf
    (cityOf blankGrid 20000) 20 20 745 750 3000).2.1 (by decide) (by decide)
  have k6 := (placement_one_zone_flag classic classic_wf classic_tiles_wf classic_tools_wf
    (cityOf blankGrid 20000) 40 40 709 716 10000).2.2 (by decide) (by decide)
  have a1 := k3 (0, 0) (by decide)
  have a2 := k3 (1, 0) (by decide)
  have a3 := k4 (0, 0) (by decide)
  have a4 := k6 (1, 0) (by decide)
  have e1 : (5 : Int) + 0 = 5 := rfl
  have e2 : (5 : Int) + 1 = 6 := rfl
  have e3 : (20 : Int) + 0 = 20 := rfl
  have e4 : (40 : Int) + 0 = 40 := rfl
  have e5 : (40 : Int) + 1 = 41 := rfl
  dsimp only at a1 a2 a3 a4
  rw [e1] at a1 a2
  rw [e2] at a2
  rw [e3] at a3
  rw [e4, e5] at a4
  exact ⟨by decide, a1.2 rfl, fun hz => absurd (a2.1 hz) (by decide), a3.2 rfl,
    fun hz => absurd (a4.1 hz) (by decide)⟩

/-! ## The rubble functions -/

theorem setCell_self (m : Grid) (x y : Int) : setCell m x y (m y x) = m := by
  funext y1 x1
  unfold setCell
  split_ifs with hh
  · rw [hh.1, hh.2]
  · rfl

/-- A loop over a footprint that rewrites each of its cells of the grid by a
function of the cell's value: what it leaves at each cell. -/
theorem pointFold (c : Consts) (x y : Int) (g : Nat → Nat) (body : Grid → Int × Int → Grid)
    (hbody : ∀ (m : Grid) (o : Int × Int), body m o
      = if TestBounds c (x + o.1) (y + o.2) = true
        then setCell m (x + o.1) (y + o.2) (g (m (y + o.2) (x + o.1))) else m)
    (offs : List (Int × Int)) :
    ∀ m : Grid, offs.Nodup →
      (∀ o ∈ offs, (offs.foldl body m) (y + o.2) (x + o.1)
        = if TestBounds c (x + o.1) (y + o.2) = true then g (m (y + o.2) (x + o.1))
          else m (y + o.2) (x + o.1))
      ∧ (∀ x1 y1 : Int, (∀ o ∈ offs, ¬ (x1 = x + o.1 ∧ y1 = y + o.2)) →
          (offs.foldl body m) y1 x1 = m y1 x1) := by
  induction offs with
  | nil =>
    intro m _
    exact ⟨fun o ho => (by cases ho), fun _ _ _ => rfl⟩
  | cons o0 rest ih =>
    intro m hnd
    rw [List.nodup_cons] at hnd
    obtain ⟨ih1, ih2⟩ := ih (body m o0) hnd.2
    have hstep : ∀ x1 y1 : Int, ¬ (x1 = x + o0.1 ∧ y1 = y + o0.2) →
        body m o0 y1 x1 = m y1 x1 := by
      intro x1 y1 hne
      rw [hbody]
      split_ifs
      · exact setCell_other _ _ _ _ _ _ hne
      · rfl
    constructor
    · intro o ho
      rw [List.foldl_cons]
      rcases List.mem_cons.1 ho with rfl | hin
      · rw [ih2 _ _ (fun o1 ho1 hh => hnd.1 (by
          have e : o1 = o := Prod.ext (by omega) (by omega)
          rw [← e]; exact ho1))]
        rw [hbody]
        split_ifs
        · exact setCell_same _ _ _ _
        · rfl
      · have hne : ¬ (x + o.1 = x + o0.1 ∧ y + o.2 = y + o0.2) := by
          intro hh
          apply hnd.1
          have e : o = o0 := Prod.ext (by omega) (by omega)
          rw [← e]; exact hin
        rw [ih1 o hin, hstep _ _ hne]
    · intro x1 y1 hout
      rw [List.foldl_cons, ih2 x1 y1 (fun o1 ho1 => hout o1 (List.mem_cons_of_mem _ ho1)),
        hstep x1 y1 (hout o0 (List.mem_cons_self _ _))]

/-- The two passes of a rubble function: each cell of the footprint that is a
cell of the grid is rewritten by `rubbleOf`, no other cell changes. -/
theorem putRubble_spec (c : Consts) (m : Grid) (x y : Int) (offs : List (Int × Int))
    (hnd : offs.Nodup) :
    (∀ o ∈ offs, TestBounds c (x + o.1) (y + o.2) = true →
      putRubble c m x y offs (y + o.2) (x + o.1) = rubbleOf c (m (y + o.2) (x + o.1)))
    ∧ (∀ x1 y1 : Int, (∀ o ∈ offs, ¬ (x1 = x + o.1 ∧ y1 = y + o.2)) →
        putRubble c m x y offs y1 x1 = m y1 x1) := by
  have h1 := pointFold c x y (fun v => clearBits v c.ZONEBIT) (unzoneCell c x y)
    (fun m o => rfl) offs m hnd
  have h2 := pointFold c x y
    (fun v => if v &&& c.LOMASK ≠ c.RADTILE ∧ v &&& c.LOMASK ≠ 0 then rubbleMark c else v)
    (rubbleCell c x y)
    (fun m o => by
      unfold rubbleCell rubbleMark
      dsimp only
      split_ifs
      · rfl
      · rw [setCell_self]
      · rfl) offs (offs.foldl (unzoneCell c x y) m) hnd
  unfold putRubble
  constructor
  · intro o ho hb
    rw [h2.1 o ho, if_pos hb, h1.1 o ho, if_pos hb]
    rfl
  · intro x1 y1 hout
    rw [h2.2 x1 y1 hout, h1.2 x1 y1 hout]

theorem rubbleMark_eq (c : Consts) (h : c.WF) : rubbleMark c = SOMETINYEXP ||| c.ANIMBIT ||| c.BULLBIT := by
  unfold rubbleMark toShort
  apply Nat.mod_eq_of_lt
  have e : (65536 : Nat) = 2 ^ 16 := by norm_num
  rw [e]
  apply Nat.or_lt_two_pow
  · apply Nat.or_lt_two_pow
    · unfold SOMETINYEXP; norm_num
    · rw [← e]; exact h.anim_lt
  · rw [← e]; exact h.bull_lt

theorem rubbleMark_not_zoned (c : Consts) (h : c.WF) (hr : c.ToolsWF) :
    ¬ zoned c (rubbleMark c) := by
  unfold zoned rubbleMark
  rw [not_not, toShort_land _ _ h.zone_lt, lor_mask _ _ _ (disj_comm _ _ hr.zone_bull),
    lor_mask _ _ _ (disj_comm _ _ hr.zone_anim)]
  apply low_flag c h _ _ _ (zone_lo c h hr)
  have := hr.tiles_fit
  unfold LASTTILE at this
  unfold SOMETINYEXP
  omega

/-- A cell whose type code is neither bare land nor the radiation tile
becomes the rubble mark. -/
theorem rubbleOf_tile (c : Consts) (h : c.WF) (hr : c.ToolsWF) (v : Nat)
    (h0 : typeCode c v ≠ 0) (hrad : typeCode c v ≠ c.RADTILE) : rubbleOf c v = rubbleMark c := by
  unfold rubbleOf
  unfold typeCode at h0 hrad
  rw [clearBits_mask v c.ZONEBIT c.LOMASK (lomask_lt_short c h) (zone_lo c h hr),
    if_pos ⟨hrad, h0⟩]

/-! ## The bulldozer -/

/-- The bulldozer on the centre of a zone whose type code `checkSize` knows:
it spends 1 and lays the rubble of that size around the cell. -/
theorem DoBulldozer_centre (c : Consts) (s : City) (x y : Int) (n : Nat)
    (offs : List (Int × Int))
    (hn : (n = 3 ∧ offs = offsets (-1) 3) ∨ (n = 4 ∧ offs = offsets (-1) 4)
      ∨ (n = 6 ∧ offs = offsets (-2) 6))
    (hb : TestBounds c x y = true) (hz : s.Map y x &&& c.ZONEBIT ≠ 0)
    (htile : typeCode c (s.Map y x) > 65) (hfunds : 1 ≤ s.TotalFunds)
    (hsize : checkSize c (typeCode c (s.Map y x)) = n) :
    DoBulldozer c s x y
      = (TOOLRESULT_OK, { Spend 1 s with Map := putRubble c s.Map x y offs }) := by
  unfold TestBounds at hb
  simp only [decide_eq_true_eq] at hb
  unfold typeCode at htile hsize
  have hw : isWater (s.Map y x &&& c.LOMASK) = false := by
    unfold isWater RIVER REDGE CHANNEL
    simp only [Bool.or_eq_false_iff, decide_eq_false_iff_not]
    omega
  have hbr : isBridge (s.Map y x &&& c.LOMASK) = false := by
    unfold isBridge HANDBALL LHBALL HBRIDGE VBRIDGE BRWH BRWV
    simp only [Bool.or_eq_false_iff, decide_eq_false_iff_not]
    omega
  unfold DoBulldozer
  dsimp only
  rw [if_neg (by omega), if_neg (by unfold DIRT; omega), if_neg (by omega),
    if_neg (by rw [hw, hbr]; simp)]
  unfold bulldozeZone
  rw [if_pos hz, hsize]
  unfold rubbleSwitch put3x3Rubble put4x4Rubble put6x6Rubble
  rcases hn with ⟨rfl, rfl⟩ | ⟨rfl, rfl⟩ | ⟨rfl, rfl⟩ <;> rfl

/-- The bulldozer on a cell without the zone flag whose type code is unknown
to `checkBigZone`, an ordinary tile: it spends 1, stores bare land and fixes
the cell and its neighbours. -/
theorem DoBulldozer_single (c : Consts) (s : City) (x y : Int)
    (hb : TestBounds c x y = true) (hz : s.Map y x &&& c.ZONEBIT = 0)
    (htile : typeCode c (s.Map y x) > 65) (hrad : typeCode c (s.Map y x) ≠ c.RADTILE)
    (hfunds : 1 ≤ s.TotalFunds)
    (hbig : (checkBigZone (typeCode c (s.Map y x))).1 = 0) :
    DoBulldozer c s x y
      = (TOOLRESULT_OK,
          { Spend 1 s with Map := FixZone c (setCell s.Map x y DIRT) x y }) := by
  unfold TestBounds at hb
  simp only [decide_eq_true_eq] at hb
  unfold typeCode at htile hrad hbig
  have hw : isWater (s.Map y x &&& c.LOMASK) = false := by
    unfold isWater RIVER REDGE CHANNEL
    simp only [Bool.or_eq_false_iff, decide_eq_false_iff_not]
    omega
  have hbr : isBridge (s.Map y x &&& c.LOMASK) = false := by
    unfold isBridge HANDBALL LHBALL HBRIDGE VBRIDGE BRWH BRWV
    simp only [Bool.or_eq_false_iff, decide_eq_false_iff_not]
    omega
  unfold DoBulldozer
  dsimp only
  rw [if_neg (by omega), if_neg (by unfold DIRT; omega), if_neg (by omega),
    if_neg (by rw [hw, hbr]; simp)]
  unfold bulldozeZone
  dsimp only
  rw [if_neg (by rw [hz]; simp), if_neg (by rw [hbig]; simp)]
  dsimp only
  rw [hw, hbr, if_neg (by simp), if_neg (by simp), if_neg hrad]
  rfl

/-! ## Demolition of a placed structure -/

/-- The bulldozer on the centre of a structure whose cells all hold type codes
above the rail range, inside the grid, with funds of 1 at least, when
`checkSize` gives the centre's type code the size of the footprint. -/
theorem demolish_centre (c : Consts) (h : c.WF) (ht : c.TilesWF) (hr : c.ToolsWF) (s : City)
    (x y : Int) (n : Nat) (offs : List (Int × Int))
    (hn : (n = 3 ∧ offs = offsets (-1) 3) ∨ (n = 4 ∧ offs = offsets (-1) 4)
      ∨ (n = 6 ∧ offs = offsets (-2) 6))
    (hnd : offs.Nodup) (hc : (0, 0) ∈ offs)
    (hin : footprintInside c x y offs = true)
    (hcode : ∀ o ∈ offs, c.LASTRAIL < typeCode c (s.Map (y + o.2) (x + o.1)))
    (hz : zoned c (s.Map y x)) (hfunds : 1 ≤ s.TotalFunds)
    (hsize : checkSize c (typeCode c (s.Map y x)) = n) :
    Demolished c s.Map (DoBulldozer c s x y) x y offs := by
  have hall : ∀ o ∈ offs, TestBounds c (x + o.1) (y + o.2) = true := by
    unfold footprintInside at hin
    rw [List.all_eq_true] at hin
    exact hin
  have hb : TestBounds c x y = true := by
    have := hall (0, 0) hc
    simpa using this
  have h1 := ht.road_power; have h2 := ht.power_le; have h3 := ht.lastpower_rail
  have h4 := hr.rail_le; have h5 := hr.rad_road; have h6 := ht.roads_ge
  have h7 := ht.roads_le
  unfold LHPOWER at h2
  unfold LASTPOWER at h3
  have hcen : c.LASTRAIL < typeCode c (s.Map y x) := by
    have := hcode (0, 0) hc
    simpa using this
  rw [DoBulldozer_centre c s x y n offs hn hb hz (by omega) hfunds hsize]
  obtain ⟨p1, p2⟩ := putRubble_spec c s.Map x y offs hnd
  refine ⟨rfl, ?_, ?_⟩
  · intro o ho
    have e : putRubble c s.Map x y offs (y + o.2) (x + o.1) = rubbleMark c := by
      rw [p1 o ho (hall o ho)]
      have := hcode o ho
      exact rubbleOf_tile c h hr _ (by omega) (by omega)
    show putRubble c s.Map x y offs (y + o.2) (x + o.1) = rubbleMark c
      ∧ ¬ zoned c (putRubble c s.Map x y offs (y + o.2) (x + o.1))
    rw [e]
    exact ⟨rfl, rubbleMark_not_zoned c h hr⟩
  · intro x1 y1 hout
    exact p2 x1 y1 hout

theorem zoneWrites_code (c : Consts) (h : c.WF) (hr : c.ToolsWF)
    (baseValue : Nat) (hbase : c.LASTRAIL < baseValue) (hfit : baseValue + 8 ≤ c.LOMASK) :
    ∀ w ∈ zoneWrites c baseValue (offsets (-1) 3) 0, c.LASTRAIL < typeCode c w.2 := by
  intro w hw
  rcases zoneWrites_shape c baseValue w hw with ⟨-, e⟩ | ⟨-, j, hj, -, e⟩
  · rw [e, (zone_centre_value c h hr _ (by omega)).1]; omega
  · rw [e, (zone_value c h hr _ (by omega)).1]; omega

theorem buildingWrites4_code (c : Consts) (h : c.WF) (hr : c.ToolsWF)
    (baseValue centerTile : Nat) (hbase : c.LASTRAIL < baseValue)
    (hfit : baseValue + 15 ≤ c.LOMASK) (hct : c.LASTRAIL < centerTile)
    (hcf : centerTile ≤ c.LOMASK) :
    ∀ w ∈ buildingWrites c baseValue centerTile 5 (offsets (-1) 4) 0,
      c.LASTRAIL < typeCode c w.2 := by
  intro w hw
  rcases buildingWrites4_shape c baseValue centerTile w hw with ⟨-, e⟩ | ⟨-, j, hj, -, e⟩
  · rw [e, (building_centre_value c h hr _ hcf).1]; omega
  · rw [e, (building_value c h hr _ (by omega)).1]; omega

theorem buildingWrites6_code (c : Consts) (h : c.WF) (hr : c.ToolsWF)
    (baseValue centerTile : Nat) (hbase : c.LASTRAIL < baseValue)
    (hfit : baseValue + 35 ≤ c.LOMASK) (hct : c.LASTRAIL < centerTile)
    (hcf : centerTile ≤ c.LOMASK) :
    ∀ w ∈ buildingWrites c baseValue centerTile 14 (offsets (-2) 6) 0,
      c.LASTRAIL < typeCode c w.2 := by
  intro w hw
  rcases buildingWrites6_shape c baseValue centerTile w hw with ⟨-, e⟩ | ⟨-, j, hj, -, e⟩
  · rw [e, (building_centre_value c h hr _ hcf).1]; omega
  · rw [e, (building_value c h hr _ (by omega)).1]; omega

/-- A placement that returns ok had its footprint inside the grid. -/
theorem PlaceZone_inside (c : Consts) (s : City) (x y : Int) (baseValue : Nat) (cost : Int)
    (hok : (PlaceZone c s x y baseValue cost).1 = TOOLRESULT_OK) :
    footprintInside c x y (offsets (-1) 3) = true := by
  obtain ⟨hr1, -⟩ := place_ok_map c s x y (offsets (-1) 3)
    (fun m => ((offsets (-1) 3).foldl (zoneCell c x y baseValue) (m, 0)).1) cost
    (Check3x3Area c s.Map x y 0) (PlaceZone c s x y baseValue cost) rfl hok
  exact ((Check3x3Area_spec c s.Map x y 0).1.1 hr1).1

theorem Place4x4Building_inside (c : Consts) (s : City) (x y : Int) (baseValue centerTile : Nat)
    (cost : Int) (hok : (Place4x4Building c s x y baseValue centerTile cost).1 = TOOLRESULT_OK) :
    footprintInside c x y (offsets (-1) 4) = true := by
  obtain ⟨hr1, -⟩ := place_ok_map c s x y (offsets (-1) 4)
    (fun m => ((offsets (-1) 4).foldl (buildingCell c x y baseValue centerTile 5) (m, 0)).1) cost
    (Check4x4Area c s.Map x y 0) (Place4x4Building c s x y baseValue centerTile cost) rfl hok
  exact ((Check4x4Area_spec c s.Map x y 0).1.1 hr1).1

theorem Place6x6Building_inside (c : Consts) (s : City) (x y : Int) (baseValue centerTile : Nat)
    (cost : Int) (hok : (Place6x6Building c s x y baseValue centerTile cost).1 = TOOLRESULT_OK) :
    footprintInside c x y (offsets (-2) 6) = true := by
  obtain ⟨hr1, -⟩ := place_ok_map c s x y (offsets (-2) 6)
    (fun m => ((offsets (-2) 6).foldl (buildingCell c x y baseValue centerTile 14) (m, 0)).1) cost
    (Check6x6Area c s.Map x y 0) (Place6x6Building c s x y baseValue centerTile cost) rfl hok
  exact ((Check6x6Area_spec c s.Map x y 0).1.1 hr1).1

/-- C20, as stated, fails: a fire station placed by `DoFireStation` at (5,5)
of the blank grid with funds 1000 leaves funds of 1 at least; `DoBulldozer` on
the cell (4,4) of its footprint returns ok, and afterwards the centre (5,5)
still carries the zone flag. The corner holds the type code 761, for which
`checkBigZone` has no entry. -/
theorem DoBulldozer_corner_leaves_centre :
    (DoFireStation classic (cityOf blankGrid 1000) 5 5).1 = TOOLRESULT_OK
    ∧ 1 ≤ (DoFireStation classic (cityOf blankGrid 1000) 5 5).2.TotalFunds
    ∧ (DoBulldozer classic (DoFireStation classic (cityOf blankGrid 1000) 5 5).2 4 4).1
        = TOOLRESULT_OK
    ∧ zoned classic
        ((DoBulldozer classic (DoFireStation classic (cityOf blankGrid 1000) 5 5).2 4 4).2.Map
          5 5) := by
  have hok : (PlaceZone classic (cityOf blankGrid 1000) 5 5 TILE_FIRESTBASE
      TOOL_FIRESTATION_COST).1 = TOOLRESULT_OK := by decide
  have hcen := PlaceZone_centre classic classic_wf classic_tiles_wf classic_tools_wf
    (cityOf blankGrid 1000) 5 5 TILE_FIRESTBASE TOOL_FIRESTATION_COST (by decide) (by decide) hok
  obtain ⟨w, hw, e1, e2⟩ := PlaceZone_stored classic classic_wf classic_tiles_wf
    classic_tools_wf (cityOf blankGrid 1000) 5 5 TILE_FIRESTBASE TOOL_FIRESTATION_COST
    (by decide) (by decide) hok (-1, -1) (by decide)
  have hcorner : (PlaceZone classic (cityOf blankGrid 1000) 5 5 TILE_FIRESTBASE
      TOOL_FIRESTATION_COST).2.Map 4 4 = 761 + 4096 + 16384 := by
    have e4 : (5 : Int) + -1 = 4 := rfl
    dsimp only at e2
    rw [e4] at e2
    rw [e2]
    rcases zoneWrites_shape classic TILE_FIRESTBASE w hw with ⟨e0, -⟩ | ⟨-, j, hj, hform, e⟩
    · rw [e0] at e1
      exact absurd e1 (by decide)
    · rw [e1] at hform
      have hj0 : j = 0 := by
        have : (j : Int) = 0 := by rw [hform]; decide
        exact_mod_cast this
      rw [e, hj0]
      decide
  unfold DoFireStation
  have hdoz := DoBulldozer_single classic (PlaceZone classic (cityOf blankGrid 1000) 5 5
    TILE_FIRESTBASE TOOL_FIRESTATION_COST).2 4 4 (by decide) (by rw [hcorner]; decide)
    (by rw [hcorner]; decide) (by rw [hcorner]; decide) (by decide) (by rw [hcorner]; decide)
  refine ⟨hok, by decide, ?_, ?_⟩
  · rw [hdoz]
  · rw [hdoz]
    unfold zoned
    dsimp only
    rw [FixZone_keeps_flag classic classic_wf classic_tiles_wf classic.ZONEBIT (by decide)
      (by decide) (by decide) (by decide), setCell_other _ _ _ _ _ _ (by decide), hcen]
    decide

/-- C20, amended. For a structure placed by `PlaceZone`, `Place4x4Building`
or `Place6x6Building` (with a base and a centre tile above the rail range that
fit under the type-code mask, as those of the tools are) whose centre type
code `checkSize` maps to the size of its footprint, `DoBulldozer` on the
centre cell `(x, y)` with funds of 1 at least removes the whole structure: it
returns ok, afterwards every cell of the footprint holds the rubble mark, no
cell of the footprint carries the zone flag, and no cell outside the footprint
has changed. -/
theorem DoBulldozer_centre_removes (c : Consts) (h : c.WF) (ht : c.TilesWF) (hr : c.ToolsWF)
    (s : City) (x y : Int) (baseValue centerTile : Nat) (cost : Int)
    (hbase : c.LASTRAIL < baseValue) (hct : c.LASTRAIL < centerTile)
    (hcf : centerTile ≤ c.LOMASK) :
    (baseValue + 8 ≤ c.LOMASK → checkSize c (baseValue + 4) = 3 →
      (PlaceZone c s x y baseValue cost).1 = TOOLRESULT_OK →
      1 ≤ (PlaceZone c s x y baseValue cost).2.TotalFunds →
      Demolished c (PlaceZone c s x y baseValue cost).2.Map
        (DoBulldozer c (PlaceZone c s x y baseValue cost).2 x y) x y (offsets (-1) 3))
    ∧ (baseValue + 15 ≤ c.LOMASK → checkSize c centerTile = 4 →
      (Place4x4Building c s x y baseValue centerTile cost).1 = TOOLRESULT_OK →
      1 ≤ (Place4x4Building c s x y baseValue centerTile cost).2.TotalFunds →
      Demolished c (Place4x4Building c s x y baseValue centerTile cost).2.Map
        (DoBulldozer c (Place4x4Building c s x y baseValue centerTile cost).2 x y) x y
        (offsets (-1) 4))
    ∧ (baseValue + 35 ≤ c.LOMASK → checkSize c centerTile = 6 →
      (Place6x6Building c s x y baseValue centerTile cost).1 = TOOLRESULT_OK →
      1 ≤ (Place6x6Building c s x y baseValue centerTile cost).2.TotalFunds →
      Demolished c (Place6x6Building c s x y baseValue centerTile cost).2.Map
        (DoBulldozer c (Place6x6Building c s x y baseValue centerTile cost).2 x y) x y
        (offsets (-2) 6)) := by
  have hzp := hr.zone_pos
  refine ⟨?_, ?_, ?_⟩
  · intro hfit hsize hok hfunds
    have hcen := PlaceZone_centre c h ht hr s x y baseValue cost hbase hfit hok
    apply demolish_centre c h ht hr _ x y 3 _ (Or.inl ⟨rfl, rfl⟩) offsets_nodup3 centre_mem3
      (PlaceZone_inside c s x y baseValue cost hok) _ _ hfunds
    · rw [hcen, (zone_centre_value c h hr _ (by omega)).1]; exact hsize
    · intro o ho
      obtain ⟨w, hw, -, e2⟩ := PlaceZone_stored c h ht hr s x y baseValue cost hbase hfit hok
        o ho
      rw [e2]
      exact zoneWrites_code c h hr baseValue hbase hfit w hw
    · unfold zoned
      rw [hcen, zone_centre_zoned c h hr]
      omega
  · intro hfit hsize hok hfunds
    have hcen := Place4x4Building_centre c h ht hr s x y baseValue centerTile cost hbase hfit
      hct hcf hok
    apply demolish_centre c h ht hr _ x y 4 _ (Or.inr (Or.inl ⟨rfl, rfl⟩)) offsets_nodup4
      centre_mem4 (Place4x4Building_inside c s x y baseValue centerTile cost hok) _ _ hfunds
    · rw [hcen, (building_centre_value c h hr _ hcf).1]; exact hsize
    · intro o ho
      obtain ⟨w, hw, -, e2⟩ := Place4x4Building_stored c h ht hr s x y baseValue centerTile cost
        hbase hfit hct hcf hok o ho
      rw [e2]
      exact buildingWrites4_code c h hr baseValue centerTile hbase hfit hct hcf w hw
    · unfold zoned
      rw [hcen, building_centre_zoned c h hr]
      omega
  · intro hfit hsize hok hfunds
    have hcen := Place6x6Building_centre c h ht hr s x y baseValue centerTile cost hbase hfit
      hct hcf hok
    apply demolish_centre c h ht hr _ x y 6 _ (Or.inr (Or.inr ⟨rfl, rfl⟩)) offsets_nodup6
      centre_mem6 (Place6x6Building_inside c s x y baseValue centerTile cost hok) _ _ hfunds
    · rw [hcen, (building_centre_value c h hr _ hcf).1]; exact hsize
    · intro o ho
      obtain ⟨w, hw, -, e2⟩ := Place6x6Building_stored c h ht hr s x y baseValue centerTile cost
        hbase hfit hct hcf hok o ho
      rw [e2]
      exact buildingWrites6_code c h hr baseValue centerTile hbase hfit hct hcf w hw
    · unfold zoned
      rw [hcen, building_centre_zoned c h hr]
      omega

/-- C20, amended, instance: the fire station placed at (5,5) of the blank grid
with funds 1000, bulldozed at its centre (5,5), and the coal plant placed at
(20,20) with funds 5000, bulldozed at its centre (20,20). -/
theorem DoBulldozer_centre_removes_witness :
    (PlaceZone classic (cityOf blankGrid 1000) 5 5 761 500).1 = TOOLRESULT_OK
    ∧ checkSize classic (761 + 4) = 3
    ∧ Demolished classic (PlaceZone classic (cityOf blankGrid 1000) 5 5 761 500).2.Map
        (DoBulldozer classic (PlaceZone classic (cityOf blankGrid 1000) 5 5 761 500).2 5 5) 5 5
        (offsets (-1) 3)
    ∧ Demolished classic
        (Place4x4Building classic (cityOf blankGrid 5000) 20 20 745 750 3000).2.Map
        (DoBulldozer classic
          (Place4x4Building classic (cityOf blankGrid 5000) 20 20 745 750 3000).2 20 20) 20 20
        (offsets (-1) 4) :=
  ⟨by decide, by decide,
    (DoBulldozer_centre_removes classic classic_wf classic_tiles_wf classic_tools_wf
      (cityOf blankGrid 1000) 5 5 761 765 500 (by decide) (by decide) (by decide)).1
      (by decide) (by decide) (by decide) (by decide),
    (DoBulldozer_centre_removes classic classic_wf classic_tiles_wf classic_tools_wf
      (cityOf blankGrid 5000) 20 20 745 750 3000 (by decide) (by decide) (by decide)).2.1
      (by decide) (by decide) (by decide) (by decide)⟩

theorem classic_terrain_wf : classic.TerrainWF := by
  constructor <;> decide

/-! ## The type codes of a placed building and the two lookups of the bulldozer -/

/-- The type code at a cell of a 4x4 building other than the centre: the base
plus the row-major index of the cell. -/
theorem Place4x4Building_code (c : Consts) (h : c.WF) (ht : c.TilesWF) (hr : c.ToolsWF)
    (s : City) (x y : Int) (baseValue centerTile : Nat) (cost : Int)
    (hbase : c.LASTRAIL < baseValue) (hfit : baseValue + 15 ≤ c.LOMASK)
    (hct : c.LASTRAIL < centerTile) (hcf : centerTile ≤ c.LOMASK)
    (hok : (Place4x4Building c s x y baseValue centerTile cost).1 = TOOLRESULT_OK)
    (o : Int × Int) (ho : o ∈ offsets (-1) 4) (hne : o ≠ (0, 0)) :
    (typeCode c ((Place4x4Building c s x y baseValue centerTile cost).2.Map (y + o.2) (x + o.1))
      : Int) = baseValue + (4 * (o.2 + 1) + (o.1 + 1)) := by
  obtain ⟨w, hw, e1, e2⟩ := Place4x4Building_stored c h ht hr s x y baseValue centerTile cost
    hbase hfit hct hcf hok o ho
  rw [e2]
  rcases buildingWrites4_shape c baseValue centerTile w hw with ⟨e0, -⟩ | ⟨-, j, hj, hform, e⟩
  · exact absurd (e1.symm.trans e0) hne
  · rw [e, (building_value c h hr _ (by omega)).1, ← e1]
    push_cast
    rw [hform]

/-- The type code at a cell of a 6x6 building other than the centre: the base
plus the row-major index of the cell. -/
theorem Place6x6Building_code (c : Consts) (h : c.WF) (ht : c.TilesWF) (hr : c.ToolsWF)
    (s : City) (x y : Int) (baseValue centerTile : Nat) (cost : Int)
    (hbase : c.LASTRAIL < baseValue) (hfit : baseValue + 35 ≤ c.LOMASK)
    (hct : c.LASTRAIL < centerTile) (hcf : centerTile ≤ c.LOMASK)
    (hok : (Place6x6Building c s x y baseValue centerTile cost).1 = TOOLRESULT_OK)
    (o : Int × Int) (ho : o ∈ offsets (-2) 6) (hne : o ≠ (0, 0)) :
    (typeCode c ((Place6x6Building c s x y baseValue centerTile cost).2.Map (y + o.2) (x + o.1))
      : Int) = baseValue + (6 * (o.2 + 2) + (o.1 + 2)) := by
  obtain ⟨w, hw, e1, e2⟩ := Place6x6Building_stored c h ht hr s x y baseValue centerTile cost
    hbase hfit hct hcf hok o ho
  rw [e2]
  rcases buildingWrites6_shape c baseValue centerTile w hw with ⟨e0, -⟩ | ⟨-, j, hj, hform, e⟩
  · exact absurd (e1.symm.trans e0) hne
  · rw [e, (building_value c h hr _ (by omega)).1, ← e1]
    push_cast
    rw [hform]

/-- C21 fails on the code. A coal plant placed by `DoPowerPlant` at (5,5) of
the blank grid: the cell (5,4), north of the centre, holds the type code
`TILE_COALBASE + 1`, for which `checkBigZone` returns the size 4 with the
offsets (-1, 0), which lead to (4,4) and not to the centre (5,5); the corner
(4,4) holds `TILE_COALBASE`, for which the offsets are (0, 0); and the cell
(7,7) holds `TILE_COALBASE + 15`, for which there is no entry at all. -/
theorem checkBigZone_misses_centre :
    (DoPowerPlant classic (cityOf blankGrid 5000) 5 5).1 = TOOLRESULT_OK
    ∧ typeCode classic ((DoPowerPlant classic (cityOf blankGrid 5000) 5 5).2.Map 4 5)
        = TILE_COALBASE + 1
    ∧ checkBigZone (TILE_COALBASE + 1) = (4, -1, 0)
    ∧ ((5 : Int) + -1, (4 : Int) + 0) ≠ (5, 5)
    ∧ typeCode classic ((DoPowerPlant classic (cityOf blankGrid 5000) 5 5).2.Map 4 4)
        = TILE_COALBASE
    ∧ checkBigZone TILE_COALBASE = (4, 0, 0)
    ∧ typeCode classic ((DoPowerPlant classic (cityOf blankGrid 5000) 5 5).2.Map 7 7)
        = TILE_COALBASE + 15
    ∧ checkBigZone (TILE_COALBASE + 15) = (0, 0, 0) := by
  have hok : (Place4x4Building classic (cityOf blankGrid 5000) 5 5 TILE_COALBASE
      TILE_POWERPLANT TOOL_POWERPLANT_COST).1 = TOOLRESULT_OK := by decide
  have key := Place4x4Building_code classic classic_wf classic_tiles_wf classic_tools_wf
    (cityOf blankGrid 5000) 5 5 TILE_COALBASE TILE_POWERPLANT TOOL_POWERPLANT_COST
    (by decide) (by decide) (by decide) (by decide) hok
  have k1 := key (0, -1) (by decide) (by decide)
  have k2 := key (-1, -1) (by decide) (by decide)
  have k3 := key (2, 2) (by decide) (by decide)
  have e0 : (5 : Int) + 0 = 5 := rfl
  have e1 : (5 : Int) + -1 = 4 := rfl
  have e2 : (5 : Int) + 2 = 7 := rfl
  dsimp only at k1 k2 k3
  rw [e0, e1] at k1
  rw [e1] at k2
  rw [e2] at k3
  unfold DoPowerPlant
  refine ⟨hok, ?_, by decide, by decide, ?_, by decide, ?_, by decide⟩
  · have : ((TILE_COALBASE + 1 : Nat) : Int) = (TILE_COALBASE : Int) + (4 * (-1 + 1) + (0 + 1)) := by
      decide
    exact_mod_cast k1.trans this.symm
  · have : ((TILE_COALBASE : Nat) : Int) = (TILE_COALBASE : Int) + (4 * (-1 + 1) + (-1 + 1)) := by
      decide
    exact_mod_cast k2.trans this.symm
  · have : ((TILE_COALBASE + 15 : Nat) : Int) = (TILE_COALBASE : Int) + (4 * (2 + 1) + (2 + 1)) := by
      decide
    exact_mod_cast k3.trans this.symm

/-- C22 fails on the code. Under the classic header `checkSize` gives the
centres of the nine other kinds their sizes and gives the nuclear centre
`TILE_NUCLEAR` the size 0; and whatever the values of the header are,
`checkSize` cannot give the seaport centre the size 4, the airport centre the
size 6 and the nuclear centre the size 4 together, the only range with a
bound of the header that could hold `TILE_NUCLEAR` being
`PORTBASE .. LASTPORT`. -/
theorem checkSize_misses_nuclear :
    checkSize classic TILE_NUCLEAR = 0
    ∧ checkSize classic (classic.RESBASE + 4) = 3
    ∧ checkSize classic (classic.COMBASE + 4) = 3
    ∧ checkSize classic (classic.INDBASE + 4) = 3
    ∧ checkSize classic (TILE_FIRESTBASE + 4) = 3
    ∧ checkSize classic (TILE_POLICESTBASE + 4) = 3
    ∧ checkSize classic TILE_STADIUM = 4
    ∧ checkSize classic TILE_PORT = 4
    ∧ checkSize classic TILE_POWERPLANT = 4
    ∧ checkSize classic TILE_AIRPORT = 6
    ∧ ∀ c : Consts, ¬ (checkSize c TILE_PORT = 4 ∧ checkSize c TILE_AIRPORT = 6
        ∧ checkSize c TILE_NUCLEAR = 4) := by
  refine ⟨by decide, by decide, by decide, by decide, by decide, by decide, by decide,
    by decide, by decide, by decide, ?_⟩
  rintro c ⟨h1, h2, h3⟩
  unfold checkSize TILE_PORT TILE_AIRPORT TILE_NUCLEAR LASTPOWERPLANT COALBASE STADIUMBASE
    LASTSTADIUM AIRPORTBASE LASTAIRPORT TILE_COALBASE TILE_STADIUMBASE TILE_AIRPORTBASE at *
  split_ifs at h1 h2 h3 <;> omega

/-! ## The rubble functions on their footprint -/

theorem inFootprint_iff (x y : Int) (lo : Int) (n : Nat) (x1 y1 : Int) :
    inFootprint x y lo n x1 y1 ↔ ∃ o ∈ offsets lo n, x1 = x + o.1 ∧ y1 = y + o.2 := by
  unfold inFootprint
  constructor
  · intro hh
    refine ⟨(x1 - x, y1 - y), (mem_offsets _ _ _).2 ⟨?_, ?_, ?_, ?_⟩, ?_, ?_⟩ <;>
      dsimp only <;> omega
  · rintro ⟨o, ho, rfl, rfl⟩
    rw [mem_offsets] at ho
    omega

theorem rubbleMark_code (c : Consts) (h : c.WF) (hr : c.ToolsWF) :
    typeCode c (rubbleMark c) = SOMETINYEXP ∧ flagsOf c (rubbleMark c) = c.ANIMBIT ||| c.BULLBIT := by
  have hfit : SOMETINYEXP ≤ c.LOMASK := by
    have := hr.tiles_fit
    unfold LASTTILE at this
    unfold SOMETINYEXP
    omega
  constructor
  · unfold rubbleMark
    rw [Nat.lor_assoc]
    exact code_store c h _ _ hfit (lor_lo _ _ _ (anim_lo c h hr) h.bull_lo)
  · rw [rubbleMark_eq c h]
    unfold flagsOf
    rw [land_lor_right, land_lor_right, hr.anim_all, hr.bull_all,
      low_flag c h _ _ hfit h.allbits_lo]
    simp

/-- The two passes of a rubble function on a square footprint. -/
theorem putRubble_laid (c : Consts) (h : c.WF) (hr : c.ToolsWF) (m : Grid) (x y : Int)
    (lo : Int) (n : Nat) (hnd : (offsets lo n).Nodup) :
    RubbleLaid c m (putRubble c m x y (offsets lo n)) x y lo n := by
  obtain ⟨p1, p2⟩ := putRubble_spec c m x y (offsets lo n) hnd
  constructor
  · intro x1 y1 hin hb
    obtain ⟨o, ho, rfl, rfl⟩ := (inFootprint_iff x y lo n x1 y1).1 hin
    rw [p1 o ho hb]
    have hcode : clearBits (m (y + o.2) (x + o.1)) c.ZONEBIT &&& c.LOMASK
        = m (y + o.2) (x + o.1) &&& c.LOMASK :=
      clearBits_mask _ c.ZONEBIT c.LOMASK (lomask_lt_short c h) (zone_lo c h hr)
    refine ⟨?_, ?_, ?_⟩
    · intro h0 hrad
      rw [rubbleOf_tile c h hr _ h0 hrad]
      exact ⟨rubbleMark_eq c h, rubbleMark_code c h hr⟩
    · intro hor
      unfold rubbleOf
      rw [hcode]
      unfold typeCode DIRT at hor
      rw [if_neg (by
        rintro ⟨a, b⟩
        rcases hor with e | e
        · exact b e
        · exact a e)]
      unfold typeCode
      exact hcode
    · unfold rubbleOf
      split_ifs
      · exact rubbleMark_not_zoned c h hr
      · unfold zoned
        rw [not_not]
        exact clearBits_self _ _ h.zone_lt
  · intro x1 y1 hout
    apply p2
    intro o ho hh
    exact hout ((inFootprint_iff x y lo n x1 y1).2 ⟨o, ho, hh⟩)

/-- C24. `put3x3Rubble`, `put4x4Rubble` and `put6x6Rubble` at the centre
`(x, y)` rewrite exactly the footprint (columns `x-1..x+1`, `x-1..x+2`,
`x-2..x+3`, the same in `y`): every cell of the footprint in the grid whose
type code was neither bare land nor radiation becomes `SOMETINYEXP` with only
the animation and the bulldozable flag, a cell of the footprint holding bare
land or radiation keeps its type code, no cell of the footprint carries the
zone flag afterwards, and every cell outside the footprint is unchanged. -/
theorem putRubble_footprint (c : Consts) (h : c.WF) (hr : c.ToolsWF) (m : Grid) (x y : Int) :
    RubbleLaid c m (put3x3Rubble c m x y) x y (-1) 3
    ∧ RubbleLaid c m (put4x4Rubble c m x y) x y (-1) 4
    ∧ RubbleLaid c m (put6x6Rubble c m x y) x y (-2) 6 :=
  ⟨putRubble_laid c h hr m x y (-1) 3 offsets_nodup3,
    putRubble_laid c h hr m x y (-1) 4 offsets_nodup4,
    putRubble_laid c h hr m x y (-2) 6 offsets_nodup6⟩

/-- C24, instance: the three rubble functions on `terrainGrid`. -/
theorem putRubble_footprint_witness :
    classic.WF ∧ classic.ToolsWF
    ∧ RubbleLaid classic terrainGrid (put3x3Rubble classic terrainGrid 20 20) 20 20 (-1) 3
    ∧ RubbleLaid classic terrainGrid (put4x4Rubble classic terrainGrid 4 4) 4 4 (-1) 4
    ∧ RubbleLaid classic terrainGrid (put6x6Rubble classic terrainGrid 1 1) 1 1 (-2) 6 :=
  ⟨classic_wf, classic_tools_wf,
    (putRubble_footprint classic classic_wf classic_tools_wf terrainGrid 20 20).1,
    (putRubble_footprint classic classic_wf classic_tools_wf terrainGrid 4 4).2.1,
    (putRubble_footprint classic classic_wf classic_tools_wf terrainGrid 1 1).2.2⟩

/-! ## The fee of a demolition -/

/-- A type code to which `checkSize` gives a size lies above the bridge
tiles. -/
theorem checkSize_high (c : Consts) (ht : c.TilesWF) (hr : c.ToolsWF) (hz : c.TerrainWF)
    (t : Nat) (hs : checkSize c t ≠ 0) : 65 < t := by
  have h1 := ht.lastpower_rail; have h2 := hr.rail_le; have h3 := hz.res_rail
  have h4 := hz.port_rail
  unfold LASTPOWER at h1
  unfold checkSize LASTPOWERPLANT COALBASE STADIUMBASE LASTSTADIUM AIRPORTBASE LASTAIRPORT
    TILE_COALBASE TILE_STADIUMBASE TILE_AIRPORTBASE at hs
  split_ifs at hs with a b d
  · omega
  · omega
  · omega
  · exact absurd rfl hs

/-- C23. Demolition charges one flat fee: on a cell of the grid that carries
the zone flag and whose type code `checkSize` gives the size 3, 4 or 6,
`DoBulldozer` with `TotalFunds >= 1` returns ok and takes exactly 1 from
`TotalFunds`, whatever the size. -/
theorem DoBulldozer_flat_fee (c : Consts) (ht : c.TilesWF) (hr : c.ToolsWF) (hz : c.TerrainWF)
    (s : City) (x y : Int) (hb : TestBounds c x y = true) (hzone : zoned c (s.Map y x))
    (hsize : checkSize c (typeCode c (s.Map y x)) = 3 ∨ checkSize c (typeCode c (s.Map y x)) = 4
      ∨ checkSize c (typeCode c (s.Map y x)) = 6)
    (hfunds : 1 ≤ s.TotalFunds) :
    (DoBulldozer c s x y).1 = TOOLRESULT_OK
    ∧ (DoBulldozer c s x y).2.TotalFunds = s.TotalFunds - 1 := by
  have hhigh : 65 < typeCode c (s.Map y x) :=
    checkSize_high c ht hr hz _ (by rcases hsize with e | e | e <;> rw [e] <;> decide)
  rcases hsize with e | e | e
  · rw [DoBulldozer_centre c s x y 3 _ (Or.inl ⟨rfl, rfl⟩) hb hzone hhigh hfunds e]
    exact ⟨rfl, rfl⟩
  · rw [DoBulldozer_centre c s x y 4 _ (Or.inr (Or.inl ⟨rfl, rfl⟩)) hb hzone hhigh hfunds e]
    exact ⟨rfl, rfl⟩
  · rw [DoBulldozer_centre c s x y 6 _ (Or.inr (Or.inr ⟨rfl, rfl⟩)) hb hzone hhigh hfunds e]
    exact ⟨rfl, rfl⟩

/-- C23, instance: the residential zone centre at (20,20) of `terrainGrid`
with funds 10; the call returns ok and leaves funds 9. -/
theorem DoBulldozer_flat_fee_witness :
    TestBounds classic 20 20 = true ∧ zoned classic (terrainGrid 20 20)
    ∧ checkSize classic (typeCode classic (terrainGrid 20 20)) = 3
    ∧ (DoBulldozer classic (cityOf terrainGrid 10) 20 20).1 = TOOLRESULT_OK
    ∧ (DoBulldozer classic (cityOf terrainGrid 10) 20 20).2.TotalFunds = 9 :=
  ⟨by decide, by decide, by decide,
    (DoBulldozer_flat_fee classic classic_tiles_wf classic_tools_wf classic_terrain_wf
      (cityOf terrainGrid 10) 20 20 (by decide) (by decide) (Or.inl (by decide))
      (by decide)).1,
    (DoBulldozer_flat_fee classic classic_tiles_wf classic_tools_wf classic_terrain_wf
      (cityOf terrainGrid 10) 20 20 (by decide) (by decide) (Or.inl (by decide))
      (by decide)).2.trans (by decide)⟩

/-! ## Roads, rails and wires -/

theorem isWater_iff (tile : Nat) :
    isWater tile = true ↔ (tile = RIVER ∨ tile = REDGE ∨ tile = CHANNEL) := by
  unfold isWater
  simp only [Bool.or_eq_true, decide_eq_true_eq, or_assoc]

theorem TestBounds_iff (c : Consts) (x y : Int) :
    TestBounds c x y = true
      ↔ ¬ (x < 0 ∨ x ≥ (c.WORLD_X : Int) ∨ y < 0 ∨ y ≥ (c.WORLD_Y : Int)) := by
  unfold TestBounds
  simp only [decide_eq_true_eq]
  omega

/-- The auto-bulldoze step leaves a cell alone whose type code is not in
`RUBBLE .. LASTRUBBLE`. -/
theorem autoBulldoze_none (c : Consts) (s : City) (x y : Int) (command : Int)
    (hc : ¬ (s.Map y x &&& c.LOMASK ≥ RUBBLE ∧ s.Map y x &&& c.LOMASK ≤ LASTRUBBLE)) :
    autoBulldoze c s x y command = s := by
  unfold autoBulldoze
  rw [if_neg hc]
  split_ifs <;> rfl

/-- A cell that holds bare land, water or a tiny explosion is not rubble. -/
theorem layable_not_rubble (t : Nat)
    (hl : t = DIRT ∨ (TINYEXP ≤ t ∧ t ≤ LASTTINYEXP) ∨ isWater t = true) :
    ¬ (t ≥ RUBBLE ∧ t ≤ LASTRUBBLE) := by
  rw [isWater_iff] at hl
  unfold DIRT TINYEXP LASTTINYEXP RIVER REDGE CHANNEL at hl
  unfold RUBBLE LASTRUBBLE
  omega

/-- The part of `layTool` after the checks, when they pass. -/
theorem layTool_connect (c : Consts) (s : City) (x y : Int) (waterCost landCost : Int)
    (command : Int) (hb : TestBounds c x y = true)
    (hl : s.Map y x &&& c.LOMASK = DIRT
      ∨ (TINYEXP ≤ s.Map y x &&& c.LOMASK ∧ s.Map y x &&& c.LOMASK ≤ LASTTINYEXP)
      ∨ isWater (s.Map y x &&& c.LOMASK) = true)
    (hw : isWater (s.Map y x &&& c.LOMASK) = true → CheckFunds s waterCost = true)
    (hland : CheckFunds s landCost = true) :
    layTool c s x y waterCost landCost command
      = if (ConnectTile c s x y command).1 = 0
        then (TOOLRESULT_FAILED, (ConnectTile c s x y command).2)
        else (TOOLRESULT_OK, (ConnectTile c s x y command).2) := by
  unfold layTool
  dsimp only
  rw [if_neg ((TestBounds_iff c x y).1 hb)]
  rw [if_neg (by
    rintro ⟨a1, a2, a3, a4, a5⟩
    rcases hl with e | e | e
    · exact a1 e
    · exact a5 ⟨e.1, e.2⟩
    · rcases (isWater_iff _).1 e with e | e | e
      · exact a2 e
      · exact a3 e
      · exact a4 e)]
  rw [if_neg (by
    rintro ⟨a, b⟩
    exact b (hw ((isWater_iff _).2 a)))]
  rw [if_neg (by simp [hland])]

/-- The command `k` of `ConnectTile` on a cell of the grid that is not
rubble, for the laying function `lay` of that command. -/
theorem ConnectTile_lay (c : Consts) (s : City) (x y : Int)
    (hb : TestBounds c x y = true)
    (hc : ¬ (s.Map y x &&& c.LOMASK ≥ RUBBLE ∧ s.Map y x &&& c.LOMASK ≤ LASTRUBBLE)) :
    ConnectTile c s x y 2
        = ((LayRoad c s x y).1,
            { (LayRoad c s x y).2 with Map := FixZone c (LayRoad c s x y).2.Map x y })
    ∧ ConnectTile c s x y 3
        = ((LayRail c s x y).1,
            { (LayRail c s x y).2 with Map := FixZone c (LayRail c s x y).2.Map x y })
    ∧ ConnectTile c s x y 4
        = ((LayWire c s x y).1,
            { (LayWire c s x y).2 with Map := FixZone c (LayWire c s x y).2.Map x y }) := by
  refine ⟨?_, ?_, ?_⟩ <;>
  · unfold ConnectTile
    rw [if_neg (by simp [hb])]
    dsimp only
    rw [autoBulldoze_none c s x y _ hc]
    rfl

theorem LayRoad_land (c : Consts) (s : City) (x y : Int)
    (hl : s.Map y x &&& c.LOMASK = DIRT
      ∨ (TINYEXP ≤ s.Map y x &&& c.LOMASK ∧ s.Map y x &&& c.LOMASK ≤ LASTTINYEXP))
    (hf : 10 ≤ s.TotalFunds) :
    (LayRoad c s x y).1 = 1 ∧ (LayRoad c s x y).2.TotalFunds = s.TotalFunds - 10 := by
  have hnw : ¬ isWater (s.Map y x &&& c.LOMASK) = true := by
    rw [isWater_iff]
    unfold DIRT TINYEXP LASTTINYEXP at hl
    unfold RIVER REDGE CHANNEL
    omega
  unfold LayRoad
  dsimp only
  rw [if_neg hnw, if_pos hl, if_neg (by unfold ROAD_COST; omega)]
  exact ⟨rfl, rfl⟩

theorem LayRoad_water (c : Consts) (s : City) (x y : Int)
    (hw : isWater (s.Map y x &&& c.LOMASK) = true) (hf : 50 ≤ s.TotalFunds) :
    (LayRoad c s x y).1 = 1 ∧ (LayRoad c s x y).2.TotalFunds = s.TotalFunds - 50 := by
  unfold LayRoad
  dsimp only
  rw [if_pos hw, if_neg (by unfold BRIDGE_COST; omega)]
  split_ifs <;> exact ⟨rfl, rfl⟩

theorem LayRail_land (c : Consts) (s : City) (x y : Int)
    (hl : s.Map y x &&& c.LOMASK = DIRT
      ∨ (TINYEXP ≤ s.Map y x &&& c.LOMASK ∧ s.Map y x &&& c.LOMASK ≤ LASTTINYEXP))
    (hf : 20 ≤ s.TotalFunds) :
    (LayRail c s x y).1 = 1 ∧ (LayRail c s x y).2.TotalFunds = s.TotalFunds - 20 := by
  have hnw : ¬ isWater (s.Map y x &&& c.LOMASK) = true := by
    rw [isWater_iff]
    unfold DIRT TINYEXP LASTTINYEXP at hl
    unfold RIVER REDGE CHANNEL
    omega
  unfold LayRail
  dsimp only
  rw [if_neg hnw, if_pos hl, if_neg (by unfold RAIL_COST; omega)]
  exact ⟨rfl, rfl⟩

theorem LayRail_water (c : Consts) (s : City) (x y : Int)
    (hw : isWater (s.Map y x &&& c.LOMASK) = true) (hf : 100 ≤ s.TotalFunds) :
    (LayRail c s x y).1 = 1 ∧ (LayRail c s x y).2.TotalFunds = s.TotalFunds - 100 := by
  unfold LayRail
  dsimp only
  rw [if_pos hw, if_neg (by unfold TUNNEL_COST; omega)]
  exact ⟨rfl, rfl⟩

theorem LayWire_land (c : Consts) (s : City) (x y : Int)
    (hl : s.Map y x &&& c.LOMASK = DIRT
      ∨ (TINYEXP ≤ s.Map y x &&& c.LOMASK ∧ s.Map y x &&& c.LOMASK ≤ LASTTINYEXP))
    (hf : 5 ≤ s.TotalFunds) :
    (LayWire c s x y).1 = 1 ∧ (LayWire c s x y).2.TotalFunds = s.TotalFunds - 5 := by
  have hnw : ¬ isWater (s.Map y x &&& c.LOMASK) = true := by
    rw [isWater_iff]
    unfold DIRT TINYEXP LASTTINYEXP at hl
    unfold RIVER REDGE CHANNEL
    omega
  unfold LayWire
  dsimp only
  rw [if_neg hnw, if_pos hl, if_neg (by unfold WIRE_COST; omega)]
  exact ⟨rfl, rfl⟩

theorem LayWire_water (c : Consts) (s : City) (x y : Int)
    (hw : isWater (s.Map y x &&& c.LOMASK) = true) (hf : 25 ≤ s.TotalFunds) :
    (LayWire c s x y).1 = 1 ∧ (LayWire c s x y).2.TotalFunds = s.TotalFunds - 25 := by
  unfold LayWire
  dsimp only
  rw [if_pos hw, if_neg (by unfold UNDERWATER_WIRE_COST; omega)]
  exact ⟨rfl, rfl⟩

/-- A laying tool whose checks pass and whose laying function returns 1 with
the funds lowered by `cost`: the tool returns ok with those funds. -/
theorem layTool_ok (c : Consts) (s : City) (x y : Int) (waterCost landCost : Int)
    (command : Int) (lay : Nat × City) (cost : Int) (hb : TestBounds c x y = true)
    (hl : s.Map y x &&& c.LOMASK = DIRT
      ∨ (TINYEXP ≤ s.Map y x &&& c.LOMASK ∧ s.Map y x &&& c.LOMASK ≤ LASTTINYEXP)
      ∨ isWater (s.Map y x &&& c.LOMASK) = true)
    (hw : isWater (s.Map y x &&& c.LOMASK) = true → CheckFunds s waterCost = true)
    (hland : CheckFunds s landCost = true)
    (hcon : ConnectTile c s x y command = (lay.1, { lay.2 with Map := FixZone c lay.2.Map x y }))
    (hlay : lay.1 = 1 ∧ lay.2.TotalFunds = s.TotalFunds - cost) :
    (layTool c s x y waterCost landCost command).1 = TOOLRESULT_OK
    ∧ (layTool c s x y waterCost landCost command).2.TotalFunds = s.TotalFunds - cost := by
  rw [layTool_connect c s x y waterCost landCost command hb hl hw hland, hcon]
  dsimp only
  rw [hlay.1, if_neg (by decide)]
  exact ⟨rfl, hlay.2⟩

/-- C26. On a cell of the grid holding bare land or a tile of
`TINYEXP .. LASTTINYEXP`, `DoRoad`, `DoRail` and `DoWire` with funds of at
least the standard cost (10, 20, 5) return ok and take exactly that cost from
`TotalFunds`; on a water cell (river, river edge, channel) with funds of at
least the higher cost (50, 100, 25) they return ok and take exactly the
higher cost. -/
theorem lay_costs (c : Consts) (s : City) (x y : Int) (hb : TestBounds c x y = true) :
    ((typeCode c (s.Map y x) = DIRT
        ∨ (TINYEXP ≤ typeCode c (s.Map y x) ∧ typeCode c (s.Map y x) ≤ LASTTINYEXP)) →
      (10 ≤ s.TotalFunds → (DoRoad c s x y).1 = TOOLRESULT_OK
        ∧ (DoRoad c s x y).2.TotalFunds = s.TotalFunds - 10)
      ∧ (20 ≤ s.TotalFunds → (DoRail c s x y).1 = TOOLRESULT_OK
        ∧ (DoRail c s x y).2.TotalFunds = s.TotalFunds - 20)
      ∧ (5 ≤ s.TotalFunds → (DoWire c s x y).1 = TOOLRESULT_OK
        ∧ (DoWire c s x y).2.TotalFunds = s.TotalFunds - 5))
    ∧ ((typeCode c (s.Map y x) = RIVER ∨ typeCode c (s.Map y x) = REDGE
        ∨ typeCode c (s.Map y x) = CHANNEL) →
      (50 ≤ s.TotalFunds → (DoRoad c s x y).1 = TOOLRESULT_OK
        ∧ (DoRoad c s x y).2.TotalFunds = s.TotalFunds - 50)
      ∧ (100 ≤ s.TotalFunds → (DoRail c s x y).1 = TOOLRESULT_OK
        ∧ (DoRail c s x y).2.TotalFunds = s.TotalFunds - 100)
      ∧ (25 ≤ s.TotalFunds → (DoWire c s x y).1 = TOOLRESULT_OK
        ∧ (DoWire c s x y).2.TotalFunds = s.TotalFunds - 25)) := by
  unfold typeCode
  constructor
  · intro hl
    have hl3 : s.Map y x &&& c.LOMASK = DIRT
        ∨ (TINYEXP ≤ s.Map y x &&& c.LOMASK ∧ s.Map y x &&& c.LOMASK ≤ LASTTINYEXP)
        ∨ isWater (s.Map y x &&& c.LOMASK) = true := by
      rcases hl with e | e
      · exact Or.inl e
      · exact Or.inr (Or.inl e)
    have hnw : ¬ isWater (s.Map y x &&& c.LOMASK) = true := by
      rw [isWater_iff]
      unfold DIRT TINYEXP LASTTINYEXP at hl
      unfold RIVER REDGE CHANNEL
      omega
    obtain ⟨c2, c3, c4⟩ := ConnectTile_lay c s x y hb (layable_not_rubble _ hl3)
    refine ⟨?_, ?_, ?_⟩
    · intro hf
      exact layTool_ok c s x y BRIDGE_COST ROAD_COST 2 (LayRoad c s x y) 10 hb hl3
        (fun hw => absurd hw hnw) (CheckFunds_true s _ hf) c2 (LayRoad_land c s x y hl hf)
    · intro hf
      exact layTool_ok c s x y TUNNEL_COST RAIL_COST 3 (LayRail c s x y) 20 hb hl3
        (fun hw => absurd hw hnw) (CheckFunds_true s _ hf) c3 (LayRail_land c s x y hl hf)
    · intro hf
      exact layTool_ok c s x y UNDERWATER_WIRE_COST WIRE_COST 4 (LayWire c s x y) 5 hb hl3
        (fun hw => absurd hw hnw) (CheckFunds_true s _ hf) c4 (LayWire_land c s x y hl hf)
  · intro hwat
    have hw : isWater (s.Map y x &&& c.LOMASK) = true := (isWater_iff _).2 hwat
    have hl3 : s.Map y x &&& c.LOMASK = DIRT
        ∨ (TINYEXP ≤ s.Map y x &&& c.LOMASK ∧ s.Map y x &&& c.LOMASK ≤ LASTTINYEXP)
        ∨ isWater (s.Map y x &&& c.LOMASK) = true := Or.inr (Or.inr hw)
    obtain ⟨c2, c3, c4⟩ := ConnectTile_lay c s x y hb (layable_not_rubble _ hl3)
    refine ⟨?_, ?_, ?_⟩
    · intro hf
      exact layTool_ok c s x y BRIDGE_COST ROAD_COST 2 (LayRoad c s x y) 50 hb hl3
        (fun _ => CheckFunds_true s _ hf)
        (CheckFunds_true s _ (by unfold ROAD_COST; omega)) c2 (LayRoad_water c s x y hw hf)
    · intro hf
      exact layTool_ok c s x y TUNNEL_COST RAIL_COST 3 (LayRail c s x y) 100 hb hl3
        (fun _ => CheckFunds_true s _ hf)
        (CheckFunds_true s _ (by unfold RAIL_COST; omega)) c3 (LayRail_water c s x y hw hf)
    · intro hf
      exact layTool_ok c s x y UNDERWATER_WIRE_COST WIRE_COST 4 (LayWire c s x y) 25 hb hl3
        (fun _ => CheckFunds_true s _ hf)
        (CheckFunds_true s _ (by unfold WIRE_COST; omega)) c4 (LayWire_water c s x y hw hf)

/-- C26, instance on `terrainGrid` with funds 100: a road on the bare land at
(0,0) leaves 90, a wire on the tiny explosion at (9,9) leaves 95, a road on
the river at (3,3) leaves 50 and a rail on the channel at (5,3) leaves 0. -/
theorem lay_costs_witness :
    TestBounds classic 0 0 = true
    ∧ (DoRoad classic (cityOf terrainGrid 100) 0 0).1 = TOOLRESULT_OK
    ∧ (DoRoad classic (cityOf terrainGrid 100) 0 0).2.TotalFunds = 90
    ∧ (DoWire classic (cityOf terrainGrid 100) 9 9).2.TotalFunds = 95
    ∧ (DoRoad classic (cityOf terrainGrid 100) 3 3).2.TotalFunds = 50
    ∧ (DoRail classic (cityOf terrainGrid 100) 5 3).1 = TOOLRESULT_OK
    ∧ (DoRail classic (cityOf terrainGrid 100) 5 3).2.TotalFunds = 0 :=
  ⟨by decide,
    (((lay_costs classic (cityOf terrainGrid 100) 0 0 (by decide)).1 (Or.inl (by decide))).1
      (by decide)).1,
    (((lay_costs classic (cityOf terrainGrid 100) 0 0 (by decide)).1 (Or.inl (by decide))).1
      (by decide)).2.trans (by decide),
    (((lay_costs classic (cityOf terrainGrid 100) 9 9 (by decide)).1
      (Or.inr (by decide))).2.2 (by decide)).2.trans (by decide),
    (((lay_costs classic (cityOf terrainGrid 100) 3 3 (by decide)).2 (Or.inl (by decide))).1
      (by decide)).2.trans (by decide),
    (((lay_costs classic (cityOf terrainGrid 100) 5 3 (by decide)).2
      (Or.inr (Or.inr (by decide)))).2.1 (by decide)).1,
    (((lay_costs classic (cityOf terrainGrid 100) 5 3 (by decide)).2
      (Or.inr (Or.inr (by decide)))).2.1 (by decide)).2.trans (by decide)⟩

/-- The laying tools on a cell that holds none of bare land, water and a tiny
explosion. -/
theorem layTool_need (c : Consts) (s : City) (x y : Int) (waterCost landCost : Int)
    (command : Int) (hb : TestBounds c x y = true)
    (h0 : s.Map y x &&& c.LOMASK ≠ DIRT)
    (hw : isWater (s.Map y x &&& c.LOMASK) = false)
    (he : ¬ (TINYEXP ≤ s.Map y x &&& c.LOMASK ∧ s.Map y x &&& c.LOMASK ≤ LASTTINYEXP)) :
    layTool c s x y waterCost landCost command = (TOOLRESULT_NEED_BULLDOZE, s) := by
  have hw3 : ¬ (s.Map y x &&& c.LOMASK = RIVER ∨ s.Map y x &&& c.LOMASK = REDGE
      ∨ s.Map y x &&& c.LOMASK = CHANNEL) := by
    rw [← isWater_iff, hw]
    decide
  unfold layTool
  dsimp only
  rw [if_neg ((TestBounds_iff c x y).1 hb),
    if_pos ⟨h0, fun e => hw3 (Or.inl e), fun e => hw3 (Or.inr (Or.inl e)),
      fun e => hw3 (Or.inr (Or.inr e)), fun e => he ⟨e.1, e.2⟩⟩]

/-- C27. On a cell of the grid whose type code is neither bare land, nor
river, river edge or channel, nor a tile of `TINYEXP .. LASTTINYEXP` (rubble
included), and for every value of the funds, `DoRoad`, `DoRail` and `DoWire`
return must-clear-first and leave `Map` and `TotalFunds` unchanged. -/
theorem lay_needs_bulldoze (c : Consts) (s : City) (x y : Int)
    (hb : TestBounds c x y = true) (h0 : typeCode c (s.Map y x) ≠ DIRT)
    (hw : typeCode c (s.Map y x) ≠ RIVER ∧ typeCode c (s.Map y x) ≠ REDGE
      ∧ typeCode c (s.Map y x) ≠ CHANNEL)
    (he : ¬ (TINYEXP ≤ typeCode c (s.Map y x) ∧ typeCode c (s.Map y x) ≤ LASTTINYEXP)) :
    DoRoad c s x y = (TOOLRESULT_NEED_BULLDOZE, s)
    ∧ DoRail c s x y = (TOOLRESULT_NEED_BULLDOZE, s)
    ∧ DoWire c s x y = (TOOLRESULT_NEED_BULLDOZE, s) := by
  unfold typeCode at h0 hw he
  have hw1 : isWater (s.Map y x &&& c.LOMASK) = false := by
    rw [← Bool.not_eq_true, isWater_iff]
    rintro (e | e | e)
    · exact hw.1 e
    · exact hw.2.1 e
    · exact hw.2.2 e
  exact ⟨layTool_need c s x y _ _ 2 hb h0 hw1 he, layTool_need c s x y _ _ 3 hb h0 hw1 he,
    layTool_need c s x y _ _ 4 hb h0 hw1 he⟩

/-- C27, instance on `terrainGrid` with funds 1000: a road on the rubble at
(11,11), a rail on the tree at (7,7), a wire on the bridge at (3,5). -/
theorem lay_needs_bulldoze_witness :
    DoRoad classic (cityOf terrainGrid 1000) 11 11
        = (TOOLRESULT_NEED_BULLDOZE, cityOf terrainGrid 1000)
    ∧ DoRail classic (cityOf terrainGrid 1000) 7 7
        = (TOOLRESULT_NEED_BULLDOZE, cityOf terrainGrid 1000)
    ∧ DoWire classic (cityOf terrainGrid 1000) 3 5
        = (TOOLRESULT_NEED_BULLDOZE, cityOf terrainGrid 1000) :=
  ⟨(lay_needs_bulldoze classic (cityOf terrainGrid 1000) 11 11 (by decide) (by decide)
      (by decide) (by decide)).1,
    (lay_needs_bulldoze classic (cityOf terrainGrid 1000) 7 7 (by decide) (by decide)
      (by decide) (by decide)).2.1,
    (lay_needs_bulldoze classic (cityOf terrainGrid 1000) 3 5 (by decide) (by decide)
      (by decide) (by decide)).2.2⟩

/-- C25. On a water cell of the grid (river, river edge or channel) and with
`TotalFunds < 25`, `DoWire` returns insufficient funds and leaves `Map` and
`TotalFunds` unchanged. -/
theorem DoWire_water_no_money (c : Consts) (s : City) (x y : Int)
    (hb : TestBounds c x y = true)
    (hw : typeCode c (s.Map y x) = RIVER ∨ typeCode c (s.Map y x) = REDGE
      ∨ typeCode c (s.Map y x) = CHANNEL)
    (hf : s.TotalFunds < 25) :
    DoWire c s x y = (TOOLRESULT_NO_MONEY, s) := by
  unfold typeCode at hw
  have hcf : CheckFunds s UNDERWATER_WIRE_COST = false :=
    CheckFunds_false s _ hf (Or.inl (by decide))
  unfold DoWire layTool
  dsimp only
  rw [if_neg ((TestBounds_iff c x y).1 hb), if_neg (by
    rintro ⟨a1, a2, a3, a4, -⟩
    rcases hw with e | e | e
    · exact a2 e
    · exact a3 e
    · exact a4 e), if_pos ⟨hw, by simp [hcf]⟩]

/-- C25, instance: the scenario of the spec, funds 5 and a wire over the river
at (3,3) of `terrainGrid`. -/
theorem DoWire_water_no_money_witness :
    TestBounds classic 3 3 = true ∧ typeCode classic (terrainGrid 3 3) = RIVER
    ∧ DoWire classic (cityOf terrainGrid 5) 3 3 = (TOOLRESULT_NO_MONEY, cityOf terrainGrid 5) :=
  ⟨by decide, by decide,
    DoWire_water_no_money classic (cityOf terrainGrid 5) 3 3 (by decide) (Or.inl (by decide))
      (by decide)⟩

/-! ## The bulldozer on a single tile -/

theorem bigZoneTable_high : ∀ e ∈ bigZoneTable, 693 ≤ e.1 := by decide

/-- A type code below the codes of the big buildings has no entry in the
table of `checkBigZone`. -/
theorem checkBigZone_low (t : Nat) (ht : t < 693) : checkBigZone t = (0, 0, 0) := by
  have hnone : bigZoneTable.find? (fun e => decide (t = e.1)) = none := by
    rw [List.find?_eq_none]
    intro e he
    have := bigZoneTable_high e he
    simp only [decide_eq_true_eq]
    omega
  unfold checkBigZone
  rw [hnone]

theorem isBridge_iff (tile : Nat) :
    isBridge tile = true ↔ (tile = HANDBALL ∨ tile = LHBALL ∨ tile = HBRIDGE ∨ tile = VBRIDGE
      ∨ tile = BRWH ∨ tile = BRWV) := by
  unfold isBridge
  simp only [Bool.or_eq_true, decide_eq_true_eq, or_assoc]

theorem DoBulldozer_out (c : Consts) (s : City) (x y : Int) (hb : TestBounds c x y = false) :
    DoBulldozer c s x y = (TOOLRESULT_FAILED, s) := by
  unfold DoBulldozer
  rw [if_pos]
  by_contra hh
  rw [(TestBounds_iff c x y).2 hh] at hb
  exact absurd hb (by decide)

/-- The two funds checks of the bulldozer. -/
theorem DoBulldozer_no_money (c : Consts) (s : City) (x y : Int)
    (hb : TestBounds c x y = true) (h0 : s.Map y x &&& c.LOMASK ≠ DIRT)
    (hf : s.TotalFunds < 1 ∨ ((isWater (s.Map y x &&& c.LOMASK) = true
      ∨ isBridge (s.Map y x &&& c.LOMASK) = true) ∧ s.TotalFunds < 5)) :
    DoBulldozer c s x y = (TOOLRESULT_NO_MONEY, s) := by
  unfold DoBulldozer
  dsimp only
  rw [if_neg ((TestBounds_iff c x y).1 hb), if_neg h0]
  by_cases h1 : s.TotalFunds < 1
  · rw [if_pos h1]
  · rw [if_neg h1]
    rcases hf with hf | hf
    · exact absurd hf h1
    · rw [if_pos hf]

/-- The bulldozer on a cell of the grid without the zone flag and unknown to
`checkBigZone`, once the funds checks are passed: the bulldozing of the single
tile. -/
theorem DoBulldozer_tile (c : Consts) (s : City) (x y : Int)
    (hb : TestBounds c x y = true) (h0 : s.Map y x &&& c.LOMASK ≠ DIRT)
    (hz : s.Map y x &&& c.ZONEBIT = 0) (hf1 : 1 ≤ s.TotalFunds)
    (hf5 : (isWater (s.Map y x &&& c.LOMASK) = true
      ∨ isBridge (s.Map y x &&& c.LOMASK) = true) → 5 ≤ s.TotalFunds)
    (hbig : (checkBigZone (s.Map y x &&& c.LOMASK)).1 = 0) :
    DoBulldozer c s x y
      = if isWater (s.Map y x &&& c.LOMASK) = true then (TOOLRESULT_FAILED, s)
        else if isBridge (s.Map y x &&& c.LOMASK) = true then
          (TOOLRESULT_OK, { Spend 5 s with Map := FixZone c (setCell s.Map x y RIVER) x y })
        else if s.Map y x &&& c.LOMASK = c.RADTILE then (TOOLRESULT_FAILED, s)
        else (TOOLRESULT_OK, { Spend 1 s with Map := FixZone c (setCell s.Map x y DIRT) x y }) := by
  unfold DoBulldozer
  dsimp only
  rw [if_neg ((TestBounds_iff c x y).1 hb), if_neg h0, if_neg (by omega),
    if_neg (by
      rintro ⟨a, b⟩
      have := hf5 a
      omega)]
  unfold bulldozeZone
  dsimp only
  rw [if_neg (by rw [hz]; simp), if_neg (by rw [hbig]; simp)]
  rfl

/-- C28, as stated, fails: on the river at (3,3) of `terrainGrid`, a cell of
the grid without the zone flag, `DoBulldozer` with funds 0 returns
insufficient funds, not failed. -/
theorem DoBulldozer_water_no_funds :
    TestBounds classic 3 3 = true ∧ ¬ zoned classic (terrainGrid 3 3)
    ∧ typeCode classic (terrainGrid 3 3) = RIVER
    ∧ (DoBulldozer classic (cityOf terrainGrid 0) 3 3).1 = TOOLRESULT_NO_MONEY
    ∧ (DoBulldozer classic (cityOf terrainGrid 0) 3 3).1 ≠ TOOLRESULT_FAILED := by
  decide

/-- C28, amended. Water and radiation cannot be cleared: on a cell of the grid
without the zone flag whose type code is river, river edge, channel or
radiation, `DoBulldozer` leaves `Map` and `TotalFunds` unchanged for every
value of `TotalFunds`; it returns failed when the funds pass the checks that
come first (`TotalFunds >= 5` on water, `TotalFunds >= 1` on radiation) and
insufficient funds when they do not. -/
theorem DoBulldozer_water_radiation (c : Consts) (hr : c.ToolsWF) (hz : c.TerrainWF)
    (s : City) (x y : Int) (hb : TestBounds c x y = true) (hnz : ¬ zoned c (s.Map y x)) :
    ((typeCode c (s.Map y x) = RIVER ∨ typeCode c (s.Map y x) = REDGE
        ∨ typeCode c (s.Map y x) = CHANNEL) →
      (5 ≤ s.TotalFunds → DoBulldozer c s x y = (TOOLRESULT_FAILED, s))
      ∧ (s.TotalFunds < 5 → DoBulldozer c s x y = (TOOLRESULT_NO_MONEY, s)))
    ∧ (typeCode c (s.Map y x) = c.RADTILE →
      (1 ≤ s.TotalFunds → DoBulldozer c s x y = (TOOLRESULT_FAILED, s))
      ∧ (s.TotalFunds < 1 → DoBulldozer c s x y = (TOOLRESULT_NO_MONEY, s))) := by
  unfold zoned at hnz
  rw [not_not] at hnz
  unfold typeCode
  have g1 := hz.rad_terrain; have g2 := hz.road_bridge; have g3 := hr.rad_road
  unfold BRWV at g1
  unfold HBRIDGE at g2
  constructor
  · intro hw
    have hwat : isWater (s.Map y x &&& c.LOMASK) = true := (isWater_iff _).2 hw
    have h0 : s.Map y x &&& c.LOMASK ≠ DIRT := by
      unfold RIVER REDGE CHANNEL at hw
      unfold DIRT
      omega
    constructor
    · intro hf
      rw [DoBulldozer_tile c s x y hb h0 hnz (by omega) (fun _ => hf)
        (by rw [checkBigZone_low _ (by unfold RIVER REDGE CHANNEL at hw; omega)]), if_pos hwat]
    · intro hf
      exact DoBulldozer_no_money c s x y hb h0 (Or.inr ⟨Or.inl hwat, hf⟩)
  · intro hrad
    have h0 : s.Map y x &&& c.LOMASK ≠ DIRT := by
      unfold DIRT
      omega
    have hnw : ¬ isWater (s.Map y x &&& c.LOMASK) = true := by
      rw [isWater_iff]
      unfold RIVER REDGE CHANNEL
      omega
    have hnb : ¬ isBridge (s.Map y x &&& c.LOMASK) = true := by
      rw [isBridge_iff]
      unfold HANDBALL LHBALL HBRIDGE VBRIDGE BRWH BRWV
      omega
    constructor
    · intro hf
      rw [DoBulldozer_tile c s x y hb h0 hnz hf
        (fun hh => by rcases hh with e | e; exact absurd e hnw; exact absurd e hnb)
        (by rw [checkBigZone_low _ (by omega)]), if_neg hnw, if_neg hnb, if_pos hrad]
    · intro hf
      exact DoBulldozer_no_money c s x y hb h0 (Or.inl hf)

/-- C28, amended, instance on `terrainGrid`: the river at (3,3) with funds 5
and with funds 4, the radiation tile at (5,5) with funds 1 and with funds 0. -/
theorem DoBulldozer_water_radiation_witness :
    TestBounds classic 3 3 = true ∧ ¬ zoned classic (terrainGrid 3 3)
    ∧ DoBulldozer classic (cityOf terrainGrid 5) 3 3 = (TOOLRESULT_FAILED, cityOf terrainGrid 5)
    ∧ DoBulldozer classic (cityOf terrainGrid 4) 3 3
        = (TOOLRESULT_NO_MONEY, cityOf terrainGrid 4)
    ∧ DoBulldozer classic (cityOf terrainGrid 1) 5 5 = (TOOLRESULT_FAILED, cityOf terrainGrid 1)
    ∧ DoBulldozer classic (cityOf terrainGrid 0) 5 5
        = (TOOLRESULT_NO_MONEY, cityOf terrainGrid 0) :=
  ⟨by decide, by decide,
    ((DoBulldozer_water_radiation classic classic_tools_wf classic_terrain_wf
      (cityOf terrainGrid 5) 3 3 (by decide) (by decide)).1 (Or.inl (by decide))).1 (by decide),
    ((DoBulldozer_water_radiation classic classic_tools_wf classic_terrain_wf
      (cityOf terrainGrid 4) 3 3 (by decide) (by decide)).1 (Or.inl (by decide))).2 (by decide),
    ((DoBulldozer_water_radiation classic classic_tools_wf classic_terrain_wf
      (cityOf terrainGrid 1) 5 5 (by decide) (by decide)).2 (by decide)).1 (by decide),
    ((DoBulldozer_water_radiation classic classic_tools_wf classic_terrain_wf
      (cityOf terrainGrid 0) 5 5 (by decide) (by decide)).2 (by decide)).2 (by decide)⟩

/-- `FixZone` at a cell that has just been set to a value whose type code is
in none of the ranges of `FixSingle` leaves that value there. -/
theorem FixZone_setCell_plain (c : Consts) (m : Grid) (x y : Int) (v : Nat)
    (hp : uncategorised c v) : FixZone c (setCell m x y v) x y y x = v := by
  rw [FixZone_keeps c (uncategorised c) x y
    (fun m1 a b h1 => FixSingle_keeps_plain c m1 a b x y h1) (setCell m x y v) x y
    (by rw [setCell_same]; exact hp), setCell_same]

theorem uncategorised_low (c : Consts) (h : c.WF) (ht : c.TilesWF) (v : Nat)
    (hv : v < c.ROADBASE) : uncategorised c v := by
  have h1 := ht.roads_ge; have h2 := ht.roads_le; have h3 := ht.road_power
  have h4 := ht.power_rail; have h5 := ht.rail_fits
  have e : typeCode c v = v := land_low _ _ h.lomask_low (by omega)
  unfold uncategorised
  rw [e]
  refine ⟨?_, ?_, ?_⟩ <;> omega

/-- C29. On a cell of the grid without the zone flag: when its type code is
one of the bridge tiles `HANDBALL`, `LHBALL`, `HBRIDGE`, `VBRIDGE`, `BRWH`,
`BRWV` and `TotalFunds >= 5`, `DoBulldozer` returns ok, takes exactly 5 and
leaves the cell holding `RIVER`; when its type code is any other code that is
not bare land, water or radiation and that `checkBigZone` does not know, and
`TotalFunds >= 1`, `DoBulldozer` returns ok, takes exactly 1 and leaves the
cell holding bare land without a flag. -/
theorem DoBulldozer_single_tile (c : Consts) (h : c.WF) (ht : c.TilesWF) (hr : c.ToolsWF)
    (hz : c.TerrainWF) (s : City) (x y : Int) (hb : TestBounds c x y = true)
    (hnz : ¬ zoned c (s.Map y x)) :
    (isBridge (typeCode c (s.Map y x)) = true → 5 ≤ s.TotalFunds →
      (DoBulldozer c s x y).1 = TOOLRESULT_OK
      ∧ (DoBulldozer c s x y).2.TotalFunds = s.TotalFunds - 5
      ∧ (DoBulldozer c s x y).2.Map y x = RIVER)
    ∧ (typeCode c (s.Map y x) ≠ DIRT → isWater (typeCode c (s.Map y x)) = false →
      isBridge (typeCode c (s.Map y x)) = false → typeCode c (s.Map y x) ≠ c.RADTILE →
      (checkBigZone (typeCode c (s.Map y x))).1 = 0 → 1 ≤ s.TotalFunds →
      (DoBulldozer c s x y).1 = TOOLRESULT_OK
      ∧ (DoBulldozer c s x y).2.TotalFunds = s.TotalFunds - 1
      ∧ (DoBulldozer c s x y).2.Map y x = DIRT) := by
  unfold zoned at hnz
  rw [not_not] at hnz
  unfold typeCode
  have g1 := hz.rad_terrain; have g3 := hr.rad_road; have g4 := hr.road_pos
  unfold BRWV at g1
  constructor
  · intro hbr hf
    have hbr6 := (isBridge_iff _).1 hbr
    unfold HANDBALL LHBALL HBRIDGE VBRIDGE BRWH BRWV at hbr6
    have h0 : s.Map y x &&& c.LOMASK ≠ DIRT := by unfold DIRT; omega
    have hnw : ¬ isWater (s.Map y x &&& c.LOMASK) = true := by
      rw [isWater_iff]
      unfold RIVER REDGE CHANNEL
      omega
    rw [DoBulldozer_tile c s x y hb h0 hnz (by omega) (fun _ => hf)
      (by rw [checkBigZone_low _ (by omega)]), if_neg hnw, if_pos hbr]
    refine ⟨rfl, rfl, ?_⟩
    exact FixZone_setCell_plain c _ x y RIVER
      (uncategorised_low c h ht RIVER (by unfold RIVER; omega))
  · intro h0 hw hbr hrad hbig hf
    rw [DoBulldozer_tile c s x y hb h0 hnz hf
      (fun hh => by
        rcases hh with e | e
        · rw [hw] at e; exact absurd e (by decide)
        · rw [hbr] at e; exact absurd e (by decide)) hbig,
      if_neg (by rw [hw]; decide), if_neg (by rw [hbr]; decide), if_neg hrad]
    refine ⟨rfl, rfl, ?_⟩
    exact FixZone_setCell_plain c _ x y DIRT
      (uncategorised_low c h ht DIRT (by unfold DIRT; omega))

/-- C29, instance on `terrainGrid` with funds 5: the bridge at (3,5) becomes
a river and leaves funds 0; the tree at (7,7) becomes bare land and leaves
funds 4. -/
theorem DoBulldozer_single_tile_witness :
    TestBounds classic 3 5 = true ∧ ¬ zoned classic (terrainGrid 5 3)
    ∧ (DoBulldozer classic (cityOf terrainGrid 5) 3 5).1 = TOOLRESULT_OK
    ∧ (DoBulldozer classic (cityOf terrainGrid 5) 3 5).2.TotalFunds = 0
    ∧ (DoBulldozer classic (cityOf terrainGrid 5) 3 5).2.Map 5 3 = RIVER
    ∧ (DoBulldozer classic (cityOf terrainGrid 5) 7 7).1 = TOOLRESULT_OK
    ∧ (DoBulldozer classic (cityOf terrainGrid 5) 7 7).2.TotalFunds = 4
    ∧ (DoBulldozer classic (cityOf terrainGrid 5) 7 7).2.Map 7 7 = DIRT := by
  have k1 := (DoBulldozer_single_tile classic classic_wf classic_tiles_wf classic_tools_wf
    classic_terrain_wf (cityOf terrainGrid 5) 3 5 (by decide) (by decide)).1 (by decide)
    (by decide)
  have k2 := (DoBulldozer_single_tile classic classic_wf classic_tiles_wf classic_tools_wf
    classic_terrain_wf (cityOf terrainGrid 5) 7 7 (by decide) (by decide)).2 (by decide)
    (by decide) (by decide) (by decide) (by decide) (by decide)
  exact ⟨by decide, by decide, k1.1, k1.2.1.trans (by decide), k1.2.2, k2.1,
    k2.2.1.trans (by decide), k2.2.2⟩

/-! ## Calls outside the grid -/

theorem layTool_out (c : Consts) (s : City) (x y : Int) (waterCost landCost : Int)
    (command : Int) (hb : TestBounds c x y = false) :
    layTool c s x y waterCost landCost command = (TOOLRESULT_FAILED, s) := by
  unfold layTool
  rw [if_pos]
  by_contra hh
  rw [(TestBounds_iff c x y).2 hh] at hb
  exact absurd hb (by decide)

theorem DoPark_out (c : Consts) (s : City) (x y : Int) (randval : Nat)
    (hb : TestBounds c x y = false) : DoPark c s x y randval = (TOOLRESULT_FAILED, s) := by
  unfold DoPark
  rw [if_pos]
  by_contra hh
  rw [(TestBounds_iff c x y).2 hh] at hb
  exact absurd hb (by decide)

/-- A footprint that holds its centre is not inside the grid when the centre
is not. -/
theorem footprintInside_centre (c : Consts) (x y : Int) (offs : List (Int × Int))
    (hc : (0, 0) ∈ offs) (hb : TestBounds c x y = false) : footprintInside c x y offs = false := by
  rw [← Bool.not_eq_true]
  intro hin
  unfold footprintInside at hin
  rw [List.all_eq_true] at hin
  have := hin (0, 0) hc
  simp only [Int.add_zero] at this
  rw [this] at hb
  exact absurd hb (by decide)

/-- C30. Every tool entry point (`DoBulldozer`, `DoRoad`, `DoRail`, `DoWire`,
`DoPark`, `PlaceZone`, `Place4x4Building`, `Place6x6Building`) called with
coordinates outside the grid returns failed and leaves `Map` and `TotalFunds`
unchanged, and so does each of the three placement functions called with a
footprint that is not entirely inside the grid; this holds whatever the grid
holds, at any cell. -/
theorem tools_out_of_bounds (c : Consts) (s : City) (x y : Int) (baseValue centerTile : Nat)
    (cost : Int) (randval : Nat) :
    (TestBounds c x y = false →
      DoBulldozer c s x y = (TOOLRESULT_FAILED, s)
      ∧ DoRoad c s x y = (TOOLRESULT_FAILED, s)
      ∧ DoRail c s x y = (TOOLRESULT_FAILED, s)
      ∧ DoWire c s x y = (TOOLRESULT_FAILED, s)
      ∧ DoPark c s x y randval = (TOOLRESULT_FAILED, s)
      ∧ PlaceZone c s x y baseValue cost = (TOOLRESULT_FAILED, s)
      ∧ Place4x4Building c s x y baseValue centerTile cost = (TOOLRESULT_FAILED, s)
      ∧ Place6x6Building c s x y baseValue centerTile cost = (TOOLRESULT_FAILED, s))
    ∧ (footprintInside c x y (offsets (-1) 3) = false →
      PlaceZone c s x y baseValue cost = (TOOLRESULT_FAILED, s))
    ∧ (footprintInside c x y (offsets (-1) 4) = false →
      Place4x4Building c s x y baseValue centerTile cost = (TOOLRESULT_FAILED, s))
    ∧ (footprintInside c x y (offsets (-2) 6) = false →
      Place6x6Building c s x y baseValue centerTile cost = (TOOLRESULT_FAILED, s)) := by
  have p3 : footprintInside c x y (offsets (-1) 3) = false →
      PlaceZone c s x y baseValue cost = (TOOLRESULT_FAILED, s) := by
    intro hin
    unfold PlaceZone
    dsimp only
    rw [if_pos]
    intro hh
    rw [((Check3x3Area_spec c s.Map x y 0).1.1 hh).1] at hin
    exact absurd hin (by decide)
  have p4 : footprintInside c x y (offsets (-1) 4) = false →
      Place4x4Building c s x y baseValue centerTile cost = (TOOLRESULT_FAILED, s) := by
    intro hin
    unfold Place4x4Building
    dsimp only
    rw [if_pos]
    intro hh
    rw [((Check4x4Area_spec c s.Map x y 0).1.1 hh).1] at hin
    exact absurd hin (by decide)
  have p6 : footprintInside c x y (offsets (-2) 6) = false →
      Place6x6Building c s x y baseValue centerTile cost = (TOOLRESULT_FAILED, s) := by
    intro hin
    unfold Place6x6Building
    dsimp only
    rw [if_pos]
    intro hh
    rw [((Check6x6Area_spec c s.Map x y 0).1.1 hh).1] at hin
    exact absurd hin (by decide)
  refine ⟨fun hb => ⟨DoBulldozer_out c s x y hb, layTool_out c s x y _ _ 2 hb,
    layTool_out c s x y _ _ 3 hb, layTool_out c s x y _ _ 4 hb, DoPark_out c s x y randval hb,
    p3 (footprintInside_centre c x y _ centre_mem3 hb),
    p4 (footprintInside_centre c x y _ centre_mem4 hb),
    p6 (footprintInside_centre c x y _ centre_mem6 hb)⟩, p3, p4, p6⟩

/-- C30, instance on `terrainGrid` with funds 9000: the bulldozer at (-1,5), a
road at (120,5), a park at (5,100), a zone at (0,5) whose footprint leaves the
grid on the west, and an airport at (117,50) whose footprint leaves it on the
east. -/
theorem tools_out_of_bounds_witness :
    DoBulldozer classic (cityOf terrainGrid 9000) (-1) 5
        = (TOOLRESULT_FAILED, cityOf terrainGrid 9000)
    ∧ DoRoad classic (cityOf terrainGrid 9000) 120 5
        = (TOOLRESULT_FAILED, cityOf terrainGrid 9000)
    ∧ DoPark classic (cityOf terrainGrid 9000) 5 100 2
        = (TOOLRESULT_FAILED, cityOf terrainGrid 9000)
    ∧ PlaceZone classic (cityOf terrainGrid 9000) 0 5 240 100
        = (TOOLRESULT_FAILED, cityOf terrainGrid 9000)
    ∧ Place6x6Building classic (cityOf terrainGrid 9000) 117 50 709 716 10000
        = (TOOLRESULT_FAILED, cityOf terrainGrid 9000) :=
  ⟨((tools_out_of_bounds classic (cityOf terrainGrid 9000) (-1) 5 240 244 100 2).1
      (by decide)).1,
    ((tools_out_of_bounds classic (cityOf terrainGrid 9000) 120 5 240 244 100 2).1
      (by decide)).2.1,
    ((tools_out_of_bounds classic (cityOf terrainGrid 9000) 5 100 240 244 100 2).1
      (by decide)).2.2.2.2.1,
    (tools_out_of_bounds classic (cityOf terrainGrid 9000) 0 5 240 244 100 2).2.1 (by decide),
    (tools_out_of_bounds classic (cityOf terrainGrid 9000) 117 50 709 716 10000 2).2.2.2
      (by decide)⟩

/-! ## Three defects of the tools -/

/-- C38 fails on the code. Under the classic header the wire at (5,5) of
`crossGrid`, which has a wire on each side, is given the type code
`POWERBASE + 15 = 223`, above `LASTPOWER = 222`, and the rail at (15,15), which
has a rail on each side, the type code `RAILBASE + 15 = 239`, above
`LASTRAIL = 238`: neither is in its range any more; the road at (25,25) gets
`ROADS + 15 = 81` and stays a road. Whatever the header, the last entry of the
rail table is in the rail range only if `RAILBASE + 15 <= LASTRAIL`, and the
last entry of the wire table is in the power-line range only if
`POWERBASE + 15 <= 222`. -/
theorem FixSingle_leaves_category :
    isWire classic (typeCode classic (crossGrid 5 5)) = true
    ∧ typeCode classic (FixSingle classic crossGrid 5 5 5 5) = 223
    ∧ isWire classic (typeCode classic (FixSingle classic crossGrid 5 5 5 5)) = false
    ∧ isRail classic (typeCode classic (crossGrid 15 15)) = true
    ∧ typeCode classic (FixSingle classic crossGrid 15 15 15 15) = 239
    ∧ isRail classic (typeCode classic (FixSingle classic crossGrid 15 15 15 15)) = false
    ∧ isRoad classic (typeCode classic (crossGrid 25 25)) = true
    ∧ typeCode classic (FixSingle classic crossGrid 25 25 25 25) = 81
    ∧ isRoad classic (typeCode classic (FixSingle classic crossGrid 25 25 25 25)) = true
    ∧ (∀ c : Consts, isRail c ((RailTable c).getD 15 0) = true → c.RAILBASE + 15 ≤ c.LASTRAIL)
    ∧ (∀ c : Consts, isWire c ((WireTable c).getD 15 0) = true → c.POWERBASE + 15 ≤ 222) := by
  refine ⟨by decide, by decide, by decide, by decide, by decide, by decide, by decide,
    by decide, by decide, ?_, ?_⟩
  · intro c hc
    have e : (RailTable c).getD 15 0 = c.RAILBASE + 15 := rfl
    rw [e] at hc
    unfold isRail at hc
    simp only [decide_eq_true_eq] at hc
    exact hc.2
  · intro c hc
    have e : (WireTable c).getD 15 0 = c.POWERBASE + 15 := rfl
    rw [e] at hc
    unfold isWire LASTPOWER at hc
    simp only [decide_eq_true_eq] at hc
    exact hc.2

/-- C39 fails on the code. An airport placed by `DoAirport` at (10,10) of the
blank grid: the centre (10,10) holds the type code `TILE_AIRPORT = 716`, and
so does the cell (9,9) of the footprint, whose row-major index is 7 and whose
code is `TILE_AIRPORTBASE + 7 = 716`. -/
theorem airport_centre_code_twice :
    (DoAirport classic (cityOf blankGrid 20000) 10 10).1 = TOOLRESULT_OK
    ∧ typeCode classic ((DoAirport classic (cityOf blankGrid 20000) 10 10).2.Map 10 10)
        = TILE_AIRPORT
    ∧ typeCode classic ((DoAirport classic (cityOf blankGrid 20000) 10 10).2.Map 9 9)
        = TILE_AIRPORT
    ∧ ((9 : Int), (9 : Int)) ≠ (10, 10) := by
  have hok : (Place6x6Building classic (cityOf blankGrid 20000) 10 10 TILE_AIRPORTBASE
      TILE_AIRPORT TOOL_AIRPORT_COST).1 = TOOLRESULT_OK := by decide
  have hcen := Place6x6Building_centre classic classic_wf classic_tiles_wf classic_tools_wf
    (cityOf blankGrid 20000) 10 10 TILE_AIRPORTBASE TILE_AIRPORT TOOL_AIRPORT_COST
    (by decide) (by decide) (by decide) (by decide) hok
  have k := Place6x6Building_code classic classic_wf classic_tiles_wf classic_tools_wf
    (cityOf blankGrid 20000) 10 10 TILE_AIRPORTBASE TILE_AIRPORT TOOL_AIRPORT_COST
    (by decide) (by decide) (by decide) (by decide) hok (-1, -1) (by decide) (by decide)
  have e1 : (10 : Int) + -1 = 9 := rfl
  dsimp only at k
  rw [e1] at k
  unfold DoAirport
  refine ⟨hok, ?_, ?_, by decide⟩
  · rw [hcen]; decide
  · have : ((TILE_AIRPORT : Nat) : Int) = (TILE_AIRPORTBASE : Int) + (6 * (-1 + 2) + (-1 + 2)) := by
      decide
    exact_mod_cast k.trans this.symm

/-- C40 fails on the code. On the river at (3,3) of `terrainGrid` with funds
55, `DoRoad` returns ok and leaves funds 5, and the cell then holds the road
tile `ROADS = 66`, not a bridge tile: `LayRoad` stored `HBRIDGE | BULLBIT`,
and `FixSingle`, whose road range starts at `ROADBASE = 64`, rewrote it. The
following `DoBulldozer` returns ok, takes 1 and not 5, and leaves the cell
holding bare land, not `RIVER`. -/
theorem bridge_round_trip_fails :
    typeCode classic (terrainGrid 3 3) = RIVER
    ∧ (DoRoad classic (cityOf terrainGrid 55) 3 3).1 = TOOLRESULT_OK
    ∧ (DoRoad classic (cityOf terrainGrid 55) 3 3).2.TotalFunds = 5
    ∧ typeCode classic ((DoRoad classic (cityOf terrainGrid 55) 3 3).2.Map 3 3) = 66
    ∧ (DoBulldozer classic (DoRoad classic (cityOf terrainGrid 55) 3 3).2 3 3).1 = TOOLRESULT_OK
    ∧ (DoBulldozer classic (DoRoad classic (cityOf terrainGrid 55) 3 3).2 3 3).2.TotalFunds = 4
    ∧ (DoBulldozer classic (DoRoad classic (cityOf terrainGrid 55) 3 3).2 3 3).2.Map 3 3 = DIRT
    ∧ DIRT ≠ RIVER := by
  refine ⟨by decide, by decide, by decide, by decide, by decide, by decide, by decide,
    by decide⟩

/-! ## Failure of a laying command, and the funds -/

theorem LayRoad_zero (c : Consts) (s : City) (x y : Int) (h0 : (LayRoad c s x y).1 = 0) :
    (LayRoad c s x y).2 = s := by
  unfold LayRoad at h0 ⊢
  dsimp only at h0 ⊢
  split_ifs at h0 ⊢ <;> rfl

theorem LayRail_zero (c : Consts) (s : City) (x y : Int) (h0 : (LayRail c s x y).1 = 0) :
    (LayRail c s x y).2 = s := by
  unfold LayRail at h0 ⊢
  dsimp only at h0 ⊢
  split_ifs at h0 ⊢ <;> rfl

theorem LayWire_zero (c : Consts) (s : City) (x y : Int) (h0 : (LayWire c s x y).1 = 0) :
    (LayWire c s x y).2 = s := by
  unfold LayWire at h0 ⊢
  dsimp only at h0 ⊢
  split_ifs at h0 ⊢ <;> rfl

/-- A laying command that returns 0 has done the auto-bulldoze step and the
connectivity fix, nothing else. -/
theorem ConnectTile_zero (c : Consts) (s : City) (x y : Int) (command : Int)
    (hb : TestBounds c x y = true) (hcmd : command = 2 ∨ command = 3 ∨ command = 4)
    (h0 : (ConnectTile c s x y command).1 = 0) :
    (ConnectTile c s x y command).2
      = { autoBulldoze c s x y command with
          Map := FixZone c (autoBulldoze c s x y command).Map x y } := by
  unfold ConnectTile at h0 ⊢
  rw [if_neg (by rw [hb]; simp)] at h0 ⊢
  rcases hcmd with rfl | rfl | rfl
  · simp only [show ¬ ((2 : Int) = 0) by decide, show ¬ ((2 : Int) = 1) by decide,
      if_false, if_true] at h0 ⊢
    rw [LayRoad_zero c _ x y h0]
  · simp only [show ¬ ((3 : Int) = 0) by decide, show ¬ ((3 : Int) = 1) by decide,
      show ¬ ((3 : Int) = 2) by decide, if_false, if_true] at h0 ⊢
    rw [LayRail_zero c _ x y h0]
  · simp only [show ¬ ((4 : Int) = 0) by decide, show ¬ ((4 : Int) = 1) by decide,
      show ¬ ((4 : Int) = 2) by decide, show ¬ ((4 : Int) = 3) by decide,
      if_false, if_true] at h0 ⊢
    rw [LayWire_zero c _ x y h0]

theorem autoBulldoze_fires (c : Consts) (s : City) (x y : Int) (command : Int)
    (hcmd : command = 2 ∨ command = 3 ∨ command = 4) (ha : autoClears c s x y) :
    autoBulldoze c s x y command = { Spend 1 s with Map := setCell s.Map x y DIRT } := by
  unfold autoBulldoze
  rw [if_pos (by omega), if_pos ⟨ha.1, ha.2.1⟩, if_pos ha.2.2]
  rfl

theorem autoBulldoze_idle (c : Consts) (s : City) (x y : Int) (command : Int)
    (ha : ¬ autoClears c s x y) : autoBulldoze c s x y command = s := by
  unfold autoBulldoze
  unfold autoClears at ha
  split_ifs with h1 h2 h3
  · exact absurd ⟨h2.1, h2.2, h3⟩ ha
  · rfl
  · rfl
  · rfl

/-- Claim C35, as the code has it. A laying command (2 road, 3 rail, 4 wire)
of `ConnectTile` that returns 0 at an in-bounds cell has taken nothing for the
laying. If the auto-bulldoze step did not fire, the funds are unchanged and
the grid is what `FixZone` makes of it, so the target cell is unchanged when
its type code is in none of the ranges of `FixSingle`. If the step fired (a
rubble cell carrying the bulldozable flag, funds positive), its charge of 1
stays taken and the cell stays bare land. -/
theorem ConnectTile_failure (c : Consts) (h : c.WF) (ht : c.TilesWF) (hw : c.ToolsWF)
    (s : City) (x y : Int) (command : Int)
    (hb : TestBounds c x y = true) (hcmd : command = 2 ∨ command = 3 ∨ command = 4)
    (h0 : (ConnectTile c s x y command).1 = 0) :
    (¬ autoClears c s x y →
      (ConnectTile c s x y command).2.TotalFunds = s.TotalFunds
      ∧ (ConnectTile c s x y command).2.Map = FixZone c s.Map x y
      ∧ (uncategorised c (s.Map y x) → (ConnectTile c s x y command).2.Map y x = s.Map y x))
    ∧ (autoClears c s x y →
      (ConnectTile c s x y command).2.TotalFunds = s.TotalFunds - 1
      ∧ (ConnectTile c s x y command).2.Map y x = DIRT) := by
  have e := ConnectTile_zero c s x y command hb hcmd h0
  constructor
  · intro ha
    rw [e, autoBulldoze_idle c s x y command ha]
    refine ⟨rfl, rfl, fun hu => ?_⟩
    exact FixZone_keeps c (uncategorised c) x y
      (fun m1 a b h1 => FixSingle_keeps_plain c m1 a b x y h1) s.Map x y hu
  · intro ha
    rw [e, autoBulldoze_fires c s x y command hcmd ha]
    refine ⟨rfl, ?_⟩
    exact FixZone_setCell_plain c s.Map x y DIRT
      (uncategorised_low c h ht DIRT (by have := hw.road_pos; unfold DIRT; omega))

theorem ConnectTile_failure_witness :
    (ConnectTile classic (cityOf rubbleGrid 5) 4 4 2).1 = 0
    ∧ (¬ autoClears classic (cityOf rubbleGrid 5) 4 4 →
      (ConnectTile classic (cityOf rubbleGrid 5) 4 4 2).2.TotalFunds
        = (cityOf rubbleGrid 5).TotalFunds
      ∧ (ConnectTile classic (cityOf rubbleGrid 5) 4 4 2).2.Map
        = FixZone classic (cityOf rubbleGrid 5).Map 4 4
      ∧ (uncategorised classic ((cityOf rubbleGrid 5).Map 4 4) →
        (ConnectTile classic (cityOf rubbleGrid 5) 4 4 2).2.Map 4 4
          = (cityOf rubbleGrid 5).Map 4 4))
    ∧ (autoClears classic (cityOf rubbleGrid 5) 4 4 →
      (ConnectTile classic (cityOf rubbleGrid 5) 4 4 2).2.TotalFunds
        = (cityOf rubbleGrid 5).TotalFunds - 1
      ∧ (ConnectTile classic (cityOf rubbleGrid 5) 4 4 2).2.Map 4 4 = DIRT) :=
  ⟨by decide, ConnectTile_failure classic classic_wf classic_tiles_wf classic_tools_wf
    (cityOf rubbleGrid 5) 4 4 2 (by decide) (Or.inl rfl) (by decide)⟩

/-- C35 as stated fails. With funds 5 the road command on the rubble cell
(4,4) of `rubbleGrid` returns 0, yet 1 has been taken and the cell holds bare
land instead of the rubble tile 44. With any funds the road command on the
road at (25,25) of `crossGrid` returns 0 and takes nothing, yet the type code
of the cell has changed from 66 to 81. -/
theorem ConnectTile_failure_not_atomic :
    TestBounds classic 4 4 = true
    ∧ (ConnectTile classic (cityOf rubbleGrid 5) 4 4 2).1 = 0
    ∧ (ConnectTile classic (cityOf rubbleGrid 5) 4 4 2).2.TotalFunds = 4
    ∧ typeCode classic (rubbleGrid 4 4) = 44
    ∧ typeCode classic ((ConnectTile classic (cityOf rubbleGrid 5) 4 4 2).2.Map 4 4) = 0
    ∧ TestBounds classic 25 25 = true
    ∧ (ConnectTile classic (cityOf crossGrid 100) 25 25 2).1 = 0
    ∧ (ConnectTile classic (cityOf crossGrid 100) 25 25 2).2.TotalFunds = 100
    ∧ typeCode classic (crossGrid 25 25) = 66
    ∧ typeCode classic ((ConnectTile classic (cityOf crossGrid 100) 25 25 2).2.Map 25 25) = 81 := by
  refine ⟨by decide, by decide, by decide, by decide, by decide, by decide, by decide,
    by decide, by decide, by decide⟩

/-! ## The funds stay non-negative -/

theorem LayRoad_funds (c : Consts) (s : City) (x y : Int) (h0 : 0 ≤ s.TotalFunds) :
    0 ≤ (LayRoad c s x y).2.TotalFunds := by
  unfold LayRoad BRIDGE_COST ROAD_COST Spend
  dsimp only
  split_ifs <;> dsimp only <;> omega

theorem LayRail_funds (c : Consts) (s : City) (x y : Int) (h0 : 0 ≤ s.TotalFunds) :
    0 ≤ (LayRail c s x y).2.TotalFunds := by
  unfold LayRail TUNNEL_COST RAIL_COST Spend
  dsimp only
  split_ifs <;> dsimp only <;> omega

theorem LayWire_funds (c : Consts) (s : City) (x y : Int) (h0 : 0 ≤ s.TotalFunds) :
    0 ≤ (LayWire c s x y).2.TotalFunds := by
  unfold LayWire UNDERWATER_WIRE_COST WIRE_COST Spend
  dsimp only
  split_ifs <;> dsimp only <;> omega

theorem dozeSwitch_funds (c : Consts) (s : City) (n : Nat) (x y : Int) (r : Nat × City)
    (hr : dozeSwitch c s n x y = some r) : r.2.TotalFunds = s.TotalFunds - 1 := by
  unfold dozeSwitch Spend at hr
  split_ifs at hr <;> (cases hr; rfl)

theorem rubbleSwitch_funds (c : Consts) (s : City) (n : Nat) (x y : Int) (r : Nat × City)
    (hr : rubbleSwitch c s n x y = some r) : r.2.TotalFunds = s.TotalFunds - 1 := by
  unfold rubbleSwitch Spend at hr
  split_ifs at hr <;> (cases hr; rfl)

theorem LayDoze_funds (c : Consts) (s : City) (x y : Int) (h0 : 0 ≤ s.TotalFunds) :
    0 ≤ (LayDoze c s x y).2.TotalFunds := by
  unfold LayDoze
  dsimp only
  by_cases hb : ¬ TestBounds c x y = true
  · rw [if_pos hb]; exact h0
  rw [if_neg hb]
  by_cases hd : s.Map y x &&& c.LOMASK = DIRT
  · rw [if_pos hd]; exact h0
  rw [if_neg hd]
  by_cases h1 : s.TotalFunds < 1
  · rw [if_pos h1]; exact h0
  rw [if_neg h1]
  by_cases h5 : isBridge (s.Map y x &&& c.LOMASK) = true ∧ s.TotalFunds < 5
  · rw [if_pos h5]; exact h0
  rw [if_neg h5]
  split
  · rename_i r hr
    have hzp : r.2.TotalFunds = s.TotalFunds - 1 := by
      split_ifs at hr with a1 a2 a3
      · cases hd1 : dozeSwitch c s (checkSize c (s.Map y x &&& c.LOMASK)) x y with
        | some r1 =>
          rw [hd1] at hr
          cases hr
          exact dozeSwitch_funds c s _ x y _ hd1
        | none =>
          rw [hd1] at hr
          cases hr
          rfl
      · exact dozeSwitch_funds c s _ _ _ r hr
    omega
  · unfold Spend
    split_ifs with b1 b2
    · exact h0
    · show 0 ≤ s.TotalFunds - 5
      have : ¬ s.TotalFunds < 5 := fun hh => h5 ⟨b2, hh⟩
      omega
    · show 0 ≤ s.TotalFunds - 1
      omega

theorem autoBulldoze_funds (c : Consts) (s : City) (x y : Int) (command : Int)
    (h0 : 0 ≤ s.TotalFunds) : 0 ≤ (autoBulldoze c s x y command).TotalFunds := by
  unfold autoBulldoze Spend
  split_ifs with a1 a2 a3
  · show 0 ≤ s.TotalFunds - 1
    omega
  · exact h0
  · exact h0
  · exact h0

theorem ConnectTile_funds (c : Consts) (s : City) (x y : Int) (command : Int)
    (h0 : 0 ≤ s.TotalFunds) : 0 ≤ (ConnectTile c s x y command).2.TotalFunds := by
  have ha := autoBulldoze_funds c s x y command h0
  unfold ConnectTile
  dsimp only
  split_ifs <;> first
    | exact h0
    | exact ha
    | exact LayDoze_funds c _ x y ha
    | exact LayRoad_funds c _ x y ha
    | exact LayRail_funds c _ x y ha
    | exact LayWire_funds c _ x y ha

theorem layTool_funds (c : Consts) (s : City) (x y : Int) (wc lc : Int) (command : Int)
    (h0 : 0 ≤ s.TotalFunds) : 0 ≤ (layTool c s x y wc lc command).2.TotalFunds := by
  have hc := ConnectTile_funds c s x y command h0
  unfold layTool
  dsimp only
  split_ifs <;> first | exact h0 | exact hc

theorem DoBulldozer_funds (c : Consts) (s : City) (x y : Int) (h0 : 0 ≤ s.TotalFunds) :
    0 ≤ (DoBulldozer c s x y).2.TotalFunds := by
  unfold DoBulldozer
  dsimp only
  by_cases a1 : x < 0 ∨ x ≥ (c.WORLD_X : Int) ∨ y < 0 ∨ y ≥ (c.WORLD_Y : Int)
  · rw [if_pos a1]; exact h0
  rw [if_neg a1]
  by_cases a2 : s.Map y x &&& c.LOMASK = DIRT
  · rw [if_pos a2]; exact h0
  rw [if_neg a2]
  by_cases a3 : s.TotalFunds < 1
  · rw [if_pos a3]; exact h0
  rw [if_neg a3]
  by_cases a4 : (isWater (s.Map y x &&& c.LOMASK) = true
      ∨ isBridge (s.Map y x &&& c.LOMASK) = true) ∧ s.TotalFunds < 5
  · rw [if_pos a4]; exact h0
  rw [if_neg a4]
  split
  · rename_i r hz
    have hr : r.2.TotalFunds = s.TotalFunds - 1 := by
      unfold bulldozeZone at hz
      dsimp only at hz
      split_ifs at hz
      · exact rubbleSwitch_funds c s _ _ _ r hz
      · exact rubbleSwitch_funds c s _ _ _ r hz
    omega
  · unfold Spend
    split_ifs with b1 b2 b3
    · exact h0
    · show 0 ≤ s.TotalFunds - 5
      have : ¬ s.TotalFunds < 5 := fun hh => a4 ⟨Or.inr b2, hh⟩
      omega
    · exact h0
    · show 0 ≤ s.TotalFunds - 1
      omega

theorem DoPark_funds (c : Consts) (s : City) (x y : Int) (randval : Nat)
    (h0 : 0 ≤ s.TotalFunds) : 0 ≤ (DoPark c s x y randval).2.TotalFunds := by
  unfold DoPark
  dsimp only
  by_cases a3 : CheckFunds s TOOL_PARK_COST = true
  · have hf := a3
    unfold CheckFunds TOOL_PARK_COST at hf
    have h10 : 0 ≤ s.TotalFunds - TOOL_PARK_COST := by
      unfold TOOL_PARK_COST
      split_ifs at hf <;> omega
    split_ifs <;> first | exact h0 | exact h10
  · split_ifs <;> exact h0

theorem placeWith_funds (c : Consts) (s : City) (x y : Int) (offs : List (Int × Int))
    (place : Grid → Grid) (b t : Int) (hb : 0 ≤ b) (h0 : 0 ≤ s.TotalFunds) :
    0 ≤ (placeWith c s x y offs place b t).2.TotalFunds := by
  cases hf : CheckFunds s (t + b) with
  | false => rw [placeWith_no_money c s x y offs place b t hf]; exact h0
  | true =>
    rw [(placeWith_ok c s x y offs place b t hf).2.1]
    unfold CheckFunds at hf
    split_ifs at hf <;> split_ifs <;> omega

theorem PlaceZone_funds (c : Consts) (s : City) (x y : Int) (base : Nat) (cost : Int)
    (h0 : 0 ≤ s.TotalFunds) : 0 ≤ (PlaceZone c s x y base cost).2.TotalFunds := by
  have hs := Check3x3Area_spec c s.Map x y 0
  unfold PlaceZone
  dsimp only
  by_cases hr : (Check3x3Area c s.Map x y 0).1 = true
  · rw [if_neg (not_not.2 hr)]
    exact placeWith_funds c s x y _ _ _ cost (by rw [hs.2.1 hr]; exact Int.natCast_nonneg _) h0
  · rw [if_pos hr]; exact h0

theorem Place4x4Building_funds (c : Consts) (s : City) (x y : Int) (base centre : Nat)
    (cost : Int) (h0 : 0 ≤ s.TotalFunds) :
    0 ≤ (Place4x4Building c s x y base centre cost).2.TotalFunds := by
  have hs := Check4x4Area_spec c s.Map x y 0
  unfold Place4x4Building
  dsimp only
  by_cases hr : (Check4x4Area c s.Map x y 0).1 = true
  · rw [if_neg (not_not.2 hr)]
    exact placeWith_funds c s x y _ _ _ cost (by rw [hs.2.1 hr]; exact Int.natCast_nonneg _) h0
  · rw [if_pos hr]; exact h0

theorem Place6x6Building_funds (c : Consts) (s : City) (x y : Int) (base centre : Nat)
    (cost : Int) (h0 : 0 ≤ s.TotalFunds) :
    0 ≤ (Place6x6Building c s x y base centre cost).2.TotalFunds := by
  have hs := Check6x6Area_spec c s.Map x y 0
  unfold Place6x6Building
  dsimp only
  by_cases hr : (Check6x6Area c s.Map x y 0).1 = true
  · rw [if_neg (not_not.2 hr)]
    exact placeWith_funds c s x y _ _ _ cost (by rw [hs.2.1 hr]; exact Int.natCast_nonneg _) h0
  · rw [if_pos hr]; exact h0

/-- Claim C36. From a state whose funds are not negative, every tool entry
point leaves funds that are not negative: the bulldozer, the three laying
tools, the park tool, the three placement functions with any base value,
centre tile and cost, and `ConnectTile` with any command, at any coordinates,
`Spend(n)` subtracting `n` from the funds. -/
theorem tools_funds_nonneg (c : Consts) (s : City) (h0 : 0 ≤ s.TotalFunds) (x y : Int) :
    0 ≤ (DoBulldozer c s x y).2.TotalFunds
    ∧ 0 ≤ (DoRoad c s x y).2.TotalFunds
    ∧ 0 ≤ (DoRail c s x y).2.TotalFunds
    ∧ 0 ≤ (DoWire c s x y).2.TotalFunds
    ∧ (∀ randval : Nat, 0 ≤ (DoPark c s x y randval).2.TotalFunds)
    ∧ (∀ (base : Nat) (cost : Int), 0 ≤ (PlaceZone c s x y base cost).2.TotalFunds)
    ∧ (∀ (base centre : Nat) (cost : Int),
        0 ≤ (Place4x4Building c s x y base centre cost).2.TotalFunds)
    ∧ (∀ (base centre : Nat) (cost : Int),
        0 ≤ (Place6x6Building c s x y base centre cost).2.TotalFunds)
    ∧ (∀ command : Int, 0 ≤ (ConnectTile c s x y command).2.TotalFunds) :=
  ⟨DoBulldozer_funds c s x y h0, layTool_funds c s x y _ _ _ h0, layTool_funds c s x y _ _ _ h0,
    layTool_funds c s x y _ _ _ h0, fun r => DoPark_funds c s x y r h0,
    fun b t => PlaceZone_funds c s x y b t h0,
    fun b ce t => Place4x4Building_funds c s x y b ce t h0,
    fun b ce t => Place6x6Building_funds c s x y b ce t h0,
    fun k => ConnectTile_funds c s x y k h0⟩

theorem tools_funds_nonneg_witness :
    0 ≤ (cityOf rubbleGrid 5).TotalFunds
    ∧ 0 ≤ (DoBulldozer classic (cityOf rubbleGrid 5) 4 4).2.TotalFunds
    ∧ 0 ≤ (DoRoad classic (cityOf rubbleGrid 5) 4 4).2.TotalFunds
    ∧ 0 ≤ (DoRail classic (cityOf rubbleGrid 5) 4 4).2.TotalFunds
    ∧ 0 ≤ (DoWire classic (cityOf rubbleGrid 5) 4 4).2.TotalFunds
    ∧ (∀ randval : Nat, 0 ≤ (DoPark classic (cityOf rubbleGrid 5) 4 4 randval).2.TotalFunds)
    ∧ (∀ (base : Nat) (cost : Int),
        0 ≤ (PlaceZone classic (cityOf rubbleGrid 5) 4 4 base cost).2.TotalFunds)
    ∧ (∀ (base centre : Nat) (cost : Int),
        0 ≤ (Place4x4Building classic (cityOf rubbleGrid 5) 4 4 base centre cost).2.TotalFunds)
    ∧ (∀ (base centre : Nat) (cost : Int),
        0 ≤ (Place6x6Building classic (cityOf rubbleGrid 5) 4 4 base centre cost).2.TotalFunds)
    ∧ (∀ command : Int,
        0 ≤ (ConnectTile classic (cityOf rubbleGrid 5) 4 4 command).2.TotalFunds) :=
  ⟨by decide, tools_funds_nonneg classic (cityOf rubbleGrid 5) (by decide) 4 4⟩

/-! ## The walk step at a branching cell, and the stack -/

/-- The probing loop with two passing tests and none before the second but
the first stops at the second and hands on its direction. -/
theorem probePure_two (t : Nat → Bool) (a d1 d2 : Nat) (h12 : d1 < d2) (h2 : d2 < 4)
    (ht1 : t d1 = true) (ht2 : t d2 = true)
    (hother : ∀ e, e < d2 → e ≠ d1 → t e = false) : probePure t 4 0 0 a = (2, d2) := by
  interval_cases d2 <;> interval_cases d1
  · simp [probePure, ht1, ht2]
  · simp [probePure, ht1, ht2, hother 1 (by omega) (by omega)]
  · simp [probePure, ht1, ht2, hother 0 (by omega) (by omega)]
  · simp [probePure, ht1, ht2, hother 1 (by omega) (by omega), hother 2 (by omega) (by omega)]
  · simp [probePure, ht1, ht2, hother 0 (by omega) (by omega), hother 2 (by omega) (by omega)]
  · simp [probePure, ht1, ht2, hother 0 (by omega) (by omega), hother 1 (by omega) (by omega)]

/-- The probe of a visited cell of the grid, on the candidates. -/
theorem probeOf_candidates (c : Consts) (a : Nat) (v : Sim) (hin : inGrid c v.SMapX v.SMapY) :
    probeOf c a v = probePure (fun d => decide (d < 4) && candidate c v.Map v.SMapX v.SMapY d)
      4 0 0 a := by
  have e : ∀ d, d < 4 → (TestForCond c d v).2 = candidate c v.Map v.SMapX v.SMapY d :=
    fun d hd => TestForCond_inGrid c d v hd hin
  unfold probeOf
  simp [probePure, e 0 (by omega), e 1 (by omega), e 2 (by omega), e 3 (by omega)]

/-- The walk step at a cell with two candidates: the step goes on with the
direction of the second and the push of the cell. -/
theorem walkStep_two (c : Consts) (a : Nat) (s : Sim) (hcap : s.NumPower + 1 ≤ s.MaxPower)
    (hin : inGrid c (visit c a s).SMapX (visit c a s).SMapY) (d1 d2 : Nat)
    (h12 : d1 < d2) (h2 : d2 < 4)
    (hc1 : candidate c (visit c a s).Map (visit c a s).SMapX (visit c a s).SMapY d1 = true)
    (hc2 : candidate c (visit c a s).Map (visit c a s).SMapX (visit c a s).SMapY d2 = true)
    (hfirst : ∀ e, e < d2 → e ≠ d1 →
      candidate c (visit c a s).Map (visit c a s).SMapX (visit c a s).SMapY e = false) :
    walkStep c a s = Outcome.next d2 (PushPowerStack (visit c a s)) := by
  have hp : probeOf c a (visit c a s) = (2, d2) := by
    rw [probeOf_candidates c a _ hin]
    apply probePure_two _ a d1 d2 h12 h2
    · simp [hc1, show d1 < 4 by omega]
    · simp [hc2, h2]
    · intro e he hne
      simp [hfirst e he hne]
  rcases walkStep_cases c a s with ⟨hlt, _⟩ | ⟨_, ⟨_, hw⟩ | ⟨hk, _⟩ | ⟨hk, _, _⟩ | ⟨hk, _, _⟩⟩
  · omega
  · rw [hw, hp]
  · rw [hp] at hk; simp at hk
  · rw [hp] at hk; simp at hk
  · rw [hp] at hk; simp at hk

/-- Claim C31, as the code has it. A walk step that is not cut off and whose
cell, once powered, has at least two candidates among its neighbours, `d1`
the first and `d2` the second in the probe order north, east, south, west,
goes on from that cell with direction `d2`: the walk moves into the second
candidate and the first is left for the resumption. The position of the cell
has been pushed on the stack when the stack held fewer than `PWRSTKSIZE - 2`
positions; the push is dropped when it did not. -/
theorem walkStep_branch (c : Consts) (a : Nat) (s : Sim) (hcap : s.NumPower + 1 ≤ s.MaxPower)
    (hin : inGrid c (visit c a s).SMapX (visit c a s).SMapY) (d1 d2 : Nat)
    (h12 : d1 < d2) (h2 : d2 < 4)
    (hc1 : candidate c (visit c a s).Map (visit c a s).SMapX (visit c a s).SMapY d1 = true)
    (hc2 : candidate c (visit c a s).Map (visit c a s).SMapX (visit c a s).SMapY d2 = true)
    (hfirst : ∀ e, e < d2 → e ≠ d1 →
      candidate c (visit c a s).Map (visit c a s).SMapX (visit c a s).SMapY e = false) :
    walkStep c a s = Outcome.next d2 (PushPowerStack (visit c a s))
    ∧ (PushPowerStack (visit c a s)).SMapX = (visit c a s).SMapX
    ∧ (PushPowerStack (visit c a s)).SMapY = (visit c a s).SMapY
    ∧ ((visit c a s).PowerStackNum < PWRSTKSIZE - 2 →
      (PushPowerStack (visit c a s)).PowerStackNum = (visit c a s).PowerStackNum + 1
      ∧ (PushPowerStack (visit c a s)).PowerStackX ((visit c a s).PowerStackNum + 1)
          = (visit c a s).SMapX
      ∧ (PushPowerStack (visit c a s)).PowerStackY ((visit c a s).PowerStackNum + 1)
          = (visit c a s).SMapY)
    ∧ (¬ (visit c a s).PowerStackNum < PWRSTKSIZE - 2 →
      PushPowerStack (visit c a s) = visit c a s) := by
  refine ⟨walkStep_two c a s hcap hin d1 d2 h12 h2 hc1 hc2 hfirst,
    (PushPowerStack_counters _).2.2.2.2.1, (PushPowerStack_counters _).2.2.2.2.2, ?_, ?_⟩
  · intro hlt
    unfold PushPowerStack
    rw [if_pos hlt]
    simp only [Function.update_same]
    exact ⟨trivial, trivial, trivial⟩
  · intro hge
    unfold PushPowerStack
    rw [if_neg hge]

theorem walkStep_branch_witness :
    crossSim.NumPower + 1 ≤ crossSim.MaxPower
    ∧ inGrid classic (visit classic 4 crossSim).SMapX (visit classic 4 crossSim).SMapY
    ∧ walkStep classic 4 crossSim = Outcome.next 1 (PushPowerStack (visit classic 4 crossSim))
    ∧ (PushPowerStack (visit classic 4 crossSim)).SMapX = (visit classic 4 crossSim).SMapX
    ∧ (PushPowerStack (visit classic 4 crossSim)).SMapY = (visit classic 4 crossSim).SMapY
    ∧ ((visit classic 4 crossSim).PowerStackNum < PWRSTKSIZE - 2 →
      (PushPowerStack (visit classic 4 crossSim)).PowerStackNum
        = (visit classic 4 crossSim).PowerStackNum + 1
      ∧ (PushPowerStack (visit classic 4 crossSim)).PowerStackX
          ((visit classic 4 crossSim).PowerStackNum + 1) = (visit classic 4 crossSim).SMapX
      ∧ (PushPowerStack (visit classic 4 crossSim)).PowerStackY
          ((visit classic 4 crossSim).PowerStackNum + 1) = (visit classic 4 crossSim).SMapY)
    ∧ (¬ (visit classic 4 crossSim).PowerStackNum < PWRSTKSIZE - 2 →
      PushPowerStack (visit classic 4 crossSim) = visit classic 4 crossSim) :=
  ⟨by decide, by decide,
    walkStep_branch classic 4 crossSim (by decide) (by decide) 0 1 (by decide) (by decide)
      (by decide) (by decide) (fun e he hne => absurd (show e = 0 by omega) hne)⟩

/-- C31 as stated fails. The walk step of `crossSim` powers the wire at (5,5),
whose north neighbour is the first candidate of the probe order and whose
east neighbour is the second: the step goes on with direction 1, east, and
with no other direction, north (0) in particular. The same step taken with a
stack of `PWRSTKSIZE - 2 = 998` positions goes on east as well and has pushed
nothing. -/
theorem walkStep_takes_second :
    candidate classic (visit classic 4 crossSim).Map (visit classic 4 crossSim).SMapX
      (visit classic 4 crossSim).SMapY 0 = true
    ∧ candidate classic (visit classic 4 crossSim).Map (visit classic 4 crossSim).SMapX
      (visit classic 4 crossSim).SMapY 1 = true
    ∧ (∃ t, walkStep classic 4 crossSim = Outcome.next 1 t)
    ∧ (¬ ∃ t, walkStep classic 4 crossSim = Outcome.next 0 t)
    ∧ crossSimFull.PowerStackNum = 998
    ∧ ∃ t, walkStep classic 4 crossSimFull = Outcome.next 1 t ∧ t.PowerStackNum = 998
      ∧ ∀ i, t.PowerStackX i = crossSimFull.PowerStackX i
        ∧ t.PowerStackY i = crossSimFull.PowerStackY i := by
  have hw := walkStep_two classic 4 crossSim (by decide) (by decide) 0 1 (by decide) (by decide)
      (by decide) (by decide) (fun e he hne => absurd (show e = 0 by omega) hne)
  have hf := walkStep_two classic 4 crossSimFull (by decide) (by decide) 0 1 (by decide)
      (by decide) (by decide) (by decide) (fun e he hne => absurd (show e = 0 by omega) hne)
  have hfull : PushPowerStack (visit classic 4 crossSimFull) = visit classic 4 crossSimFull := by
    unfold PushPowerStack
    rw [if_neg (by decide)]
  rw [hfull] at hf
  refine ⟨by decide, by decide, ⟨_, hw⟩, ?_, rfl, ⟨_, hf, by decide, fun i => ⟨rfl, rfl⟩⟩⟩
  rintro ⟨t, ht⟩
  rw [hw] at ht
  injection ht with e1 _
  exact absurd e1 (by decide)

/-! ## The bound of the stack -/

/-- Every head of a walk step that the scan comes to satisfies the walk-step
invariant. -/
theorem Reach_good (c : Consts) (h : c.WF) (s : Sim) (hpl : plantCells c s.Map ≠ [])
    (a : Nat) (t : Sim) (hr : Reach c (scanStart c s) a t) : Good c a t := by
  induction hr with
  | start => exact Good_start c h s hpl
  | step a t a1 t1 _ hw ih => exact Good_next c h a t a1 t1 ih hw

theorem PushPowerStack_bound (s : Sim) (hb : s.PowerStackNum ≤ PWRSTKSIZE - 2) :
    (PushPowerStack s).PowerStackNum ≤ PWRSTKSIZE - 2 := by
  unfold PushPowerStack
  split_ifs with hlt
  · show s.PowerStackNum + 1 ≤ PWRSTKSIZE - 2
    omega
  · exact hb

theorem QueuePowerPlant_bound (x y : Int) (s : Sim) (hb : s.PowerStackNum ≤ PWRSTKSIZE - 2) :
    (QueuePowerPlant x y s).PowerStackNum ≤ PWRSTKSIZE - 2 := by
  unfold QueuePowerPlant
  split_ifs with hlt
  · show s.PowerStackNum + 1 ≤ PWRSTKSIZE - 2
    omega
  · exact hb

theorem PullPowerStack_bound (s : Sim) (hb : s.PowerStackNum ≤ PWRSTKSIZE - 2) :
    (PullPowerStack s).PowerStackNum ≤ PWRSTKSIZE - 2 := by
  unfold PullPowerStack
  split_ifs with hlt
  · show s.PowerStackNum - 1 ≤ PWRSTKSIZE - 2
    omega
  · exact hb

/-- The slots written by a push are below `PWRSTKSIZE`. -/
theorem PushPowerStack_slot (s : Sim) (i : Nat)
    (hi : (PushPowerStack s).PowerStackX i ≠ s.PowerStackX i
      ∨ (PushPowerStack s).PowerStackY i ≠ s.PowerStackY i) : i < PWRSTKSIZE := by
  unfold PushPowerStack at hi
  split_ifs at hi with hlt
  · by_cases e : i = s.PowerStackNum + 1
    · have : PWRSTKSIZE = 1000 := rfl
      omega
    · simp only [Function.update_noteq e] at hi
      simp at hi
  · simp at hi

theorem QueuePowerPlant_slot (x y : Int) (s : Sim) (i : Nat)
    (hi : (QueuePowerPlant x y s).PowerStackX i ≠ s.PowerStackX i
      ∨ (QueuePowerPlant x y s).PowerStackY i ≠ s.PowerStackY i) : i < PWRSTKSIZE := by
  unfold QueuePowerPlant at hi
  split_ifs at hi with hlt
  · by_cases e : i = s.PowerStackNum + 1
    · have : PWRSTKSIZE = 1000 := rfl
      omega
    · simp only [Function.update_noteq e] at hi
      simp at hi
  · simp at hi

/-- The state returned by a scan on a map with a plant holds a stack within
the bound. -/
theorem DoPowerScan_stack_bound (c : Consts) (h : c.WF) (s : Sim) :
    ∃ s1, DoPowerScan c s = some s1 ∧
      (plantCells c s.Map ≠ [] ∨ s.PowerStackNum ≤ PWRSTKSIZE - 2 →
        s1.PowerStackNum ≤ PWRSTKSIZE - 2) := by
  apply DoPowerScan_inv_good c h s (fun _ _ => True)
  · intro hno hor
    rcases hor with hpl | hb
    · exfalso
      obtain ⟨q, hq⟩ := List.exists_mem_of_ne_nil _ hpl
      obtain ⟨x, y⟩ := q
      have := (mem_plantCells c s.Map x y).1 hq
      rcases this.2 with hc | hn
      · exact (hno x y this.1).1 hc
      · exact (hno x y this.1).2 hn
    · rw [noPlantCounts_eq, scanPrelude_eq c h]
      exact hb
  · intro _; trivial
  · intros; trivial
  · intro a t t1 hg _ hw _
    have hv := visit_counters c a t
    rcases walkStep_finished_cases c a t t1 hw with ⟨_, e⟩ | ⟨_, e, _, _⟩
    · rw [e, zoneCounts_eq]
      exact hg.bound
    · rw [e, zoneCounts_eq]
      show (visit c a t).PowerStackNum ≤ PWRSTKSIZE - 2
      rw [hv.2.2.1]
      exact hg.bound

/-- Claim C32. The stack is bounded and drops silently. The queue of the
plants ends with at most `PWRSTKSIZE - 2 = 998` positions; at the head of every
walk step that a scan comes to the stack holds at most 998 positions, a number
below `PWRSTKSIZE`, and so it does in the state returned; each of the three
stack functions keeps the bound, and a slot that a push or a queueing writes
is below `PWRSTKSIZE`. `PushPowerStack` and `QueuePowerPlant` on a stack of 998
leave the state unchanged, `PullPowerStack` on an empty stack leaves the state
unchanged, and a pull right after a push that was not dropped restores the
position pushed, the number of positions and every slot up to that number. -/
theorem power_stack_bounded (c : Consts) (h : c.WF) (s : Sim) :
    PWRSTKSIZE - 2 = 998
    ∧ (FindPowerPlants c (scanPrelude c s)).PowerStackNum ≤ PWRSTKSIZE - 2
    ∧ (∀ a t, plantCells c s.Map ≠ [] → Reach c (scanStart c s) a t →
        t.PowerStackNum ≤ PWRSTKSIZE - 2 ∧ t.PowerStackNum < PWRSTKSIZE
        ∧ (visit c a t).PowerStackNum ≤ PWRSTKSIZE - 2)
    ∧ (∃ s1, DoPowerScan c s = some s1 ∧
        (plantCells c s.Map ≠ [] ∨ s.PowerStackNum ≤ PWRSTKSIZE - 2 →
          s1.PowerStackNum ≤ PWRSTKSIZE - 2))
    ∧ (∀ (u : Sim) (x y : Int), u.PowerStackNum ≤ PWRSTKSIZE - 2 →
        (PushPowerStack u).PowerStackNum ≤ PWRSTKSIZE - 2
        ∧ (QueuePowerPlant x y u).PowerStackNum ≤ PWRSTKSIZE - 2
        ∧ (PullPowerStack u).PowerStackNum ≤ PWRSTKSIZE - 2)
    ∧ (∀ (u : Sim) (x y : Int) (i : Nat),
        ((PushPowerStack u).PowerStackX i ≠ u.PowerStackX i
          ∨ (PushPowerStack u).PowerStackY i ≠ u.PowerStackY i
          ∨ (QueuePowerPlant x y u).PowerStackX i ≠ u.PowerStackX i
          ∨ (QueuePowerPlant x y u).PowerStackY i ≠ u.PowerStackY i) → i < PWRSTKSIZE)
    ∧ (∀ (u : Sim) (x y : Int), u.PowerStackNum = PWRSTKSIZE - 2 →
        PushPowerStack u = u ∧ QueuePowerPlant x y u = u)
    ∧ (∀ u : Sim, u.PowerStackNum = 0 → PullPowerStack u = u)
    ∧ (∀ u : Sim, u.PowerStackNum < PWRSTKSIZE - 2 →
        (PushPowerStack u).PowerStackNum = u.PowerStackNum + 1
        ∧ (PullPowerStack (PushPowerStack u)).SMapX = u.SMapX
        ∧ (PullPowerStack (PushPowerStack u)).SMapY = u.SMapY
        ∧ (PullPowerStack (PushPowerStack u)).PowerStackNum = u.PowerStackNum
        ∧ ∀ i, i ≤ u.PowerStackNum →
          (PullPowerStack (PushPowerStack u)).PowerStackX i = u.PowerStackX i
          ∧ (PullPowerStack (PushPowerStack u)).PowerStackY i = u.PowerStackY i)
    ∧ (∀ (u : Sim) (x y : Int), u.PowerStackNum < PWRSTKSIZE - 2 →
        (PullPowerStack (QueuePowerPlant x y u)).SMapX = x
        ∧ (PullPowerStack (QueuePowerPlant x y u)).SMapY = y
        ∧ (PullPowerStack (QueuePowerPlant x y u)).PowerStackNum = u.PowerStackNum
        ∧ ∀ i, i ≤ u.PowerStackNum →
          (PullPowerStack (QueuePowerPlant x y u)).PowerStackX i = u.PowerStackX i
          ∧ (PullPowerStack (QueuePowerPlant x y u)).PowerStackY i = u.PowerStackY i) := by
  refine ⟨rfl, ?_, ?_, DoPowerScan_stack_bound c h s, ?_, ?_, ?_, ?_, ?_, ?_⟩
  · rw [(FindPowerPlants_stack c (scanPrelude c s)).1]
    exact Nat.min_le_right _ _
  · intro a t hpl hr
    have hg := Reach_good c h s hpl a t hr
    have hb := hg.bound
    have e : PWRSTKSIZE = 1000 := rfl
    refine ⟨hb, by omega, ?_⟩
    rw [(visit_counters c a t).2.2.1]
    exact hb
  · intro u x y hb
    exact ⟨PushPowerStack_bound u hb, QueuePowerPlant_bound x y u hb, PullPowerStack_bound u hb⟩
  · intro u x y i hi
    rcases hi with h1 | h1 | h1 | h1
    · exact PushPowerStack_slot u i (Or.inl h1)
    · exact PushPowerStack_slot u i (Or.inr h1)
    · exact QueuePowerPlant_slot x y u i (Or.inl h1)
    · exact QueuePowerPlant_slot x y u i (Or.inr h1)
  · intro u x y hu
    unfold PushPowerStack QueuePowerPlant
    rw [if_neg (by omega), if_neg (by omega)]
    exact ⟨rfl, rfl⟩
  · intro u hu
    unfold PullPowerStack
    rw [if_neg (by omega)]
  · intro u hu
    unfold PullPowerStack PushPowerStack
    rw [if_pos hu]
    dsimp only
    rw [if_pos (by omega)]
    dsimp only
    simp only [Function.update_same, Nat.add_sub_cancel, true_and]
    intro i hi
    rw [Function.update_noteq (by omega), Function.update_noteq (by omega)]
    exact ⟨rfl, rfl⟩
  · intro u x y hu
    unfold PullPowerStack QueuePowerPlant
    rw [if_pos hu]
    dsimp only
    rw [if_pos (by omega)]
    dsimp only
    simp only [Function.update_same, Nat.add_sub_cancel, true_and]
    intro i hi
    rw [Function.update_noteq (by omega), Function.update_noteq (by omega)]
    exact ⟨rfl, rfl⟩

theorem power_stack_bounded_witness :
    classic.WF
    ∧ (FindPowerPlants classic (scanPrelude classic (simOf scenarioGrid))).PowerStackNum
        ≤ PWRSTKSIZE - 2
    ∧ (∃ s1, DoPowerScan classic (simOf scenarioGrid) = some s1 ∧
        (plantCells classic (simOf scenarioGrid).Map ≠ []
            ∨ (simOf scenarioGrid).PowerStackNum ≤ PWRSTKSIZE - 2 →
          s1.PowerStackNum ≤ PWRSTKSIZE - 2)) :=
  ⟨classic_wf, (power_stack_bounded classic classic_wf (simOf scenarioGrid)).2.1,
    (power_stack_bounded classic classic_wf (simOf scenarioGrid)).2.2.2.1⟩

/-! ## Power follows the conductivity graph -/

theorem isPlant_lor (c : Consts) (h : c.WF) (v : Nat) :
    isPlant c (v ||| c.POWERBIT) ↔ isPlant c v := by
  unfold isPlant isCoal isNuclear
  rw [zoned_lor c h, typeCode_lor c h]

theorem isPlant_clearBits (c : Consts) (h : c.WF) (v : Nat) :
    isPlant c (clearBits v c.POWERBIT) ↔ isPlant c v := by
  unfold isPlant
  rw [isCoal_clearBits c h, isNuclear_clearBits c h]

theorem plantCode_lor (c : Consts) (h : c.WF) (v : Nat) :
    plantCode c (v ||| c.POWERBIT) ↔ plantCode c v := by
  unfold plantCode
  rw [typeCode_lor c h]

theorem plantCode_clearBits (c : Consts) (h : c.WF) (v : Nat) :
    plantCode c (clearBits v c.POWERBIT) ↔ plantCode c v := by
  unfold plantCode
  rw [typeCode_clearBits c h]

theorem isPlant_visit (c : Consts) (h : c.WF) (a : Nat) (s : Sim) (x y : Int) :
    isPlant c ((visit c a s).Map y x) ↔ isPlant c (s.Map y x) := by
  rw [(visit_maps c a s).1]
  unfold setCell
  split_ifs with hc
  · rw [isPlant_lor c h, hc.1, hc.2]
  · rfl

theorem plantCode_visit (c : Consts) (h : c.WF) (a : Nat) (s : Sim) (x y : Int) :
    plantCode c ((visit c a s).Map y x) ↔ plantCode c (s.Map y x) := by
  rw [(visit_maps c a s).1]
  unfold setCell
  split_ifs with hc
  · rw [plantCode_lor c h, hc.1, hc.2]
  · rfl

/-- A fed cell stays fed when the map gains powered cells and keeps its
plants. -/
theorem Fed_mono (c : Consts) (m m1 : Grid)
    (hp : ∀ x y, powered c (m y x) → powered c (m1 y x))
    (hpl : ∀ x y, isPlant c (m y x) → isPlant c (m1 y x))
    (x y : Int) (hf : Fed c m x y) : Fed c m1 x y := by
  induction hf with
  | plant x y hin hplant hpow => exact Fed.plant x y hin (hpl x y hplant) (hp x y hpow)
  | step x y x1 y1 _ hadj hin hpow ih => exact Fed.step x y x1 y1 ih hadj hin (hp x1 y1 hpow)

theorem Fed_visit (c : Consts) (h : c.WF) (a : Nat) (s : Sim) (x y : Int)
    (hf : Fed c s.Map x y) : Fed c (visit c a s).Map x y :=
  Fed_mono c _ _ (fun x y => powered_visit c h a s x y)
    (fun x y => (isPlant_visit c h a s x y).2) x y hf

theorem adjacent_dir (d : Nat) (hd : d < 4) (x y : Int) : adjacent x y (dirX d x) (dirY d y) := by
  unfold adjacent
  interval_cases d <;> simp [dirX, dirY]

/-- A cell that passes the test of `TestForCond` has no plant code. -/
theorem not_plantCode_of_condTile (c : Consts) (v : Nat) (h : condTile c v = true) :
    ¬ plantCode c v := by
  have := (condTile_iff c v).1 h
  unfold plantCode
  tauto

/-- A probe that counts a candidate hands on the direction of one. -/
theorem probeOf_found (c : Consts) (a : Nat) (v : Sim) (hin : inGrid c v.SMapX v.SMapY)
    (h1 : 1 ≤ (probeOf c a v).1) :
    (probeOf c a v).2 < 4 ∧ candidate c v.Map v.SMapX v.SMapY (probeOf c a v).2 = true := by
  have hpf := probePure_found (fun d => (TestForCond c d v).2) a h1
  have hlt : (probeOf c a v).2 < 4 := hpf.1
  have ht : (TestForCond c (probeOf c a v).2 v).2 = true := hpf.2
  rw [TestForCond_inGrid c (probeOf c a v).2 v hlt hin] at ht
  exact ⟨hlt, ht⟩

/-- What the visit establishes from the two invariants: every powered cell of
the grid is fed and is a plant cell or a flagged cell with another type code,
the cell of the visit among them. -/
theorem Feeding_visit (c : Consts) (h : c.WF) (a : Nat) (t : Sim) (hg : Good c a t)
    (hf : Feeding c a t) :
    (∀ x y, inGrid c x y → powered c ((visit c a t).Map y x) →
      Fed c (visit c a t).Map x y
      ∧ (isPlant c ((visit c a t).Map y x)
        ∨ (¬ plantCode c ((visit c a t).Map y x) ∧ condOrZone c ((visit c a t).Map y x))))
    ∧ powered c ((visit c a t).Map (visit c a t).SMapY (visit c a t).SMapX) := by
  have hvp := visit_pos c a t hg.dir hg.pos hg.target.1
  have hhere := powered_visit_here c h a t
  have old : ∀ x y, inGrid c x y → powered c (t.Map y x) →
      Fed c (visit c a t).Map x y
      ∧ (isPlant c ((visit c a t).Map y x)
        ∨ (¬ plantCode c ((visit c a t).Map y x) ∧ condOrZone c ((visit c a t).Map y x))) := by
    intro x y hin hp
    have := hf.lit x y hin hp
    rw [isPlant_visit c h, plantCode_visit c h, condOrZone_visit c h]
    exact ⟨Fed_visit c h a t x y this.1, this.2⟩
  refine ⟨?_, hhere⟩
  intro x y hin hp
  by_cases hc : x = (visit c a t).SMapX ∧ y = (visit c a t).SMapY
  · obtain ⟨rfl, rfl⟩ := hc
    by_cases ha : a < 4
    · have hw := hf.walking ha
      have hfed := (old t.SMapX t.SMapY hg.pos hw.1).1
      have hadj := adjacent_dir a ha t.SMapX t.SMapY
      rw [← hvp.1, ← hvp.2] at hadj
      refine ⟨Fed.step _ _ _ _ hfed hadj hin hp, Or.inr ⟨?_, ?_⟩⟩
      · rw [plantCode_visit c h, hvp.1, hvp.2]; exact hw.2
      · rw [condOrZone_visit c h, hvp.1, hvp.2]; exact hg.target.2
    · have ha4 : a = 4 := by have := hg.dir; omega
      subst ha4
      rw [dirX_four, dirY_four] at hvp
      rcases hf.here with hpl | hpw
      · have hpl2 : isPlant c ((visit c 4 t).Map (visit c 4 t).SMapY (visit c 4 t).SMapX) := by
          rw [isPlant_visit c h, hvp.1, hvp.2]; exact hpl
        exact ⟨Fed.plant _ _ hin hpl2 hp, Or.inl hpl2⟩
      · have := old t.SMapX t.SMapY hg.pos hpw
        rw [hvp.1, hvp.2]
        exact this
  · rw [powered_visit_elsewhere c a t x y hc] at hp
    exact old x y hin hp

/-- The second invariant is kept by every walk step that goes on. -/
theorem Feeding_next (c : Consts) (h : c.WF) (a : Nat) (t : Sim) (a1 : Nat) (t1 : Sim)
    (hg : Good c a t) (hf : Feeding c a t) (hw : walkStep c a t = Outcome.next a1 t1) :
    Feeding c a1 t1 := by
  have hv := Visited_of_Good c h a t hg
  obtain ⟨hlit, hhere⟩ := Feeding_visit c h a t hg hf
  have hvc := visit_counters c a t
  have hstack : ∀ i, 1 ≤ i → i ≤ (visit c a t).PowerStackNum →
      isPlant c ((visit c a t).Map ((visit c a t).PowerStackY i) ((visit c a t).PowerStackX i))
      ∨ powered c ((visit c a t).Map ((visit c a t).PowerStackY i)
        ((visit c a t).PowerStackX i)) := by
    intro i h1 h2
    rw [hvc.2.2.1] at h2
    rw [hvc.2.2.2.1, hvc.2.2.2.2, isPlant_visit c h]
    rcases hf.stack i h1 h2 with hp | hp
    · exact Or.inl hp
    · exact Or.inr (powered_visit c h a t _ _ hp)
  have hfound : 1 ≤ (probeOf c a (visit c a t)).1 →
      ¬ plantCode c ((visit c a t).Map (dirY (probeOf c a (visit c a t)).2 (visit c a t).SMapY)
        (dirX (probeOf c a (visit c a t)).2 (visit c a t).SMapX)) := by
    intro h1
    have ht := (probeOf_found c a _ hv.pos h1).2
    unfold candidate at ht
    simp only [Bool.and_eq_true, decide_eq_true_eq] at ht
    exact not_plantCode_of_condTile c _ ht.2
  rcases walkStep_cases c a t with ⟨_, hw2⟩ | ⟨hle, ⟨hk, hw2⟩ | ⟨hk, hw2⟩ | ⟨hk, hs, hw2⟩ | ⟨_, _, hw2⟩⟩
  · rw [hw2] at hw; cases hw
  · rw [hw2] at hw
    injection hw with e1 e2
    subst e1 e2
    have hpc := PushPowerStack_counters (visit c a t)
    refine ⟨?_, ?_, ?_, ?_⟩
    · rw [hpc.2.2.1]; exact hlit
    · rw [hpc.2.2.1, hpc.2.2.2.2.1, hpc.2.2.2.2.2]; exact Or.inr hhere
    · intro _
      rw [hpc.2.2.1, hpc.2.2.2.2.1, hpc.2.2.2.2.2]
      exact ⟨hhere, hfound (by omega)⟩
    · intro i h1 h2
      rw [hpc.2.2.1]
      unfold PushPowerStack at h2 ⊢
      split_ifs at h2 ⊢ with hlt
      · dsimp only at h2 ⊢
        by_cases hi : i = (visit c a t).PowerStackNum + 1
        · subst hi
          simp only [Function.update_same]
          exact Or.inr hhere
        · simp only [Function.update_noteq hi]
          exact hstack i h1 (by omega)
      · exact hstack i h1 h2
  · rw [hw2] at hw
    injection hw with e1 e2
    subst e1 e2
    exact ⟨hlit, Or.inr hhere, fun _ => ⟨hhere, hfound (by omega)⟩, hstack⟩
  · rw [hw2] at hw
    injection hw with e1 e2
    subst e1 e2
    have hpc := PullPowerStack_counters (visit c a t)
    have htop := hstack (visit c a t).PowerStackNum (by omega) (le_refl _)
    refine ⟨?_, ?_, ?_, ?_⟩
    · rw [hpc.2.2.1]; exact hlit
    · rw [hpc.2.2.1]
      unfold PullPowerStack
      rw [if_pos hs]
      exact htop
    · intro h4
      exact absurd h4 (by decide)
    · intro i h1 h2
      rw [hpc.2.2.1]
      unfold PullPowerStack at h2 ⊢
      rw [if_pos hs] at h2 ⊢
      dsimp only at h2 ⊢
      exact hstack i h1 (by omega)
  · rw [hw2] at hw; cases hw

/-- The second invariant holds at the first walk step. -/
theorem Feeding_start (c : Consts) (h : c.WF) (s : Sim) (hpl : plantCells c s.Map ≠ []) :
    Feeding c 4 (scanStart c s) := by
  have hf := scanStart_fields c h s
  have hpre : ∀ x y, inGrid c x y → ¬ powered c ((scanPrelude c s).Map y x) := by
    intro x y hxy
    rw [scanPrelude_eq c h]
    dsimp only
    rw [if_pos hxy]
    exact not_powered_clearBits c h _
  have hplant : ∀ x y, (x, y) ∈ plantCells c s.Map → isPlant c ((scanPrelude c s).Map y x) := by
    intro x y hm
    have := (mem_plantCells c s.Map x y).1 hm
    rw [scanPrelude_eq c h]
    dsimp only
    rw [if_pos this.1, isPlant_clearBits c h]
    exact this.2
  refine ⟨?_, ?_, ?_, ?_⟩
  · intro x y hin hp
    rw [hf.1] at hp
    exact absurd hp (hpre x y hin)
  · rw [hf.1]
    exact Or.inl (hplant _ _ (scanStart_pos c h s hpl).1)
  · intro h4
    exact absurd h4 (by decide)
  · intro i h1 h2
    have hF := FindPowerPlants_stack c (scanPrelude c s)
    rw [scanPrelude_plantCells c h] at hF
    have hi : i ≤ (FindPowerPlants c (scanPrelude c s)).PowerStackNum := by
      unfold scanStart PullPowerStack at h2
      split_ifs at h2 with h3
      · dsimp only at h2; omega
      · exact h2
    obtain ⟨hlt, he⟩ := hF.2.2 i h1 hi
    have hm : ((FindPowerPlants c (scanPrelude c s)).PowerStackX i,
        (FindPowerPlants c (scanPrelude c s)).PowerStackY i) ∈ plantCells c s.Map := by
      rw [he]; exact List.get_mem _ _ _
    have ex : (scanStart c s).PowerStackX = (FindPowerPlants c (scanPrelude c s)).PowerStackX := by
      unfold scanStart PullPowerStack
      split_ifs <;> rfl
    have ey : (scanStart c s).PowerStackY = (FindPowerPlants c (scanPrelude c s)).PowerStackY := by
      unfold scanStart PullPowerStack
      split_ifs <;> rfl
    rw [hf.1, ex, ey]
    exact Or.inl (hplant _ _ hm)

/-- Claim C33. Power only follows the conductivity graph. `DoPowerScan`
returns, and in the map returned every powered cell of the grid is a plant
cell (zone flag with type code `POWERPLANT` or `NUCLEAR`) or a cell with
another type code that carries the conductive or the zone flag, and it is
joined to a plant cell by a path of 4-adjacent cells of the grid that are all
powered, the plant cell included. -/
theorem DoPowerScan_follows_graph (c : Consts) (h : c.WF) (s : Sim) :
    ∃ s1, DoPowerScan c s = some s1 ∧
      ∀ x y, inGrid c x y → powered c (s1.Map y x) →
        (isPlant c (s1.Map y x) ∨ (¬ plantCode c (s1.Map y x) ∧ condOrZone c (s1.Map y x)))
        ∧ Fed c s1.Map x y := by
  apply DoPowerScan_inv_good c h s (Feeding c)
  · intro _ x y hin hp
    rw [noPlantCounts_eq, scanPrelude_eq c h] at hp
    dsimp only at hp
    rw [if_pos hin] at hp
    exact absurd hp (not_powered_clearBits c h _)
  · exact Feeding_start c h s
  · intro a t a1 t1 hg hf hw
    exact Feeding_next c h a t a1 t1 hg hf hw
  · intro a t t1 hg hf hw x y hin hp
    rcases walkStep_finished_cases c a t t1 hw with ⟨_, e⟩ | ⟨_, e, _, _⟩
    · rw [e, zoneCounts_eq] at hp ⊢
      have := hf.lit x y hin hp
      exact ⟨this.2, this.1⟩
    · rw [e, zoneCounts_eq] at hp ⊢
      have := (Feeding_visit c h a t hg hf).1 x y hin hp
      exact ⟨this.2, this.1⟩

theorem DoPowerScan_follows_graph_witness :
    classic.WF ∧ ∃ s1, DoPowerScan classic (simOf scenarioGrid) = some s1 ∧
      ∀ x y, inGrid classic x y → powered classic (s1.Map y x) →
        (isPlant classic (s1.Map y x)
          ∨ (¬ plantCode classic (s1.Map y x) ∧ condOrZone classic (s1.Map y x)))
        ∧ Fed classic s1.Map x y :=
  ⟨classic_wf, DoPowerScan_follows_graph classic classic_wf (simOf scenarioGrid)⟩

/-! ## A plant none of whose neighbours conducts -/

/-- The scan of a map whose only plant is at `(px, py)` and has no conducting
neighbour: the plant cell is powered, and no other cell of the grid. -/
theorem DoPowerScan_lone_plant (c : Consts) (h : c.WF) (s : Sim) (px py : Int)
    (hin : inGrid c px py) (hp : isPlant c (s.Map py px))
    (honly : ∀ x y, inGrid c x y → isPlant c (s.Map y x) → x = px ∧ y = py)
    (hnb : ∀ d, d < 4 → inGrid c (dirX d px) (dirY d py) →
      ¬ conducts c (s.Map (dirY d py) (dirX d px))) :
    ∃ s1, DoPowerScan c s = some s1 ∧
      ∀ x y, inGrid c x y → (powered c (s1.Map y x) ↔ x = px ∧ y = py) := by
  have hmem : (px, py) ∈ plantCells c s.Map := (mem_plantCells c s.Map px py).2 ⟨hin, hp⟩
  have hcap : 1 ≤ capacity c s.Map := by
    unfold capacity
    rcases hp with hc | hn
    · have := countCells_pos c s.Map (isCoal c) px py hin hc
      omega
    · have := countCells_pos c s.Map (isNuclear c) px py hin hn
      omega
  have hpre : ∀ x y, inGrid c x y → ¬ powered c ((scanPrelude c s).Map y x) := by
    intro x y hxy
    rw [scanPrelude_eq c h]
    dsimp only
    rw [if_pos hxy]
    exact not_powered_clearBits c h _
  have hprecz : ∀ x y, condOrZone c ((scanPrelude c s).Map y x) ↔ condOrZone c (s.Map y x) := by
    intro x y
    rw [scanPrelude_eq c h]
    dsimp only
    split_ifs
    · exact condOrZone_clearBits c h _
    · rfl
  apply DoPowerScan_inv_good c h s
    (fun a t => a = 4 ∧ t.SMapX = px ∧ t.SMapY = py
      ∧ (∀ i, 1 ≤ i → i ≤ t.PowerStackNum → t.PowerStackX i = px ∧ t.PowerStackY i = py)
      ∧ (∀ x y, ¬ (x = px ∧ y = py) → t.Map y x = (scanPrelude c s).Map y x)
      ∧ (1 ≤ t.NumPower → powered c (t.Map py px))
      ∧ 1 ≤ t.MaxPower)
  · intro hno
    exact absurd hp (by
      have := hno px py hin
      unfold isPlant
      tauto)
  · intro hpl
    have hpos := (scanStart_pos c h s hpl).1
    have hxy := honly _ _ ((mem_plantCells c s.Map _ _).1 hpos).1
      ((mem_plantCells c s.Map _ _).1 hpos).2
    have hf := scanStart_fields c h s
    refine ⟨rfl, hxy.1, hxy.2, ?_, ?_, ?_, ?_⟩
    · intro i h1 h2
      have hF := FindPowerPlants_stack c (scanPrelude c s)
      rw [scanPrelude_plantCells c h] at hF
      have hi : i ≤ (FindPowerPlants c (scanPrelude c s)).PowerStackNum := by
        unfold scanStart PullPowerStack at h2
        split_ifs at h2 with h3
        · dsimp only at h2; omega
        · exact h2
      obtain ⟨hlt, he⟩ := hF.2.2 i h1 hi
      have hm : ((FindPowerPlants c (scanPrelude c s)).PowerStackX i,
          (FindPowerPlants c (scanPrelude c s)).PowerStackY i) ∈ plantCells c s.Map := by
        rw [he]; exact List.get_mem _ _ _
      have hq := honly _ _ ((mem_plantCells c s.Map _ _).1 hm).1
        ((mem_plantCells c s.Map _ _).1 hm).2
      have ex : (scanStart c s).PowerStackX = (FindPowerPlants c (scanPrelude c s)).PowerStackX := by
        unfold scanStart PullPowerStack
        split_ifs <;> rfl
      have ey : (scanStart c s).PowerStackY = (FindPowerPlants c (scanPrelude c s)).PowerStackY := by
        unfold scanStart PullPowerStack
        split_ifs <;> rfl
      rw [ex, ey]
      exact hq
    · intro x y _
      rw [hf.1]
    · intro h1
      rw [hf.2.2.1] at h1
      omega
    · rw [hf.2.2.2]
      exact hcap
  · intro a t a1 t1 hg ⟨ha, hx, hy, hst, hmap, _, hmax⟩ hw
    subst ha
    have hvp := visit_pos c 4 t hg.dir hg.pos hg.target.1
    rw [dirX_four, dirY_four, hx, hy] at hvp
    have hvc := visit_counters c 4 t
    have hvin : inGrid c (visit c 4 t).SMapX (visit c 4 t).SMapY := by
      rw [hvp.1, hvp.2]; exact hin
    have hvmap : ∀ x y, ¬ (x = px ∧ y = py) → (visit c 4 t).Map y x = (scanPrelude c s).Map y x := by
      intro x y hne
      rw [powered_visit_elsewhere c 4 t x y (by rw [hvp.1, hvp.2]; exact hne)]
      exact hmap x y hne
    have hvpow : powered c ((visit c 4 t).Map py px) := by
      have := powered_visit_here c h 4 t
      rw [hvp.1, hvp.2] at this
      exact this
    have hprobe : probeOf c 4 (visit c 4 t) = (0, 4) := by
      rw [probeOf_candidates c 4 _ hvin]
      apply probePure_all_false
      intro d hd
      rw [hvp.1, hvp.2]
      simp only [hd, decide_True, Bool.true_and]
      unfold candidate
      by_cases hn : inGrid c (dirX d px) (dirY d py)
      · have hne : ¬ (dirX d px = px ∧ dirY d py = py) := by
          interval_cases d <;> simp only [dirX, dirY] <;> omega
        rw [hvmap _ _ hne]
        have : ¬ condTile c ((scanPrelude c s).Map (dirY d py) (dirX d px)) = true := by
          intro hct
          have h1 := condOrZone_of_condTile c _ hct
          have h2 := not_plantCode_of_condTile c _ hct
          rw [hprecz] at h1
          rw [scanPrelude_eq c h] at h2
          dsimp only at h2
          rw [if_pos hn, plantCode_clearBits c h] at h2
          exact hnb d hd hn ⟨h1, h2⟩
        simp [this]
      · simp [hn]
    rcases walkStep_cases c 4 t with ⟨_, hw2⟩ | ⟨_, ⟨hk, _⟩ | ⟨hk, _⟩ | ⟨_, hs, hw2⟩ | ⟨_, _, hw2⟩⟩
    · rw [hw2] at hw; cases hw
    · rw [hprobe] at hk; simp at hk
    · rw [hprobe] at hk; simp at hk
    · rw [hw2] at hw
      injection hw with e1 e2
      subst e1 e2
      have hpc := PullPowerStack_counters (visit c 4 t)
      have htop := hst (visit c 4 t).PowerStackNum (by omega) (by rw [hvc.2.2.1])
      rw [← hvc.2.2.2.1, ← hvc.2.2.2.2] at htop
      refine ⟨rfl, ?_, ?_, ?_, ?_, ?_, ?_⟩
      · unfold PullPowerStack; rw [if_pos hs]; exact htop.1
      · unfold PullPowerStack; rw [if_pos hs]; exact htop.2
      · intro i h1 h2
        have hi : i ≤ t.PowerStackNum := by
          unfold PullPowerStack at h2
          rw [if_pos hs] at h2
          dsimp only at h2
          rw [hvc.2.2.1] at h2
          omega
        have := hst i h1 hi
        rw [← hvc.2.2.2.1, ← hvc.2.2.2.2] at this
        unfold PullPowerStack
        rw [if_pos hs]
        exact this
      · intro x y hne
        rw [hpc.2.2.1]
        exact hvmap x y hne
      · intro _
        rw [hpc.2.2.1]
        exact hvpow
      · rw [hpc.2.1, hvc.2.1]
        exact hmax
    · rw [hw2] at hw; cases hw
  · intro a t t1 hg ⟨ha, hx, hy, hst, hmap, hpow, hmax⟩ hw x y hxy
    subst ha
    have hvp := visit_pos c 4 t hg.dir hg.pos hg.target.1
    rw [dirX_four, dirY_four, hx, hy] at hvp
    rcases walkStep_finished_cases c 4 t t1 hw with ⟨hlt, e⟩ | ⟨_, e, _, _⟩
    · rw [e, zoneCounts_eq]
      dsimp only
      constructor
      · intro hp1
        by_contra hne
        rw [hmap x y hne] at hp1
        exact hpre x y hxy hp1
      · rintro ⟨rfl, rfl⟩
        exact hpow (by omega)
    · rw [e, zoneCounts_eq]
      dsimp only
      constructor
      · intro hp1
        by_contra hne
        rw [powered_visit_elsewhere c 4 t x y (by rw [hvp.1, hvp.2]; exact hne),
          hmap x y hne] at hp1
        exact hpre x y hxy hp1
      · rintro ⟨rfl, rfl⟩
        have := powered_visit_here c h 4 t
        rw [hvp.1, hvp.2] at this
        exact this

/-- A building of 4 x 4 cells whose centre tile is a plant code, once placed,
is a plant none of whose neighbours conducts. -/
theorem building_lone_plant (c : Consts) (h : c.WF) (ht : c.TilesWF) (hr : c.ToolsWF)
    (city : City) (x y : Int) (baseValue centerTile : Nat) (cost : Int)
    (hbase : c.LASTRAIL < baseValue) (hfit : baseValue + 15 ≤ c.LOMASK)
    (hct : c.LASTRAIL < centerTile) (hcf : centerTile ≤ c.LOMASK)
    (hcode : centerTile = c.POWERPLANT ∨ centerTile = c.NUCLEAR)
    (hok : (Place4x4Building c city x y baseValue centerTile cost).1 = TOOLRESULT_OK) :
    (∀ o ∈ offsets (-1) 4, o ≠ (0, 0) → ¬ condOrZone c
      ((Place4x4Building c city x y baseValue centerTile cost).2.Map (y + o.2) (x + o.1)))
    ∧ ∀ sim : Sim,
      (∀ o ∈ offsets (-1) 4, sim.Map (y + o.2) (x + o.1)
        = (Place4x4Building c city x y baseValue centerTile cost).2.Map (y + o.2) (x + o.1)) →
      (∀ x1 y1, inGrid c x1 y1 → isPlant c (sim.Map y1 x1) → x1 = x ∧ y1 = y) →
      ∃ s1, DoPowerScan c sim = some s1 ∧
        ∀ x1 y1, inGrid c x1 y1 → (powered c (s1.Map y1 x1) ↔ x1 = x ∧ y1 = y) := by
  have hside : ∀ o ∈ offsets (-1) 4, o ≠ (0, 0) → ¬ condOrZone c
      ((Place4x4Building c city x y baseValue centerTile cost).2.Map (y + o.2) (x + o.1)) := by
    intro o ho hne
    obtain ⟨w, hw, e1, e2⟩ := Place4x4Building_stored c h ht hr city x y baseValue centerTile cost
      hbase hfit hct hcf hok o ho
    rcases buildingWrites4_shape c baseValue centerTile w hw with ⟨e0, -⟩ | ⟨-, j, hj, -, e⟩
    · exact absurd (e1.symm.trans e0) hne
    · have hv := building_value c h hr (baseValue + j) (by omega)
      unfold condOrZone conductive zoned
      rw [e2, e, hv.2.1, hv.2.2]
      simp
  refine ⟨hside, ?_⟩
  intro sim hsame honly
  have hins := (footprintInside_iff c x y (-1) 4 (by decide)).1
    (Place4x4Building_inside c city x y baseValue centerTile cost hok)
  have hin : inGrid c x y := by
    unfold inGrid
    push_cast at hins
    omega
  have hcen := Place4x4Building_centre c h ht hr city x y baseValue centerTile cost
    hbase hfit hct hcf hok
  have h0 := hsame (0, 0) centre_mem4
  simp only [Int.add_zero] at h0
  have hplant : isPlant c (sim.Map y x) := by
    rw [h0, hcen]
    have hz := building_centre_zoned c h hr centerTile
    have hv := (building_centre_value c h hr centerTile hcf).1
    have hzp := hr.zone_pos
    unfold isPlant isCoal isNuclear zoned
    rw [hz, hv]
    rcases hcode with e | e
    · exact Or.inl ⟨by omega, e⟩
    · exact Or.inr ⟨by omega, e⟩
  apply DoPowerScan_lone_plant c h sim x y hin hplant honly
  intro d hd _
  have key : ∀ o : Int × Int, o ∈ offsets (-1) 4 → o ≠ (0, 0) →
      ¬ conducts c (sim.Map (y + o.2) (x + o.1)) := by
    intro o ho hne hc
    rw [hsame o ho] at hc
    exact hside o ho hne hc.1
  interval_cases d
  · have := key (0, -1) (by decide) (by decide)
    simpa [dirX, dirY, sub_eq_add_neg] using this
  · have := key (1, 0) (by decide) (by decide)
    simpa [dirX, dirY] using this
  · have := key (0, 1) (by decide) (by decide)
    simpa [dirX, dirY] using this
  · have := key (-1, 0) (by decide) (by decide)
    simpa [dirX, dirY, sub_eq_add_neg] using this

/-- Claim C37. A power plant placed by the tool feeds nothing. After a
successful `DoPowerPlant` or `DoNuclearPlant` at `(x, y)`, the header naming
the two centre tiles as its plant codes, no cell of the footprint but the
centre carries the conductive or the zone flag; and on every grid that holds
the footprint as placed and has no plant but that one, whatever the cells
outside the footprint hold, `DoPowerScan` returns with exactly one cell of the
grid powered, the centre `(x, y)`. -/
theorem plant_feeds_nothing (c : Consts) (h : c.WF) (ht : c.TilesWF) (hr : c.ToolsWF)
    (hp : c.POWERPLANT = TILE_POWERPLANT) (hn : c.NUCLEAR = TILE_NUCLEAR)
    (hrail : c.LASTRAIL < TILE_COALBASE) (city : City) (x y : Int) (res : Nat × City)
    (hres : res = DoPowerPlant c city x y ∨ res = DoNuclearPlant c city x y)
    (hok : res.1 = TOOLRESULT_OK) :
    (∀ o ∈ offsets (-1) 4, o ≠ (0, 0) → ¬ condOrZone c (res.2.Map (y + o.2) (x + o.1)))
    ∧ ∀ sim : Sim,
      (∀ o ∈ offsets (-1) 4, sim.Map (y + o.2) (x + o.1) = res.2.Map (y + o.2) (x + o.1)) →
      (∀ x1 y1, inGrid c x1 y1 → isPlant c (sim.Map y1 x1) → x1 = x ∧ y1 = y) →
      ∃ s1, DoPowerScan c sim = some s1 ∧
        ∀ x1 y1, inGrid c x1 y1 → (powered c (s1.Map y1 x1) ↔ x1 = x ∧ y1 = y) := by
  unfold TILE_COALBASE at hrail
  have hfit := hr.tiles_fit
  unfold LASTTILE at hfit
  rcases hres with rfl | rfl
  · exact building_lone_plant c h ht hr city x y TILE_COALBASE TILE_POWERPLANT
      TOOL_POWERPLANT_COST (by unfold TILE_COALBASE; omega) (by unfold TILE_COALBASE; omega)
      (by unfold TILE_POWERPLANT; omega) (by unfold TILE_POWERPLANT; omega) (Or.inl hp.symm) hok
  · exact building_lone_plant c h ht hr city x y TILE_NUCLEARBASE TILE_NUCLEAR
      TOOL_NUCLEAR_COST (by unfold TILE_NUCLEARBASE; omega) (by unfold TILE_NUCLEARBASE; omega)
      (by unfold TILE_NUCLEAR; omega) (by unfold TILE_NUCLEAR; omega) (Or.inr hn.symm) hok

theorem plant_feeds_nothing_witness :
    (DoPowerPlant classic (cityOf blankGrid 5000) 5 5).1 = TOOLRESULT_OK
    ∧ (∀ o ∈ offsets (-1) 4, o ≠ (0, 0) → ¬ condOrZone classic
        ((DoPowerPlant classic (cityOf blankGrid 5000) 5 5).2.Map (5 + o.2) (5 + o.1)))
    ∧ ∀ sim : Sim,
      (∀ o ∈ offsets (-1) 4, sim.Map (5 + o.2) (5 + o.1)
        = (DoPowerPlant classic (cityOf blankGrid 5000) 5 5).2.Map (5 + o.2) (5 + o.1)) →
      (∀ x1 y1, inGrid classic x1 y1 → isPlant classic (sim.Map y1 x1) → x1 = 5 ∧ y1 = 5) →
      ∃ s1, DoPowerScan classic sim = some s1 ∧
        ∀ x1 y1, inGrid classic x1 y1 → (powered classic (s1.Map y1 x1) ↔ x1 = 5 ∧ y1 = 5) :=
  ⟨by decide, plant_feeds_nothing classic classic_wf classic_tiles_wf classic_tools_wf rfl rfl
    (by decide) (cityOf blankGrid 5000) 5 5 _ (Or.inl rfl) (by decide)⟩

/-! ## The scan is complete when nothing is cut off or dropped -/

/-- The probing loop that counts one passing test hands on its direction, and
no other test passes. -/
theorem probePure_one (t : Nat → Bool) (a : Nat) (h1 : (probePure t 4 0 0 a).1 = 1)
    (e : Nat) (he : e < 4) (hte : t e = true) : e = (probePure t 4 0 0 a).2 := by
  revert h1
  cases h0 : t 0 <;> cases h1' : t 1 <;> cases h2 : t 2 <;> cases h3 : t 3 <;>
    simp [probePure, h0, h1', h2, h3] <;> interval_cases e <;> simp_all

theorem probeOf_one (c : Consts) (a : Nat) (v : Sim) (hin : inGrid c v.SMapX v.SMapY)
    (h1 : (probeOf c a v).1 = 1) (e : Nat) (he : e < 4)
    (hc : candidate c v.Map v.SMapX v.SMapY e = true) : e = (probeOf c a v).2 := by
  apply probePure_one (fun d => (TestForCond c d v).2) a h1 e he
  show (TestForCond c e v).2 = true
  rw [TestForCond_inGrid c e v he hin]
  exact hc

theorem probeOf_none (c : Consts) (a : Nat) (v : Sim) (hin : inGrid c v.SMapX v.SMapY)
    (h0 : (probeOf c a v).1 = 0) (e : Nat) (he : e < 4) :
    candidate c v.Map v.SMapX v.SMapY e = false := by
  have hn := probePure_none (fun d => (TestForCond c d v).2) a h0
  rw [← TestForCond_inGrid c e v he hin]
  interval_cases e
  · exact hn.2.1
  · exact hn.2.2.1
  · exact hn.2.2.2.1
  · exact hn.2.2.2.2

theorem adjacent_exists_dir (x y x1 y1 : Int) (h : adjacent x y x1 y1) :
    ∃ d, d < 4 ∧ dirX d x = x1 ∧ dirY d y = y1 := by
  unfold adjacent at h
  rcases h with ⟨rfl, rfl | rfl⟩ | ⟨rfl, rfl | rfl⟩
  · exact ⟨0, by decide, rfl, rfl⟩
  · exact ⟨2, by decide, rfl, rfl⟩
  · exact ⟨3, by decide, rfl, rfl⟩
  · exact ⟨1, by decide, rfl, rfl⟩

theorem onStack_visit (c : Consts) (a : Nat) (t : Sim) (x y : Int) :
    onStack (visit c a t) x y ↔ onStack t x y := by
  have hvc := visit_counters c a t
  unfold onStack
  rw [hvc.2.2.1, hvc.2.2.2.1, hvc.2.2.2.2]

theorem onStack_push (v : Sim) (x y : Int) (hlt : v.PowerStackNum < PWRSTKSIZE - 2)
    (h : onStack v x y ∨ (x = v.SMapX ∧ y = v.SMapY)) : onStack (PushPowerStack v) x y := by
  unfold onStack PushPowerStack
  rw [if_pos hlt]
  dsimp only
  rcases h with ⟨i, h1, h2, h3, h4⟩ | ⟨rfl, rfl⟩
  · refine ⟨i, h1, by omega, ?_, ?_⟩
    · rw [Function.update_noteq (by omega)]; exact h3
    · rw [Function.update_noteq (by omega)]; exact h4
  · exact ⟨v.PowerStackNum + 1, by omega, le_refl _, by simp, by simp⟩

theorem onStack_pull (v : Sim) (x y : Int) (hs : 0 < v.PowerStackNum) (h : onStack v x y) :
    onStack (PullPowerStack v) x y
      ∨ (x = (PullPowerStack v).SMapX ∧ y = (PullPowerStack v).SMapY) := by
  unfold onStack PullPowerStack
  rw [if_pos hs]
  dsimp only
  obtain ⟨i, h1, h2, h3, h4⟩ := h
  by_cases hi : i = v.PowerStackNum
  · subst hi
    exact Or.inr ⟨h3.symm, h4.symm⟩
  · exact Or.inl ⟨i, h1, by omega, h3, h4⟩

/-- A cell that has just been powered is no candidate. -/
theorem candidate_powered (c : Consts) (m : Grid) (x y : Int) (d : Nat)
    (hp : powered c (m (dirY d y) (dirX d x))) : candidate c m x y d = false := by
  rw [← Bool.not_eq_true]
  intro hc
  unfold candidate at hc
  simp only [Bool.and_eq_true, decide_eq_true_eq] at hc
  exact ((condTile_iff c _).1 hc.2).2.2.2 hp

/-- What the visit establishes from the invariants: a powered cell of the grid
that still has a candidate is on the stack or is the cell of the visit, and
every plant cell of the grid is powered or on the stack. -/
theorem Sweeping_visit (c : Consts) (h : c.WF) (a : Nat) (t : Sim) (hg : Good c a t)
    (hs : Sweeping c a t) :
    (∀ x y d, inGrid c x y → powered c ((visit c a t).Map y x) → d < 4 →
      candidate c (visit c a t).Map x y d = true →
      onStack (visit c a t) x y ∨ (x = (visit c a t).SMapX ∧ y = (visit c a t).SMapY))
    ∧ (∀ x y, inGrid c x y → isPlant c ((visit c a t).Map y x) →
      powered c ((visit c a t).Map y x) ∨ onStack (visit c a t) x y) := by
  have hvp := visit_pos c a t hg.dir hg.pos hg.target.1
  constructor
  · intro x y d hin hp hd hc
    by_cases hxy : x = (visit c a t).SMapX ∧ y = (visit c a t).SMapY
    · exact Or.inr hxy
    · left
      rw [powered_visit_elsewhere c a t x y hxy] at hp
      by_cases hY : dirX d x = (visit c a t).SMapX ∧ dirY d y = (visit c a t).SMapY
      · have hpow := powered_visit_here c h a t
        rw [← hY.1, ← hY.2] at hpow
        rw [candidate_powered c _ x y d hpow] at hc
        exact absurd hc (by decide)
      · have hc2 : candidate c t.Map x y d = true := by
          unfold candidate at hc ⊢
          rw [powered_visit_elsewhere c a t _ _ hY] at hc
          exact hc
        rw [onStack_visit]
        rcases hs.closed x y d hin hp hd hc2 with h1 | h1 | h1
        · exact h1
        · rw [← hvp.1, ← hvp.2] at h1; exact absurd h1 hxy
        · rw [← hvp.1, ← hvp.2] at h1; exact absurd h1 hY
  · intro x y hin hpl
    rw [isPlant_visit c h] at hpl
    rw [onStack_visit]
    rcases hs.plants x y hin hpl with h1 | h1 | h1
    · exact Or.inl (powered_visit c h a t x y h1)
    · exact Or.inr h1
    · left
      have hpow := powered_visit_here c h a t
      rw [hvp.1, hvp.2, ← h1.1, ← h1.2] at hpow
      exact hpow

/-- The invariant is kept by a walk step that goes on and drops no push. -/
theorem Sweeping_next (c : Consts) (h : c.WF) (a : Nat) (t : Sim) (a1 : Nat) (t1 : Sim)
    (hg : Good c a t) (hs : Sweeping c a t)
    (hdrop : 2 ≤ (probeOf c a (visit c a t)).1 → (visit c a t).PowerStackNum < PWRSTKSIZE - 2)
    (hw : walkStep c a t = Outcome.next a1 t1) : Sweeping c a1 t1 := by
  have hv := Visited_of_Good c h a t hg
  obtain ⟨hclosed, hplants⟩ := Sweeping_visit c h a t hg hs
  rcases walkStep_cases c a t with ⟨_, hw2⟩ | ⟨hle, ⟨hk, hw2⟩ | ⟨hk, hw2⟩ | ⟨hk, hst, hw2⟩ | ⟨_, _, hw2⟩⟩
  · rw [hw2] at hw; cases hw
  · rw [hw2] at hw
    injection hw with e1 e2
    subst e1 e2
    have hlt := hdrop hk
    have hpc := PushPowerStack_counters (visit c a t)
    constructor
    · intro x y d hin hp hd hc
      rw [hpc.2.2.1] at hp hc
      exact Or.inl (onStack_push _ x y hlt (hclosed x y d hin hp hd hc))
    · intro x y hin hpl
      rw [hpc.2.2.1] at hpl ⊢
      rcases hplants x y hin hpl with h1 | h1
      · exact Or.inl h1
      · exact Or.inr (Or.inl (onStack_push _ x y hlt (Or.inl h1)))
  · rw [hw2] at hw
    injection hw with e1 e2
    subst e1 e2
    constructor
    · intro x y d hin hp hd hc
      rcases hclosed x y d hin hp hd hc with h1 | h1
      · exact Or.inl h1
      · right; right
        obtain ⟨rfl, rfl⟩ := h1
        have := probeOf_one c a _ hv.pos hk d hd hc
        rw [← this]
        exact ⟨rfl, rfl⟩
    · intro x y hin hpl
      rcases hplants x y hin hpl with h1 | h1
      · exact Or.inl h1
      · exact Or.inr (Or.inl h1)
  · rw [hw2] at hw
    injection hw with e1 e2
    subst e1 e2
    have hpc := PullPowerStack_counters (visit c a t)
    constructor
    · intro x y d hin hp hd hc
      rw [hpc.2.2.1] at hp hc
      rw [dirX_four, dirY_four]
      rcases hclosed x y d hin hp hd hc with h1 | h1
      · rcases onStack_pull _ x y hst h1 with h2 | h2
        · exact Or.inl h2
        · exact Or.inr (Or.inl h2)
      · obtain ⟨rfl, rfl⟩ := h1
        rw [probeOf_none c a _ hv.pos hk d hd] at hc
        exact absurd hc (by decide)
    · intro x y hin hpl
      rw [hpc.2.2.1] at hpl ⊢
      rw [dirX_four, dirY_four]
      rcases hplants x y hin hpl with h1 | h1
      · exact Or.inl h1
      · rcases onStack_pull _ x y hst h1 with h2 | h2
        · exact Or.inr (Or.inl h2)
        · exact Or.inr (Or.inr h2)
  · rw [hw2] at hw; cases hw

/-- The invariant holds at the first walk step when every plant was queued. -/
theorem Sweeping_start (c : Consts) (h : c.WF) (s : Sim) (hpl : plantCells c s.Map ≠ [])
    (hq : (plantCells c s.Map).length ≤ PWRSTKSIZE - 2) : Sweeping c 4 (scanStart c s) := by
  have hf := scanStart_fields c h s
  have hF := FindPowerPlants_stack c (scanPrelude c s)
  rw [scanPrelude_plantCells c h] at hF
  obtain ⟨hnum, -, hent⟩ := hF
  have hlen : 0 < (plantCells c s.Map).length := List.length_pos.2 hpl
  have hnum2 : (FindPowerPlants c (scanPrelude c s)).PowerStackNum
      = (plantCells c s.Map).length := by rw [hnum]; omega
  have hpos : 0 < (FindPowerPlants c (scanPrelude c s)).PowerStackNum := by omega
  constructor
  · intro x y d hin hp
    rw [hf.1, scanPrelude_eq c h] at hp
    dsimp only at hp
    rw [if_pos hin] at hp
    exact absurd hp (not_powered_clearBits c h _)
  · intro x y hin hplant
    rw [hf.1, scanPrelude_eq c h] at hplant
    dsimp only at hplant
    rw [if_pos hin, isPlant_clearBits c h] at hplant
    have hm : (x, y) ∈ plantCells c s.Map := (mem_plantCells c s.Map x y).2 ⟨hin, hplant⟩
    obtain ⟨j, hj⟩ := List.mem_iff_get.1 hm
    have hj1 : (j : Nat) + 1 ≤ (FindPowerPlants c (scanPrelude c s)).PowerStackNum := by
      have := j.2; omega
    obtain ⟨hlt, he⟩ := hent (j + 1) (by omega) hj1
    have he2 : ((FindPowerPlants c (scanPrelude c s)).PowerStackX (j + 1),
        (FindPowerPlants c (scanPrelude c s)).PowerStackY (j + 1)) = (x, y) := by
      rw [he, ← hj]
      rfl
    have hx : (FindPowerPlants c (scanPrelude c s)).PowerStackX (j + 1) = x :=
      congrArg Prod.fst he2
    have hy : (FindPowerPlants c (scanPrelude c s)).PowerStackY (j + 1) = y :=
      congrArg Prod.snd he2
    right
    have := onStack_pull (FindPowerPlants c (scanPrelude c s)) x y hpos
      ⟨j + 1, by omega, hj1, hx, hy⟩
    rw [dirX_four, dirY_four]
    exact this

/-- The scan never changes a bit of a cell outside the powered flag; the flags
and the type code are those of the map scanned. -/
theorem same_flags (c : Consts) (h : c.WF) (m m1 : Grid)
    (hmask : ∀ k, k < 65536 → c.POWERBIT &&& k = 0 → ∀ x y, m1 y x &&& k = m y x &&& k)
    (x y : Int) :
    (isPlant c (m1 y x) ↔ isPlant c (m y x)) ∧ (conducts c (m1 y x) ↔ conducts c (m y x)) := by
  have hz := hmask c.ZONEBIT h.zone_lt h.power_zone x y
  have hc := hmask c.CONDBIT h.cond_lt h.power_cond x y
  have hl := hmask c.LOMASK (lomask_lt c h) h.power_lo x y
  unfold conducts condOrZone plantCode isPlant isCoal isNuclear zoned conductive typeCode
  rw [hz, hc, hl]
  exact ⟨Iff.rfl, Iff.rfl⟩

/-- Claim C34, as the code has it. When supply suffices the scan is complete.
If every plant is queued (there are at most `PWRSTKSIZE - 2` of them), no walk
step that the scan comes to is cut off by the capacity and none drops its
push, then `DoPowerScan` returns, every plant cell of the grid (zone flag with
type code `POWERPLANT` or `NUCLEAR`) is powered, and so is every cell of the
grid that carries the conductive or the zone flag with a type code other than
the two plant codes and is joined to a plant cell by a path of 4-adjacent
cells of that kind. -/
theorem DoPowerScan_complete (c : Consts) (h : c.WF) (s : Sim)
    (hq : (plantCells c s.Map).length ≤ PWRSTKSIZE - 2)
    (hcut : ∀ a t, Reach c (scanStart c s) a t → t.NumPower + 1 ≤ t.MaxPower)
    (hdrop : ∀ a t, Reach c (scanStart c s) a t → 2 ≤ (probeOf c a (visit c a t)).1 →
      (visit c a t).PowerStackNum < PWRSTKSIZE - 2) :
    ∃ s1, DoPowerScan c s = some s1
      ∧ (∀ x y, inGrid c x y → isPlant c (s.Map y x) → powered c (s1.Map y x))
      ∧ (∀ x y, Wired c s.Map x y → powered c (s1.Map y x)) := by
  have hQ : ∃ s1, DoPowerScan c s = some s1 ∧
      ((∀ x y d, inGrid c x y → powered c (s1.Map y x) → d < 4 →
          candidate c s1.Map x y d = false)
        ∧ (∀ x y, inGrid c x y → isPlant c (s1.Map y x) → powered c (s1.Map y x))) := by
    apply DoPowerScan_inv_good c h s (fun a t => Reach c (scanStart c s) a t ∧ Sweeping c a t)
    · intro hno
      rw [noPlantCounts_eq, scanPrelude_eq c h]
      dsimp only
      constructor
      · intro x y d hin hp
        rw [if_pos hin] at hp
        exact absurd hp (not_powered_clearBits c h _)
      · intro x y hin hpl
        rw [if_pos hin, isPlant_clearBits c h] at hpl
        have := hno x y hin
        unfold isPlant at hpl
        tauto
    · intro hpl
      exact ⟨Reach.start, Sweeping_start c h s hpl hq⟩
    · intro a t a1 t1 hg ⟨hr, hs⟩ hw
      exact ⟨Reach.step a t a1 t1 hr hw, Sweeping_next c h a t a1 t1 hg hs (hdrop a t hr) hw⟩
    · intro a t t1 hg ⟨hr, hs⟩ hw
      have hv := Visited_of_Good c h a t hg
      obtain ⟨hclosed, hplants⟩ := Sweeping_visit c h a t hg hs
      have hempty : (visit c a t).PowerStackNum = 0 → ∀ x y, ¬ onStack (visit c a t) x y := by
        intro h0 x y ⟨i, h1, h2, _⟩
        omega
      rcases walkStep_finished_cases c a t t1 hw with ⟨hlt, _⟩ | ⟨_, e, hk, hst⟩
      · have := hcut a t hr
        omega
      · rw [e, zoneCounts_eq]
        dsimp only
        constructor
        · intro x y d hin hp hd
          rw [← Bool.not_eq_true]
          intro hc
          rcases hclosed x y d hin hp hd hc with h1 | h1
          · exact hempty hst x y h1
          · obtain ⟨rfl, rfl⟩ := h1
            rw [probeOf_none c a _ hv.pos hk d hd] at hc
            exact absurd hc (by decide)
        · intro x y hin hpl
          rcases hplants x y hin hpl with h1 | h1
          · exact h1
          · exact absurd h1 (hempty hst x y)
  obtain ⟨s1, hs1, hclosed, hplants⟩ := hQ
  obtain ⟨s2, hs2, hmask⟩ := DoPowerScan_keeps_mask c h s
  have e12 : s2 = s1 := by
    rw [hs1] at hs2
    injection hs2 with e
    exact e.symm
  subst e12
  have hsame := same_flags c h s.Map s2.Map hmask
  have key : ∀ x y x1 y1, inGrid c x y → powered c (s2.Map y x) → adjacent x y x1 y1 →
      inGrid c x1 y1 → conducts c (s.Map y1 x1) → powered c (s2.Map y1 x1) := by
    intro x y x1 y1 hin hp hadj hin1 hcond
    by_contra hnp
    obtain ⟨d, hd, rfl, rfl⟩ := adjacent_exists_dir x y x1 y1 hadj
    have hc2 := (hsame (dirX d x) (dirY d y)).2.2 hcond
    have hct : condTile c (s2.Map (dirY d y) (dirX d x)) = true := by
      rw [condTile_iff]
      unfold conducts plantCode at hc2
      exact ⟨hc2.1, fun e => hc2.2 (Or.inr e), fun e => hc2.2 (Or.inl e), hnp⟩
    have := hclosed x y d hin hp hd
    unfold candidate at this
    rw [hct] at this
    simp only [Bool.and_true, decide_eq_false_iff_not] at this
    exact this hin1
  have hpl2 : ∀ x y, inGrid c x y → isPlant c (s.Map y x) → powered c (s2.Map y x) :=
    fun x y hin hpl => hplants x y hin ((hsame x y).1.2 hpl)
  refine ⟨s2, hs1, hpl2, ?_⟩
  intro x y hw
  have both : inGrid c x y ∧ powered c (s2.Map y x) := by
    induction hw with
    | first px py x y hinp hpl hadj hin hcond =>
      exact ⟨hin, key px py x y hinp (hpl2 px py hinp hpl) hadj hin hcond⟩
    | step x y x1 y1 _ hadj hin1 hcond ih =>
      exact ⟨hin1, key x y x1 y1 ih.1 ih.2 hadj hin1 hcond⟩
  exact both.2

/-- The scan of the scenario grid comes to two walk steps: the first on the
plant, the second heading east from it. -/
theorem scenario_reach (a : Nat) (t : Sim)
    (hr : Reach (classicOn 2 2) (scanStart (classicOn 2 2) (simOf scenarioGrid)) a t) :
    (a = 4 ∧ t = scanStart (classicOn 2 2) (simOf scenarioGrid))
    ∨ (a = 1 ∧ t = visit (classicOn 2 2) 4 (scanStart (classicOn 2 2) (simOf scenarioGrid))) := by
  have p1 : probeOf (classicOn 2 2) 4
      (visit (classicOn 2 2) 4 (scanStart (classicOn 2 2) (simOf scenarioGrid))) = (1, 1) := by
    decide
  have p2 : probeOf (classicOn 2 2) 1 (visit (classicOn 2 2) 1
      (visit (classicOn 2 2) 4 (scanStart (classicOn 2 2) (simOf scenarioGrid)))) = (0, 1) := by
    decide
  have n2 : (visit (classicOn 2 2) 1 (visit (classicOn 2 2) 4
      (scanStart (classicOn 2 2) (simOf scenarioGrid)))).PowerStackNum = 0 := by decide
  induction hr with
  | start => exact Or.inl ⟨rfl, rfl⟩
  | step a t a1 t1 _ hw ih =>
    rcases ih with ⟨rfl, rfl⟩ | ⟨rfl, rfl⟩
    · rcases walkStep_cases (classicOn 2 2) 4 (scanStart (classicOn 2 2) (simOf scenarioGrid))
        with ⟨_, hw2⟩ | ⟨_, ⟨hk, _⟩ | ⟨_, hw2⟩ | ⟨hk, _, _⟩ | ⟨hk, _, _⟩⟩
      · rw [hw2] at hw; cases hw
      · rw [p1] at hk; exact absurd hk (by decide)
      · rw [hw2, p1] at hw
        injection hw with e1 e2
        exact Or.inr ⟨e1.symm, e2.symm⟩
      · rw [p1] at hk; exact absurd hk (by decide)
      · rw [p1] at hk; exact absurd hk (by decide)
    · rcases walkStep_cases (classicOn 2 2) 1
        (visit (classicOn 2 2) 4 (scanStart (classicOn 2 2) (simOf scenarioGrid)))
        with ⟨_, hw2⟩ | ⟨_, ⟨hk, _⟩ | ⟨hk, _⟩ | ⟨_, hs, _⟩ | ⟨_, _, hw2⟩⟩
      · rw [hw2] at hw; cases hw
      · rw [p2] at hk; exact absurd hk (by decide)
      · rw [p2] at hk; exact absurd hk (by decide)
      · rw [n2] at hs; exact absurd hs (by decide)
      · rw [hw2] at hw; cases hw

/-- The scan of the scenario grid is not cut off and drops no push. -/
theorem scenario_clean :
    (∀ a t, Reach (classicOn 2 2) (scanStart (classicOn 2 2) (simOf scenarioGrid)) a t →
      t.NumPower + 1 ≤ t.MaxPower)
    ∧ (∀ a t, Reach (classicOn 2 2) (scanStart (classicOn 2 2) (simOf scenarioGrid)) a t →
      2 ≤ (probeOf (classicOn 2 2) a (visit (classicOn 2 2) a t)).1 →
      (visit (classicOn 2 2) a t).PowerStackNum < PWRSTKSIZE - 2) := by
  constructor
  · intro a t hr
    rcases scenario_reach a t hr with ⟨rfl, rfl⟩ | ⟨rfl, rfl⟩
    · decide
    · decide
  · intro a t hr
    rcases scenario_reach a t hr with ⟨rfl, rfl⟩ | ⟨rfl, rfl⟩
    · decide
    · decide

theorem DoPowerScan_complete_witness :
    (classicOn 2 2).WF
    ∧ (plantCells (classicOn 2 2) (simOf scenarioGrid).Map).length ≤ PWRSTKSIZE - 2
    ∧ Wired (classicOn 2 2) (simOf scenarioGrid).Map 1 0
    ∧ ∃ s1, DoPowerScan (classicOn 2 2) (simOf scenarioGrid) = some s1
      ∧ (∀ x y, inGrid (classicOn 2 2) x y → isPlant (classicOn 2 2) ((simOf scenarioGrid).Map y x) →
          powered (classicOn 2 2) (s1.Map y x))
      ∧ (∀ x y, Wired (classicOn 2 2) (simOf scenarioGrid).Map x y →
          powered (classicOn 2 2) (s1.Map y x)) :=
  ⟨classicOn_wf 2 2 (by decide) (by decide) (by decide), by decide,
    Wired.first 0 0 1 0 (by decide) (by decide) (Or.inr ⟨rfl, Or.inr rfl⟩) (by decide)
      ⟨by unfold condOrZone; decide, by unfold plantCode; decide⟩,
    DoPowerScan_complete (classicOn 2 2) (classicOn_wf 2 2 (by decide) (by decide) (by decide))
      (simOf scenarioGrid) (by decide) scenario_clean.1 scenario_clean.2⟩

/-- The scan of `plantCodeGrid` comes to one walk step, on the plant. -/
theorem plantCode_reach (a : Nat) (t : Sim)
    (hr : Reach (classicOn 2 2) (scanStart (classicOn 2 2) (simOf plantCodeGrid)) a t) :
    a = 4 ∧ t = scanStart (classicOn 2 2) (simOf plantCodeGrid) := by
  have p1 : probeOf (classicOn 2 2) 4
      (visit (classicOn 2 2) 4 (scanStart (classicOn 2 2) (simOf plantCodeGrid))) = (0, 4) := by
    decide
  have n1 : (visit (classicOn 2 2) 4
      (scanStart (classicOn 2 2) (simOf plantCodeGrid))).PowerStackNum = 0 := by decide
  induction hr with
  | start => exact ⟨rfl, rfl⟩
  | step a t a1 t1 _ hw ih =>
    obtain ⟨rfl, rfl⟩ := ih
    rcases walkStep_cases (classicOn 2 2) 4 (scanStart (classicOn 2 2) (simOf plantCodeGrid))
      with ⟨_, hw2⟩ | ⟨_, ⟨hk, _⟩ | ⟨hk, _⟩ | ⟨_, hs, _⟩ | ⟨_, _, hw2⟩⟩
    · rw [hw2] at hw; cases hw
    · rw [p1] at hk; exact absurd hk (by decide)
    · rw [p1] at hk; exact absurd hk (by decide)
    · rw [n1] at hs; exact absurd hs (by decide)
    · rw [hw2] at hw; cases hw

/-- C34 as stated fails. On the 2 x 2 world of `plantCodeGrid` the one plant
is queued, the scan comes to a single walk step, which is not cut off and
pushes nothing, and it finishes with the stack empty; the cell (1,0) is next
to the plant cell (0,0), carries the conductive flag and is no plant cell, for
it has no zone flag; yet the scan leaves it unpowered, because its type code
is the plant code `POWERPLANT`. -/
theorem DoPowerScan_skips_plant_code :
    (plantCells (classicOn 2 2) (simOf plantCodeGrid).Map).length ≤ PWRSTKSIZE - 2
    ∧ (∀ a t, Reach (classicOn 2 2) (scanStart (classicOn 2 2) (simOf plantCodeGrid)) a t →
      t.NumPower + 1 ≤ t.MaxPower)
    ∧ (∀ a t, Reach (classicOn 2 2) (scanStart (classicOn 2 2) (simOf plantCodeGrid)) a t →
      2 ≤ (probeOf (classicOn 2 2) a (visit (classicOn 2 2) a t)).1 →
      (visit (classicOn 2 2) a t).PowerStackNum < PWRSTKSIZE - 2)
    ∧ inGrid (classicOn 2 2) 0 0 ∧ isPlant (classicOn 2 2) ((simOf plantCodeGrid).Map 0 0)
    ∧ adjacent 0 0 1 0 ∧ inGrid (classicOn 2 2) 1 0
    ∧ conductive (classicOn 2 2) ((simOf plantCodeGrid).Map 0 1)
    ∧ ¬ isPlant (classicOn 2 2) ((simOf plantCodeGrid).Map 0 1)
    ∧ ∃ s1, DoPowerScan (classicOn 2 2) (simOf plantCodeGrid) = some s1
      ∧ s1.PowerStackNum = 0 ∧ s1.NumPower ≤ s1.MaxPower
      ∧ powered (classicOn 2 2) (s1.Map 0 0)
      ∧ ¬ powered (classicOn 2 2) (s1.Map 0 1) := by
  have hwf := classicOn_wf 2 2 (by decide) (by decide) (by decide)
  refine ⟨by decide, ?_, ?_, by decide, by decide, Or.inr ⟨rfl, Or.inr rfl⟩, by decide,
    by decide, by decide, ?_⟩
  · intro a t hr
    obtain ⟨rfl, rfl⟩ := plantCode_reach a t hr
    decide
  · intro a t hr
    obtain ⟨rfl, rfl⟩ := plantCode_reach a t hr
    decide
  · have p1 : probeOf (classicOn 2 2) 4
        (visit (classicOn 2 2) 4 (scanStart (classicOn 2 2) (simOf plantCodeGrid))) = (0, 4) := by
      decide
    have hscan : DoPowerScan (classicOn 2 2) (simOf plantCodeGrid)
        = some (zoneCounts (classicOn 2 2)
            (visit (classicOn 2 2) 4 (scanStart (classicOn 2 2) (simOf plantCodeGrid)))) := by
      rcases DoPowerScan_cases (classicOn 2 2) hwf (simOf plantCodeGrid) with ⟨hno, _⟩ | ⟨_, hd⟩
      · exact absurd (show isCoal (classicOn 2 2) ((simOf plantCodeGrid).Map 0 0) by decide)
          (hno 0 0 (by decide)).1
      · rw [hd]
        unfold scanLoop
        rcases walkStep_cases (classicOn 2 2) 4 (scanStart (classicOn 2 2) (simOf plantCodeGrid))
          with ⟨hlt, _⟩ | ⟨_, ⟨hk, _⟩ | ⟨hk, _⟩ | ⟨_, hs, _⟩ | ⟨_, _, hw2⟩⟩
        · exact absurd hlt (by decide)
        · rw [p1] at hk; exact absurd hk (by decide)
        · rw [p1] at hk; exact absurd hk (by decide)
        · exact absurd hs (by decide)
        · rw [hw2]
    refine ⟨_, hscan, ?_, ?_, ?_, ?_⟩
    · rw [zoneCounts_eq]; decide
    · rw [zoneCounts_eq]; decide
    · rw [zoneCounts_eq]; decide
    · rw [zoneCounts_eq]; decide

end Micropolis
